import Mathlib

/-!
# libvips: embed, reduceh, morph, interpolate, type, avgdxdy — a shallow embedding

Sources embedded here:

* `libvips/conversion/embed.c`  — `vips_embed_base_build`, `vips_embed_base_gen`,
  `vips_embed_base_find_edge`, `vips_embed_base_paint_edge`,
  `vips_embed_base_copy_pixel`, `vips_gravity_build`
* `libvips/resample/reduceh.cpp` — `vips_reduce_get_points`, `vips_reduceh_build`,
  the rectangle, positions and indices of `vips_reduceh_gen`, and the first three
  again with the rounding of binary64
* `libvips/resample/interpolate.c` — `vips_interpolate_bilinear_interpolate` with
  the macros `BILINEAR_INT` and `BILINEAR_INT_INNER`
* `libvips/morphology/morph.c` — `vips_morph_build`, `vips_morph_start`,
  `vips_dilate_gen`, `vips_erode_gen`, and for `HAVE_ORC`
  `vips_morph_compile_section` and `vips_morph_compile`
* `libvips/iofuncs/type.c` — `vips_area_new`, `vips_area_copy`, `vips_area_free`,
  `vips_area_unref`, `transform_g_string_array_int`,
  `transform_g_string_array_double`
* `libvips/mosaicing/im_avgdxdy.c` — `vips__avgdxdy`

Conventions.

* C `int` values are `Int`. The argument ranges declared by the classes
  (`x`, `y` in ±10^9, `width`, `height` in 1..10^9, image sizes far below 2^31)
  keep every sum and difference formed here inside 32 bits, so no wrap-around
  is modelled.
* C `/` and `%` on `int` are `Int.tdiv` and `Int.tmod` (truncation).
* C `|`, `&` and `~` on `int` are `Int.lor`, `Int.land` and `Int.lnot`, and a
  store into a byte keeps the value modulo 256.
* C `double` values are rationals (`ℚ`). Where a statement rests on whole
  numbers, on powers of two or on bounds with room to spare, the operations
  are those of the reals. The definitions named `..._binary64` round the
  result of every operation to the nearest binary64 value, ties to even, one
  operation at a time (no fused multiply-add, no extended precision).
* A pel (all bands of one pixel, `VIPS_IMAGE_SIZEOF_PEL` bytes) is moved as a
  unit.
-/

namespace Vips

/-! ## Rectangles -/

/-- A `VipsRect`: left, top, width, height. -/
structure VipsRect where
  left : Int
  top : Int
  width : Int
  height : Int
deriving DecidableEq, Repr

/-- The C accessor `VIPS_RECT_RIGHT`. -/
def VIPS_RECT_RIGHT (r : VipsRect) : Int := r.left + r.width

/-- The C accessor `VIPS_RECT_BOTTOM`. -/
def VIPS_RECT_BOTTOM (r : VipsRect) : Int := r.top + r.height

/-- Modelled from the spec: `vips_rect_isempty` (iofuncs/rect.c is not among
the sources embedded here). Spec 3: "`is_empty` (width≤0 or height≤0)". -/
def vips_rect_isempty (r : VipsRect) : Bool :=
  decide (r.width ≤ 0) || decide (r.height ≤ 0)

/-- Modelled from the spec: `vips_rect_intersectrect` (iofuncs/rect.c is not
among the sources embedded here). Spec 4.2: "result left/top = max of inputs, width/height =
max(0, min(right)-left) style computation ... never negative". -/
def vips_rect_intersectrect (r1 r2 : VipsRect) : VipsRect :=
  let left := max r1.left r2.left
  let top := max r1.top r2.top
  let right := min (VIPS_RECT_RIGHT r1) (VIPS_RECT_RIGHT r2)
  let bottom := min (VIPS_RECT_BOTTOM r1) (VIPS_RECT_BOTTOM r2)
  { left := left, top := top, width := max 0 (right - left), height := max 0 (bottom - top) }

/-- Modelled from the spec: `vips_rect_includesrect` (iofuncs/rect.c is not
among the sources embedded here). Spec 4.2: "`contains(outer, inner)`: true iff inner's four edges all
lie within outer's bounds". -/
def vips_rect_includesrect (r1 r2 : VipsRect) : Bool :=
  decide (r1.left ≤ r2.left) && decide (r1.top ≤ r2.top) &&
    decide (VIPS_RECT_RIGHT r2 ≤ VIPS_RECT_RIGHT r1) &&
    decide (VIPS_RECT_BOTTOM r2 ≤ VIPS_RECT_BOTTOM r1)

/-- Modelled from the spec: `vips_rect_marginadjust` (iofuncs/rect.c is not
among the sources embedded here). Spec 4.2: "`expand_margin(r, n)`: left-=n, top-=n, width+=2n,
height+=2n". -/
def vips_rect_marginadjust (r : VipsRect) (n : Int) : VipsRect :=
  { left := r.left - n, top := r.top - n, width := r.width + 2 * n, height := r.height + 2 * n }

/-- The pel at column `x`, row `y` lies in the rectangle. -/
def VipsRect.includespoint (r : VipsRect) (x y : Int) : Bool :=
  decide (r.left ≤ x) && decide (x < r.left + r.width) &&
    decide (r.top ≤ y) && decide (y < r.top + r.height)

/-- Number of pels of a rectangle with non-negative sides. -/
def VipsRect.area (r : VipsRect) : Int := r.width * r.height

/-! ## Images and regions -/

/-- One pel: the values of its bands. -/
abbrev VipsPel := List Int

/-- A `VipsImage`, reduced to the header fields used here and its pels.
`max_alpha` stands for `vips_interpretation_max_alpha(im->Type)`, a helper that
is not among the sources embedded here. -/
structure VipsImage where
  Xsize : Int
  Ysize : Int
  Bands : Nat
  max_alpha : Int
  pel : Int → Int → VipsPel

/-- A `VipsRegion`: the rectangle `valid` of an image and the pels held for
it; `none` marks a pel of the buffer that has not been written. -/
structure VipsRegion where
  valid : VipsRect
  pel : Int → Int → Option VipsPel

/-- Read through `VIPS_REGION_ADDR(reg, x, y)`: defined only inside `valid`. -/
def VipsRegion.get (reg : VipsRegion) (x y : Int) : Option VipsPel :=
  if reg.valid.includespoint x y then reg.pel x y else none

/-- Write through `VIPS_REGION_ADDR(reg, x, y)`: defined only inside `valid`. -/
def VipsRegion.set (reg : VipsRegion) (x y : Int) (v : VipsPel) : Option VipsRegion :=
  if reg.valid.includespoint x y then
    some { reg with pel := fun a b => if a = x ∧ b = y then some v else reg.pel a b }
  else none

/-- The rectangle of a whole image. -/
def VipsImage.rect (im : VipsImage) : VipsRect :=
  { left := 0, top := 0, width := im.Xsize, height := im.Ysize }

/-- Modelled from the spec: `vips_region_prepare` (iofuncs/region.c is not
among the sources embedded here). Spec 4.3: "ensures `region.valid ⊇ want` is
materialized with correct pixel data ... fails ... if `want` cannot be satisfied
due to it lying outside the owning image's extent ... never silently clips". -/
def vips_region_prepare (im : VipsImage) (want : VipsRect) : Option VipsRegion :=
  if vips_rect_includesrect im.rect want then
    some { valid := want,
           pel := fun a b => if want.includespoint a b then some (im.pel a b) else none }
  else none

/-- Modelled from the spec: `vips_region_region` (iofuncs/region.c is not among
the sources embedded here). Spec 4.3: "bind `dest`'s buffer to reference `src`'s
buffer for rectangle `area` at the corresponding position ... both regions must
already have `area` materialized". The pel at `(r.left, r.top)` of `dest` is the
pel at `(x, y)` of `src`. -/
def vips_region_region (src : VipsRegion) (r : VipsRect) (x y : Int) : Option VipsRegion :=
  if vips_rect_includesrect src.valid { left := x, top := y, width := r.width, height := r.height } then
    some { valid := r,
           pel := fun a b =>
             if r.includespoint a b then src.get (a - r.left + x) (b - r.top + y) else none }
  else none

/-- Modelled from the spec: `vips_region_prepare_to` (iofuncs/region.c is not
among the sources embedded here). Spec 4.4 step 2: "pull that overlap from the
source (translated) into the output region". Rectangle `r` of the image is
written into `dest` with its top-left pel at `(x, y)`. -/
def vips_region_prepare_to (im : VipsImage) (dest : VipsRegion) (r : VipsRect) (x y : Int) :
    Option VipsRegion :=
  let target : VipsRect := { left := x, top := y, width := r.width, height := r.height }
  if vips_rect_includesrect im.rect r && vips_rect_includesrect dest.valid target then
    some { dest with
           pel := fun a b =>
             if target.includespoint a b then some (im.pel (a - x + r.left) (b - y + r.top))
             else dest.pel a b }
  else none

/-- Modelled from the spec: `vips_region_paint_pel` (iofuncs/region.c is not
among the sources embedded here). Spec 4.3: "fill every pixel in `area` with a
full pixel value". The C function returns nothing, so it cannot refuse an area
that sticks out of `valid`: the pels of `area` inside `valid` are filled. -/
def vips_region_paint_pel (reg : VipsRegion) (r : VipsRect) (ink : VipsPel) : VipsRegion :=
  { reg with
    pel := fun a b =>
      if r.includespoint a b && reg.valid.includespoint a b then some ink else reg.pel a b }

/-- Modelled from the spec: `vips_region_paint` (iofuncs/region.c is not among
the sources embedded here). Spec 4.3: "fill every pixel in `area` ... with a
constant scalar": every band of every pel gets `value`. -/
def vips_region_paint (bands : Nat) (reg : VipsRegion) (r : VipsRect) (value : Int) : VipsRegion :=
  vips_region_paint_pel reg r (List.replicate bands value)

/-- The C loop `for (k = 0; k < n; k++) body(k)`, leaving at the first
failure. -/
def forLoop {σ : Type} (body : Nat → σ → Option σ) : Nat → σ → Option σ
  | 0, s => some s
  | n + 1, s => (forLoop body n s).bind (body n)

/-! ## embed.c -/

/-- The C enum `VipsExtend`. -/
inductive VipsExtend where
  | VIPS_EXTEND_BLACK
  | VIPS_EXTEND_COPY
  | VIPS_EXTEND_REPEAT
  | VIPS_EXTEND_MIRROR
  | VIPS_EXTEND_WHITE
  | VIPS_EXTEND_BACKGROUND
deriving DecidableEq, Repr

open VipsExtend

/-- The C struct `VipsEmbedBase`. `in_` is the field `in`; `extend_isset` and
`background_isset` are `vips_object_argument_isset` of the two optional
arguments; `background_ink` is what `vips__vector_to_ink` makes from
`background`, `none` being the NULL it returns when it fails (that helper is
not among the sources embedded here). -/
structure VipsEmbedBase where
  in_ : VipsImage
  extend : VipsExtend
  extend_isset : Bool
  background_isset : Bool
  background_ink : Option VipsPel
  width : Int
  height : Int
  ink : VipsPel
  rout : VipsRect
  rsub : VipsRect
  border : Nat → VipsRect
  x : Int
  y : Int

/-- A `VipsPel *` used by the copy code: the region it points into
(`out_region` or the input region `ir`) and the pel it addresses. -/
structure PelPtr where
  intoOut : Bool
  x : Int
  y : Int
deriving DecidableEq, Repr

/-- The two regions `vips_embed_base_gen` works on. -/
structure GenState where
  out_region : VipsRegion
  ir : VipsRegion

/-- Read the pel `k` pels to the right of `p`. -/
def GenState.load (s : GenState) (p : PelPtr) (k : Int) : Option VipsPel :=
  if p.intoOut then s.out_region.get (p.x + k) p.y else s.ir.get (p.x + k) p.y

/-- Write one pel of `out_region`. -/
def GenState.store (s : GenState) (x y : Int) (v : VipsPel) : Option GenState :=
  (s.out_region.set x y v).map fun o => { s with out_region := o }

/-- The C function `vips_embed_base_find_edge` (embed.c 119-157). -/
def vips_embed_base_find_edge (base : VipsEmbedBase) (r : VipsRect) (i : Nat) : VipsRect :=
  let out := base.border i
  let out := vips_rect_marginadjust out 1
  let out := vips_rect_intersectrect out base.rsub
  let out :=
    if i = 0 ∨ i = 2 then
      let extend : VipsRect := { r with top := 0, height := base.height }
      vips_rect_intersectrect out extend
    else out
  let out :=
    if i = 1 ∨ i = 3 then
      let extend : VipsRect := { r with left := 0, width := base.width }
      vips_rect_intersectrect out extend
    else out
  out

/-- The C function `vips_embed_base_copy_pixel` (embed.c 161-172): the pel at
`p` is written `n` times, starting at `(qx, qy)` of `out_region`. -/
def vips_embed_base_copy_pixel (qx qy : Int) (p : PelPtr) (n : Int) (s : GenState) :
    Option GenState :=
  forLoop (fun x s => (s.load p 0).bind fun v => s.store (qx + x) qy v) n.toNat s

/-- The libc call `memcpy(q, p, bs * n)` on pels: `n` pels starting at `p` are
copied to `(qx, qy)` of `out_region`. Overlapping source and destination are
undefined in C and fail here. -/
def memcpy_pels (qx qy : Int) (p : PelPtr) (n : Int) (s : GenState) : Option GenState :=
  if p.intoOut ∧ p.y = qy ∧ p.x < qx + n ∧ qx < p.x + n then none
  else forLoop (fun k s => (s.load p k).bind fun v => s.store (qx + k) qy v) n.toNat s

/-- The C function `vips_embed_base_paint_edge` (embed.c 178-225). -/
def vips_embed_base_paint_edge (i : Nat) (r : VipsRect) (p : PelPtr) (s : GenState) :
    Option GenState :=
  let todo := r
  let corner : Option (GenState × PelPtr × VipsRect) :=
    if i > 3 then
      (vips_embed_base_copy_pixel todo.left todo.top p todo.width s).map fun s1 =>
        (s1, { intoOut := true, x := todo.left, y := todo.top },
          { todo with top := todo.top + 1, height := todo.height - 1 })
    else some (s, p, todo)
  corner.bind fun (s, p, todo) =>
    if i = 1 ∨ i = 3 then
      forLoop
        (fun y s =>
          vips_embed_base_copy_pixel todo.left (todo.top + y) { p with y := p.y + y } todo.width s)
        todo.height.toNat s
    else
      forLoop (fun y s => memcpy_pels todo.left (todo.top + y) p todo.width s)
        todo.height.toNat s

/-- One turn of the `VIPS_EXTEND_COPY` loop of `vips_embed_base_gen`
(embed.c 306-340) for border `i`; `ovl` is the overlap computed before the
loop. -/
def vips_embed_base_gen_copy (base : VipsEmbedBase) (r ovl : VipsRect) (i : Nat) (s : GenState) :
    Option GenState :=
  let todo := vips_rect_intersectrect r (base.border i)
  if !vips_rect_isempty todo then
    let edge := vips_embed_base_find_edge base todo i
    if !vips_rect_isempty ovl then
      vips_embed_base_paint_edge i todo { intoOut := true, x := edge.left, y := edge.top } s
    else
      let edge := { edge with left := edge.left - base.x, top := edge.top - base.y }
      (vips_region_prepare base.in_ edge).bind fun ir =>
        vips_embed_base_paint_edge i todo { intoOut := false, x := edge.left, y := edge.top }
          { s with ir := ir }
  else some s

/-- The first part of `vips_embed_base_gen` after the pass-through test
(embed.c 257-271): paste the part of the input that shows in `r`. -/
def vips_embed_base_gen_paste (base : VipsEmbedBase) (r : VipsRect) (out_region : VipsRegion) :
    Option VipsRegion :=
  let ovl := vips_rect_intersectrect r base.rsub
  if !vips_rect_isempty ovl then
    let ovl := { ovl with left := ovl.left - base.x, top := ovl.top - base.y }
    vips_region_prepare_to base.in_ out_region ovl (ovl.left + base.x) (ovl.top + base.y)
  else some out_region

/-- The `switch (base->extend)` of `vips_embed_base_gen` (embed.c 273-346):
fill the borders of `out_region`. `VIPS_EXTEND_REPEAT` and `VIPS_EXTEND_MIRROR`
hit `g_assert_not_reached`. -/
def vips_embed_base_gen_borders (base : VipsEmbedBase) (r : VipsRect) (s : GenState) :
    Option GenState :=
  let ovl := vips_rect_intersectrect r base.rsub
  match base.extend with
  | VIPS_EXTEND_BLACK =>
    forLoop (fun i s => some { s with
      out_region := vips_region_paint base.in_.Bands s.out_region (base.border i) 0 }) 8 s
  | VIPS_EXTEND_WHITE =>
    forLoop (fun i s => some { s with
      out_region := vips_region_paint base.in_.Bands s.out_region (base.border i)
        base.in_.max_alpha }) 8 s
  | VIPS_EXTEND_BACKGROUND =>
    forLoop (fun i s => some { s with
      out_region := vips_region_paint_pel s.out_region (base.border i) base.ink }) 8 s
  | VIPS_EXTEND_COPY => forLoop (vips_embed_base_gen_copy base r ovl) 8 s
  | _ => none

/-- A region whose buffer has just been allocated for `r`. -/
def VipsRegion.fresh (r : VipsRect) : VipsRegion :=
  { valid := r, pel := fun _ _ => none }

/-- The C function `vips_embed_base_gen` (embed.c 227-349) for the output
tile `r`: `none` is the return value -1 (or an access outside a region),
`some` the filled `out_region`. -/
def vips_embed_base_gen (base : VipsEmbedBase) (r : VipsRect) : Option VipsRegion :=
  if vips_rect_includesrect base.rsub r then
    let need := { r with left := r.left - base.x, top := r.top - base.y }
    (vips_region_prepare base.in_ need).bind fun ir =>
      vips_region_region ir r need.left need.top
  else
    (vips_embed_base_gen_paste base r (VipsRegion.fresh r)).bind fun o =>
      (vips_embed_base_gen_borders base r
        { out_region := o, ir := VipsRegion.fresh { left := 0, top := 0, width := 0, height := 0 } }).map
        fun s => s.out_region

/-- Modelled from the spec: `vips_image_write` (iofuncs/image.c is not among
the sources embedded here). Spec 4.4: "short-circuit to a plain copy of the
source": the output image is the image written. -/
def vips_image_write (im : VipsImage) : VipsImage := im

/-- Modelled from the spec: `vips_replicate` (conversion/replicate.c is not
among the sources embedded here). Spec 4.4: "a tiled replication of the source
(replicate N×M copies ...)". -/
def vips_replicate (im : VipsImage) (across down : Int) : Except String VipsImage :=
  if across < 1 ∨ down < 1 then .error "bad replicate"
  else .ok { im with
    Xsize := im.Xsize * across
    Ysize := im.Ysize * down
    pel := fun a b => im.pel (a % im.Xsize) (b % im.Ysize) }

/-- Modelled from the spec: `vips_extract_area` (conversion/extract.c is not
among the sources embedded here). Spec 4.4: "extract the correctly
phase-shifted sub-rectangle"; the rectangle has to lie inside the image. -/
def vips_extract_area (im : VipsImage) (left top width height : Int) : Except String VipsImage :=
  if left < 0 ∨ top < 0 ∨ width ≤ 0 ∨ height ≤ 0 ∨
      left + width > im.Xsize ∨ top + height > im.Ysize then .error "bad extract area"
  else .ok { im with
    Xsize := width
    Ysize := height
    pel := fun a b => im.pel (a + left) (b + top) }

/-- The C enum `VipsDirection`. -/
inductive VipsDirection where
  | VIPS_DIRECTION_HORIZONTAL
  | VIPS_DIRECTION_VERTICAL
deriving DecidableEq, Repr

open VipsDirection

/-- Modelled from the spec: `vips_flip` (conversion/flip.c is not among the
sources embedded here). Spec 4.4: "flip horizontal ... flip vertical". -/
def vips_flip (im : VipsImage) : VipsDirection → VipsImage
  | VIPS_DIRECTION_HORIZONTAL => { im with pel := fun a b => im.pel (im.Xsize - 1 - a) b }
  | VIPS_DIRECTION_VERTICAL => { im with pel := fun a b => im.pel a (im.Ysize - 1 - b) }

/-- Modelled from the spec: `vips_join` (conversion/join.c is not among the
sources embedded here). Spec 4.4: "flip horizontal, join, flip vertical, join":
the second image is put to the right of, or below, the first. -/
def vips_join (im1 im2 : VipsImage) : VipsDirection → VipsImage
  | VIPS_DIRECTION_HORIZONTAL =>
    { im1 with
      Xsize := im1.Xsize + im2.Xsize
      Ysize := min im1.Ysize im2.Ysize
      pel := fun a b => if a < im1.Xsize then im1.pel a b else im2.pel (a - im1.Xsize) b }
  | VIPS_DIRECTION_VERTICAL =>
    { im1 with
      Xsize := min im1.Xsize im2.Xsize
      Ysize := im1.Ysize + im2.Ysize
      pel := fun a b => if b < im1.Ysize then im1.pel a b else im2.pel a (b - im1.Ysize) }

/-- Modelled from the spec: `vips_insert` (conversion/insert.c is not among
the sources embedded here). Spec 4.4: "overwrites the exact interior with the
true source pixels": `sub` is laid over `main` at `(x, y)`, the size stays that
of `main`. -/
def vips_insert (main sub : VipsImage) (x y : Int) : VipsImage :=
  { main with
    pel := fun a b =>
      if ({ left := x, top := y, width := sub.Xsize, height := sub.Ysize } : VipsRect).includespoint a b
      then sub.pel (a - x) (b - y) else main.pel a b }

/-- The clock arithmetic of `vips_embed_base_build` (embed.c 388-393 and
411-412): `x < 0 ? -x % period : period - x % period`. -/
def vips_embed_base_build_n (x period : Int) : Int :=
  if x < 0 then Int.tmod (-x) period else period - Int.tmod x period

/-- The assignments to `rout` and `rsub` in `vips_embed_base_build`
(embed.c 455-471); `Xsize`, `Ysize` are `conversion->out->Xsize`, `Ysize`. -/
def vips_embed_base_build_rsub (base : VipsEmbedBase) : VipsEmbedBase :=
  let Xsize := base.width
  let Ysize := base.height
  let rout : VipsRect := { left := 0, top := 0, width := Xsize, height := Ysize }
  let want : VipsRect :=
    { left := base.x, top := base.y, width := base.in_.Xsize, height := base.in_.Ysize }
  { base with rout := rout, rsub := vips_rect_intersectrect want rout }

/-- The assignments to `border[0]` ... `border[7]` in `vips_embed_base_build`
(embed.c 483-533). -/
def vips_embed_base_build_border (base : VipsEmbedBase) : VipsEmbedBase :=
  let Xsize := base.width
  let Ysize := base.height
  let rsub := base.rsub
  { base with
    border := fun i =>
      match i with
      | 0 => { left := rsub.left, top := 0, width := rsub.width, height := rsub.top }
      | 1 => { left := VIPS_RECT_RIGHT rsub, top := rsub.top,
               width := Xsize - VIPS_RECT_RIGHT rsub, height := rsub.height }
      | 2 => { left := rsub.left, top := VIPS_RECT_BOTTOM rsub,
               width := rsub.width, height := Ysize - VIPS_RECT_BOTTOM rsub }
      | 3 => { left := 0, top := rsub.top, width := rsub.left, height := rsub.height }
      | 4 => { left := 0, top := 0, width := rsub.left, height := rsub.top }
      | 5 => { left := VIPS_RECT_RIGHT rsub, top := 0,
               width := Xsize - VIPS_RECT_RIGHT rsub, height := rsub.top }
      | 6 => { left := VIPS_RECT_RIGHT rsub, top := VIPS_RECT_BOTTOM rsub,
               width := Xsize - VIPS_RECT_RIGHT rsub, height := Ysize - VIPS_RECT_BOTTOM rsub }
      | 7 => { left := 0, top := VIPS_RECT_BOTTOM rsub,
               width := rsub.left, height := Ysize - VIPS_RECT_BOTTOM rsub }
      | _ => base.border i }

/-- The assignments of `vips_embed_base_build` to `base->extend` and
`base->ink` (embed.c 372-381). The ink is what `vips__vector_to_ink` returns;
a NULL is the empty pel here, and the `return -1` that answers it is the test
`vips_embed_base_build_ink_null` below. -/
def vips_embed_base_build_ink (base : VipsEmbedBase) : VipsEmbedBase :=
  let base :=
    if !base.extend_isset && base.background_isset then
      { base with extend := VIPS_EXTEND_BACKGROUND }
    else base
  if base.extend = VIPS_EXTEND_BACKGROUND then { base with ink := base.background_ink.getD [] }
  else base

/-- The test of embed.c 376-381: the policy is background and
`vips__vector_to_ink` has returned NULL, so that the build returns -1. -/
def vips_embed_base_build_ink_null (base : VipsEmbedBase) : Bool :=
  decide ((vips_embed_base_build_ink base).extend = VIPS_EXTEND_BACKGROUND) &&
    base.background_ink.isNone

/-- What `vips_embed_base_build` leaves in `conversion->out` when it returns 0:
an image handed to `vips_image_write`, or a call of `vips_image_generate` with
`vips_embed_base_gen` on the finished `base`, the output being `Xsize` by
`Ysize`. -/
inductive VipsEmbedOut where
  | write (im : VipsImage)
  | generate (base : VipsEmbedBase) (Xsize Ysize : Int)

/-- The C function `vips_embed_base_build` (embed.c 351-547); `.error` is the
-1 it returns, with the message given to `vips_error`, and where
`vips__vector_to_ink` fails (embed.c 376-381) the message is the name of that
helper. The parent class build, `vips_image_pipelinev` and
`vips_image_generate` are not among the sources embedded here: the model
follows the path on which they return 0. -/
def vips_embed_base_build (base : VipsEmbedBase) : Except String VipsEmbedOut :=
  if base.x = 0 ∧ base.y = 0 ∧ base.width = base.in_.Xsize ∧ base.height = base.in_.Ysize then
    .ok (.write (vips_image_write base.in_))
  else if vips_embed_base_build_ink_null base then .error "vips__vector_to_ink"
  else
    let base := vips_embed_base_build_ink base
    match base.extend with
    | VIPS_EXTEND_REPEAT =>
      let nx := vips_embed_base_build_n base.x base.in_.Xsize
      let ny := vips_embed_base_build_n base.y base.in_.Ysize
      (vips_replicate base.in_ (Int.tdiv base.width base.in_.Xsize + 2)
          (Int.tdiv base.height base.in_.Ysize + 2)).bind fun t0 =>
        (vips_extract_area t0 nx ny base.width base.height).bind fun t1 =>
          .ok (.write (vips_image_write t1))
    | VIPS_EXTEND_MIRROR =>
      let w2 := base.in_.Xsize * 2
      let h2 := base.in_.Ysize * 2
      let nx := vips_embed_base_build_n base.x w2
      let ny := vips_embed_base_build_n base.y h2
      let t0 := vips_flip base.in_ VIPS_DIRECTION_HORIZONTAL
      let t1 := vips_join base.in_ t0 VIPS_DIRECTION_HORIZONTAL
      let t2 := vips_flip t1 VIPS_DIRECTION_VERTICAL
      let t3 := vips_join t1 t2 VIPS_DIRECTION_VERTICAL
      (vips_replicate t3 (Int.tdiv base.width t3.Xsize + 2)
          (Int.tdiv base.height t3.Ysize + 2)).bind fun t4 =>
        (vips_extract_area t4 nx ny base.width base.height).bind fun t5 =>
          let t6 := vips_insert t5 base.in_ base.x base.y
          .ok (.write (vips_image_write t6))
    | VIPS_EXTEND_BLACK | VIPS_EXTEND_WHITE | VIPS_EXTEND_BACKGROUND | VIPS_EXTEND_COPY =>
      let base := vips_embed_base_build_rsub base
      if vips_rect_isempty base.rsub then .error "bad dimensions"
      else
        let base := vips_embed_base_build_border base
        .ok (.generate base base.width base.height)


/-! ## Auxiliary definitions for the statements about embed.c -/

def clamp (v lo hi : Int) : Int := max lo (min v hi)

def embed_copy_pel (base : VipsEmbedBase) (a b : Int) : VipsPel :=
  base.in_.pel (clamp a base.rsub.left (VIPS_RECT_RIGHT base.rsub - 1) - base.x)
    (clamp b base.rsub.top (VIPS_RECT_BOTTOM base.rsub - 1) - base.y)

def in_borders (base : VipsEmbedBase) (k : Nat) (a b : Int) : Bool :=
  (List.range k).any fun i => (base.border i).includespoint a b

def copy_filled (base : VipsEmbedBase) (r : VipsRect) (k : Nat) : Int → Int → Option VipsPel :=
  fun a b =>
    if r.includespoint a b && (base.rsub.includespoint a b || in_borders base k a b) then
      some (embed_copy_pel base a b)
    else none

def rsub_ok (b : VipsEmbedBase) : Prop :=
  0 ≤ b.rsub.left ∧ 0 ≤ b.rsub.top ∧ 0 < b.rsub.width ∧ 0 < b.rsub.height ∧
    b.rsub.left + b.rsub.width ≤ b.width ∧ b.rsub.top + b.rsub.height ≤ b.height ∧
    b.x ≤ b.rsub.left ∧ b.y ≤ b.rsub.top ∧
    b.rsub.left + b.rsub.width ≤ b.x + b.in_.Xsize ∧
    b.rsub.top + b.rsub.height ≤ b.y + b.in_.Ysize


/-- The nine pieces of the output: `rsub`, then `border[0]` ... `border[7]`. -/
def embed_pieces (base : VipsEmbedBase) : List VipsRect :=
  base.rsub :: (List.range 8).map base.border

/-- A 3 by 2 one-band image whose pel at `(a, b)` is `10 * b + a`. -/
def example_image : VipsImage :=
  { Xsize := 3, Ysize := 2, Bands := 1, max_alpha := 255, pel := fun a b => [10 * b + a] }

/-- The arguments of an embed of `example_image`. -/
def example_embed (extend : VipsExtend) (x y width height : Int) : VipsEmbedBase :=
  { in_ := example_image
    extend := extend
    extend_isset := true
    background_isset := false
    background_ink := some [7]
    width := width
    height := height
    ink := []
    rout := ⟨0, 0, 0, 0⟩
    rsub := ⟨0, 0, 0, 0⟩
    border := fun _ => ⟨0, 0, 0, 0⟩
    x := x
    y := y }

/-- The arguments of an embed of `example_image` with the background policy,
`vips__vector_to_ink` returning NULL. -/
def example_embed_null_ink (x y width height : Int) : VipsEmbedBase :=
  { example_embed VIPS_EXTEND_BACKGROUND x y width height with background_ink := none }

/-- The 2 by 2 mirror tile `t[3]` that `vips_embed_base_build` makes for
`VIPS_EXTEND_MIRROR` (embed.c 417-424). -/
def embed_mirror_tile (im : VipsImage) : VipsImage :=
  let t0 := vips_flip im VipsDirection.VIPS_DIRECTION_HORIZONTAL
  let t1 := vips_join im t0 VipsDirection.VIPS_DIRECTION_HORIZONTAL
  let t2 := vips_flip t1 VipsDirection.VIPS_DIRECTION_VERTICAL
  vips_join t1 t2 VipsDirection.VIPS_DIRECTION_VERTICAL


/-! ## reduceh.cpp -/

/-- The C enum `VipsKernel`. -/
inductive VipsKernel where
  | VIPS_KERNEL_NEAREST
  | VIPS_KERNEL_LINEAR
  | VIPS_KERNEL_CUBIC
  | VIPS_KERNEL_MITCHELL
  | VIPS_KERNEL_LANCZOS2
  | VIPS_KERNEL_LANCZOS3
  | VIPS_KERNEL_MKS2013
  | VIPS_KERNEL_MKS2021
deriving DecidableEq, Repr

open VipsKernel

/-- The libm function `rint` in the default rounding mode: the nearest
integer, a tie going to the even neighbour. -/
def rint (x : ℚ) : Int :=
  if x - ⌊x⌋ < 1 / 2 then ⌊x⌋
  else if 1 / 2 < x - ⌊x⌋ then ⌊x⌋ + 1
  else if ⌊x⌋ % 2 = 0 then ⌊x⌋ else ⌊x⌋ + 1

/-- The C conversion of a `double` to `int`: the fraction is dropped. -/
def double_to_int (x : ℚ) : Int := if 0 ≤ x then ⌊x⌋ else ⌈x⌉

/-- Modelled from the spec: `VIPS_ROUND_UINT` (vips/util.h is not among the
sources embedded here). Spec 4.5: "compute output width by rounding
`input_width / hshrink` to nearest integer"; the comment at its use says
"round(), not rint()". For a value that is not negative this is
`(int) (x + 0.5)`. -/
def VIPS_ROUND_UINT (x : ℚ) : Int := double_to_int (x + 1 / 2)

/-- The C function `vips_reduce_get_points` (reduceh.cpp 112-142). The
`default:` branch cannot be reached from a value of the enum. The products
are those of the reals; `vips_reduce_get_points_binary64` below rounds them as
the machine does. -/
def vips_reduce_get_points (kernel : VipsKernel) (shrink : ℚ) : Int :=
  match kernel with
  | VIPS_KERNEL_NEAREST => 1
  | VIPS_KERNEL_LINEAR => double_to_int (2 * (rint shrink : ℚ) + 1)
  | VIPS_KERNEL_CUBIC | VIPS_KERNEL_MITCHELL => double_to_int (2 * (rint (2 * shrink) : ℚ) + 1)
  | VIPS_KERNEL_LANCZOS2 => double_to_int (2 * (rint (2 * shrink) : ℚ) + 1)
  | VIPS_KERNEL_LANCZOS3 => double_to_int (2 * (rint (3 * shrink) : ℚ) + 1)
  | VIPS_KERNEL_MKS2013 => double_to_int (2 * (rint (3 * shrink) : ℚ) + 1)
  | VIPS_KERNEL_MKS2021 => double_to_int (2 * (rint (5 * shrink) : ℚ) + 1)

/-- The parts of libvips that `vips_reduceh_build` uses and that are not among
the sources embedded here: the constants of resample/templates.h and
vips/transform.h, the kernel maker `vips_reduce_make_mask`, and the operations
`vips_shrinkh` (called with `ceil` set) and `vips_image_decode`, `none` being
their failure. -/
structure ReducehEnv where
  MAX_POINT : Int
  VIPS_TRANSFORM_SCALE : Nat
  VIPS_INTERPOLATE_SCALE : Int
  vips_reduce_make_mask : VipsKernel → Int → ℚ → ℚ → List ℚ
  vips_shrinkh : VipsImage → Int → Option VipsImage
  vips_image_decode : VipsImage → Option VipsImage

/-- The C struct `VipsReduceh` with `resample->in` (`in_`). The tables are
`none` until they are built; `out_Xsize` is `resample->out->Xsize`, `none`
until it is assigned. -/
structure VipsReduceh where
  in_ : VipsImage
  hshrink : ℚ
  gap : ℚ
  kernel : VipsKernel
  n_point : Int
  hoffset : ℚ
  residual_hshrink : ℚ
  matrixs : Option (Nat → List Int)
  matrixf : Option (Nat → List ℚ)
  out_Xsize : Option Int

/-- The width of the image `vips_embed_base_build` made. -/
def VipsEmbedOut.Xsize : VipsEmbedOut → Int
  | .write im => im.Xsize
  | .generate _ Xsize _ => Xsize

/-- The height of the image `vips_embed_base_build` made. -/
def VipsEmbedOut.Ysize : VipsEmbedOut → Int
  | .write im => im.Ysize
  | .generate _ _ Ysize => Ysize

/-- The C functions `vips_embed` and `vips_embed_build` (embed.c 623-638,
699-711): `x` and `y` are passed down to the base class; `extend` is the
optional argument. -/
def vips_embed (im : VipsImage) (x y width height : Int) (extend : Option VipsExtend) :
    Except String VipsEmbedOut :=
  vips_embed_base_build
    { in_ := im
      extend := extend.getD VIPS_EXTEND_BLACK
      extend_isset := extend.isSome
      background_isset := false
      background_ink := some (List.replicate im.Bands 0)
      width := width
      height := height
      ink := []
      rout := ⟨0, 0, 0, 0⟩
      rsub := ⟨0, 0, 0, 0⟩
      border := fun _ => ⟨0, 0, 0, 0⟩
      x := x
      y := y }

/-- What `vips_reduceh_build` leaves in `resample->out` when it returns 0: an
image handed to `vips_image_write`, or a call of `vips_image_generate` over
the padded input `in_`, the output being `Xsize` by `Ysize`. -/
inductive VipsReducehOut where
  | write (im : VipsImage)
  | generate (in_ : VipsEmbedOut) (Xsize Ysize : Int)

/-- The width of the image `vips_reduceh_build` made. -/
def VipsReducehOut.Xsize : VipsReducehOut → Int
  | .write im => im.Xsize
  | .generate _ Xsize _ => Xsize

/-- The height of the image `vips_reduceh_build` made. -/
def VipsReducehOut.Ysize : VipsReducehOut → Int
  | .write im => im.Ysize
  | .generate _ _ Ysize => Ysize

/-- The local variables of `vips_reduceh_build` after the `gap` block
(reduceh.cpp 433-457): the image to go on with, the residual shrink, the extra
pixels, and `int_hshrink` when the block assigned it. -/
structure ReducehGap where
  in_ : VipsImage
  residual_hshrink : ℚ
  extra_pixels : ℚ
  int_hshrink : Option Int
  shrunk : Bool

/-- The `gap` block of `vips_reduceh_build` (reduceh.cpp 433-457), with the
arithmetic of the reals. For `width` = 0 the quotient, an infinity in C, is 0
here; no statement below rests on that case, and
`vips_reduceh_build_gap_binary64` stops there. -/
def vips_reduceh_build_gap (env : ReducehEnv) (reduceh : VipsReduceh) (in_ : VipsImage)
    (width : Int) (extra_pixels : ℚ) : Except String ReducehGap :=
  if 0 < reduceh.gap ∧ reduceh.kernel ≠ VIPS_KERNEL_NEAREST then
    if reduceh.gap < 1 then .error "reduce gap should be >= 1.0"
    else
      let int_hshrink : Int :=
        double_to_int (max 1 (⌊(in_.Xsize : ℚ) / width / reduceh.gap⌋ : ℚ))
      if int_hshrink > 1 then
        match env.vips_shrinkh in_ int_hshrink with
        | none => .error "shrinkh"
        | some t0 =>
          .ok { in_ := t0
                residual_hshrink := reduceh.residual_hshrink / int_hshrink
                extra_pixels := extra_pixels / int_hshrink
                int_hshrink := some int_hshrink
                shrunk := true }
      else
        .ok { in_ := in_, residual_hshrink := reduceh.residual_hshrink,
              extra_pixels := extra_pixels, int_hshrink := some int_hshrink, shrunk := false }
  else
    .ok { in_ := in_, residual_hshrink := reduceh.residual_hshrink,
          extra_pixels := extra_pixels, int_hshrink := none, shrunk := false }

/-- The C function `vips_reduceh_build` (reduceh.cpp 392-564): the object as
the function leaves it, and what it returns (`.error` is -1 with the message
given to `vips_error`). The parent class build, `VIPS_ARRAY`,
`vips_image_pipelinev` and `vips_image_generate` are not among the sources
embedded here: the model follows the path on which they succeed. The `double`
operations are those of the reals; `vips_reduceh_build_binary64` below rounds
each of them as the machine does. -/
def vips_reduceh_build (env : ReducehEnv) (reduceh : VipsReduceh) :
    VipsReduceh × Except String VipsReducehOut :=
  let in_ := reduceh.in_
  if reduceh.hshrink < 1 then (reduceh, .error "reduce factor should be >= 1.0")
  else
    let width := VIPS_ROUND_UINT ((in_.Xsize : ℚ) / reduceh.hshrink)
    let extra_pixels : ℚ := (width : ℚ) * reduceh.hshrink - in_.Xsize
    let reduceh := { reduceh with residual_hshrink := reduceh.hshrink }
    match vips_reduceh_build_gap env reduceh in_ width extra_pixels with
    | .error e => (reduceh, .error e)
    | .ok g =>
      let in_ := g.in_
      let reduceh := { reduceh with residual_hshrink := g.residual_hshrink }
      let extra_pixels := g.extra_pixels
      if reduceh.residual_hshrink = 1 then (reduceh, .ok (.write (vips_image_write in_)))
      else
        let reduceh :=
          { reduceh with
            n_point := vips_reduce_get_points reduceh.kernel reduceh.residual_hshrink }
        if reduceh.n_point > env.MAX_POINT then (reduceh, .error "reduce factor too large")
        else
          let reduceh := { reduceh with hoffset := (1 + extra_pixels) / 2 - 1 }
          let matrixf : Nat → List ℚ := fun x =>
            env.vips_reduce_make_mask reduceh.kernel reduceh.n_point reduceh.residual_hshrink
              ((x : ℚ) / env.VIPS_TRANSFORM_SCALE)
          let matrixs : Nat → List Int := fun x =>
            (matrixf x).map fun c => double_to_int (c * env.VIPS_INTERPOLATE_SCALE)
          let reduceh := { reduceh with matrixf := some matrixf, matrixs := some matrixs }
          match env.vips_image_decode in_ with
          | none => (reduceh, .error "decode")
          | some t1 =>
            match vips_embed t1 (double_to_int (⌈(reduceh.n_point : ℚ) / 2⌉ - 1)) 0
                (t1.Xsize + reduceh.n_point) t1.Ysize (some VIPS_EXTEND_COPY) with
            | .error e => (reduceh, .error e)
            | .ok t2 =>
              let reduceh := { reduceh with out_Xsize := some width }
              if width ≤ 0 then (reduceh, .error "image has shrunk to nothing")
              else (reduceh, .ok (.generate t2 width t2.Ysize))


/-- An environment for examples: a cap of 200 taps, a scale of 64 phases,
identity decode, and a `vips_shrinkh` that only changes the width. -/
def example_env : ReducehEnv :=
  { MAX_POINT := 200
    VIPS_TRANSFORM_SCALE := 64
    VIPS_INTERPOLATE_SCALE := 4096
    vips_reduce_make_mask := fun _ n _ _ => List.replicate n.toNat 0
    vips_shrinkh := fun im k => some { im with Xsize := (im.Xsize + k - 1) / k }
    vips_image_decode := fun im => some im }

/-- The arguments of a reduceh of a `W` by `H` image. -/
def example_reduceh (W H : Int) (hshrink gap : ℚ) (kernel : VipsKernel) : VipsReduceh :=
  { in_ := { example_image with Xsize := W, Ysize := H }
    hshrink := hshrink
    gap := gap
    kernel := kernel
    n_point := 0
    hoffset := 0
    residual_hshrink := 0
    matrixs := none
    matrixf := none
    out_Xsize := none }


/-! ## morph.c -/

/-- The C enum `VipsOperationMorphology`. -/
inductive VipsOperationMorphology where
  | VIPS_OPERATION_MORPHOLOGY_ERODE
  | VIPS_OPERATION_MORPHOLOGY_DILATE
deriving DecidableEq, Repr

open VipsOperationMorphology

/-- A matrix image: its size and its coefficients, `coeff i` being
`VIPS_MATRIX(M, 0, 0)[i]`, so row after row. -/
structure VipsMatrix where
  Xsize : Int
  Ysize : Int
  coeff : Nat → ℚ

/-- What `vips_error` is given: the format and the value printed for its
`%f`, when it has one. -/
structure VipsError where
  msg : String
  arg : Option ℚ
deriving DecidableEq, Repr

/-- The operations that `vips_morph_build` calls and that are not among the
sources embedded here, `none` being their failure: `vips_image_decode`,
`vips_check_matrix`, `vips_cast` to `VIPS_FORMAT_UCHAR` and
`vips__image_intize`. -/
structure MorphEnv where
  vips_image_decode : VipsImage → Option VipsImage
  vips_check_matrix : VipsMatrix → Option VipsMatrix
  vips_cast_uchar : VipsImage → Option VipsImage
  vips__image_intize : VipsMatrix → Option VipsMatrix

/-- The C struct `VipsMorph` with `morphology->in` (`in_`), without the
vector passes. `coeff` is the `guint8` array. -/
structure VipsMorph where
  in_ : VipsImage
  mask : VipsMatrix
  morph : VipsOperationMorphology
  M : VipsMatrix
  n_point : Int
  coeff : Nat → Int

/-- The image that `vips_image_generate` makes from an embed: each pel is what
`vips_embed_base_gen` computes for the tile holding just that pel. -/
def VipsEmbedOut.image : VipsEmbedOut → VipsImage
  | .write im => im
  | .generate base Xsize Ysize =>
    { Xsize := Xsize
      Ysize := Ysize
      Bands := base.in_.Bands
      max_alpha := base.in_.max_alpha
      pel := fun x y =>
        match vips_embed_base_gen base ⟨x, y, 1, 1⟩ with
        | some reg => (reg.get x y).getD []
        | none => [] }

/-- The C conversion `(guint8)` of a `double`: the fraction is dropped and the
low eight bits are kept. -/
def double_to_guint8 (x : ℚ) : Int := double_to_int x % 256

/-- The loop of `vips_morph_build` over the coefficients (morph.c 881-891),
from index `i` on with `todo` turns left: the byte array as the loop leaves it,
and the coefficient given to `vips_error` when the loop returns -1. -/
def vips_morph_build_coeff (coeff : Nat → ℚ) :
    Nat → Nat → (Nat → Int) → (Nat → Int) × Option ℚ
  | 0, _, out => (out, none)
  | todo + 1, i, out =>
    if coeff i ≠ 0 ∧ coeff i ≠ 128 ∧ coeff i ≠ 255 then (out, some (coeff i))
    else
      vips_morph_build_coeff coeff todo (i + 1)
        (fun j => if j = i then double_to_guint8 (coeff i) else out j)

/-- The generate function `vips_morph_build` picks. Only the C path is
embedded: `HAVE_HWY` and `HAVE_ORC` are taken to be undefined. -/
inductive VipsMorphGenerate where
  | dilate
  | erode
deriving DecidableEq, Repr

/-- What `vips_morph_build` leaves in `morph->out` when it returns 0: the
image `in_` handed to `vips_image_generate`, the generate function, and the
header fields the build sets. -/
structure VipsMorphOut where
  in_ : VipsImage
  generate : VipsMorphGenerate
  Xsize : Int
  Ysize : Int
  Xoffset : Int
  Yoffset : Int

/-- The C function `vips_morph_build` (morph.c 827-940): the object as the
function leaves it, and what it returns (`.error` is -1; where one of the
operations of `MorphEnv` fails the message is just its name). The parent class
build, `VIPS_ARRAY`, `vips_image_pipelinev` and `vips_image_generate` are not
among the sources embedded here: the model follows the path on which they
succeed. -/
def vips_morph_build (env : MorphEnv) (morph : VipsMorph) :
    VipsMorph × Except VipsError VipsMorphOut :=
  match env.vips_image_decode morph.in_ with
  | none => (morph, .error ⟨"vips_image_decode", none⟩)
  | some t0 =>
    match env.vips_check_matrix morph.mask with
    | none => (morph, .error ⟨"vips_check_matrix", none⟩)
    | some t1 =>
      let morph := { morph with M := t1, n_point := t1.Xsize * t1.Ysize }
      match vips_embed t0 (Int.tdiv t1.Xsize 2) (Int.tdiv t1.Ysize 2)
          (t0.Xsize + t1.Xsize - 1) (t0.Ysize + t1.Ysize - 1) (some VIPS_EXTEND_COPY) with
      | .error e => (morph, .error ⟨e, none⟩)
      | .ok t2 =>
        match env.vips_cast_uchar t2.image with
        | none => (morph, .error ⟨"vips_cast", none⟩)
        | some t3 =>
          match env.vips__image_intize t1 with
          | none => (morph, .error ⟨"vips__image_intize", none⟩)
          | some t4 =>
            match vips_morph_build_coeff t4.coeff morph.n_point.toNat 0 morph.coeff with
            | (coeff, some v) =>
              ({ morph with coeff := coeff },
                .error ⟨"bad mask element (%f should be 0, 128 or 255)", some v⟩)
            | (coeff, none) =>
              let morph := { morph with coeff := coeff }
              let generate :=
                if morph.morph = VIPS_OPERATION_MORPHOLOGY_DILATE then VipsMorphGenerate.dilate
                else VipsMorphGenerate.erode
              (morph, .ok
                { in_ := t3
                  generate := generate
                  Xsize := t3.Xsize - (t4.Xsize - 1)
                  Ysize := t3.Ysize - (t4.Ysize - 1)
                  Xoffset := Int.tdiv (-t4.Xsize) 2
                  Yoffset := Int.tdiv (-t4.Ysize) 2 })


/-- Modelled from the spec: a `VipsRegion` (vips/region.h is not among the
sources embedded here) on a `uchar` image the way morph.c addresses it, as
bytes. Spec 3: "Region: {owner_image, valid: Rect ..., buffer: reference to
memory, line_stride}". `ps` is `VIPS_IMAGE_SIZEOF_PEL` of the image (one byte a
band), `bpl` the distance in bytes between two lines of the buffer, and
`data a` the byte `a` bytes after the first byte of `valid`, `none` when it has
not been written. -/
structure VipsByteRegion where
  valid : VipsRect
  ps : Int
  bpl : Int
  data : Int → Option Int

/-- Modelled from the spec: the macro `VIPS_REGION_ADDR` (vips/region.h is not
among the sources embedded here), as an offset from the first byte of `valid`:
`bpl` bytes a line and `ps` bytes a pel. -/
def VIPS_REGION_ADDR (reg : VipsByteRegion) (x y : Int) : Int :=
  (y - reg.valid.top) * reg.bpl + (x - reg.valid.left) * reg.ps

/-- Modelled from the spec: the macro `VIPS_REGION_LSKIP` (vips/region.h is
not among the sources embedded here), the `line_stride` of the spec. -/
def VIPS_REGION_LSKIP (reg : VipsByteRegion) : Int := reg.bpl

/-- Modelled from the spec: the macro `VIPS_REGION_N_ELEMENTS` (vips/region.h
is not among the sources embedded here): the band elements of one line of
`valid`. -/
def VIPS_REGION_N_ELEMENTS (reg : VipsByteRegion) : Int := reg.valid.width * reg.ps

/-- Whether the byte at offset `a` belongs to a pel of `valid`. Spec 3:
"accessing any pixel must lie within `valid`". -/
def VipsByteRegion.holds (reg : VipsByteRegion) (a : Int) : Bool :=
  decide (0 ≤ a) && decide (a / reg.bpl < reg.valid.height) &&
    decide (a % reg.bpl < reg.valid.width * reg.ps)

/-- Read the byte at offset `a`. -/
def VipsByteRegion.load (reg : VipsByteRegion) (a : Int) : Option Int :=
  if reg.holds a then reg.data a else none

/-- Write the byte at offset `a`. -/
def VipsByteRegion.store (reg : VipsByteRegion) (a v : Int) : Option VipsByteRegion :=
  if reg.holds a then some { reg with data := fun b => if b = a then some v else reg.data b }
  else none

/-- A region whose buffer has just been allocated for `r`, its lines `bpl`
bytes apart. -/
def VipsByteRegion.fresh (r : VipsRect) (ps bpl : Int) : VipsByteRegion :=
  { valid := r, ps := ps, bpl := bpl, data := fun _ => none }

/-- Band element `c` of line `y` of an image, the elements of a line being
numbered through its pels; a band that the pel does not hold reads as 0. -/
def VipsImage.element (im : VipsImage) (c y : Int) : Int :=
  (im.pel (c / im.Bands) y).getD (c % im.Bands).toNat 0

/-- Modelled from the spec: `vips_region_prepare` (iofuncs/region.c is not
among the sources embedded here) on a `uchar` image, the region seen as bytes.
Spec 4.3: "ensures `region.valid ⊇ want` is materialized with correct pixel
data ... fails ... if `want` cannot be satisfied due to it lying outside the
owning image's extent". The region code chooses the buffer and with it `bpl`,
which is at least the length of a line of `want`. -/
def vips_region_prepare_bytes (im : VipsImage) (bpl : Int) (want : VipsRect) :
    Option VipsByteRegion :=
  if vips_rect_includesrect im.rect want ∧ want.width * im.Bands ≤ bpl then
    some
      { valid := want
        ps := im.Bands
        bpl := bpl
        data := fun a => some (im.element (want.left * im.Bands + a % bpl) (want.top + a / bpl)) }
  else none

/-- The C struct `VipsMorphSequence`, without the buffers of the vector
path. -/
structure VipsMorphSequence where
  ir : VipsByteRegion
  off : Nat → Int
  nn128 : Int
  coeff : Nat → Int
  last_bpl : Int

/-- The C function `vips_morph_start` (morph.c 201-254). `off` and `coeff`
stand for what `VIPS_ARRAY` returns, which is not initialised. -/
def vips_morph_start (in_ : VipsImage) (off coeff : Nat → Int) : VipsMorphSequence :=
  { ir := VipsByteRegion.fresh ⟨0, 0, 0, 0⟩ in_.Bands 0
    off := off
    nn128 := 0
    coeff := coeff
    last_bpl := -1 }

/-- One turn of the inner loop that scans the mask (morph.c 700-711 and
787-798): `t` is the index the pointer `t` has reached. -/
def vips_morph_gen_scan_step (morph : VipsMorph) (le to_ y : Int)
    (st : Nat × VipsMorphSequence) (x : Nat) : Nat × VipsMorphSequence :=
  let (t, seq) := st
  if morph.coeff t = 128 then (t + 1, seq)
  else
    (t + 1,
      { seq with
        off := fun j =>
          if j = seq.nn128.toNat then
            VIPS_REGION_ADDR seq.ir (x + le) (y + to_) - VIPS_REGION_ADDR seq.ir le to_
          else seq.off j
        coeff := fun j => if j = seq.nn128.toNat then morph.coeff t else seq.coeff j
        nn128 := seq.nn128 + 1 })

/-- The block that scans the mask (morph.c 695-712 and 782-799), the same in
`vips_dilate_gen` and `vips_erode_gen`. -/
def vips_morph_gen_scan (morph : VipsMorph) (le to_ : Int) (seq : VipsMorphSequence) :
    VipsMorphSequence :=
  if seq.last_bpl ≠ VIPS_REGION_LSKIP seq.ir then
    let seq := { seq with last_bpl := VIPS_REGION_LSKIP seq.ir, nn128 := 0 }
    ((List.range morph.M.Ysize.toNat).foldl
      (fun st (y : Nat) =>
        (List.range morph.M.Xsize.toNat).foldl (vips_morph_gen_scan_step morph le to_ y) st)
      (0, seq)).2
  else seq

/-- The C operators `|` and `&` of the two generate functions. -/
def VipsMorphGenerate.op : VipsMorphGenerate → Int → Int → Int
  | .dilate => Int.lor
  | .erode => Int.land

/-- The value `result` starts from: 0 in `vips_dilate_gen`, 255 in
`vips_erode_gen`. -/
def VipsMorphGenerate.seed : VipsMorphGenerate → Int
  | .dilate => 0
  | .erode => 255

/-- The innermost loop (morph.c 725-727 and 812-814): `result` for the byte
at offset `p` of the input region. -/
def vips_morph_gen_result (g : VipsMorphGenerate) (seq : VipsMorphSequence) (p : Int) :
    Option Int :=
  forLoop
    (fun i result =>
      (seq.ir.load (p + seq.off i)).map fun v =>
        g.op result (if seq.coeff i = 0 then Int.lnot v else v))
    seq.nn128.toNat g.seed

/-- The loop along one line (morph.c 722-730 and 809-817): `p` and `q` are
the offsets of the first byte of the line in the input and output regions. -/
def vips_morph_gen_line (g : VipsMorphGenerate) (seq : VipsMorphSequence) (p q sz : Int)
    (out_region : VipsByteRegion) : Option VipsByteRegion :=
  forLoop
    (fun x out =>
      (vips_morph_gen_result g seq (p + x)).bind fun result => out.store (q + x) (result % 256))
    sz.toNat out_region

/-- The C functions `vips_dilate_gen` (morph.c 655-738) and `vips_erode_gen`
(morph.c 742-825), which differ in the operator and the start value only.
`in_` is the image the regions of the sequence belong to, `bpl` the line
length of the buffer that `vips_region_prepare` gives the input region. -/
def vips_morph_gen (g : VipsMorphGenerate) (morph : VipsMorph) (in_ : VipsImage) (bpl : Int)
    (seq : VipsMorphSequence) (out_region : VipsByteRegion) :
    Option (VipsMorphSequence × VipsByteRegion) :=
  let r := out_region.valid
  let le := r.left
  let to_ := r.top
  let bo := VIPS_RECT_BOTTOM r
  let sz := VIPS_REGION_N_ELEMENTS out_region
  let s : VipsRect :=
    { r with width := r.width + (morph.M.Xsize - 1), height := r.height + (morph.M.Ysize - 1) }
  (vips_region_prepare_bytes in_ bpl s).bind fun ir =>
    let seq := vips_morph_gen_scan morph le to_ { seq with ir := ir }
    (forLoop
      (fun k out =>
        let y := to_ + k
        vips_morph_gen_line g seq (VIPS_REGION_ADDR seq.ir le y) (VIPS_REGION_ADDR out le y) sz
          out)
      (bo - to_).toNat out_region).map fun out => (seq, out)

/-- The C function `vips_dilate_gen` (morph.c 655-738). -/
def vips_dilate_gen (morph : VipsMorph) (in_ : VipsImage) (bpl : Int)
    (seq : VipsMorphSequence) (out_region : VipsByteRegion) :
    Option (VipsMorphSequence × VipsByteRegion) :=
  vips_morph_gen .dilate morph in_ bpl seq out_region

/-- The C function `vips_erode_gen` (morph.c 742-825). -/
def vips_erode_gen (morph : VipsMorph) (in_ : VipsImage) (bpl : Int)
    (seq : VipsMorphSequence) (out_region : VipsByteRegion) :
    Option (VipsMorphSequence × VipsByteRegion) :=
  vips_morph_gen .erode morph in_ bpl seq out_region


/-! ## Auxiliary definitions for the statements about morph.c -/

/-- The test of the loop of `vips_morph_build` (morph.c 882-884). -/
def bad_mask_element (c : ℚ) : Prop := c ≠ 0 ∧ c ≠ 128 ∧ c ≠ 255

/-- The operations of a `MorphEnv` keep the size of what they are given. -/
def MorphEnv.keeps_size (env : MorphEnv) : Prop :=
  (∀ im t, env.vips_image_decode im = some t → t.Xsize = im.Xsize ∧ t.Ysize = im.Ysize) ∧
  (∀ im t, env.vips_cast_uchar im = some t → t.Xsize = im.Xsize ∧ t.Ysize = im.Ysize) ∧
  (∀ m t, env.vips_check_matrix m = some t → t.Xsize = m.Xsize ∧ t.Ysize = m.Ysize) ∧
  (∀ m t, env.vips__image_intize m = some t → t.Xsize = m.Xsize ∧ t.Ysize = m.Ysize)

/-- An environment for examples: decode, the matrix check and the cast hand back
what they are given, and the int version of a mask has every coefficient
rounded by `rint`. -/
def example_morph_env : MorphEnv :=
  { vips_image_decode := fun im => some im
    vips_check_matrix := fun m => some m
    vips_cast_uchar := fun im => some im
    vips__image_intize := fun m => some { m with coeff := fun i => (rint (m.coeff i) : ℚ) } }

/-- A mask of the given size with the given coefficients, row after row. -/
def example_mask (Xsize Ysize : Int) (coeff : List ℚ) : VipsMatrix :=
  { Xsize := Xsize, Ysize := Ysize, coeff := fun i => coeff.getD i 0 }

/-- The arguments of a morph of `in_` with `mask`. -/
def example_morph (in_ : VipsImage) (mask : VipsMatrix) (morph : VipsOperationMorphology) :
    VipsMorph :=
  { in_ := in_, mask := mask, morph := morph, M := mask, n_point := 0, coeff := fun _ => 0 }

/-- The taps of the mask that take part, in row-major order: the column and
the row of each coefficient that is not 128, and the coefficient. -/
def morph_taps (morph : VipsMorph) : List (Int × Int × Int) :=
  (List.range morph.M.Ysize.toNat).flatMap fun y =>
    (List.range morph.M.Xsize.toNat).filterMap fun x =>
      if morph.coeff (y * morph.M.Xsize.toNat + x) = 128 then none
      else some ((x : Int), (y : Int), morph.coeff (y * morph.M.Xsize.toNat + x))

/-- The term of one tap: the source byte, complemented when the coefficient
is 0. -/
def morph_term (c v : Int) : Int := if c = 0 then Int.lnot v else v

/-- The byte expected at band element `e` of line `y` of the output:
the low 8 bits of the terms of all taps combined with `|` from 0 (dilate) or
with `&` from 255 (erode), the source byte of tap `(mx, my)` being the element
`mx` pels to the right and `my` lines down. -/
def morph_byte (g : VipsMorphGenerate) (morph : VipsMorph) (in_ : VipsImage) (e y : Int) :
    Int :=
  ((morph_taps morph).foldl
    (fun acc t => g.op acc (morph_term t.2.2 (in_.element (e + t.1 * in_.Bands) (y + t.2.1))))
    g.seed) % 256

/-- A tap matches at band element `e` of line `y`: the source byte is 255
under a coefficient of 255, or 0 under a coefficient of 0. -/
def tap_matches (in_ : VipsImage) (e y : Int) (t : Int × Int × Int) : Prop :=
  (t.2.2 = 255 ∧ in_.element (e + t.1 * in_.Bands) (y + t.2.1) = 255) ∨
    (t.2.2 = 0 ∧ in_.element (e + t.1 * in_.Bands) (y + t.2.1) = 0)

/-- The offsets and coefficients a sequence holds, entry 0 to `nn128 - 1`. -/
def seq_taps (seq : VipsMorphSequence) : List (Int × Int) :=
  (List.range seq.nn128.toNat).map fun i => (seq.off i, seq.coeff i)

/-- What a sequence keeps between two calls of the generate function: it is
as `vips_morph_start` left it, or its offsets are those of the taps for lines
`last_bpl` bytes apart and pels of `ps` bytes. -/
def seq_ok (morph : VipsMorph) (ps : Int) (seq : VipsMorphSequence) : Prop :=
  seq.last_bpl = -1 ∨
    (0 ≤ seq.nn128 ∧
      seq_taps seq =
        (morph_taps morph).map fun t => (t.2.1 * seq.last_bpl + t.1 * ps, t.2.2))

/-- The image with every band of every pel complemented, `255 - v`. -/
def complement_image (im : VipsImage) : VipsImage :=
  { im with pel := fun x y => (im.pel x y).map fun v => 255 - v }

/-- The mask with the coefficients 0 and 255 swapped and 128 left alone. -/
def complement_mask (morph : VipsMorph) : VipsMorph :=
  { morph with
    coeff := fun i =>
      if morph.coeff i = 0 then 255 else if morph.coeff i = 255 then 0 else morph.coeff i }

/-- Every pel holds `Bands` values. -/
def VipsImage.has_bands (im : VipsImage) : Prop :=
  ∀ x y, (im.pel x y).length = im.Bands

/-- Every coefficient of the mask is 0, 128 or 255. -/
def mask_ok (morph : VipsMorph) : Prop :=
  ∀ x y : Nat, (x : Int) < morph.M.Xsize → (y : Int) < morph.M.Ysize →
    morph.coeff (y * morph.M.Xsize.toNat + x) = 0 ∨
    morph.coeff (y * morph.M.Xsize.toNat + x) = 128 ∨
    morph.coeff (y * morph.M.Xsize.toNat + x) = 255

/-- A 2 by 2 one-band image whose bytes are all 255. -/
def example_white : VipsImage :=
  { Xsize := 2, Ysize := 2, Bands := 1, max_alpha := 255, pel := fun _ _ => [255] }

/-- A morph object as `vips_morph_build` leaves it for a 2 by 2 mask whose
coefficients are all 255. -/
def example_morph_built : VipsMorph :=
  { in_ := example_white
    mask := example_mask 2 2 [255, 255, 255, 255]
    morph := VIPS_OPERATION_MORPHOLOGY_ERODE
    M := example_mask 2 2 [255, 255, 255, 255]
    n_point := 4
    coeff := fun _ => 255 }

/-- The output region of a tile of one pel at `(0, 0)`, just allocated. -/
def example_tile : VipsByteRegion := VipsByteRegion.fresh ⟨0, 0, 1, 1⟩ 1 1


/-! ## type.c -/

/-- The C struct `VipsArea` without its lock. `data` and `free_fn` are
pointers, `none` being `NULL`; a function pointer is the number that names the
function. `vips_area_new` does not set `n`. -/
structure VipsArea where
  data : Option Nat
  length : Int
  n : Int
  count : Int
  free_fn : Option Nat
  type : Int
  sizeof_type : Int
deriving DecidableEq, Repr

/-- The memory that the functions on an area work on: the area itself, `none`
once `g_free(area)` has run, and the calls of `free_fn` made so far, each with
the function and the `data` it was given. The calls run one at a time, so the
lock is not modelled, and `vips__leak` is taken to be off: the list
`vips_area_all` only serves the leak report. -/
structure AreaState where
  area : Option VipsArea
  released : List (Nat × Nat)
deriving DecidableEq, Repr

/-- The C function `vips_area_new` (type.c 235-264); `n` is the value the
field `n` happens to hold. -/
def vips_area_new (free_fn data : Option Nat) (n : Int) : AreaState :=
  { area := some
      { data := data, length := 0, n := n, count := 1, free_fn := free_fn, type := 0,
        sizeof_type := 0 }
    released := [] }

/-- The C function `vips_area_copy` (type.c 118-134): `none` when the
assertion fails or the area has been freed. The area returned is the one
given. -/
def vips_area_copy (s : AreaState) : Option AreaState :=
  match s.area with
  | none => none
  | some area =>
    if area.count > 0 then some { s with area := some { area with count := area.count + 1 } }
    else none

/-- The C function `vips_area_free` (type.c 144-154). -/
def vips_area_free (area : VipsArea) (released : List (Nat × Nat)) :
    VipsArea × List (Nat × Nat) :=
  match area.free_fn, area.data with
  | some f, some d => ({ area with free_fn := none, data := none }, released ++ [(f, d)])
  | _, _ => ({ area with data := none }, released)

/-- The C function `vips_area_unref` (type.c 156-199): `none` when the
assertion fails or the area has been freed. -/
def vips_area_unref (s : AreaState) : Option AreaState :=
  match s.area with
  | none => none
  | some area =>
    if area.count > 0 then
      let area := { area with count := area.count - 1 }
      if area.count = 0 then
        some { area := none, released := (vips_area_free area s.released).2 }
      else some { s with area := some area }
    else none

/-! ## Auxiliary definitions for the statements about type.c -/

/-- A call on an area. -/
inductive AreaOp where
  | copy
  | unref
deriving DecidableEq, Repr

/-- Make one call. -/
def AreaOp.run : AreaOp → AreaState → Option AreaState
  | .copy => vips_area_copy
  | .unref => vips_area_unref

/-- Make a sequence of calls, stopping at the first that fails. -/
def run_ops : List AreaOp → AreaState → Option AreaState
  | [], s => some s
  | op :: ops, s => (op.run s).bind (run_ops ops)

/-- The count after a sequence of calls on an area of count `c`: one more for
each copy, one less for each unref. -/
def area_balance (c : Int) (ops : List AreaOp) : Int :=
  c + ops.count AreaOp.copy - ops.count AreaOp.unref


/-! ## im_avgdxdy.c -/

/-- The fields of the C struct `TiePoints` that `vips__avgdxdy` reads; the
arrays are indexed from 0. -/
structure TiePoints where
  nopoints : Int
  x_reference : Nat → Int
  y_reference : Nat → Int
  x_secondary : Nat → Int
  y_secondary : Nat → Int

/-- What a call of `vips__avgdxdy` leaves: the value returned, the contents of
`*dx` and `*dy`, and the message given to `vips_error`, if any. -/
structure AvgDxDy where
  ret : Int
  dx : Int
  dy : Int
  error : Option String
deriving DecidableEq, Repr

/-- The C function `vips__avgdxdy` (im_avgdxdy.c 58-82); `dx` and `dy` are
what `*dx` and `*dy` hold before the call. The sums are `int` in C: with at
most `VIPS_MAXPOINTS` points inside an image they stay far from overflow. -/
def vips__avgdxdy (points : TiePoints) (dx dy : Int) : AvgDxDy :=
  if points.nopoints = 0 then
    { ret := -1, dx := dx, dy := dy, error := some "no points to average" }
  else
    let sums := (List.range points.nopoints.toNat).foldl
      (fun (s : Int × Int) i =>
        (s.1 + (points.x_secondary i - points.x_reference i),
          s.2 + (points.y_secondary i - points.y_reference i)))
      (0, 0)
    { ret := 0
      dx := double_to_int (rint ((sums.1 : ℚ) / (points.nopoints : ℚ)) : ℚ)
      dy := double_to_int (rint ((sums.2 : ℚ) / (points.nopoints : ℚ)) : ℚ)
      error := none }

/-- Two tie points, both displaced by `(3, -1)`. -/
def example_points : TiePoints :=
  { nopoints := 2
    x_reference := fun i => 10 * i
    y_reference := fun _ => 5
    x_secondary := fun i => 10 * i + 3
    y_secondary := fun _ => 4 }


/-! ## reduceh.cpp: the generate function -/

/-- The rectangle `s` that `vips_reduceh_gen` asks of the input for the tile
`r` (reduceh.cpp 237-240), with the arithmetic of the reals;
`vips_reduceh_gen_s_binary64` below rounds each operation as the machine
does. -/
def vips_reduceh_gen_s (reduceh : VipsReduceh) (r : VipsRect) : VipsRect :=
  { left := double_to_int ((r.left : ℚ) * reduceh.residual_hshrink - reduceh.hoffset)
    top := r.top
    width := double_to_int ((r.width : ℚ) * reduceh.residual_hshrink + reduceh.n_point)
    height := r.height }

/-- The index `tx` of the row of `matrixs` and `matrixf` used for position `X`
(reduceh.cpp 272-274). -/
def vips_reduceh_gen_tx (env : ReducehEnv) (X : ℚ) : Int :=
  let sx := double_to_int (X * env.VIPS_TRANSFORM_SCALE * 2)
  let six := Int.land sx ((env.VIPS_TRANSFORM_SCALE : Int) * 2 - 1)
  (six + 1) >>> (1 : Nat)


/-! ## embed.c: gravity -/

/-- The C enum `VipsCompassDirection`, with the values the `switch` of
`vips_gravity_build` names. -/
inductive VipsCompassDirection where
  | VIPS_COMPASS_DIRECTION_CENTRE
  | VIPS_COMPASS_DIRECTION_NORTH
  | VIPS_COMPASS_DIRECTION_EAST
  | VIPS_COMPASS_DIRECTION_SOUTH
  | VIPS_COMPASS_DIRECTION_WEST
  | VIPS_COMPASS_DIRECTION_NORTH_EAST
  | VIPS_COMPASS_DIRECTION_SOUTH_EAST
  | VIPS_COMPASS_DIRECTION_SOUTH_WEST
  | VIPS_COMPASS_DIRECTION_NORTH_WEST
deriving DecidableEq, Repr

open VipsCompassDirection

/-- The `switch (gravity->direction)` of `vips_gravity_build` (embed.c
735-784): the assignments to `base->x` and `base->y`. The `default:` branch
cannot be reached from a value of the enum. -/
def vips_gravity_build_xy (direction : VipsCompassDirection) (base : VipsEmbedBase) :
    VipsEmbedBase :=
  match direction with
  | VIPS_COMPASS_DIRECTION_CENTRE =>
    { base with x := Int.tdiv (base.width - base.in_.Xsize) 2
                y := Int.tdiv (base.height - base.in_.Ysize) 2 }
  | VIPS_COMPASS_DIRECTION_NORTH =>
    { base with x := Int.tdiv (base.width - base.in_.Xsize) 2
                y := 0 }
  | VIPS_COMPASS_DIRECTION_EAST =>
    { base with x := base.width - base.in_.Xsize
                y := Int.tdiv (base.height - base.in_.Ysize) 2 }
  | VIPS_COMPASS_DIRECTION_SOUTH =>
    { base with x := Int.tdiv (base.width - base.in_.Xsize) 2
                y := base.height - base.in_.Ysize }
  | VIPS_COMPASS_DIRECTION_WEST =>
    { base with x := 0
                y := Int.tdiv (base.height - base.in_.Ysize) 2 }
  | VIPS_COMPASS_DIRECTION_NORTH_EAST =>
    { base with x := base.width - base.in_.Xsize
                y := 0 }
  | VIPS_COMPASS_DIRECTION_SOUTH_EAST =>
    { base with x := base.width - base.in_.Xsize
                y := base.height - base.in_.Ysize }
  | VIPS_COMPASS_DIRECTION_SOUTH_WEST =>
    { base with x := 0
                y := base.height - base.in_.Ysize }
  | VIPS_COMPASS_DIRECTION_NORTH_WEST =>
    { base with x := 0
                y := 0 }

/-- The C function `vips_gravity_build` (embed.c 726-791). `isset` is whether
`in`, `width`, `height` and `direction` are all set; the parent class build is
`vips_embed_base_build`. -/
def vips_gravity_build (isset : Bool) (direction : VipsCompassDirection)
    (base : VipsEmbedBase) : Except String VipsEmbedOut :=
  vips_embed_base_build (if isset then vips_gravity_build_xy direction base else base)


/-! ## interpolate.c: the fixed-point bilinear interpolator -/

/-- The constant `VIPS_INTERPOLATE_SCALE` for a given `VIPS_INTERPOLATE_SHIFT`
(both are defined in vips/interpolate.h, which is not among the sources
embedded here; interpolate.c 295-305 documents the second as the first "as a
multiplicative constant"): `1 << VIPS_INTERPOLATE_SHIFT`. -/
def VIPS_INTERPOLATE_SCALE (VIPS_INTERPOLATE_SHIFT : Nat) : Int := 2 ^ VIPS_INTERPOLATE_SHIFT

/-- The band formats for which `SWITCH_INTERPOLATE` picks `BILINEAR_INT`
(interpolate.c 505-516): `unsigned char`, `char`, `unsigned short` and
`short`. -/
inductive VipsBandFormatInt where
  | VIPS_FORMAT_UCHAR
  | VIPS_FORMAT_CHAR
  | VIPS_FORMAT_USHORT
  | VIPS_FORMAT_SHORT
deriving DecidableEq, Repr

open VipsBandFormatInt

/-- The least value of the C type of a format. -/
def VipsBandFormatInt.min_value : VipsBandFormatInt → Int
  | VIPS_FORMAT_UCHAR => 0
  | VIPS_FORMAT_CHAR => -128
  | VIPS_FORMAT_USHORT => 0
  | VIPS_FORMAT_SHORT => -32768

/-- The greatest value of the C type of a format. -/
def VipsBandFormatInt.max_value : VipsBandFormatInt → Int
  | VIPS_FORMAT_UCHAR => 255
  | VIPS_FORMAT_CHAR => 127
  | VIPS_FORMAT_USHORT => 65535
  | VIPS_FORMAT_SHORT => 32767

/-- The C conversion of an `int` to the type of a format on assignment: the
value is kept modulo the number of values of the type. -/
def VipsBandFormatInt.store (fmt : VipsBandFormatInt) (v : Int) : Int :=
  (v - fmt.min_value) % (fmt.max_value - fmt.min_value + 1) + fmt.min_value

/-- The local variables of `BILINEAR_INT` (interpolate.c 446-454). -/
structure BilinearInt where
  X : Int
  Y : Int
  Yd : Int
  c1 : Int
  c2 : Int
  c3 : Int
  c4 : Int
deriving DecidableEq, Repr

/-- The first part of the macro `BILINEAR_INT` (interpolate.c 446-454) with
`ix = (int) x` and `iy = (int) y` (interpolate.c 551-552): the fixed-point
weights for the position `(x, y)`. -/
def BILINEAR_INT (VIPS_INTERPOLATE_SHIFT : Nat) (x y : ℚ) : BilinearInt :=
  let ix := double_to_int x
  let iy := double_to_int y
  let X := double_to_int ((x - ix) * VIPS_INTERPOLATE_SCALE VIPS_INTERPOLATE_SHIFT)
  let Y := double_to_int ((y - iy) * VIPS_INTERPOLATE_SCALE VIPS_INTERPOLATE_SHIFT)
  let Yd := VIPS_INTERPOLATE_SCALE VIPS_INTERPOLATE_SHIFT - Y
  let c4 := (Y * X) >>> VIPS_INTERPOLATE_SHIFT
  let c2 := (Yd * X) >>> VIPS_INTERPOLATE_SHIFT
  let c3 := Y - c4
  let c1 := Yd - c2
  { X := X, Y := Y, Yd := Yd, c1 := c1, c2 := c2, c3 := c3, c4 := c4 }

/-- The sum that `BILINEAR_INT_INNER` shifts (interpolate.c 433-435): the four
products and half the scale. -/
def BILINEAR_INT_INNER_sum (VIPS_INTERPOLATE_SHIFT : Nat) (w : BilinearInt)
    (tp1 tp2 tp3 tp4 : Int) : Int :=
  w.c1 * tp1 + w.c2 * tp2 + w.c3 * tp3 + w.c4 * tp4 +
    Int.tdiv (VIPS_INTERPOLATE_SCALE VIPS_INTERPOLATE_SHIFT) 2

/-- The macro `BILINEAR_INT_INNER` (interpolate.c 431-438): the value stored
in `tq[z]` for the band values `tp1[z]` ... `tp4[z]` of the four
neighbours. -/
def BILINEAR_INT_INNER (VIPS_INTERPOLATE_SHIFT : Nat) (fmt : VipsBandFormatInt)
    (w : BilinearInt) (tp1 tp2 tp3 tp4 : Int) : Int :=
  fmt.store
    (BILINEAR_INT_INNER_sum VIPS_INTERPOLATE_SHIFT w tp1 tp2 tp3 tp4 >>> VIPS_INTERPOLATE_SHIFT)

/-- The C function `vips_interpolate_bilinear_interpolate` (interpolate.c
540-567) for the four formats that take the fixed-point path: the pel written
to `out` for the position `(x, y)`, `b` being the number of bands. The four
neighbours are read from the region, which gives `none` outside `valid` (the
four `g_assert`s). A band that a pel does not hold reads as 0. -/
def vips_interpolate_bilinear_interpolate (VIPS_INTERPOLATE_SHIFT : Nat)
    (fmt : VipsBandFormatInt) (b : Nat) (in_ : VipsRegion) (x y : ℚ) : Option VipsPel :=
  let ix := double_to_int x
  let iy := double_to_int y
  (in_.get ix iy).bind fun p1 =>
    (in_.get (ix + 1) iy).bind fun p2 =>
      (in_.get ix (iy + 1)).bind fun p3 =>
        (in_.get (ix + 1) (iy + 1)).map fun p4 =>
          (List.range b).map fun z =>
            BILINEAR_INT_INNER VIPS_INTERPOLATE_SHIFT fmt
              (BILINEAR_INT VIPS_INTERPOLATE_SHIFT x y)
              (p1.getD z 0) (p2.getD z 0) (p3.getD z 0) (p4.getD z 0)

/-- A value that a 32-bit C `int` holds. -/
def fits_int (v : Int) : Prop := -2147483648 ≤ v ∧ v ≤ 2147483647

/-- A region over `{0, 0, 2, 2}` of a one-band image for examples: the
pels 10, 20 on line 0 and 30, 40 on line 1. -/
def example_region : VipsRegion :=
  { valid := ⟨0, 0, 2, 2⟩
    pel := fun a b => some [10 + 10 * a + 20 * b] }


/-! ## type.c: strings to arrays -/

/-- The functions that `transform_g_string_array_int` and
`transform_g_string_array_double` call and that are not among the sources
embedded here. A C string is the list of its characters.
`vips_break_token str brk` is `none` when the C function returns `NULL`, and
otherwise the string that now starts at `str` (the function writes a `\0`
after the token) and the string at the pointer returned; `sscanf_d` is
`sscanf(p, "%d", ...)`, `none` when it does not return 1; `vips_strtod` is
`none` when the C function does not return 0. -/
structure TokenEnv where
  vips_break_token : List Char → List Char → Option (List Char × List Char)
  sscanf_d : List Char → Option Int
  vips_strtod : List Char → Option ℚ

/-- The break characters of the first scan, `"\t;, "` (type.c 936 and
1167). -/
def count_brk : List Char := [Char.ofNat 9, ';', ',', ' ']

/-- The break characters of the second scan, `"\t; "` (type.c 947 and
1178). -/
def parse_brk : List Char := [Char.ofNat 9, ';', ' ']

/-- The first loop of both functions (type.c 935-937 and 1166-1168): the
value of `n` when the loop ends; `none` when it has not ended after `fuel`
turns. -/
def transform_count (env : TokenEnv) : Nat → List Char → Nat → Option Nat
  | 0, _, _ => none
  | fuel + 1, p, n =>
    match env.vips_break_token p count_brk with
    | none => some n
    | some (_, q) => transform_count env fuel q (n + 1)

/-- An array as `vips_value_set_array` makes it: `g_malloc` does not
initialise the elements, so each is `none` until it is assigned. -/
def array_new {α : Type} (n : Nat) : List (Option α) := List.replicate n none

/-- The assignment `array[i] = v`; `none` when `i` is outside the array. -/
def array_set {α : Type} (array : List (Option α)) (i : Nat) (v : α) :
    Option (List (Option α)) :=
  if i < array.length then some (array.set i (some v)) else none

/-- The second loop of both functions (type.c 946-960 and 1177-1189), `scan`
being `sscanf_d` or `vips_strtod`: the array the destination value holds when
the function returns, which is an array of length zero after a token that does
not scan; `none` when the loop has not ended after `fuel` turns or writes
outside the array. -/
def transform_parse {α : Type} (env : TokenEnv) (scan : List Char → Option α) :
    Nat → List Char → Nat → List (Option α) → Option (List (Option α))
  | 0, _, _, _ => none
  | fuel + 1, p, i, array =>
    match env.vips_break_token p parse_brk with
    | none => some array
    | some (tok, q) =>
      match scan tok with
      | none => some (array_new 0)
      | some v => (array_set array i v).bind fun array => transform_parse env scan fuel q (i + 1) array

/-- The C function `transform_g_string_array_int` (type.c 920-963) on the
string that `g_value_dup_string` returns: the array the destination value
holds afterwards. Each loop takes at most one turn a character. -/
def transform_g_string_array_int (env : TokenEnv) (str : List Char) :
    Option (List (Option Int)) :=
  (transform_count env (str.length + 1) str 0).bind fun n =>
    transform_parse env env.sscanf_d (str.length + 1) str 0 (array_new n)

/-- The C function `transform_g_string_array_double` (type.c 1152-1192). -/
def transform_g_string_array_double (env : TokenEnv) (str : List Char) :
    Option (List (Option ℚ)) :=
  (transform_count env (str.length + 1) str 0).bind fun n =>
    transform_parse env env.vips_strtod (str.length + 1) str 0 (array_new n)

/-- The value of a string of decimal digits. -/
def digits_value (ds : List Char) : Nat :=
  ds.foldl (fun a c => 10 * a + (c.toNat - 48)) 0

/-- An environment for examples. `vips_break_token` skips the break
characters at the start, ends the token at the next break character and
returns the start of the token after it; the two scanners skip white space
and read an unsigned run of decimal digits. -/
def example_token_env : TokenEnv :=
  { vips_break_token := fun str brk =>
      let p := str.dropWhile fun c => decide (c ∈ brk)
      if p = [] then none
      else
        let tail := p.dropWhile fun c => !decide (c ∈ brk)
        some (str.takeWhile (fun c => decide (c ∈ brk)) ++ p.takeWhile (fun c => !decide (c ∈ brk)),
          (tail.drop 1).dropWhile fun c => decide (c ∈ brk))
    sscanf_d := fun s =>
      let ds := (s.dropWhile fun c => c = ' ' || c = Char.ofNat 9).takeWhile Char.isDigit
      if ds = [] then none else some (digits_value ds : Nat)
    vips_strtod := fun s =>
      let ds := (s.dropWhile fun c => c = ' ' || c = Char.ofNat 9).takeWhile Char.isDigit
      if ds = [] then none else some (digits_value ds : Nat) }


/-! ## morph.c: the passes of the orc path (`HAVE_ORC`) -/

open VipsOperationMorphology

/-- The constant `MAX_PASS` (morph.c 84). -/
def MAX_PASS : Int := 10

/-- The constant `MAX_SOURCES` (morph.c 86). -/
def MAX_SOURCES : Int := 8

/-- The names `vips_morph_compile_section` gives to the variables of a
program: the fixed names, `"sl%d"` for the scanline `y`, and `"c%db"` for the
offset of column `x`. -/
inductive OrcVar where
  | d1
  | r
  | value
  | sum
  | zero
  | one
  | sl (y : Int)
  | c (x : Int)
deriving DecidableEq, Repr

/-- An `OrcProgram` as the calls of `vips_morph_compile_section` build it: the
names of its variables in the order they were added, the values of its
constants, and its instructions (opcode and operands). -/
structure OrcProgram where
  vars : List OrcVar
  consts : List (OrcVar × Int)
  insns : List (String × List OrcVar)
deriving DecidableEq, Repr

/-- The functions of the orc library whose results `vips_morph_compile_section`
looks at: the variable numbers that `orc_program_add_destination` and
`orc_program_add_source` return for the program so far, and whether
`orc_program_compile` gives a result that `ORC_COMPILE_RESULT_IS_SUCCESSFUL`
accepts. -/
structure OrcEnv where
  orc_program_add_destination : OrcProgram → OrcVar → Int
  orc_program_add_source : OrcProgram → OrcVar → Int
  orc_program_compile : OrcProgram → Bool

/-- The orc call `orc_program_new`. -/
def orc_program_new : OrcProgram := { vars := [], consts := [], insns := [] }

/-- A variable is added to a program (`orc_program_add_destination`,
`orc_program_add_source`, `orc_program_add_temporary`). -/
def OrcProgram.add_var (p : OrcProgram) (v : OrcVar) : OrcProgram :=
  { p with vars := p.vars ++ [v] }

/-- The macro `CONST` (morph.c 392): `orc_program_add_constant`. -/
def OrcProgram.CONST (p : OrcProgram) (n : OrcVar) (v : Int) : OrcProgram :=
  { p with vars := p.vars ++ [n], consts := p.consts ++ [(n, v)] }

/-- The macros `ASM2` and `ASM3` (morph.c 393-394): an instruction is
appended. -/
def OrcProgram.ASM (p : OrcProgram) (op : String) (args : List OrcVar) : OrcProgram :=
  { p with insns := p.insns ++ [(op, args)] }

/-- The orc call `orc_program_find_var_by_name`: the place of the variable, or
-1 when the program has no variable of that name. -/
def orc_program_find_var_by_name (p : OrcProgram) (v : OrcVar) : Int :=
  if v ∈ p.vars then (p.vars.indexOf v : Int) else -1

/-- The C struct `Pass` (morph.c 90-107); `program` is `none` until
`vips_morph_compile_section` makes it. -/
structure Pass where
  first : Int
  last : Int
  r : Int
  d1 : Int
  n_const : Int
  n_scanline : Int
  line : Nat → Int
  program : Option OrcProgram

/-- The fields `n_pass` and `pass` of the C struct `VipsMorph` (morph.c
136-140). -/
structure VipsMorphPasses where
  n_pass : Int
  pass : Nat → Pass

/-- The body of the loop of `vips_morph_compile_section` for a tap that is
not 128, up to the two tests that leave the loop (morph.c 443-483). -/
def vips_morph_compile_section_tap (morph : VipsMorph) (i : Int) (st : Pass × OrcProgram) :
    Pass × OrcProgram :=
  let x := Int.tmod i morph.M.Xsize
  let y := Int.tdiv i morph.M.Xsize
  let st : Pass × OrcProgram :=
    if orc_program_find_var_by_name st.2 (OrcVar.sl y) = -1 then
      ({ st.1 with
          line := fun j => if j = st.1.n_scanline.toNat then y else st.1.line j
          n_scanline := st.1.n_scanline + 1 },
        st.2.add_var (OrcVar.sl y))
    else st
  let st : Pass × OrcProgram :=
    if x > 0 then
      let st : Pass × OrcProgram :=
        if orc_program_find_var_by_name st.2 (OrcVar.c x) = -1 then
          ({ st.1 with n_const := st.1.n_const + 1 },
            st.2.CONST (OrcVar.c x) (morph.in_.Bands * x))
        else st
      (st.1, st.2.ASM "loadoffb" [OrcVar.value, OrcVar.sl y, OrcVar.c x])
    else (st.1, st.2.ASM "loadb" [OrcVar.value, OrcVar.sl y])
  let p :=
    if morph.morph = VIPS_OPERATION_MORPHOLOGY_DILATE then
      let p :=
        if morph.coeff i.toNat = 0 then
          st.2.ASM "xorb" [OrcVar.value, OrcVar.value, OrcVar.one]
        else st.2
      p.ASM "orb" [OrcVar.sum, OrcVar.sum, OrcVar.value]
    else
      if morph.coeff i.toNat = 0 then
        (st.2.ASM "xorb" [OrcVar.value, OrcVar.value, OrcVar.one]).ASM "andb"
          [OrcVar.sum, OrcVar.sum, OrcVar.value]
      else st.2.ASM "andb" [OrcVar.sum, OrcVar.sum, OrcVar.value]
  (st.1, p)

/-- The loop of `vips_morph_compile_section` (morph.c 431-484) from index `i`
on with `todo` taps left before `n_point`: the pass and the program as the
loop leaves them, and the value of `i` then. -/
def vips_morph_compile_section_loop (morph : VipsMorph) :
    Nat → Int → Pass × OrcProgram → (Pass × OrcProgram) × Int
  | 0, i, st => (st, i)
  | todo + 1, i, st =>
    if morph.coeff i.toNat = 128 then vips_morph_compile_section_loop morph todo (i + 1) st
    else
      let st := vips_morph_compile_section_tap morph i st
      if st.1.n_const ≥ 7 then (st, i)
      else if st.1.n_scanline + 1 ≥ 7 then (st, i)
      else vips_morph_compile_section_loop morph todo (i + 1) st

/-- The C function `vips_morph_compile_section` (morph.c 398-500): the pass as
the function leaves it, and what it returns (0 or -1). -/
def vips_morph_compile_section (orc : OrcEnv) (morph : VipsMorph) (pass : Pass)
    (first_pass : Bool) : Pass × Int :=
  let p := orc_program_new
  let pass := { pass with program := some p }
  let pass := { pass with d1 := orc.orc_program_add_destination p OrcVar.d1 }
  let p := p.add_var OrcVar.d1
  let pass := { pass with r := orc.orc_program_add_source p OrcVar.r }
  let p := p.add_var OrcVar.r
  if pass.r = (0 : Int) then ({ pass with program := some p }, (-1 : Int))
  else
    let p := (p.add_var OrcVar.value).add_var OrcVar.sum
    let p := (p.CONST OrcVar.zero 0).CONST OrcVar.one 255
    let pass := { pass with n_const := pass.n_const + 2 }
    let p :=
      if first_pass then
        if morph.morph = VIPS_OPERATION_MORPHOLOGY_DILATE then
          p.ASM "copyb" [OrcVar.sum, OrcVar.zero]
        else p.ASM "copyb" [OrcVar.sum, OrcVar.one]
      else p.ASM "loadb" [OrcVar.sum, OrcVar.r]
    let res :=
      vips_morph_compile_section_loop morph (morph.n_point - pass.first).toNat pass.first
        (pass, p)
    let pass := { res.1.1 with last := res.2 }
    let p := res.1.2.ASM "copyb" [OrcVar.d1, OrcVar.sum]
    let pass := { pass with program := some p }
    if !orc.orc_program_compile p then (pass, -1) else (pass, 0)

/-- The loop that skips the taps that are 128 in `vips_morph_compile`
(morph.c 551-552), from index `i` on with `todo` taps left before
`n_point`. -/
def vips_morph_compile_skip (morph : VipsMorph) : Nat → Int → Int
  | 0, i => i
  | todo + 1, i =>
    if morph.coeff i.toNat = 128 then vips_morph_compile_skip morph todo (i + 1) else i

/-- The outer loop of `vips_morph_compile` (morph.c 547-574) from index `i`
on: the passes as the function leaves them and what it returns (0 or -1);
`none` when the loop has not ended after `fuel` turns. -/
def vips_morph_compile_loop (orc : OrcEnv) (morph : VipsMorph) :
    Nat → Int → VipsMorphPasses → Option (VipsMorphPasses × Int)
  | 0, _, _ => none
  | fuel + 1, i, ps =>
    let i := vips_morph_compile_skip morph (morph.n_point - i).toNat i
    if i = morph.n_point then some (ps, 0)
    else if ps.n_pass = MAX_PASS then some (ps, -1)
    else
      let k := ps.n_pass.toNat
      let ps := { ps with n_pass := ps.n_pass + 1 }
      let pass :=
        { ps.pass k with first := i, last := i, r := -1, n_const := 0, n_scanline := 0 }
      let res := vips_morph_compile_section orc morph pass (decide (ps.n_pass = (1 : Int)))
      let ps := { ps with pass := fun j => if j = k then res.1 else ps.pass j }
      if res.2 ≠ 0 then some (ps, -1)
      else
        let i := res.1.last + 1
        if i ≥ morph.n_point then some (ps, 0)
        else vips_morph_compile_loop orc morph fuel i ps

/-- The C function `vips_morph_compile` (morph.c 534-579). Each turn of its
loop moves on by at least one tap, so `n_point + 1` turns are enough. -/
def vips_morph_compile (orc : OrcEnv) (morph : VipsMorph) (ps : VipsMorphPasses) :
    Option (VipsMorphPasses × Int) :=
  vips_morph_compile_loop orc morph (morph.n_point.toNat + 1) 0 ps

/-- The generate functions `vips_morph_build` picks from when `HAVE_ORC` is
defined. -/
inductive VipsMorphGenerateOrc where
  | vips_morph_gen_vector
  | vips_dilate_gen
  | vips_erode_gen
deriving DecidableEq, Repr

/-- The choice of the generate function in `vips_morph_build` when `HAVE_ORC`
is defined and `HAVE_HWY` is not (morph.c 903-917): the passes as the choice
leaves them and the function chosen; `none` when `vips_morph_compile` has not
returned. `vips_vector_isenabled` is the result of the call of that name. -/
def vips_morph_build_generate (orc : OrcEnv) (vips_vector_isenabled : Bool)
    (morph : VipsMorph) (ps : VipsMorphPasses) :
    Option (VipsMorphPasses × VipsMorphGenerateOrc) :=
  let scalar :=
    if morph.morph = VIPS_OPERATION_MORPHOLOGY_DILATE then VipsMorphGenerateOrc.vips_dilate_gen
    else VipsMorphGenerateOrc.vips_erode_gen
  if vips_vector_isenabled then
    (vips_morph_compile orc morph ps).map fun res =>
      if res.2 = 0 then (res.1, VipsMorphGenerateOrc.vips_morph_gen_vector)
      else (res.1, scalar)
  else some (ps, scalar)

/-- What `vips_morph_build` leaves in `morph->out` when `HAVE_ORC` is
defined. -/
structure VipsMorphOutOrc where
  in_ : VipsImage
  generate : VipsMorphGenerateOrc
  Xsize : Int
  Ysize : Int
  Xoffset : Int
  Yoffset : Int

/-- The C function `vips_morph_build` (morph.c 827-940) when `HAVE_ORC` is
defined and `HAVE_HWY` is not: the steps of `vips_morph_build` up to the
coefficients, then the choice of `vips_morph_build_generate` in place of the C
path, then the same output fields. `none` when `vips_morph_compile` has not
returned. -/
def vips_morph_build_orc (env : MorphEnv) (orc : OrcEnv) (vips_vector_isenabled : Bool)
    (morph : VipsMorph) (ps : VipsMorphPasses) :
    Option ((VipsMorph × VipsMorphPasses) × Except VipsError VipsMorphOutOrc) :=
  match vips_morph_build env morph with
  | (morph, .error e) => some ((morph, ps), .error e)
  | (morph, .ok out) =>
    (vips_morph_build_generate orc vips_vector_isenabled morph ps).map fun res =>
      ((morph, res.1),
        .ok { in_ := out.in_
              generate := res.2
              Xsize := out.Xsize
              Ysize := out.Ysize
              Xoffset := out.Xoffset
              Yoffset := out.Yoffset })

/-- An orc for examples: the variable numbers are 1 more than the place, and
every program compiles. -/
def example_orc : OrcEnv :=
  { orc_program_add_destination := fun p _ => (p.vars.length : Int) + 1
    orc_program_add_source := fun p _ => (p.vars.length : Int) + 1
    orc_program_compile := fun _ => true }

/-- The passes of an object that has just been made: none. -/
def example_passes : VipsMorphPasses :=
  { n_pass := 0
    pass := fun _ =>
      { first := 0, last := 0, r := 0, d1 := 0, n_const := 0, n_scanline := 0,
        line := fun _ => 0, program := none } }

/-- What holds of the passes made so far when the outer loop of
`vips_morph_compile` is at index `i`: there are at most `MAX_PASS`; each
starts at a tap that is not 128, ends before `i`, holds 2 to 7 constants and
at most 6 scanlines, and has a program that compiled; a later pass starts
after an earlier one ends; and every tap below `i` that is not 128 lies in
the range of a pass. -/
def passes_ok (orc : OrcEnv) (morph : VipsMorph) (ps : VipsMorphPasses) (i : Int) : Prop :=
  0 ≤ ps.n_pass ∧ ps.n_pass ≤ MAX_PASS ∧
  (∀ k : Nat, (k : Int) < ps.n_pass →
    0 ≤ (ps.pass k).first ∧ (ps.pass k).first ≤ (ps.pass k).last ∧
    (ps.pass k).first < morph.n_point ∧ (ps.pass k).last < i ∧
    morph.coeff (ps.pass k).first.toNat ≠ 128 ∧
    2 ≤ (ps.pass k).n_const ∧ (ps.pass k).n_const ≤ 7 ∧
    0 ≤ (ps.pass k).n_scanline ∧ (ps.pass k).n_scanline ≤ 6 ∧
    (ps.pass k).r ≠ 0 ∧
    ∃ p, (ps.pass k).program = some p ∧ orc.orc_program_compile p = true) ∧
  (∀ k k2 : Nat, k < k2 → (k2 : Int) < ps.n_pass → (ps.pass k).last < (ps.pass k2).first) ∧
  (∀ j : Int, 0 ≤ j → j < i → j < morph.n_point → morph.coeff j.toNat ≠ 128 →
    ∃ k : Nat, (k : Int) < ps.n_pass ∧ (ps.pass k).first ≤ j ∧ j ≤ (ps.pass k).last)

/-- Why `vips_morph_compile` returns -1: `MAX_PASS` passes are made and a tap
that is not 128 lies after all of them, or the section of the last pass made
did not compile. -/
def compile_failed (orc : OrcEnv) (morph : VipsMorph) (ps : VipsMorphPasses) : Prop :=
  (ps.n_pass = MAX_PASS ∧
    ∃ j : Int, 0 ≤ j ∧ j < morph.n_point ∧ morph.coeff j.toNat ≠ 128 ∧
      ∀ k : Nat, (k : Int) < ps.n_pass → (ps.pass k).last < j) ∨
  (∃ k : Nat, (k : Int) + 1 = ps.n_pass ∧
    ((ps.pass k).r = 0 ∨
      ∃ p, (ps.pass k).program = some p ∧ orc.orc_program_compile p = false))

/-- An orc for examples whose compiler always fails. -/
def example_orc_fails : OrcEnv :=
  { example_orc with orc_program_compile := fun _ => false }

/-- A morph object as `vips_morph_build` leaves it for a mask of one line of
60 coefficients that are all 255. -/
def example_morph_wide : VipsMorph :=
  { example_morph_built with
    mask := example_mask 60 1 (List.replicate 60 255)
    M := example_mask 60 1 (List.replicate 60 255)
    n_point := 60 }


/-! ## Binary floating point

The definitions of reduceh.cpp above follow the arithmetic of the reals. The
ones below round the result of every `double` operation as the machine does. -/

/-- Rounding of a real to the nearest value of the binary floating-point format
with `prec` significand bits whose smallest positive value is `2 ^ emin`, a tie
going to the even significand (the default mode of IEEE 754). Values beyond the
largest finite one of the format, which round to an infinity, do not arise in
this development. -/
def ieee_round (prec : Nat) (emin : Int) (x : ℚ) : ℚ :=
  (rint (x / 2 ^ max (Int.log 2 |x| - ((prec : Int) - 1)) emin) : ℚ) *
    2 ^ max (Int.log 2 |x| - ((prec : Int) - 1)) emin

/-- The rounding of a real to a C `double`. -/
def binary64 (x : ℚ) : ℚ := ieee_round 53 (-1074) x

/-- The rounding of a real to a C `float`. -/
def binary32 (x : ℚ) : ℚ := ieee_round 24 (-149) x

/-- Modelled from the spec: `VIPS_ROUND_UINT` (vips/util.h is not among the
sources embedded here), as `VIPS_ROUND_UINT` above with the sum rounded to
binary64: `(int) (x + 0.5)`. -/
def VIPS_ROUND_UINT_binary64 (x : ℚ) : Int := double_to_int (binary64 (x + 1 / 2))

/-- The C function `vips_reduce_get_points` (reduceh.cpp 112-142) with every
`double` operation rounded: the product inside `rint`, the doubling and the
sum. `shrink` is a `double`, so `rint (shrink)` has nothing to round. -/
def vips_reduce_get_points_binary64 (kernel : VipsKernel) (shrink : ℚ) : Int :=
  match kernel with
  | VIPS_KERNEL_NEAREST => 1
  | VIPS_KERNEL_LINEAR => double_to_int (binary64 (binary64 (2 * (rint shrink : ℚ)) + 1))
  | VIPS_KERNEL_CUBIC | VIPS_KERNEL_MITCHELL =>
    double_to_int (binary64 (binary64 (2 * (rint (binary64 (2 * shrink)) : ℚ)) + 1))
  | VIPS_KERNEL_LANCZOS2 =>
    double_to_int (binary64 (binary64 (2 * (rint (binary64 (2 * shrink)) : ℚ)) + 1))
  | VIPS_KERNEL_LANCZOS3 =>
    double_to_int (binary64 (binary64 (2 * (rint (binary64 (3 * shrink)) : ℚ)) + 1))
  | VIPS_KERNEL_MKS2013 =>
    double_to_int (binary64 (binary64 (2 * (rint (binary64 (3 * shrink)) : ℚ)) + 1))
  | VIPS_KERNEL_MKS2021 =>
    double_to_int (binary64 (binary64 (2 * (rint (binary64 (5 * shrink)) : ℚ)) + 1))

/-- The `gap` block of `vips_reduceh_build` (reduceh.cpp 433-457) with every
`double` operation rounded. For `width` = 0 the quotient is an infinity and its
conversion to `int` is undefined in C: the model stops there with a message of
its own. -/
def vips_reduceh_build_gap_binary64 (env : ReducehEnv) (reduceh : VipsReduceh)
    (in_ : VipsImage) (width : Int) (extra_pixels : ℚ) : Except String ReducehGap :=
  if 0 < reduceh.gap ∧ reduceh.kernel ≠ VIPS_KERNEL_NEAREST then
    if reduceh.gap < 1 then .error "reduce gap should be >= 1.0"
    else if width = 0 then .error "undefined: an infinity converted to int"
    else
      let int_hshrink : Int :=
        double_to_int
          (max 1 (⌊binary64 (binary64 ((in_.Xsize : ℚ) / width) / reduceh.gap)⌋ : ℚ))
      if int_hshrink > 1 then
        match env.vips_shrinkh in_ int_hshrink with
        | none => .error "shrinkh"
        | some t0 =>
          .ok { in_ := t0
                residual_hshrink := binary64 (reduceh.residual_hshrink / int_hshrink)
                extra_pixels := binary64 (extra_pixels / int_hshrink)
                int_hshrink := some int_hshrink
                shrunk := true }
      else
        .ok { in_ := in_, residual_hshrink := reduceh.residual_hshrink,
              extra_pixels := extra_pixels, int_hshrink := some int_hshrink, shrunk := false }
  else
    .ok { in_ := in_, residual_hshrink := reduceh.residual_hshrink,
          extra_pixels := extra_pixels, int_hshrink := none, shrunk := false }

/-- The C function `vips_reduceh_build` (reduceh.cpp 392-564) with every
`double` operation rounded to binary64 (and the `float` quotient of line 494 to
binary32): the object as the function leaves it, and what it returns. An `int`
is below `2 ^ 31`, so its conversion to `double` rounds nothing. As for
`vips_reduceh_build`, the model follows the path on which the parent class
build, `VIPS_ARRAY`, `vips_image_pipelinev` and `vips_image_generate`
succeed. -/
def vips_reduceh_build_binary64 (env : ReducehEnv) (reduceh : VipsReduceh) :
    VipsReduceh × Except String VipsReducehOut :=
  let in_ := reduceh.in_
  if reduceh.hshrink < 1 then (reduceh, .error "reduce factor should be >= 1.0")
  else
    let width := VIPS_ROUND_UINT_binary64 (binary64 ((in_.Xsize : ℚ) / reduceh.hshrink))
    let extra_pixels : ℚ := binary64 (binary64 ((width : ℚ) * reduceh.hshrink) - in_.Xsize)
    let reduceh := { reduceh with residual_hshrink := reduceh.hshrink }
    match vips_reduceh_build_gap_binary64 env reduceh in_ width extra_pixels with
    | .error e => (reduceh, .error e)
    | .ok g =>
      let in_ := g.in_
      let reduceh := { reduceh with residual_hshrink := g.residual_hshrink }
      let extra_pixels := g.extra_pixels
      if reduceh.residual_hshrink = 1 then (reduceh, .ok (.write (vips_image_write in_)))
      else
        let reduceh :=
          { reduceh with
            n_point := vips_reduce_get_points_binary64 reduceh.kernel reduceh.residual_hshrink }
        if reduceh.n_point > env.MAX_POINT then (reduceh, .error "reduce factor too large")
        else
          let reduceh :=
            { reduceh with hoffset := binary64 (binary64 (binary64 (1 + extra_pixels) / 2) - 1) }
          let matrixf : Nat → List ℚ := fun x =>
            env.vips_reduce_make_mask reduceh.kernel reduceh.n_point reduceh.residual_hshrink
              (binary32 ((x : ℚ) / env.VIPS_TRANSFORM_SCALE))
          let matrixs : Nat → List Int := fun x =>
            (matrixf x).map fun c => double_to_int (binary64 (c * env.VIPS_INTERPOLATE_SCALE))
          let reduceh := { reduceh with matrixf := some matrixf, matrixs := some matrixs }
          match env.vips_image_decode in_ with
          | none => (reduceh, .error "decode")
          | some t1 =>
            match vips_embed t1
                (double_to_int (binary64 ((⌈binary64 ((reduceh.n_point : ℚ) / 2)⌉ : ℚ) - 1))) 0
                (t1.Xsize + reduceh.n_point) t1.Ysize (some VIPS_EXTEND_COPY) with
            | .error e => (reduceh, .error e)
            | .ok t2 =>
              let reduceh := { reduceh with out_Xsize := some width }
              if width ≤ 0 then (reduceh, .error "image has shrunk to nothing")
              else (reduceh, .ok (.generate t2 width t2.Ysize))

/-- The `double` 6.000000000000001, the next one above 6. -/
def example_double_6_up : ℚ := 6 + 1 / 2 ^ 50

/-! ## Lemmas: loops and pel moves -/

theorem forLoop_succ {σ : Type} (body : Nat → σ → Option σ) (n : Nat) (s : σ) :
    forLoop body (n + 1) s = (forLoop body n s).bind (body n) := rfl

theorem includespoint_iff (r : VipsRect) (x y : Int) :
    r.includespoint x y = true ↔
      r.left ≤ x ∧ x < r.left + r.width ∧ r.top ≤ y ∧ y < r.top + r.height := by
  simp only [VipsRect.includespoint, Bool.and_eq_true, decide_eq_true_eq]
  tauto

theorem store_eq (r : VipsRect) (f : Int → Int → Option VipsPel) (ir : VipsRegion)
    (x y : Int) (v : VipsPel) (h : r.includespoint x y = true) :
    GenState.store ⟨⟨r, f⟩, ir⟩ x y v =
      some ⟨⟨r, fun a b => if a = x ∧ b = y then some v else f a b⟩, ir⟩ := by
  simp [GenState.store, VipsRegion.set, h]

theorem load_out (r : VipsRect) (f : Int → Int → Option VipsPel) (ir : VipsRegion)
    (p : PelPtr) (k : Int) (hp : p.intoOut = true) (h : r.includespoint (p.x + k) p.y = true) :
    GenState.load ⟨⟨r, f⟩, ir⟩ p k = f (p.x + k) p.y := by
  simp [GenState.load, VipsRegion.get, h, hp]

theorem load_ir (o ir : VipsRegion) (p : PelPtr) (k : Int) (hp : p.intoOut = false) :
    GenState.load ⟨o, ir⟩ p k = ir.get (p.x + k) p.y := by
  simp [GenState.load, hp]

/-- What a load sees does not change when `out_region` keeps the pel it reads. -/
theorem load_congr (r : VipsRect) (f g : Int → Int → Option VipsPel) (ir : VipsRegion)
    (p : PelPtr) (k : Int) (h : p.intoOut = true → g (p.x + k) p.y = f (p.x + k) p.y) :
    GenState.load ⟨⟨r, g⟩, ir⟩ p k = GenState.load ⟨⟨r, f⟩, ir⟩ p k := by
  unfold GenState.load VipsRegion.get
  by_cases hp : p.intoOut = true
  · simp only [hp, if_true, h hp]
  · simp only [hp]
    rfl

theorem copy_pixel_loop (r : VipsRect) (f : Int → Int → Option VipsPel) (ir : VipsRegion)
    (qx qy : Int) (p : PelPtr) (v : VipsPel) (n : Nat)
    (hrow : ∀ k : Int, 0 ≤ k → k < n → r.includespoint (qx + k) qy = true)
    (hload : GenState.load ⟨⟨r, f⟩, ir⟩ p 0 = some v)
    (hp : p.intoOut = true → ¬(p.y = qy ∧ qx ≤ p.x ∧ p.x < qx + n)) :
    forLoop (fun x (s : GenState) => (s.load p 0).bind fun v => s.store (qx + x) qy v) n
        ⟨⟨r, f⟩, ir⟩ =
      some ⟨⟨r, fun a b => if b = qy ∧ qx ≤ a ∧ a < qx + n then some v else f a b⟩, ir⟩ := by
  induction n with
  | zero =>
    simp only [forLoop, Option.some.injEq]
    congr 2
    funext a b
    have : ¬(b = qy ∧ qx ≤ a ∧ a < qx + ((0 : Nat) : Int)) := by omega
    simp only [this, if_false]
  | succ m ih =>
    rw [forLoop_succ, ih (fun k h0 h1 => hrow k h0 (by push_cast; omega))
      (fun h => by have := hp h; push_cast at this; omega)]
    simp only [Option.some_bind]
    rw [load_congr, hload]
    · simp only [Option.some_bind]
      rw [store_eq _ _ _ _ _ _ (hrow m (by omega) (by push_cast; omega))]
      congr 3
      funext a b
      push_cast
      split_ifs <;> first | rfl | (exfalso; omega)
    · intro h
      have := hp h
      push_cast at this
      have h3 : ¬(p.y = qy ∧ qx ≤ p.x + 0 ∧ p.x + 0 < qx + m) := by omega
      simp only [h3, if_false]

theorem forLoop_chain {σ : Type} (body : Nat → σ → Option σ) (S : Nat → σ) (n : Nat)
    (h : ∀ k, k < n → body k (S k) = some (S (k + 1))) :
    forLoop body n (S 0) = some (S n) := by
  induction n with
  | zero => rfl
  | succ m ih =>
    rw [forLoop_succ, ih (fun k hk => h k (by omega))]
    exact h m (by omega)

theorem forLoop_inv {σ : Type} (body : Nat → σ → Option σ) (Inv : Nat → σ → Prop) (n : Nat)
    (s : σ) (h0 : Inv 0 s)
    (h : ∀ k s, k < n → Inv k s → ∃ s', body k s = some s' ∧ Inv (k + 1) s') :
    ∃ s', forLoop body n s = some s' ∧ Inv n s' := by
  induction n with
  | zero => exact ⟨s, rfl, h0⟩
  | succ m ih =>
    obtain ⟨s1, e1, i1⟩ := ih (fun k s hk => h k s (by omega))
    obtain ⟨s2, e2, i2⟩ := h m s1 (by omega) i1
    exact ⟨s2, by rw [forLoop_succ, e1]; exact e2, i2⟩

theorem copy_pixel_eq (r : VipsRect) (f : Int → Int → Option VipsPel) (ir : VipsRegion)
    (qx qy : Int) (p : PelPtr) (v : VipsPel) (n : Int)
    (hrow : ∀ k : Int, 0 ≤ k → k < n → r.includespoint (qx + k) qy = true)
    (hload : GenState.load ⟨⟨r, f⟩, ir⟩ p 0 = some v)
    (hp : p.intoOut = true → ¬(p.y = qy ∧ qx ≤ p.x ∧ p.x < qx + n)) :
    vips_embed_base_copy_pixel qx qy p n ⟨⟨r, f⟩, ir⟩ =
      some ⟨⟨r, fun a b => if b = qy ∧ qx ≤ a ∧ a < qx + n then some v else f a b⟩, ir⟩ := by
  unfold vips_embed_base_copy_pixel
  rw [copy_pixel_loop r f ir qx qy p v n.toNat (fun k h0 h1 => hrow k h0 (by omega)) hload
    (fun h => by have := hp h; omega)]
  congr 3
  funext a b
  split_ifs <;> first | rfl | (exfalso; omega)

theorem memcpy_pels_loop (r : VipsRect) (f : Int → Int → Option VipsPel) (ir : VipsRegion)
    (qx qy : Int) (p : PelPtr) (g : Int → VipsPel) (n : Nat)
    (hrow : ∀ k : Int, 0 ≤ k → k < n → r.includespoint (qx + k) qy = true)
    (hload : ∀ k : Int, 0 ≤ k → k < n → GenState.load ⟨⟨r, f⟩, ir⟩ p k = some (g k))
    (hp : p.intoOut = true → p.y ≠ qy) :
    forLoop (fun k (s : GenState) => (s.load p k).bind fun v => s.store (qx + k) qy v) n
        ⟨⟨r, f⟩, ir⟩ =
      some ⟨⟨r, fun a b => if b = qy ∧ qx ≤ a ∧ a < qx + n then some (g (a - qx)) else f a b⟩,
        ir⟩ := by
  have key := forLoop_chain
    (fun k (s : GenState) => (s.load p k).bind fun v => s.store (qx + k) qy v)
    (fun m => (⟨⟨r, fun a b =>
      if b = qy ∧ qx ≤ a ∧ a < qx + m then some (g (a - qx)) else f a b⟩, ir⟩ : GenState)) n
    (by
      intro m hm
      simp only
      rw [load_congr r f, hload m (by omega) (by omega)]
      · simp only [Option.some_bind]
        rw [store_eq _ _ _ _ _ _ (hrow m (by omega) (by omega))]
        congr 3
        funext a b
        push_cast
        split_ifs with h1 h2 h3 <;> first | rfl | (exfalso; omega) | skip
        · obtain ⟨h1a, h1b⟩ := h1
          subst h1a
          simp
      · intro h
        have := hp h
        have h3 : ¬(p.y = qy ∧ qx ≤ p.x + m ∧ p.x + m < qx + m) := by omega
        simp only [h3, if_false])
  rw [← key]
  congr 3
  funext a b
  split_ifs <;> first | rfl | (exfalso; omega)

theorem memcpy_pels_eq (r : VipsRect) (f : Int → Int → Option VipsPel) (ir : VipsRegion)
    (qx qy : Int) (p : PelPtr) (g : Int → VipsPel) (n : Int)
    (hrow : ∀ k : Int, 0 ≤ k → k < n → r.includespoint (qx + k) qy = true)
    (hload : ∀ k : Int, 0 ≤ k → k < n → GenState.load ⟨⟨r, f⟩, ir⟩ p k = some (g k))
    (hp : p.intoOut = true → p.y ≠ qy) :
    memcpy_pels qx qy p n ⟨⟨r, f⟩, ir⟩ =
      some ⟨⟨r, fun a b => if b = qy ∧ qx ≤ a ∧ a < qx + n then some (g (a - qx)) else f a b⟩,
        ir⟩ := by
  unfold memcpy_pels
  have h1 : ¬(p.intoOut = true ∧ p.y = qy ∧ p.x < qx + n ∧ qx < p.x + n) := by
    intro h
    exact hp h.1 h.2.1
  rw [if_neg h1, memcpy_pels_loop r f ir qx qy p g n.toNat
    (fun k h0 h1 => hrow k h0 (by omega)) (fun k h0 h1 => hload k h0 (by omega)) hp]
  congr 3
  funext a b
  split_ifs <;> first | rfl | (exfalso; omega)

theorem paint_edge_rows (i : Nat) (hi : i = 0 ∨ i = 2) (r : VipsRect)
    (f : Int → Int → Option VipsPel) (ir : VipsRegion) (todo : VipsRect) (p : PelPtr)
    (g : Int → VipsPel)
    (hin : ∀ a b, todo.includespoint a b = true → r.includespoint a b = true)
    (hload : ∀ k : Int, 0 ≤ k → k < todo.width → GenState.load ⟨⟨r, f⟩, ir⟩ p k = some (g k))
    (hp : p.intoOut = true → ¬(todo.top ≤ p.y ∧ p.y < todo.top + todo.height)) :
    vips_embed_base_paint_edge i todo p ⟨⟨r, f⟩, ir⟩ =
      some ⟨⟨r, fun a b =>
        if todo.includespoint a b = true then some (g (a - todo.left)) else f a b⟩, ir⟩ := by
  have h3 : ¬(i > 3) := by omega
  have h13 : ¬(i = 1 ∨ i = 3) := by omega
  unfold vips_embed_base_paint_edge
  simp only [h3, h13, if_false, Option.some_bind]
  have key := forLoop_chain
    (fun (y : Nat) (s : GenState) => memcpy_pels todo.left (todo.top + y) p todo.width s)
    (fun m => (⟨⟨r, fun a b =>
      if todo.left ≤ a ∧ a < todo.left + todo.width ∧ todo.top ≤ b ∧ b < todo.top + m
      then some (g (a - todo.left)) else f a b⟩, ir⟩ : GenState)) todo.height.toNat
    (by
      intro m hm
      simp only
      rw [memcpy_pels_eq _ _ _ _ _ _ g]
      · congr 3
        funext a b
        push_cast
        split_ifs <;> first | rfl | (exfalso; omega)
      · intro k h0 h1
        apply hin
        rw [includespoint_iff]
        omega
      · intro k h0 h1
        rw [load_congr r f, hload k h0 h1]
        intro h
        have := hp h
        have h4 : ¬(todo.left ≤ p.x + k ∧ p.x + k < todo.left + todo.width ∧
          todo.top ≤ p.y ∧ p.y < todo.top + m) := by omega
        simp only [h4, if_false]
      · intro h
        have := hp h
        omega)
  have e0 : (⟨⟨r, f⟩, ir⟩ : GenState) = ⟨⟨r, fun a b =>
      if todo.left ≤ a ∧ a < todo.left + todo.width ∧ todo.top ≤ b ∧ b < todo.top + (0 : Nat)
      then some (g (a - todo.left)) else f a b⟩, ir⟩ := by
    congr 2
    funext a b
    split_ifs <;> first | rfl | (exfalso; omega)
  beta_reduce at key
  rw [e0, key]
  congr 3
  funext a b
  simp only [includespoint_iff]
  split_ifs <;> first | rfl | (exfalso; omega)

theorem paint_edge_cols (i : Nat) (hi : i = 1 ∨ i = 3) (r : VipsRect)
    (f : Int → Int → Option VipsPel) (ir : VipsRegion) (todo : VipsRect) (p : PelPtr)
    (g : Int → VipsPel)
    (hin : ∀ a b, todo.includespoint a b = true → r.includespoint a b = true)
    (hload : ∀ k : Int, 0 ≤ k → k < todo.height →
      GenState.load ⟨⟨r, f⟩, ir⟩ { p with y := p.y + k } 0 = some (g k))
    (hp : p.intoOut = true → ¬(todo.left ≤ p.x ∧ p.x < todo.left + todo.width)) :
    vips_embed_base_paint_edge i todo p ⟨⟨r, f⟩, ir⟩ =
      some ⟨⟨r, fun a b =>
        if todo.includespoint a b = true then some (g (b - todo.top)) else f a b⟩, ir⟩ := by
  have h3 : ¬(i > 3) := by omega
  unfold vips_embed_base_paint_edge
  simp only [h3, hi, if_false, if_true, Option.some_bind]
  have key := forLoop_chain
    (fun (y : Nat) (s : GenState) =>
      vips_embed_base_copy_pixel todo.left (todo.top + y) { p with y := p.y + y } todo.width s)
    (fun m => (⟨⟨r, fun a b =>
      if todo.left ≤ a ∧ a < todo.left + todo.width ∧ todo.top ≤ b ∧ b < todo.top + m
      then some (g (b - todo.top)) else f a b⟩, ir⟩ : GenState)) todo.height.toNat
    (by
      intro m hm
      simp only
      rw [copy_pixel_eq _ _ _ _ _ _ (g m)]
      · congr 3
        funext a b
        push_cast
        split_ifs with h1 h2 h3 <;> first | rfl | (exfalso; omega) | skip
        · have : b - todo.top = m := by omega
          rw [this]
      · intro k h0 h1
        apply hin
        rw [includespoint_iff]
        omega
      · rw [load_congr r f, hload m (by omega) (by omega)]
        intro h
        have := hp h
        simp only
        have h4 : ¬(todo.left ≤ p.x + 0 ∧ p.x + 0 < todo.left + todo.width ∧
          todo.top ≤ p.y + m ∧ p.y + m < todo.top + m) := by omega
        simp only [h4, if_false]
      · intro h
        have := hp h
        simp only
        omega)
  have e0 : (⟨⟨r, f⟩, ir⟩ : GenState) = ⟨⟨r, fun a b =>
      if todo.left ≤ a ∧ a < todo.left + todo.width ∧ todo.top ≤ b ∧ b < todo.top + (0 : Nat)
      then some (g (b - todo.top)) else f a b⟩, ir⟩ := by
    congr 2
    funext a b
    split_ifs <;> first | rfl | (exfalso; omega)
  beta_reduce at key
  rw [e0, key]
  congr 3
  funext a b
  simp only [includespoint_iff]
  split_ifs <;> first | rfl | (exfalso; omega)

theorem paint_edge_corner (i : Nat) (hi : 3 < i) (r : VipsRect)
    (f : Int → Int → Option VipsPel) (ir : VipsRegion) (todo : VipsRect) (p : PelPtr)
    (v : VipsPel)
    (hne : 0 < todo.width ∧ 0 < todo.height)
    (hin : ∀ a b, todo.includespoint a b = true → r.includespoint a b = true)
    (hload : GenState.load ⟨⟨r, f⟩, ir⟩ p 0 = some v)
    (hp : p.intoOut = true → todo.includespoint p.x p.y = false) :
    vips_embed_base_paint_edge i todo p ⟨⟨r, f⟩, ir⟩ =
      some ⟨⟨r, fun a b => if todo.includespoint a b = true then some v else f a b⟩, ir⟩ := by
  have h13 : ¬(i = 1 ∨ i = 3) := by omega
  have hp2 : p.intoOut = true →
      ¬(todo.left ≤ p.x ∧ p.x < todo.left + todo.width ∧ todo.top ≤ p.y ∧
        p.y < todo.top + todo.height) := by
    intro h
    have := hp h
    rw [← includespoint_iff, this]
    simp
  unfold vips_embed_base_paint_edge
  simp only [hi, h13, if_false, if_true]
  rw [copy_pixel_eq _ _ _ _ _ _ v _ _ hload]
  · simp only [Option.map_some', Option.some_bind]
    have key := forLoop_chain
      (fun (y : Nat) (s : GenState) =>
        memcpy_pels todo.left (todo.top + 1 + y) ⟨true, todo.left, todo.top⟩ todo.width s)
      (fun m => (⟨⟨r, fun a b =>
        if todo.left ≤ a ∧ a < todo.left + todo.width ∧ todo.top ≤ b ∧ b < todo.top + 1 + m
        then some v else f a b⟩, ir⟩ : GenState)) (todo.height - 1).toNat
      (by
        intro m hm
        simp only
        rw [memcpy_pels_eq _ _ _ _ _ _ (fun _ => v)]
        · congr 3
          funext a b
          push_cast
          split_ifs <;> first | rfl | (exfalso; omega)
        · intro k h0 h1
          apply hin
          rw [includespoint_iff]
          omega
        · intro k h0 h1
          rw [load_out _ _ _ _ _ rfl]
          · simp only
            have h4 : todo.left ≤ todo.left + k ∧ todo.left + k < todo.left + todo.width ∧
              todo.top ≤ todo.top ∧ todo.top < todo.top + 1 + m := by omega
            simp only [h4, and_self, if_true]
          · apply hin
            rw [includespoint_iff]
            simp only
            omega
        · intro _
          simp only
          omega)
    have e0 : (⟨⟨r, fun a b =>
        if b = todo.top ∧ todo.left ≤ a ∧ a < todo.left + todo.width then some v else f a b⟩,
        ir⟩ : GenState) = ⟨⟨r, fun a b =>
        if todo.left ≤ a ∧ a < todo.left + todo.width ∧ todo.top ≤ b ∧
          b < todo.top + 1 + (0 : Nat)
        then some v else f a b⟩, ir⟩ := by
      congr 2
      funext a b
      split_ifs <;> first | rfl | (exfalso; omega)
    beta_reduce at key
    rw [e0, key]
    congr 3
    funext a b
    simp only [includespoint_iff]
    split_ifs <;> first | rfl | (exfalso; omega)
  · intro h
    have := hp2 h
    omega
  · intro k h0 h1
    apply hin
    rw [includespoint_iff]
    omega

theorem in_borders_succ (base : VipsEmbedBase) (k : Nat) (a b : Int) :
    in_borders base (k + 1) a b = (in_borders base k a b || (base.border k).includespoint a b) := by
  simp [in_borders, List.range_succ, List.any_append]

theorem includespoint_intersect (r1 r2 : VipsRect) (a b : Int) :
    (vips_rect_intersectrect r1 r2).includespoint a b =
      (r1.includespoint a b && r2.includespoint a b) := by
  rw [Bool.eq_iff_iff]
  simp only [Bool.and_eq_true, includespoint_iff, vips_rect_intersectrect, VIPS_RECT_RIGHT,
    VIPS_RECT_BOTTOM]
  omega

theorem isempty_iff (r : VipsRect) :
    vips_rect_isempty r = true ↔ r.width ≤ 0 ∨ r.height ≤ 0 := by
  simp [vips_rect_isempty]

theorem includespoint_of_isempty (r : VipsRect) (h : vips_rect_isempty r = true) (a b : Int) :
    r.includespoint a b = false := by
  rw [isempty_iff] at h
  rw [Bool.eq_false_iff]
  intro h2
  rw [includespoint_iff] at h2
  omega

/-- Painting `r ∩ border k` with the expected pels moves the filled set on by one border. -/
theorem copy_filled_step (base : VipsEmbedBase) (r : VipsRect) (k : Nat)
    (val : Int → Int → VipsPel)
    (hval : ∀ a b, (vips_rect_intersectrect r (base.border k)).includespoint a b = true →
      val a b = embed_copy_pel base a b) :
    (fun a b => if (vips_rect_intersectrect r (base.border k)).includespoint a b = true
      then some (val a b) else copy_filled base r k a b) = copy_filled base r (k + 1) := by
  funext a b
  have hv := hval a b
  simp only [copy_filled, in_borders_succ, includespoint_intersect] at hv ⊢
  cases h1 : r.includespoint a b <;> cases h2 : (base.border k).includespoint a b <;>
    cases h3 : base.rsub.includespoint a b <;> cases h4 : in_borders base k a b <;>
    simp [h1, h2, h3, h4] at hv ⊢ <;> exact hv

/-- The explicit form of `border[i]` after the build. -/
theorem border_eq (b1 : VipsEmbedBase) :
    (vips_embed_base_build_border b1).border 0 =
        ⟨b1.rsub.left, 0, b1.rsub.width, b1.rsub.top⟩ ∧
    (vips_embed_base_build_border b1).border 1 =
        ⟨b1.rsub.left + b1.rsub.width, b1.rsub.top,
          b1.width - (b1.rsub.left + b1.rsub.width), b1.rsub.height⟩ ∧
    (vips_embed_base_build_border b1).border 2 =
        ⟨b1.rsub.left, b1.rsub.top + b1.rsub.height, b1.rsub.width,
          b1.height - (b1.rsub.top + b1.rsub.height)⟩ ∧
    (vips_embed_base_build_border b1).border 3 =
        ⟨0, b1.rsub.top, b1.rsub.left, b1.rsub.height⟩ ∧
    (vips_embed_base_build_border b1).border 4 = ⟨0, 0, b1.rsub.left, b1.rsub.top⟩ ∧
    (vips_embed_base_build_border b1).border 5 =
        ⟨b1.rsub.left + b1.rsub.width, 0,
          b1.width - (b1.rsub.left + b1.rsub.width), b1.rsub.top⟩ ∧
    (vips_embed_base_build_border b1).border 6 =
        ⟨b1.rsub.left + b1.rsub.width, b1.rsub.top + b1.rsub.height,
          b1.width - (b1.rsub.left + b1.rsub.width),
          b1.height - (b1.rsub.top + b1.rsub.height)⟩ ∧
    (vips_embed_base_build_border b1).border 7 =
        ⟨0, b1.rsub.top + b1.rsub.height, b1.rsub.left,
          b1.height - (b1.rsub.top + b1.rsub.height)⟩ :=
  ⟨rfl, rfl, rfl, rfl, rfl, rfl, rfl, rfl⟩

/-- A non-empty intersection lies in both rectangles. -/
theorem intersect_facts (a b : VipsRect)
    (h : vips_rect_isempty (vips_rect_intersectrect a b) = false) :
    0 < (vips_rect_intersectrect a b).width ∧ 0 < (vips_rect_intersectrect a b).height ∧
    (vips_rect_intersectrect a b).left = max a.left b.left ∧
    (vips_rect_intersectrect a b).top = max a.top b.top ∧
    (vips_rect_intersectrect a b).left + (vips_rect_intersectrect a b).width =
      min (a.left + a.width) (b.left + b.width) ∧
    (vips_rect_intersectrect a b).top + (vips_rect_intersectrect a b).height =
      min (a.top + a.height) (b.top + b.height) := by
  have h2 : ¬((vips_rect_intersectrect a b).width ≤ 0 ∨
      (vips_rect_intersectrect a b).height ≤ 0) := by
    rw [← isempty_iff, h]
    simp
  simp only [vips_rect_intersectrect, VIPS_RECT_RIGHT, VIPS_RECT_BOTTOM, true_and] at h2 ⊢
  omega

/-- Where the copy loop reads the edge pels from: the output region when part
of the input was pasted, else a freshly prepared input region. In both cases
the pels of `edge` are those of the input. -/
theorem gen_copy_source (base : VipsEmbedBase) (r : VipsRect) (i : Nat) (ir : VipsRegion)
    (hte : vips_rect_isempty (vips_rect_intersectrect r (base.border i)) = false)
    (hsub : vips_rect_includesrect base.rsub
      (vips_embed_base_find_edge base (vips_rect_intersectrect r (base.border i)) i) = true)
    (hok : base.x ≤ base.rsub.left ∧ base.y ≤ base.rsub.top ∧
      base.rsub.left + base.rsub.width ≤ base.x + base.in_.Xsize ∧
      base.rsub.top + base.rsub.height ≤ base.y + base.in_.Ysize)
    (her : vips_rect_isempty (vips_rect_intersectrect r base.rsub) = false →
      vips_rect_includesrect r
        (vips_embed_base_find_edge base (vips_rect_intersectrect r (base.border i)) i) = true) :
    ∃ ir' p, vips_embed_base_gen_copy base r (vips_rect_intersectrect r base.rsub) i
        ⟨⟨r, copy_filled base r i⟩, ir⟩ =
        vips_embed_base_paint_edge i (vips_rect_intersectrect r (base.border i)) p
          ⟨⟨r, copy_filled base r i⟩, ir'⟩ ∧
      (p.intoOut = true →
        p.x = (vips_embed_base_find_edge base (vips_rect_intersectrect r (base.border i)) i).left ∧
        p.y = (vips_embed_base_find_edge base (vips_rect_intersectrect r (base.border i)) i).top) ∧
      ∀ dx dy : Int, 0 ≤ dx →
        dx < (vips_embed_base_find_edge base (vips_rect_intersectrect r (base.border i)) i).width →
        0 ≤ dy →
        dy < (vips_embed_base_find_edge base (vips_rect_intersectrect r (base.border i)) i).height →
        GenState.load ⟨⟨r, copy_filled base r i⟩, ir'⟩ ⟨p.intoOut, p.x, p.y + dy⟩ dx =
          some (embed_copy_pel base
            ((vips_embed_base_find_edge base (vips_rect_intersectrect r (base.border i)) i).left + dx)
            ((vips_embed_base_find_edge base (vips_rect_intersectrect r (base.border i)) i).top + dy)) := by
  generalize hedge :
    vips_embed_base_find_edge base (vips_rect_intersectrect r (base.border i)) i = edge at *
  have hsub2 := hsub
  simp only [vips_rect_includesrect, VIPS_RECT_RIGHT, VIPS_RECT_BOTTOM, Bool.and_eq_true,
    decide_eq_true_eq] at hsub2
  have hpel : ∀ dx dy : Int, 0 ≤ dx → dx < edge.width → 0 ≤ dy → dy < edge.height →
      embed_copy_pel base (edge.left + dx) (edge.top + dy) =
        base.in_.pel (edge.left + dx - base.x) (edge.top + dy - base.y) := by
    intro dx dy h1 h2 h3 h4
    simp only [embed_copy_pel, clamp, VIPS_RECT_RIGHT, VIPS_RECT_BOTTOM]
    congr 1 <;> omega
  unfold vips_embed_base_gen_copy
  simp only [hte, Bool.not_false, if_true, hedge]
  by_cases hoe : vips_rect_isempty (vips_rect_intersectrect r base.rsub) = true
  · simp only [hoe, Bool.not_true, Bool.false_eq_true, if_false]
    have hprep : vips_rect_includesrect base.in_.rect
        { left := edge.left - base.x, top := edge.top - base.y, width := edge.width,
          height := edge.height } = true := by
      simp only [vips_rect_includesrect, VipsImage.rect, VIPS_RECT_RIGHT, VIPS_RECT_BOTTOM,
        Bool.and_eq_true, decide_eq_true_eq]
      omega
    simp only [vips_region_prepare, hprep, if_true, Option.some_bind]
    refine ⟨_, _, rfl, ?_, ?_⟩
    · intro h
      simp at h
    · intro dx dy h1 h2 h3 h4
      rw [load_ir _ _ _ _ rfl, hpel dx dy h1 h2 h3 h4]
      simp only [VipsRegion.get]
      have hpt : VipsRect.includespoint
          ⟨edge.left - base.x, edge.top - base.y, edge.width, edge.height⟩
          (edge.left - base.x + dx) (edge.top - base.y + dy) = true := by
        rw [includespoint_iff]
        simp only
        omega
      rw [if_pos hpt, if_pos hpt]
      congr 2 <;> omega
  · replace hoe : vips_rect_isempty (vips_rect_intersectrect r base.rsub) = false := by
      simpa using hoe
    simp only [hoe, Bool.not_false, if_true]
    refine ⟨ir, _, rfl, fun _ => ⟨rfl, rfl⟩, ?_⟩
    intro dx dy h1 h2 h3 h4
    have her2 := her hoe
    simp only [vips_rect_includesrect, VIPS_RECT_RIGHT, VIPS_RECT_BOTTOM, Bool.and_eq_true,
      decide_eq_true_eq] at her2
    have hr : r.includespoint (edge.left + dx) (edge.top + dy) = true := by
      rw [includespoint_iff]
      omega
    have hs : base.rsub.includespoint (edge.left + dx) (edge.top + dy) = true := by
      rw [includespoint_iff]
      omega
    rw [load_out _ _ _ _ _ rfl hr]
    simp only [copy_filled, hr, hs, Bool.true_or, Bool.and_self, if_true]

/-- The edge `vips_embed_base_find_edge` returns, in closed form, for each of
the eight borders. -/
theorem find_edge_eq (b1 : VipsEmbedBase) (hok : rsub_ok b1) (r : VipsRect) :
    (vips_rect_isempty (vips_rect_intersectrect r ((vips_embed_base_build_border b1).border 0)) = false →
      vips_embed_base_find_edge (vips_embed_base_build_border b1)
        (vips_rect_intersectrect r ((vips_embed_base_build_border b1).border 0)) 0 =
        ⟨(vips_rect_intersectrect r ((vips_embed_base_build_border b1).border 0)).left, b1.rsub.top,
         (vips_rect_intersectrect r ((vips_embed_base_build_border b1).border 0)).width, 1⟩) ∧
    (vips_rect_isempty (vips_rect_intersectrect r ((vips_embed_base_build_border b1).border 1)) = false →
      vips_embed_base_find_edge (vips_embed_base_build_border b1)
        (vips_rect_intersectrect r ((vips_embed_base_build_border b1).border 1)) 1 =
        ⟨b1.rsub.left + b1.rsub.width - 1,
         (vips_rect_intersectrect r ((vips_embed_base_build_border b1).border 1)).top, 1,
         (vips_rect_intersectrect r ((vips_embed_base_build_border b1).border 1)).height⟩) ∧
    (vips_rect_isempty (vips_rect_intersectrect r ((vips_embed_base_build_border b1).border 2)) = false →
      vips_embed_base_find_edge (vips_embed_base_build_border b1)
        (vips_rect_intersectrect r ((vips_embed_base_build_border b1).border 2)) 2 =
        ⟨(vips_rect_intersectrect r ((vips_embed_base_build_border b1).border 2)).left,
         b1.rsub.top + b1.rsub.height - 1,
         (vips_rect_intersectrect r ((vips_embed_base_build_border b1).border 2)).width, 1⟩) ∧
    (vips_rect_isempty (vips_rect_intersectrect r ((vips_embed_base_build_border b1).border 3)) = false →
      vips_embed_base_find_edge (vips_embed_base_build_border b1)
        (vips_rect_intersectrect r ((vips_embed_base_build_border b1).border 3)) 3 =
        ⟨b1.rsub.left,
         (vips_rect_intersectrect r ((vips_embed_base_build_border b1).border 3)).top, 1,
         (vips_rect_intersectrect r ((vips_embed_base_build_border b1).border 3)).height⟩) ∧
    (vips_rect_isempty (vips_rect_intersectrect r ((vips_embed_base_build_border b1).border 4)) = false →
      vips_embed_base_find_edge (vips_embed_base_build_border b1)
        (vips_rect_intersectrect r ((vips_embed_base_build_border b1).border 4)) 4 =
        ⟨b1.rsub.left, b1.rsub.top, 1, 1⟩) ∧
    (vips_rect_isempty (vips_rect_intersectrect r ((vips_embed_base_build_border b1).border 5)) = false →
      vips_embed_base_find_edge (vips_embed_base_build_border b1)
        (vips_rect_intersectrect r ((vips_embed_base_build_border b1).border 5)) 5 =
        ⟨b1.rsub.left + b1.rsub.width - 1, b1.rsub.top, 1, 1⟩) ∧
    (vips_rect_isempty (vips_rect_intersectrect r ((vips_embed_base_build_border b1).border 6)) = false →
      vips_embed_base_find_edge (vips_embed_base_build_border b1)
        (vips_rect_intersectrect r ((vips_embed_base_build_border b1).border 6)) 6 =
        ⟨b1.rsub.left + b1.rsub.width - 1, b1.rsub.top + b1.rsub.height - 1, 1, 1⟩) ∧
    (vips_rect_isempty (vips_rect_intersectrect r ((vips_embed_base_build_border b1).border 7)) = false →
      vips_embed_base_find_edge (vips_embed_base_build_border b1)
        (vips_rect_intersectrect r ((vips_embed_base_build_border b1).border 7)) 7 =
        ⟨b1.rsub.left, b1.rsub.top + b1.rsub.height - 1, 1, 1⟩) := by
  unfold rsub_ok at hok
  obtain ⟨in_, extend, es, bs, bi, width, height, ink, rout, rsub, border, x, y⟩ := b1
  obtain ⟨L, T, W, H⟩ := rsub
  obtain ⟨rl, rt, rw_, rh⟩ := r
  simp only at hok
  refine ⟨?_, ?_, ?_, ?_, ?_, ?_, ?_, ?_⟩ <;> intro hte <;>
    have ht := intersect_facts _ _ hte <;>
    simp only [vips_embed_base_find_edge, vips_embed_base_build_border, vips_rect_marginadjust,
      vips_rect_intersectrect, VIPS_RECT_RIGHT, VIPS_RECT_BOTTOM, true_or, or_true, if_true,
      OfNat.zero_ne_ofNat, OfNat.ofNat_ne_zero, OfNat.one_ne_ofNat, OfNat.ofNat_ne_one,
      Nat.reduceEqDiff, zero_ne_one, one_ne_zero,
      false_or, or_false, or_self, if_false, VipsRect.mk.injEq] at ht ⊢ <;>
    omega

theorem copy_rows_step (base : VipsEmbedBase) (r : VipsRect) (i : Nat) (hi : i = 0 ∨ i = 2)
    (ir : VipsRegion) (p : PelPtr) (edge : VipsRect)
    (hpo : p.intoOut = true → p.x = edge.left ∧ p.y = edge.top)
    (hload : ∀ dx dy : Int, 0 ≤ dx → dx < edge.width → 0 ≤ dy → dy < edge.height →
      GenState.load ⟨⟨r, copy_filled base r i⟩, ir⟩ ⟨p.intoOut, p.x, p.y + dy⟩ dx =
        some (embed_copy_pel base (edge.left + dx) (edge.top + dy)))
    (h1 : edge.left = (vips_rect_intersectrect r (base.border i)).left)
    (h2 : (vips_rect_intersectrect r (base.border i)).width ≤ edge.width)
    (h3 : 0 < edge.height)
    (h4 : ¬((vips_rect_intersectrect r (base.border i)).top ≤ edge.top ∧
      edge.top < (vips_rect_intersectrect r (base.border i)).top +
        (vips_rect_intersectrect r (base.border i)).height))
    (h5 : ∀ a b, (vips_rect_intersectrect r (base.border i)).includespoint a b = true →
      embed_copy_pel base a edge.top = embed_copy_pel base a b) :
    vips_embed_base_paint_edge i (vips_rect_intersectrect r (base.border i)) p
        ⟨⟨r, copy_filled base r i⟩, ir⟩ =
      some ⟨⟨r, copy_filled base r (i + 1)⟩, ir⟩ := by
  rw [paint_edge_rows i hi r _ ir _ p (fun k => embed_copy_pel base (edge.left + k) edge.top)]
  · rw [copy_filled_step base r i
      (fun a b => embed_copy_pel base
        (edge.left + (a - (vips_rect_intersectrect r (base.border i)).left)) edge.top)]
    intro a b hab
    rw [← h5 a b hab, h1]
    congr 1
    omega
  · intro a b hab
    rw [includespoint_intersect, Bool.and_eq_true] at hab
    exact hab.1
  · intro k h0 hk
    have := hload k 0 h0 (by omega) (le_refl 0) h3
    simpa using this
  · intro h
    rw [(hpo h).2]
    exact h4

theorem copy_cols_step (base : VipsEmbedBase) (r : VipsRect) (i : Nat) (hi : i = 1 ∨ i = 3)
    (ir : VipsRegion) (p : PelPtr) (edge : VipsRect)
    (hpo : p.intoOut = true → p.x = edge.left ∧ p.y = edge.top)
    (hload : ∀ dx dy : Int, 0 ≤ dx → dx < edge.width → 0 ≤ dy → dy < edge.height →
      GenState.load ⟨⟨r, copy_filled base r i⟩, ir⟩ ⟨p.intoOut, p.x, p.y + dy⟩ dx =
        some (embed_copy_pel base (edge.left + dx) (edge.top + dy)))
    (h1 : edge.top = (vips_rect_intersectrect r (base.border i)).top)
    (h2 : (vips_rect_intersectrect r (base.border i)).height ≤ edge.height)
    (h3 : 0 < edge.width)
    (h4 : ¬((vips_rect_intersectrect r (base.border i)).left ≤ edge.left ∧
      edge.left < (vips_rect_intersectrect r (base.border i)).left +
        (vips_rect_intersectrect r (base.border i)).width))
    (h5 : ∀ a b, (vips_rect_intersectrect r (base.border i)).includespoint a b = true →
      embed_copy_pel base edge.left b = embed_copy_pel base a b) :
    vips_embed_base_paint_edge i (vips_rect_intersectrect r (base.border i)) p
        ⟨⟨r, copy_filled base r i⟩, ir⟩ =
      some ⟨⟨r, copy_filled base r (i + 1)⟩, ir⟩ := by
  rw [paint_edge_cols i hi r _ ir _ p (fun k => embed_copy_pel base edge.left (edge.top + k))]
  · rw [copy_filled_step base r i
      (fun a b => embed_copy_pel base edge.left
        (edge.top + (b - (vips_rect_intersectrect r (base.border i)).top)))]
    intro a b hab
    rw [← h5 a b hab, h1]
    congr 1
    omega
  · intro a b hab
    rw [includespoint_intersect, Bool.and_eq_true] at hab
    exact hab.1
  · intro k h0 hk
    have := hload 0 k (le_refl 0) h3 h0 (by omega)
    simpa using this
  · intro h
    rw [(hpo h).1]
    exact h4

theorem copy_corner_step (base : VipsEmbedBase) (r : VipsRect) (i : Nat) (hi : 3 < i)
    (ir : VipsRegion) (p : PelPtr) (edge : VipsRect)
    (hne : vips_rect_isempty (vips_rect_intersectrect r (base.border i)) = false)
    (hpo : p.intoOut = true → p.x = edge.left ∧ p.y = edge.top)
    (hload : ∀ dx dy : Int, 0 ≤ dx → dx < edge.width → 0 ≤ dy → dy < edge.height →
      GenState.load ⟨⟨r, copy_filled base r i⟩, ir⟩ ⟨p.intoOut, p.x, p.y + dy⟩ dx =
        some (embed_copy_pel base (edge.left + dx) (edge.top + dy)))
    (h2 : 0 < edge.width) (h3 : 0 < edge.height)
    (h4 : (vips_rect_intersectrect r (base.border i)).includespoint edge.left edge.top = false)
    (h5 : ∀ a b, (vips_rect_intersectrect r (base.border i)).includespoint a b = true →
      embed_copy_pel base edge.left edge.top = embed_copy_pel base a b) :
    vips_embed_base_paint_edge i (vips_rect_intersectrect r (base.border i)) p
        ⟨⟨r, copy_filled base r i⟩, ir⟩ =
      some ⟨⟨r, copy_filled base r (i + 1)⟩, ir⟩ := by
  have ht := intersect_facts _ _ hne
  rw [paint_edge_corner i hi r _ ir _ p (embed_copy_pel base edge.left edge.top) ⟨ht.1, ht.2.1⟩]
  · rw [copy_filled_step base r i (fun _ _ => embed_copy_pel base edge.left edge.top)]
    intro a b hab
    exact h5 a b hab
  · intro a b hab
    rw [includespoint_intersect, Bool.and_eq_true] at hab
    exact hab.1
  · have := hload 0 0 (le_refl 0) h2 (le_refl 0) h3
    simpa using this
  · intro h
    rw [(hpo h).1, (hpo h).2]
    exact h4

theorem gen_copy_step_0 (b1 : VipsEmbedBase) (hok : rsub_ok b1) (r : VipsRect)
    (ir : VipsRegion)
    (hte : vips_rect_isempty
      (vips_rect_intersectrect r ((vips_embed_base_build_border b1).border 0)) = false) :
    ∃ ir', vips_embed_base_gen_copy (vips_embed_base_build_border b1) r
        (vips_rect_intersectrect r (vips_embed_base_build_border b1).rsub) 0
        ⟨⟨r, copy_filled (vips_embed_base_build_border b1) r 0⟩, ir⟩ =
      some ⟨⟨r, copy_filled (vips_embed_base_build_border b1) r (0 + 1)⟩, ir'⟩ := by
  have he := (find_edge_eq b1 hok r).1 hte
  have ht := intersect_facts _ _ hte
  have hb := (border_eq b1).1
  have hbl := congrArg VipsRect.left hb
  have hbt := congrArg VipsRect.top hb
  have hbw := congrArg VipsRect.width hb
  have hbh := congrArg VipsRect.height hb
  simp only at hbl hbt hbw hbh
  have hrs : (vips_embed_base_build_border b1).rsub = b1.rsub := rfl
  unfold rsub_ok at hok
  have hsub : vips_rect_includesrect (vips_embed_base_build_border b1).rsub
      (vips_embed_base_find_edge (vips_embed_base_build_border b1)
        (vips_rect_intersectrect r ((vips_embed_base_build_border b1).border 0)) 0) = true := by
    rw [he, hrs]
    simp only [vips_rect_includesrect, VIPS_RECT_RIGHT, VIPS_RECT_BOTTOM, Bool.and_eq_true,
      decide_eq_true_eq]
    omega
  have her : vips_rect_isempty
      (vips_rect_intersectrect r (vips_embed_base_build_border b1).rsub) = false →
      vips_rect_includesrect r
        (vips_embed_base_find_edge (vips_embed_base_build_border b1)
          (vips_rect_intersectrect r ((vips_embed_base_build_border b1).border 0)) 0) = true := by
    intro hoe
    have ho := intersect_facts _ _ hoe
    rw [hrs] at ho
    rw [he]
    simp only [vips_rect_includesrect, VIPS_RECT_RIGHT, VIPS_RECT_BOTTOM, Bool.and_eq_true,
      decide_eq_true_eq]
    omega
  obtain ⟨ir', p, heq, hpo, hload⟩ := gen_copy_source (vips_embed_base_build_border b1) r 0 ir
    hte hsub ⟨hok.2.2.2.2.2.2.1, hok.2.2.2.2.2.2.2.1, hok.2.2.2.2.2.2.2.2.1,
      hok.2.2.2.2.2.2.2.2.2⟩ her
  refine ⟨ir', ?_⟩
  rw [heq]
  rw [he] at hpo hload
  refine copy_rows_step _ r 0 (by decide) ir' p _ hpo hload ?_ ?_ ?_ ?_ ?_
  · rfl
  · exact le_refl _
  · exact Int.one_pos
  · simp only
    omega
  · intro a b hab
    rw [includespoint_iff] at hab
    simp only [embed_copy_pel, clamp, hrs, VIPS_RECT_RIGHT, VIPS_RECT_BOTTOM]
    congr 1
    omega

theorem gen_copy_step_1 (b1 : VipsEmbedBase) (hok : rsub_ok b1) (r : VipsRect)
    (ir : VipsRegion)
    (hte : vips_rect_isempty
      (vips_rect_intersectrect r ((vips_embed_base_build_border b1).border 1)) = false) :
    ∃ ir', vips_embed_base_gen_copy (vips_embed_base_build_border b1) r
        (vips_rect_intersectrect r (vips_embed_base_build_border b1).rsub) 1
        ⟨⟨r, copy_filled (vips_embed_base_build_border b1) r 1⟩, ir⟩ =
      some ⟨⟨r, copy_filled (vips_embed_base_build_border b1) r (1 + 1)⟩, ir'⟩ := by
  have he := (find_edge_eq b1 hok r).2.1 hte
  have ht := intersect_facts _ _ hte
  have hb := (border_eq b1).2.1
  have hbl := congrArg VipsRect.left hb
  have hbt := congrArg VipsRect.top hb
  have hbw := congrArg VipsRect.width hb
  have hbh := congrArg VipsRect.height hb
  simp only at hbl hbt hbw hbh
  have hrs : (vips_embed_base_build_border b1).rsub = b1.rsub := rfl
  unfold rsub_ok at hok
  have hsub : vips_rect_includesrect (vips_embed_base_build_border b1).rsub
      (vips_embed_base_find_edge (vips_embed_base_build_border b1)
        (vips_rect_intersectrect r ((vips_embed_base_build_border b1).border 1)) 1) = true := by
    rw [he, hrs]
    simp only [vips_rect_includesrect, VIPS_RECT_RIGHT, VIPS_RECT_BOTTOM, Bool.and_eq_true,
      decide_eq_true_eq]
    omega
  have her : vips_rect_isempty
      (vips_rect_intersectrect r (vips_embed_base_build_border b1).rsub) = false →
      vips_rect_includesrect r
        (vips_embed_base_find_edge (vips_embed_base_build_border b1)
          (vips_rect_intersectrect r ((vips_embed_base_build_border b1).border 1)) 1) = true := by
    intro hoe
    have ho := intersect_facts _ _ hoe
    rw [hrs] at ho
    rw [he]
    simp only [vips_rect_includesrect, VIPS_RECT_RIGHT, VIPS_RECT_BOTTOM, Bool.and_eq_true,
      decide_eq_true_eq]
    omega
  obtain ⟨ir', p, heq, hpo, hload⟩ := gen_copy_source (vips_embed_base_build_border b1) r 1 ir
    hte hsub ⟨hok.2.2.2.2.2.2.1, hok.2.2.2.2.2.2.2.1, hok.2.2.2.2.2.2.2.2.1,
      hok.2.2.2.2.2.2.2.2.2⟩ her
  refine ⟨ir', ?_⟩
  rw [heq]
  rw [he] at hpo hload
  refine copy_cols_step _ r 1 (by decide) ir' p _ hpo hload ?_ ?_ ?_ ?_ ?_
  · rfl
  · exact le_refl _
  · exact Int.one_pos
  · simp only
    omega
  · intro a b hab
    rw [includespoint_iff] at hab
    simp only [embed_copy_pel, clamp, hrs, VIPS_RECT_RIGHT, VIPS_RECT_BOTTOM]
    congr 1
    omega

theorem gen_copy_step_2 (b1 : VipsEmbedBase) (hok : rsub_ok b1) (r : VipsRect)
    (ir : VipsRegion)
    (hte : vips_rect_isempty
      (vips_rect_intersectrect r ((vips_embed_base_build_border b1).border 2)) = false) :
    ∃ ir', vips_embed_base_gen_copy (vips_embed_base_build_border b1) r
        (vips_rect_intersectrect r (vips_embed_base_build_border b1).rsub) 2
        ⟨⟨r, copy_filled (vips_embed_base_build_border b1) r 2⟩, ir⟩ =
      some ⟨⟨r, copy_filled (vips_embed_base_build_border b1) r (2 + 1)⟩, ir'⟩ := by
  have he := (find_edge_eq b1 hok r).2.2.1 hte
  have ht := intersect_facts _ _ hte
  have hb := (border_eq b1).2.2.1
  have hbl := congrArg VipsRect.left hb
  have hbt := congrArg VipsRect.top hb
  have hbw := congrArg VipsRect.width hb
  have hbh := congrArg VipsRect.height hb
  simp only at hbl hbt hbw hbh
  have hrs : (vips_embed_base_build_border b1).rsub = b1.rsub := rfl
  unfold rsub_ok at hok
  have hsub : vips_rect_includesrect (vips_embed_base_build_border b1).rsub
      (vips_embed_base_find_edge (vips_embed_base_build_border b1)
        (vips_rect_intersectrect r ((vips_embed_base_build_border b1).border 2)) 2) = true := by
    rw [he, hrs]
    simp only [vips_rect_includesrect, VIPS_RECT_RIGHT, VIPS_RECT_BOTTOM, Bool.and_eq_true,
      decide_eq_true_eq]
    omega
  have her : vips_rect_isempty
      (vips_rect_intersectrect r (vips_embed_base_build_border b1).rsub) = false →
      vips_rect_includesrect r
        (vips_embed_base_find_edge (vips_embed_base_build_border b1)
          (vips_rect_intersectrect r ((vips_embed_base_build_border b1).border 2)) 2) = true := by
    intro hoe
    have ho := intersect_facts _ _ hoe
    rw [hrs] at ho
    rw [he]
    simp only [vips_rect_includesrect, VIPS_RECT_RIGHT, VIPS_RECT_BOTTOM, Bool.and_eq_true,
      decide_eq_true_eq]
    omega
  obtain ⟨ir', p, heq, hpo, hload⟩ := gen_copy_source (vips_embed_base_build_border b1) r 2 ir
    hte hsub ⟨hok.2.2.2.2.2.2.1, hok.2.2.2.2.2.2.2.1, hok.2.2.2.2.2.2.2.2.1,
      hok.2.2.2.2.2.2.2.2.2⟩ her
  refine ⟨ir', ?_⟩
  rw [heq]
  rw [he] at hpo hload
  refine copy_rows_step _ r 2 (by decide) ir' p _ hpo hload ?_ ?_ ?_ ?_ ?_
  · rfl
  · exact le_refl _
  · exact Int.one_pos
  · simp only
    omega
  · intro a b hab
    rw [includespoint_iff] at hab
    simp only [embed_copy_pel, clamp, hrs, VIPS_RECT_RIGHT, VIPS_RECT_BOTTOM]
    congr 1
    omega

theorem gen_copy_step_3 (b1 : VipsEmbedBase) (hok : rsub_ok b1) (r : VipsRect)
    (ir : VipsRegion)
    (hte : vips_rect_isempty
      (vips_rect_intersectrect r ((vips_embed_base_build_border b1).border 3)) = false) :
    ∃ ir', vips_embed_base_gen_copy (vips_embed_base_build_border b1) r
        (vips_rect_intersectrect r (vips_embed_base_build_border b1).rsub) 3
        ⟨⟨r, copy_filled (vips_embed_base_build_border b1) r 3⟩, ir⟩ =
      some ⟨⟨r, copy_filled (vips_embed_base_build_border b1) r (3 + 1)⟩, ir'⟩ := by
  have he := (find_edge_eq b1 hok r).2.2.2.1 hte
  have ht := intersect_facts _ _ hte
  have hb := (border_eq b1).2.2.2.1
  have hbl := congrArg VipsRect.left hb
  have hbt := congrArg VipsRect.top hb
  have hbw := congrArg VipsRect.width hb
  have hbh := congrArg VipsRect.height hb
  simp only at hbl hbt hbw hbh
  have hrs : (vips_embed_base_build_border b1).rsub = b1.rsub := rfl
  unfold rsub_ok at hok
  have hsub : vips_rect_includesrect (vips_embed_base_build_border b1).rsub
      (vips_embed_base_find_edge (vips_embed_base_build_border b1)
        (vips_rect_intersectrect r ((vips_embed_base_build_border b1).border 3)) 3) = true := by
    rw [he, hrs]
    simp only [vips_rect_includesrect, VIPS_RECT_RIGHT, VIPS_RECT_BOTTOM, Bool.and_eq_true,
      decide_eq_true_eq]
    omega
  have her : vips_rect_isempty
      (vips_rect_intersectrect r (vips_embed_base_build_border b1).rsub) = false →
      vips_rect_includesrect r
        (vips_embed_base_find_edge (vips_embed_base_build_border b1)
          (vips_rect_intersectrect r ((vips_embed_base_build_border b1).border 3)) 3) = true := by
    intro hoe
    have ho := intersect_facts _ _ hoe
    rw [hrs] at ho
    rw [he]
    simp only [vips_rect_includesrect, VIPS_RECT_RIGHT, VIPS_RECT_BOTTOM, Bool.and_eq_true,
      decide_eq_true_eq]
    omega
  obtain ⟨ir', p, heq, hpo, hload⟩ := gen_copy_source (vips_embed_base_build_border b1) r 3 ir
    hte hsub ⟨hok.2.2.2.2.2.2.1, hok.2.2.2.2.2.2.2.1, hok.2.2.2.2.2.2.2.2.1,
      hok.2.2.2.2.2.2.2.2.2⟩ her
  refine ⟨ir', ?_⟩
  rw [heq]
  rw [he] at hpo hload
  refine copy_cols_step _ r 3 (by decide) ir' p _ hpo hload ?_ ?_ ?_ ?_ ?_
  · rfl
  · exact le_refl _
  · exact Int.one_pos
  · simp only
    omega
  · intro a b hab
    rw [includespoint_iff] at hab
    simp only [embed_copy_pel, clamp, hrs, VIPS_RECT_RIGHT, VIPS_RECT_BOTTOM]
    congr 1
    omega

theorem gen_copy_step_4 (b1 : VipsEmbedBase) (hok : rsub_ok b1) (r : VipsRect)
    (ir : VipsRegion)
    (hte : vips_rect_isempty
      (vips_rect_intersectrect r ((vips_embed_base_build_border b1).border 4)) = false) :
    ∃ ir', vips_embed_base_gen_copy (vips_embed_base_build_border b1) r
        (vips_rect_intersectrect r (vips_embed_base_build_border b1).rsub) 4
        ⟨⟨r, copy_filled (vips_embed_base_build_border b1) r 4⟩, ir⟩ =
      some ⟨⟨r, copy_filled (vips_embed_base_build_border b1) r (4 + 1)⟩, ir'⟩ := by
  have he := (find_edge_eq b1 hok r).2.2.2.2.1 hte
  have ht := intersect_facts _ _ hte
  have hb := (border_eq b1).2.2.2.2.1
  have hbl := congrArg VipsRect.left hb
  have hbt := congrArg VipsRect.top hb
  have hbw := congrArg VipsRect.width hb
  have hbh := congrArg VipsRect.height hb
  simp only at hbl hbt hbw hbh
  have hrs : (vips_embed_base_build_border b1).rsub = b1.rsub := rfl
  unfold rsub_ok at hok
  have hsub : vips_rect_includesrect (vips_embed_base_build_border b1).rsub
      (vips_embed_base_find_edge (vips_embed_base_build_border b1)
        (vips_rect_intersectrect r ((vips_embed_base_build_border b1).border 4)) 4) = true := by
    rw [he, hrs]
    simp only [vips_rect_includesrect, VIPS_RECT_RIGHT, VIPS_RECT_BOTTOM, Bool.and_eq_true,
      decide_eq_true_eq]
    omega
  have her : vips_rect_isempty
      (vips_rect_intersectrect r (vips_embed_base_build_border b1).rsub) = false →
      vips_rect_includesrect r
        (vips_embed_base_find_edge (vips_embed_base_build_border b1)
          (vips_rect_intersectrect r ((vips_embed_base_build_border b1).border 4)) 4) = true := by
    intro hoe
    have ho := intersect_facts _ _ hoe
    rw [hrs] at ho
    rw [he]
    simp only [vips_rect_includesrect, VIPS_RECT_RIGHT, VIPS_RECT_BOTTOM, Bool.and_eq_true,
      decide_eq_true_eq]
    omega
  obtain ⟨ir', p, heq, hpo, hload⟩ := gen_copy_source (vips_embed_base_build_border b1) r 4 ir
    hte hsub ⟨hok.2.2.2.2.2.2.1, hok.2.2.2.2.2.2.2.1, hok.2.2.2.2.2.2.2.2.1,
      hok.2.2.2.2.2.2.2.2.2⟩ her
  refine ⟨ir', ?_⟩
  rw [heq]
  rw [he] at hpo hload
  refine copy_corner_step _ r 4 (by decide) ir' p _ hte hpo hload ?_ ?_ ?_ ?_
  · exact Int.one_pos
  · exact Int.one_pos
  · rw [Bool.eq_false_iff, Ne, includespoint_iff]
    simp only
    omega
  · intro a b hab
    rw [includespoint_iff] at hab
    simp only [embed_copy_pel, clamp, hrs, VIPS_RECT_RIGHT, VIPS_RECT_BOTTOM]
    congr 1 <;> omega

theorem gen_copy_step_5 (b1 : VipsEmbedBase) (hok : rsub_ok b1) (r : VipsRect)
    (ir : VipsRegion)
    (hte : vips_rect_isempty
      (vips_rect_intersectrect r ((vips_embed_base_build_border b1).border 5)) = false) :
    ∃ ir', vips_embed_base_gen_copy (vips_embed_base_build_border b1) r
        (vips_rect_intersectrect r (vips_embed_base_build_border b1).rsub) 5
        ⟨⟨r, copy_filled (vips_embed_base_build_border b1) r 5⟩, ir⟩ =
      some ⟨⟨r, copy_filled (vips_embed_base_build_border b1) r (5 + 1)⟩, ir'⟩ := by
  have he := (find_edge_eq b1 hok r).2.2.2.2.2.1 hte
  have ht := intersect_facts _ _ hte
  have hb := (border_eq b1).2.2.2.2.2.1
  have hbl := congrArg VipsRect.left hb
  have hbt := congrArg VipsRect.top hb
  have hbw := congrArg VipsRect.width hb
  have hbh := congrArg VipsRect.height hb
  simp only at hbl hbt hbw hbh
  have hrs : (vips_embed_base_build_border b1).rsub = b1.rsub := rfl
  unfold rsub_ok at hok
  have hsub : vips_rect_includesrect (vips_embed_base_build_border b1).rsub
      (vips_embed_base_find_edge (vips_embed_base_build_border b1)
        (vips_rect_intersectrect r ((vips_embed_base_build_border b1).border 5)) 5) = true := by
    rw [he, hrs]
    simp only [vips_rect_includesrect, VIPS_RECT_RIGHT, VIPS_RECT_BOTTOM, Bool.and_eq_true,
      decide_eq_true_eq]
    omega
  have her : vips_rect_isempty
      (vips_rect_intersectrect r (vips_embed_base_build_border b1).rsub) = false →
      vips_rect_includesrect r
        (vips_embed_base_find_edge (vips_embed_base_build_border b1)
          (vips_rect_intersectrect r ((vips_embed_base_build_border b1).border 5)) 5) = true := by
    intro hoe
    have ho := intersect_facts _ _ hoe
    rw [hrs] at ho
    rw [he]
    simp only [vips_rect_includesrect, VIPS_RECT_RIGHT, VIPS_RECT_BOTTOM, Bool.and_eq_true,
      decide_eq_true_eq]
    omega
  obtain ⟨ir', p, heq, hpo, hload⟩ := gen_copy_source (vips_embed_base_build_border b1) r 5 ir
    hte hsub ⟨hok.2.2.2.2.2.2.1, hok.2.2.2.2.2.2.2.1, hok.2.2.2.2.2.2.2.2.1,
      hok.2.2.2.2.2.2.2.2.2⟩ her
  refine ⟨ir', ?_⟩
  rw [heq]
  rw [he] at hpo hload
  refine copy_corner_step _ r 5 (by decide) ir' p _ hte hpo hload ?_ ?_ ?_ ?_
  · exact Int.one_pos
  · exact Int.one_pos
  · rw [Bool.eq_false_iff, Ne, includespoint_iff]
    simp only
    omega
  · intro a b hab
    rw [includespoint_iff] at hab
    simp only [embed_copy_pel, clamp, hrs, VIPS_RECT_RIGHT, VIPS_RECT_BOTTOM]
    congr 1 <;> omega

theorem gen_copy_step_6 (b1 : VipsEmbedBase) (hok : rsub_ok b1) (r : VipsRect)
    (ir : VipsRegion)
    (hte : vips_rect_isempty
      (vips_rect_intersectrect r ((vips_embed_base_build_border b1).border 6)) = false) :
    ∃ ir', vips_embed_base_gen_copy (vips_embed_base_build_border b1) r
        (vips_rect_intersectrect r (vips_embed_base_build_border b1).rsub) 6
        ⟨⟨r, copy_filled (vips_embed_base_build_border b1) r 6⟩, ir⟩ =
      some ⟨⟨r, copy_filled (vips_embed_base_build_border b1) r (6 + 1)⟩, ir'⟩ := by
  have he := (find_edge_eq b1 hok r).2.2.2.2.2.2.1 hte
  have ht := intersect_facts _ _ hte
  have hb := (border_eq b1).2.2.2.2.2.2.1
  have hbl := congrArg VipsRect.left hb
  have hbt := congrArg VipsRect.top hb
  have hbw := congrArg VipsRect.width hb
  have hbh := congrArg VipsRect.height hb
  simp only at hbl hbt hbw hbh
  have hrs : (vips_embed_base_build_border b1).rsub = b1.rsub := rfl
  unfold rsub_ok at hok
  have hsub : vips_rect_includesrect (vips_embed_base_build_border b1).rsub
      (vips_embed_base_find_edge (vips_embed_base_build_border b1)
        (vips_rect_intersectrect r ((vips_embed_base_build_border b1).border 6)) 6) = true := by
    rw [he, hrs]
    simp only [vips_rect_includesrect, VIPS_RECT_RIGHT, VIPS_RECT_BOTTOM, Bool.and_eq_true,
      decide_eq_true_eq]
    omega
  have her : vips_rect_isempty
      (vips_rect_intersectrect r (vips_embed_base_build_border b1).rsub) = false →
      vips_rect_includesrect r
        (vips_embed_base_find_edge (vips_embed_base_build_border b1)
          (vips_rect_intersectrect r ((vips_embed_base_build_border b1).border 6)) 6) = true := by
    intro hoe
    have ho := intersect_facts _ _ hoe
    rw [hrs] at ho
    rw [he]
    simp only [vips_rect_includesrect, VIPS_RECT_RIGHT, VIPS_RECT_BOTTOM, Bool.and_eq_true,
      decide_eq_true_eq]
    omega
  obtain ⟨ir', p, heq, hpo, hload⟩ := gen_copy_source (vips_embed_base_build_border b1) r 6 ir
    hte hsub ⟨hok.2.2.2.2.2.2.1, hok.2.2.2.2.2.2.2.1, hok.2.2.2.2.2.2.2.2.1,
      hok.2.2.2.2.2.2.2.2.2⟩ her
  refine ⟨ir', ?_⟩
  rw [heq]
  rw [he] at hpo hload
  refine copy_corner_step _ r 6 (by decide) ir' p _ hte hpo hload ?_ ?_ ?_ ?_
  · exact Int.one_pos
  · exact Int.one_pos
  · rw [Bool.eq_false_iff, Ne, includespoint_iff]
    simp only
    omega
  · intro a b hab
    rw [includespoint_iff] at hab
    simp only [embed_copy_pel, clamp, hrs, VIPS_RECT_RIGHT, VIPS_RECT_BOTTOM]
    congr 1 <;> omega

theorem gen_copy_step_7 (b1 : VipsEmbedBase) (hok : rsub_ok b1) (r : VipsRect)
    (ir : VipsRegion)
    (hte : vips_rect_isempty
      (vips_rect_intersectrect r ((vips_embed_base_build_border b1).border 7)) = false) :
    ∃ ir', vips_embed_base_gen_copy (vips_embed_base_build_border b1) r
        (vips_rect_intersectrect r (vips_embed_base_build_border b1).rsub) 7
        ⟨⟨r, copy_filled (vips_embed_base_build_border b1) r 7⟩, ir⟩ =
      some ⟨⟨r, copy_filled (vips_embed_base_build_border b1) r (7 + 1)⟩, ir'⟩ := by
  have he := (find_edge_eq b1 hok r).2.2.2.2.2.2.2 hte
  have ht := intersect_facts _ _ hte
  have hb := (border_eq b1).2.2.2.2.2.2.2
  have hbl := congrArg VipsRect.left hb
  have hbt := congrArg VipsRect.top hb
  have hbw := congrArg VipsRect.width hb
  have hbh := congrArg VipsRect.height hb
  simp only at hbl hbt hbw hbh
  have hrs : (vips_embed_base_build_border b1).rsub = b1.rsub := rfl
  unfold rsub_ok at hok
  have hsub : vips_rect_includesrect (vips_embed_base_build_border b1).rsub
      (vips_embed_base_find_edge (vips_embed_base_build_border b1)
        (vips_rect_intersectrect r ((vips_embed_base_build_border b1).border 7)) 7) = true := by
    rw [he, hrs]
    simp only [vips_rect_includesrect, VIPS_RECT_RIGHT, VIPS_RECT_BOTTOM, Bool.and_eq_true,
      decide_eq_true_eq]
    omega
  have her : vips_rect_isempty
      (vips_rect_intersectrect r (vips_embed_base_build_border b1).rsub) = false →
      vips_rect_includesrect r
        (vips_embed_base_find_edge (vips_embed_base_build_border b1)
          (vips_rect_intersectrect r ((vips_embed_base_build_border b1).border 7)) 7) = true := by
    intro hoe
    have ho := intersect_facts _ _ hoe
    rw [hrs] at ho
    rw [he]
    simp only [vips_rect_includesrect, VIPS_RECT_RIGHT, VIPS_RECT_BOTTOM, Bool.and_eq_true,
      decide_eq_true_eq]
    omega
  obtain ⟨ir', p, heq, hpo, hload⟩ := gen_copy_source (vips_embed_base_build_border b1) r 7 ir
    hte hsub ⟨hok.2.2.2.2.2.2.1, hok.2.2.2.2.2.2.2.1, hok.2.2.2.2.2.2.2.2.1,
      hok.2.2.2.2.2.2.2.2.2⟩ her
  refine ⟨ir', ?_⟩
  rw [heq]
  rw [he] at hpo hload
  refine copy_corner_step _ r 7 (by decide) ir' p _ hte hpo hload ?_ ?_ ?_ ?_
  · exact Int.one_pos
  · exact Int.one_pos
  · rw [Bool.eq_false_iff, Ne, includespoint_iff]
    simp only
    omega
  · intro a b hab
    rw [includespoint_iff] at hab
    simp only [embed_copy_pel, clamp, hrs, VIPS_RECT_RIGHT, VIPS_RECT_BOTTOM]
    congr 1 <;> omega

theorem gen_copy_step (b1 : VipsEmbedBase) (hok : rsub_ok b1) (r : VipsRect) (i : Nat)
    (hi : i < 8) (ir : VipsRegion) :
    ∃ ir', vips_embed_base_gen_copy (vips_embed_base_build_border b1) r
        (vips_rect_intersectrect r (vips_embed_base_build_border b1).rsub) i
        ⟨⟨r, copy_filled (vips_embed_base_build_border b1) r i⟩, ir⟩ =
      some ⟨⟨r, copy_filled (vips_embed_base_build_border b1) r (i + 1)⟩, ir'⟩ := by
  by_cases hte : vips_rect_isempty
      (vips_rect_intersectrect r ((vips_embed_base_build_border b1).border i)) = true
  · refine ⟨ir, ?_⟩
    unfold vips_embed_base_gen_copy
    simp only [hte, Bool.not_true, Bool.false_eq_true, if_false]
    rw [← copy_filled_step (vips_embed_base_build_border b1) r i
      (fun a b => embed_copy_pel (vips_embed_base_build_border b1) a b) (fun _ _ _ => rfl)]
    congr 3
    funext a b
    rw [includespoint_of_isempty _ hte]
    simp
  · replace hte : vips_rect_isempty
        (vips_rect_intersectrect r ((vips_embed_base_build_border b1).border i)) = false := by
      simpa using hte
    interval_cases i
    · exact gen_copy_step_0 b1 hok r ir hte
    · exact gen_copy_step_1 b1 hok r ir hte
    · exact gen_copy_step_2 b1 hok r ir hte
    · exact gen_copy_step_3 b1 hok r ir hte
    · exact gen_copy_step_4 b1 hok r ir hte
    · exact gen_copy_step_5 b1 hok r ir hte
    · exact gen_copy_step_6 b1 hok r ir hte
    · exact gen_copy_step_7 b1 hok r ir hte

/-- The whole copy loop: all eight borders of the tile are filled. -/
theorem gen_copy_loop (b1 : VipsEmbedBase) (hok : rsub_ok b1) (r : VipsRect) (ir : VipsRegion) :
    ∃ ir', forLoop (vips_embed_base_gen_copy (vips_embed_base_build_border b1) r
        (vips_rect_intersectrect r (vips_embed_base_build_border b1).rsub)) 8
        ⟨⟨r, copy_filled (vips_embed_base_build_border b1) r 0⟩, ir⟩ =
      some ⟨⟨r, copy_filled (vips_embed_base_build_border b1) r 8⟩, ir'⟩ := by
  obtain ⟨s', h1, h2⟩ := forLoop_inv
    (vips_embed_base_gen_copy (vips_embed_base_build_border b1) r
      (vips_rect_intersectrect r (vips_embed_base_build_border b1).rsub))
    (fun k s => s.out_region = ⟨r, copy_filled (vips_embed_base_build_border b1) r k⟩) 8
    ⟨⟨r, copy_filled (vips_embed_base_build_border b1) r 0⟩, ir⟩ rfl
    (by
      intro k s hk hs
      obtain ⟨o, ir0⟩ := s
      simp only at hs
      subst hs
      obtain ⟨ir', h⟩ := gen_copy_step b1 hok r k hk ir0
      exact ⟨_, h, rfl⟩)
  obtain ⟨o, ir'⟩ := s'
  simp only at h2
  subst h2
  exact ⟨ir', h1⟩

/-- The paste step leaves exactly the input pels of `r ∩ rsub` in the tile. -/
theorem gen_paste_eq (base : VipsEmbedBase) (r : VipsRect)
    (hok : base.x ≤ base.rsub.left ∧ base.y ≤ base.rsub.top ∧
      base.rsub.left + base.rsub.width ≤ base.x + base.in_.Xsize ∧
      base.rsub.top + base.rsub.height ≤ base.y + base.in_.Ysize) :
    vips_embed_base_gen_paste base r (VipsRegion.fresh r) =
      some ⟨r, copy_filled base r 0⟩ := by
  unfold vips_embed_base_gen_paste
  by_cases hoe : vips_rect_isempty (vips_rect_intersectrect r base.rsub) = true
  · simp only [hoe, Bool.not_true, Bool.false_eq_true, if_false, VipsRegion.fresh]
    congr 2
    funext a b
    have := includespoint_of_isempty _ hoe a b
    rw [includespoint_intersect] at this
    simp [copy_filled, in_borders, this]
  · replace hoe : vips_rect_isempty (vips_rect_intersectrect r base.rsub) = false := by
      simpa using hoe
    have ho := intersect_facts _ _ hoe
    simp only [hoe, Bool.not_false, if_true, vips_region_prepare_to, VipsRegion.fresh]
    have h1 : vips_rect_includesrect base.in_.rect
        ⟨(vips_rect_intersectrect r base.rsub).left - base.x,
         (vips_rect_intersectrect r base.rsub).top - base.y,
         (vips_rect_intersectrect r base.rsub).width,
         (vips_rect_intersectrect r base.rsub).height⟩ = true := by
      simp only [vips_rect_includesrect, VipsImage.rect, VIPS_RECT_RIGHT, VIPS_RECT_BOTTOM,
        Bool.and_eq_true, decide_eq_true_eq]
      omega
    have h2 : vips_rect_includesrect r
        ⟨(vips_rect_intersectrect r base.rsub).left - base.x + base.x,
         (vips_rect_intersectrect r base.rsub).top - base.y + base.y,
         (vips_rect_intersectrect r base.rsub).width,
         (vips_rect_intersectrect r base.rsub).height⟩ = true := by
      simp only [vips_rect_includesrect, VIPS_RECT_RIGHT, VIPS_RECT_BOTTOM,
        Bool.and_eq_true, decide_eq_true_eq]
      omega
    simp only [h1, h2, Bool.and_self, if_true, Option.some.injEq]
    congr 1
    funext a b
    have hinc : VipsRect.includespoint
        ⟨(vips_rect_intersectrect r base.rsub).left - base.x + base.x,
         (vips_rect_intersectrect r base.rsub).top - base.y + base.y,
         (vips_rect_intersectrect r base.rsub).width,
         (vips_rect_intersectrect r base.rsub).height⟩ a b =
        (r.includespoint a b && base.rsub.includespoint a b) := by
      rw [← includespoint_intersect, Bool.eq_iff_iff, includespoint_iff, includespoint_iff]
      simp only
      omega
    rw [hinc]
    simp only [copy_filled, in_borders, List.range_zero, List.any_nil, Bool.or_false]
    by_cases hab : (r.includespoint a b && base.rsub.includespoint a b) = true
    · rw [if_pos hab, if_pos hab]
      rw [Bool.and_eq_true, includespoint_iff, includespoint_iff] at hab
      simp only [embed_copy_pel, clamp, VIPS_RECT_RIGHT, VIPS_RECT_BOTTOM]
      congr 2 <;> omega
    · rw [if_neg hab, if_neg hab]

theorem rsub_ok_build (base : VipsEmbedBase)
    (hne : vips_rect_isempty (vips_embed_base_build_rsub base).rsub = false) :
    rsub_ok (vips_embed_base_build_rsub base) := by
  have h2 : ¬((vips_embed_base_build_rsub base).rsub.width ≤ 0 ∨
      (vips_embed_base_build_rsub base).rsub.height ≤ 0) := by
    rw [← isempty_iff, hne]
    simp
  simp only [rsub_ok, vips_embed_base_build_rsub, vips_rect_intersectrect,
    VIPS_RECT_RIGHT, VIPS_RECT_BOTTOM] at h2 ⊢
  omega

theorem build_ink_fields (base : VipsEmbedBase) :
    (vips_embed_base_build_ink base).in_ = base.in_ ∧
    (vips_embed_base_build_ink base).x = base.x ∧
    (vips_embed_base_build_ink base).y = base.y ∧
    (vips_embed_base_build_ink base).width = base.width ∧
    (vips_embed_base_build_ink base).height = base.height := by
  unfold vips_embed_base_build_ink
  refine ⟨?_, ?_, ?_, ?_, ?_⟩ <;> simp only <;> split_ifs <;> rfl

/-- The build does not stop at the ink when the policy is not background. -/
theorem build_ink_null_of_ne (base : VipsEmbedBase)
    (h : (vips_embed_base_build_ink base).extend ≠ VIPS_EXTEND_BACKGROUND) :
    ¬(vips_embed_base_build_ink_null base = true) := by
  simp [vips_embed_base_build_ink_null, h]

/-- What `vips_embed_base_build` has done when it ends in `vips_image_generate`. -/
theorem build_generate (base0 base : VipsEmbedBase) (X Y : Int)
    (h : vips_embed_base_build base0 = .ok (.generate base X Y)) :
    ∃ b1, base = vips_embed_base_build_border b1 ∧ rsub_ok b1 ∧
      b1.in_ = base0.in_ ∧ b1.x = base0.x ∧ b1.y = base0.y ∧
      b1.width = base0.width ∧ b1.height = base0.height ∧
      X = base0.width ∧ Y = base0.height ∧
      ¬(base0.x = 0 ∧ base0.y = 0 ∧ base0.width = base0.in_.Xsize ∧
        base0.height = base0.in_.Ysize) ∧
      base.extend = (vips_embed_base_build_ink base0).extend ∧
      base.ink = (vips_embed_base_build_ink base0).ink ∧
      (base.extend = VIPS_EXTEND_BLACK ∨ base.extend = VIPS_EXTEND_WHITE ∨
        base.extend = VIPS_EXTEND_BACKGROUND ∨ base.extend = VIPS_EXTEND_COPY) := by
  obtain ⟨f1, f2, f3, f4, f5⟩ := build_ink_fields base0
  unfold vips_embed_base_build at h
  split at h
  · simp at h
  · rename_i hnoop
    by_cases hnull : vips_embed_base_build_ink_null base0 = true
    · rw [if_pos hnull] at h
      simp at h
    rw [if_neg hnull] at h
    simp only at h
    generalize vips_embed_base_build_ink base0 = b at h f1 f2 f3 f4 f5 ⊢
    have key : ∀ (hx : b.extend = VIPS_EXTEND_BLACK ∨ b.extend = VIPS_EXTEND_WHITE ∨
        b.extend = VIPS_EXTEND_BACKGROUND ∨ b.extend = VIPS_EXTEND_COPY)
        (h : (if vips_rect_isempty (vips_embed_base_build_rsub b).rsub = true then
            (Except.error "bad dimensions" : Except String VipsEmbedOut)
          else .ok (.generate (vips_embed_base_build_border (vips_embed_base_build_rsub b))
            (vips_embed_base_build_border (vips_embed_base_build_rsub b)).width
            (vips_embed_base_build_border (vips_embed_base_build_rsub b)).height)) =
          .ok (.generate base X Y)),
        ∃ b1, base = vips_embed_base_build_border b1 ∧ rsub_ok b1 ∧
          b1.in_ = base0.in_ ∧ b1.x = base0.x ∧ b1.y = base0.y ∧
          b1.width = base0.width ∧ b1.height = base0.height ∧
          X = base0.width ∧ Y = base0.height ∧
          ¬(base0.x = 0 ∧ base0.y = 0 ∧ base0.width = base0.in_.Xsize ∧
            base0.height = base0.in_.Ysize) ∧
          base.extend = b.extend ∧ base.ink = b.ink ∧
          (base.extend = VIPS_EXTEND_BLACK ∨ base.extend = VIPS_EXTEND_WHITE ∨
            base.extend = VIPS_EXTEND_BACKGROUND ∨ base.extend = VIPS_EXTEND_COPY) := by
      intro hx h
      split at h
      · simp at h
      · rename_i hne
        simp only [Except.ok.injEq, VipsEmbedOut.generate.injEq] at h
        obtain ⟨h1, h2, h3⟩ := h
        have e1 : base.extend = b.extend := by rw [← h1]; rfl
        refine ⟨_, h1.symm, rsub_ok_build _ (by simpa using hne), f1, f2, f3, f4, f5, ?_, ?_,
          hnoop, e1, ?_, ?_⟩
        · rw [← h2, ← f4]
          rfl
        · rw [← h3, ← f5]
          rfl
        · rw [← h1]
          rfl
        · rw [e1]
          exact hx
    cases hext : b.extend <;> simp only [hext] at h
    · have k := key (by simp [hext]) h
      rw [hext] at k
      exact k
    · have k := key (by simp [hext]) h
      rw [hext] at k
      exact k
    · simp only [bind, Except.bind] at h
      split at h
      · simp at h
      · split at h <;> simp at h
    · simp only [bind, Except.bind] at h
      split at h
      · simp at h
      · split at h <;> simp at h
    · have k := key (by simp [hext]) h
      rw [hext] at k
      exact k
    · have k := key (by simp [hext]) h
      rw [hext] at k
      exact k

theorem includespoint_of_includesrect (r1 r2 : VipsRect) (h : vips_rect_includesrect r1 r2 = true)
    (a b : Int) (hab : r2.includespoint a b = true) : r1.includespoint a b = true := by
  simp only [vips_rect_includesrect, VIPS_RECT_RIGHT, VIPS_RECT_BOTTOM, Bool.and_eq_true,
    decide_eq_true_eq] at h
  rw [includespoint_iff] at hab ⊢
  omega

/-- The pass-through branch of `vips_embed_base_gen`. -/
theorem gen_passthrough (base : VipsEmbedBase) (r : VipsRect)
    (hok : base.x ≤ base.rsub.left ∧ base.y ≤ base.rsub.top ∧
      base.rsub.left + base.rsub.width ≤ base.x + base.in_.Xsize ∧
      base.rsub.top + base.rsub.height ≤ base.y + base.in_.Ysize)
    (hinc : vips_rect_includesrect base.rsub r = true) :
    vips_embed_base_gen base r =
      some ⟨r, fun a b =>
        if r.includespoint a b = true then some (base.in_.pel (a - base.x) (b - base.y))
        else none⟩ := by
  have hinc2 := hinc
  simp only [vips_rect_includesrect, VIPS_RECT_RIGHT, VIPS_RECT_BOTTOM, Bool.and_eq_true,
    decide_eq_true_eq] at hinc2
  have h1 : vips_rect_includesrect base.in_.rect
      ⟨r.left - base.x, r.top - base.y, r.width, r.height⟩ = true := by
    simp only [vips_rect_includesrect, VipsImage.rect, VIPS_RECT_RIGHT, VIPS_RECT_BOTTOM,
      Bool.and_eq_true, decide_eq_true_eq]
    omega
  have h2 : vips_rect_includesrect ⟨r.left - base.x, r.top - base.y, r.width, r.height⟩
      ⟨r.left - base.x, r.top - base.y, r.width, r.height⟩ = true := by
    simp [vips_rect_includesrect]
  simp only [vips_embed_base_gen, hinc, if_true, vips_region_prepare, h1, Option.some_bind,
    vips_region_region, h2]
  congr 2
  funext a b
  by_cases hab : r.includespoint a b = true
  · rw [if_pos hab, if_pos hab]
    have h3 : VipsRect.includespoint ⟨r.left - base.x, r.top - base.y, r.width, r.height⟩
        (a - r.left + (r.left - base.x)) (b - r.top + (r.top - base.y)) = true := by
      rw [includespoint_iff] at hab ⊢
      simp only
      omega
    simp only [VipsRegion.get, h3, if_true]
    congr 2 <;> omega
  · rw [if_neg hab, if_neg hab]

/-- Painting the eight borders with one pel. -/
theorem paint_loop (base : VipsEmbedBase) (r : VipsRect) (f : Int → Int → Option VipsPel)
    (ir : VipsRegion) (ink : VipsPel) (k : Nat) :
    forLoop (fun i (s : GenState) => some { s with
        out_region := vips_region_paint_pel s.out_region (base.border i) ink }) k
        ⟨⟨r, f⟩, ir⟩ =
      some ⟨⟨r, fun a b =>
        if (r.includespoint a b && in_borders base k a b) = true then some ink else f a b⟩,
        ir⟩ := by
  have key := forLoop_chain
    (fun i (s : GenState) => some { s with
        out_region := vips_region_paint_pel s.out_region (base.border i) ink })
    (fun m => (⟨⟨r, fun a b =>
        if (r.includespoint a b && in_borders base m a b) = true then some ink else f a b⟩,
        ir⟩ : GenState)) k
    (by
      intro m _
      simp only [vips_region_paint_pel, Option.some.injEq]
      congr 2
      funext a b
      rw [in_borders_succ]
      cases h1 : r.includespoint a b <;> cases h2 : (base.border m).includespoint a b <;>
        cases h3 : in_borders base m a b <;> simp)
  beta_reduce at key
  rw [← key]
  congr 3
  funext a b
  simp [in_borders]

theorem in_borders_iff (base : VipsEmbedBase) (k : Nat) (a b : Int) :
    in_borders base k a b = true ↔ ∃ i, i < k ∧ (base.border i).includespoint a b = true := by
  simp [in_borders, List.any_eq_true]

/-- No pel of a border lies in `rsub`. -/
theorem border_not_rsub (b1 : VipsEmbedBase) (i : Nat) (hi : i < 8)
    (a b : Int)
    (h : ((vips_embed_base_build_border b1).border i).includespoint a b = true) :
    b1.rsub.includespoint a b = false := by
  obtain ⟨e0, e1, e2, e3, e4, e5, e6, e7⟩ := border_eq b1
  rw [Bool.eq_false_iff, Ne, includespoint_iff]
  interval_cases i
  · rw [e0, includespoint_iff] at h
    simp only at h
    omega
  · rw [e1, includespoint_iff] at h
    simp only at h
    omega
  · rw [e2, includespoint_iff] at h
    simp only at h
    omega
  · rw [e3, includespoint_iff] at h
    simp only at h
    omega
  · rw [e4, includespoint_iff] at h
    simp only at h
    omega
  · rw [e5, includespoint_iff] at h
    simp only at h
    omega
  · rw [e6, includespoint_iff] at h
    simp only at h
    omega
  · rw [e7, includespoint_iff] at h
    simp only at h
    omega

theorem in_borders_not_rsub (b1 : VipsEmbedBase) (k : Nat) (hk : k ≤ 8)
    (a b : Int) (h : b1.rsub.includespoint a b = true) :
    in_borders (vips_embed_base_build_border b1) k a b = false := by
  rw [Bool.eq_false_iff, Ne, in_borders_iff]
  rintro ⟨i, hi, hb⟩
  rw [border_not_rsub b1 i (by omega) a b hb] at h
  exact Bool.noConfusion h

/-- The tile `vips_embed_base_gen` makes, for each of the four policies it
handles, when the tile is not wholly inside `rsub`. -/
theorem gen_borders_eq (b1 : VipsEmbedBase) (hok : rsub_ok b1) (r : VipsRect)
    (hinc : vips_rect_includesrect b1.rsub r = false) :
    vips_embed_base_gen_paste (vips_embed_base_build_border b1) r (VipsRegion.fresh r) =
      some ⟨r, copy_filled (vips_embed_base_build_border b1) r 0⟩ ∧
    (b1.extend = VIPS_EXTEND_COPY →
      vips_embed_base_gen (vips_embed_base_build_border b1) r =
        some ⟨r, copy_filled (vips_embed_base_build_border b1) r 8⟩) ∧
    (b1.extend = VIPS_EXTEND_BLACK →
      vips_embed_base_gen (vips_embed_base_build_border b1) r =
        some ⟨r, fun a b =>
          if (r.includespoint a b && in_borders (vips_embed_base_build_border b1) 8 a b) = true
          then some (List.replicate b1.in_.Bands 0)
          else copy_filled (vips_embed_base_build_border b1) r 0 a b⟩) ∧
    (b1.extend = VIPS_EXTEND_WHITE →
      vips_embed_base_gen (vips_embed_base_build_border b1) r =
        some ⟨r, fun a b =>
          if (r.includespoint a b && in_borders (vips_embed_base_build_border b1) 8 a b) = true
          then some (List.replicate b1.in_.Bands b1.in_.max_alpha)
          else copy_filled (vips_embed_base_build_border b1) r 0 a b⟩) ∧
    (b1.extend = VIPS_EXTEND_BACKGROUND →
      vips_embed_base_gen (vips_embed_base_build_border b1) r =
        some ⟨r, fun a b =>
          if (r.includespoint a b && in_borders (vips_embed_base_build_border b1) 8 a b) = true
          then some b1.ink
          else copy_filled (vips_embed_base_build_border b1) r 0 a b⟩) := by
  have hok2 : (vips_embed_base_build_border b1).x ≤ (vips_embed_base_build_border b1).rsub.left ∧
      (vips_embed_base_build_border b1).y ≤ (vips_embed_base_build_border b1).rsub.top ∧
      (vips_embed_base_build_border b1).rsub.left + (vips_embed_base_build_border b1).rsub.width ≤
        (vips_embed_base_build_border b1).x + (vips_embed_base_build_border b1).in_.Xsize ∧
      (vips_embed_base_build_border b1).rsub.top + (vips_embed_base_build_border b1).rsub.height ≤
        (vips_embed_base_build_border b1).y + (vips_embed_base_build_border b1).in_.Ysize :=
    ⟨hok.2.2.2.2.2.2.1, hok.2.2.2.2.2.2.2.1, hok.2.2.2.2.2.2.2.2.1, hok.2.2.2.2.2.2.2.2.2⟩
  have hp := gen_paste_eq (vips_embed_base_build_border b1) r hok2
  have hinc2 : vips_rect_includesrect (vips_embed_base_build_border b1).rsub r = false := hinc
  refine ⟨hp, ?_, ?_, ?_, ?_⟩ <;> intro hext
  · obtain ⟨ir', hl⟩ := gen_copy_loop b1 hok r (VipsRegion.fresh ⟨0, 0, 0, 0⟩)
    have hext2 : (vips_embed_base_build_border b1).extend = VIPS_EXTEND_COPY := hext
    simp only [vips_embed_base_gen, hinc2, Bool.false_eq_true, if_false, hp, Option.some_bind,
      vips_embed_base_gen_borders, hext2, hl, Option.map_some']
  · have hext2 : (vips_embed_base_build_border b1).extend = VIPS_EXTEND_BLACK := hext
    simp only [vips_embed_base_gen, hinc2, Bool.false_eq_true, if_false, hp, Option.some_bind,
      vips_embed_base_gen_borders, hext2, vips_region_paint, paint_loop, Option.map_some']
    rfl
  · have hext2 : (vips_embed_base_build_border b1).extend = VIPS_EXTEND_WHITE := hext
    simp only [vips_embed_base_gen, hinc2, Bool.false_eq_true, if_false, hp, Option.some_bind,
      vips_embed_base_gen_borders, hext2, vips_region_paint, paint_loop, Option.map_some']
    rfl
  · have hext2 : (vips_embed_base_build_border b1).extend = VIPS_EXTEND_BACKGROUND := hext
    simp only [vips_embed_base_gen, hinc2, Bool.false_eq_true, if_false, hp, Option.some_bind,
      vips_embed_base_gen_borders, hext2, vips_region_paint, paint_loop, Option.map_some']
    rfl


/-! ## Claims about embed.c -/

theorem embed_pieces_eq (base : VipsEmbedBase) :
    embed_pieces (vips_embed_base_build_border base) =
      [base.rsub,
       ⟨base.rsub.left, 0, base.rsub.width, base.rsub.top⟩,
       ⟨base.rsub.left + base.rsub.width, base.rsub.top,
          base.width - (base.rsub.left + base.rsub.width), base.rsub.height⟩,
       ⟨base.rsub.left, base.rsub.top + base.rsub.height, base.rsub.width,
          base.height - (base.rsub.top + base.rsub.height)⟩,
       ⟨0, base.rsub.top, base.rsub.left, base.rsub.height⟩,
       ⟨0, 0, base.rsub.left, base.rsub.top⟩,
       ⟨base.rsub.left + base.rsub.width, 0,
          base.width - (base.rsub.left + base.rsub.width), base.rsub.top⟩,
       ⟨base.rsub.left + base.rsub.width, base.rsub.top + base.rsub.height,
          base.width - (base.rsub.left + base.rsub.width),
          base.height - (base.rsub.top + base.rsub.height)⟩,
       ⟨0, base.rsub.top + base.rsub.height, base.rsub.left,
          base.height - (base.rsub.top + base.rsub.height)⟩] := rfl

/-- C1. For every source size, placement `(x, y)` of any sign and destination
size for which `rsub` is not empty, the nine rectangles `rsub`, `border[0]` ...
`border[7]` computed by `vips_embed_base_build` all lie inside `rout`, no pel
lies in two of them, every pel of `rout` lies in exactly one of them (and a
pel outside `rout` in none), and their areas add up to `width * height`. -/
theorem vips_embed_base_build_tiles (base : VipsEmbedBase)
    (hne : vips_rect_isempty (vips_embed_base_build_rsub base).rsub = false) :
    (vips_embed_base_build_rsub base).rout = ⟨0, 0, base.width, base.height⟩ ∧
    (∀ p ∈ embed_pieces (vips_embed_base_build_border (vips_embed_base_build_rsub base)),
      vips_rect_includesrect (vips_embed_base_build_rsub base).rout p = true) ∧
    (embed_pieces (vips_embed_base_build_border (vips_embed_base_build_rsub base))).Pairwise
      (fun p q => ∀ px py, ¬(p.includespoint px py = true ∧ q.includespoint px py = true)) ∧
    (∀ px py, (vips_embed_base_build_rsub base).rout.includespoint px py = true →
      (embed_pieces (vips_embed_base_build_border (vips_embed_base_build_rsub base))).countP
        (fun p => p.includespoint px py) = 1) ∧
    (∀ px py, (vips_embed_base_build_rsub base).rout.includespoint px py = false →
      (embed_pieces (vips_embed_base_build_border (vips_embed_base_build_rsub base))).countP
        (fun p => p.includespoint px py) = 0) ∧
    ((embed_pieces (vips_embed_base_build_border (vips_embed_base_build_rsub base))).map
      VipsRect.area).sum = base.width * base.height := by
  have h := rsub_ok_build base hne
  unfold rsub_ok at h
  rw [embed_pieces_eq]
  have hrout : (vips_embed_base_build_rsub base).rout = ⟨0, 0, base.width, base.height⟩ := rfl
  have hw : (vips_embed_base_build_rsub base).width = base.width := rfl
  have hh : (vips_embed_base_build_rsub base).height = base.height := rfl
  rw [hw, hh] at h
  rw [hrout, hw, hh]
  generalize (vips_embed_base_build_rsub base).rsub = r at h
  obtain ⟨L, T, W, H⟩ := r
  simp only at h
  have hin : ∀ p ∈ ([⟨L, T, W, H⟩, ⟨L, 0, W, T⟩, ⟨L + W, T, base.width - (L + W), H⟩,
      ⟨L, T + H, W, base.height - (T + H)⟩, ⟨0, T, L, H⟩, ⟨0, 0, L, T⟩,
      ⟨L + W, 0, base.width - (L + W), T⟩,
      ⟨L + W, T + H, base.width - (L + W), base.height - (T + H)⟩,
      ⟨0, T + H, L, base.height - (T + H)⟩] : List VipsRect),
      vips_rect_includesrect ⟨0, 0, base.width, base.height⟩ p = true := by
    intro p hp
    simp only [List.mem_cons, List.mem_singleton, List.not_mem_nil, or_false] at hp
    rcases hp with h1 | h1 | h1 | h1 | h1 | h1 | h1 | h1 | h1 <;> subst h1 <;>
      simp only [vips_rect_includesrect, VIPS_RECT_RIGHT, VIPS_RECT_BOTTOM, Bool.and_eq_true,
        decide_eq_true_eq] <;> omega
  refine ⟨rfl, hin, ?_, ?_, ?_, ?_⟩
  · simp only [List.pairwise_cons, List.mem_cons, List.mem_singleton, List.not_mem_nil,
      forall_eq_or_imp, forall_eq, VipsRect.includespoint, Bool.and_eq_true, decide_eq_true_eq,
      or_false, List.Pairwise.nil, and_true, IsEmpty.forall_iff, implies_true]
    refine ⟨?_, ?_, ?_, ?_, ?_, ?_, ?_, ?_⟩ <;> (try refine ⟨?_, ?_⟩) <;>
      (try refine ⟨?_, ?_⟩) <;> (try refine ⟨?_, ?_⟩) <;> (try refine ⟨?_, ?_⟩) <;>
      (try refine ⟨?_, ?_⟩) <;> (try refine ⟨?_, ?_⟩) <;> (try refine ⟨?_, ?_⟩) <;>
      intro px py <;> omega
  · intro px py hp
    simp only [VipsRect.includespoint, Bool.and_eq_true, decide_eq_true_eq] at hp
    simp only [List.countP_cons, List.countP_nil, VipsRect.includespoint, Bool.and_eq_true,
      decide_eq_true_eq]
    split_ifs <;> omega
  · intro px py hp
    rw [List.countP_eq_zero]
    intro q hq hqp
    rw [includespoint_of_includesrect _ _ (hin q hq) px py hqp] at hp
    exact Bool.noConfusion hp
  · simp only [List.map, VipsRect.area, List.sum_cons, List.sum_nil]
    ring

/-- C1, at a 3 by 2 image placed at (-1, 1) in a 4 by 5 output. -/
theorem vips_embed_base_build_tiles_witness :
    vips_rect_isempty
      (vips_embed_base_build_rsub (example_embed VIPS_EXTEND_COPY (-1) 1 4 5)).rsub = false ∧
    ∀ px py, (vips_embed_base_build_rsub
        (example_embed VIPS_EXTEND_COPY (-1) 1 4 5)).rout.includespoint px py = true →
      (embed_pieces (vips_embed_base_build_border (vips_embed_base_build_rsub
        (example_embed VIPS_EXTEND_COPY (-1) 1 4 5)))).countP
        (fun p => p.includespoint px py) = 1 := by
  have hne : vips_rect_isempty
      (vips_embed_base_build_rsub (example_embed VIPS_EXTEND_COPY (-1) 1 4 5)).rsub = false := by
    decide
  exact ⟨hne, (vips_embed_base_build_tiles _ hne).2.2.2.1⟩

/-- C2. For extend = copy, for every output tile `r`, `vips_embed_base_gen`
succeeds, and every pel `(px, py)` of `r` that lies in one of the eight border
rectangles holds the source pel at
`(clamp(px, rsub.left, rsub.right - 1) - x, clamp(py, rsub.top, rsub.bottom - 1) - y)`:
a side border repeats the edge pel of `rsub` in the same column or row, a
corner border holds the nearest corner pel of `rsub`. -/
theorem vips_embed_base_gen_copy_border (base0 base : VipsEmbedBase) (X Y : Int)
    (hb : vips_embed_base_build base0 = .ok (.generate base X Y))
    (hc : base.extend = VIPS_EXTEND_COPY) (r : VipsRect) :
    ∃ out, vips_embed_base_gen base r = some out ∧
      ∀ px py i, r.includespoint px py = true → i < 8 →
        (base.border i).includespoint px py = true →
        out.get px py = some (base.in_.pel
          (clamp px base.rsub.left (VIPS_RECT_RIGHT base.rsub - 1) - base.x)
          (clamp py base.rsub.top (VIPS_RECT_BOTTOM base.rsub - 1) - base.y)) := by
  obtain ⟨b1, rfl, hok, -, -, -, -, -, -, -, -, -, -, -⟩ := build_generate base0 _ X Y hb
  have hrs : (vips_embed_base_build_border b1).rsub = b1.rsub := rfl
  by_cases hinc : vips_rect_includesrect b1.rsub r = true
  · refine ⟨_, gen_passthrough _ r
      ⟨hok.2.2.2.2.2.2.1, hok.2.2.2.2.2.2.2.1, hok.2.2.2.2.2.2.2.2.1, hok.2.2.2.2.2.2.2.2.2⟩
      hinc, ?_⟩
    intro px py i hr hi hbd
    have h1 := includespoint_of_includesrect _ _ hinc px py hr
    rw [border_not_rsub b1 i hi px py hbd] at h1
    exact Bool.noConfusion h1
  · replace hinc : vips_rect_includesrect b1.rsub r = false := by simpa using hinc
    refine ⟨_, (gen_borders_eq b1 hok r hinc).2.1 hc, ?_⟩
    intro px py i hr hi hbd
    have h2 : in_borders (vips_embed_base_build_border b1) 8 px py = true :=
      (in_borders_iff _ _ _ _).2 ⟨i, hi, hbd⟩
    simp only [VipsRegion.get, hr, if_true, copy_filled, h2, Bool.or_true, Bool.and_self,
      embed_copy_pel]

/-- C2, on the 3 by 2 example image placed at (2, 1) in a 7 by 5 output: the
top-left pel of the whole output is pel (0, 0) of the image. -/
theorem vips_embed_base_gen_copy_border_witness :
    vips_embed_base_build (example_embed VIPS_EXTEND_COPY 2 1 7 5) =
      .ok (.generate (vips_embed_base_build_border (vips_embed_base_build_rsub
        (example_embed VIPS_EXTEND_COPY 2 1 7 5))) 7 5) ∧
    (vips_embed_base_build_border (vips_embed_base_build_rsub
        (example_embed VIPS_EXTEND_COPY 2 1 7 5))).extend = VIPS_EXTEND_COPY ∧
    ∃ out, vips_embed_base_gen (vips_embed_base_build_border (vips_embed_base_build_rsub
        (example_embed VIPS_EXTEND_COPY 2 1 7 5))) ⟨0, 0, 7, 5⟩ = some out ∧
      out.get 0 0 = some [0] := by
  refine ⟨rfl, rfl, ?_⟩
  obtain ⟨out, h1, h2⟩ := vips_embed_base_gen_copy_border
    (example_embed VIPS_EXTEND_COPY 2 1 7 5) _ 7 5 rfl rfl ⟨0, 0, 7, 5⟩
  exact ⟨out, h1, h2 0 0 4 (by decide) (by decide) (by decide)⟩

/-- C3. For extend in black, white, background and copy, for every output
tile `r`, `vips_embed_base_gen` succeeds and every pel `(px, py)` of `r` inside
`rsub` holds the source pel at `(px - x, py - y)`; when the tile is not wholly
inside `rsub`, the tile differs from the tile as it was after the paste of the
input (before the borders were made) only at pels of `r` outside `rsub`. -/
theorem vips_embed_base_gen_source (base0 base : VipsEmbedBase) (X Y : Int)
    (hb : vips_embed_base_build base0 = .ok (.generate base X Y)) (r : VipsRect) :
    (base.extend = VIPS_EXTEND_BLACK ∨ base.extend = VIPS_EXTEND_WHITE ∨
      base.extend = VIPS_EXTEND_BACKGROUND ∨ base.extend = VIPS_EXTEND_COPY) ∧
    ∃ out, vips_embed_base_gen base r = some out ∧ out.valid = r ∧
      (∀ px py, r.includespoint px py = true → base.rsub.includespoint px py = true →
        out.get px py = some (base.in_.pel (px - base.x) (py - base.y))) ∧
      (vips_rect_includesrect base.rsub r = false →
        ∃ pasted, vips_embed_base_gen_paste base r (VipsRegion.fresh r) = some pasted ∧
          ∀ a b, out.pel a b ≠ pasted.pel a b →
            r.includespoint a b = true ∧ base.rsub.includespoint a b = false) := by
  obtain ⟨b1, rfl, hok, -, -, -, -, -, -, -, -, -, -, hext⟩ := build_generate base0 _ X Y hb
  refine ⟨hext, ?_⟩
  have hrs : (vips_embed_base_build_border b1).rsub = b1.rsub := rfl
  have hx : (vips_embed_base_build_border b1).x = b1.x := rfl
  have hy : (vips_embed_base_build_border b1).y = b1.y := rfl
  have hin : (vips_embed_base_build_border b1).in_ = b1.in_ := rfl
  have hex : (vips_embed_base_build_border b1).extend = b1.extend := rfl
  rw [hex] at hext
  rw [hrs, hx, hy, hin]
  have hsrc : ∀ px py, r.includespoint px py = true → b1.rsub.includespoint px py = true →
      copy_filled (vips_embed_base_build_border b1) r 0 px py =
        some (b1.in_.pel (px - b1.x) (py - b1.y)) := by
    intro px py hr hs
    have hs2 := hs
    rw [includespoint_iff] at hs2
    simp only [copy_filled, hr, hrs, hs, Bool.true_or, Bool.and_self, if_true, embed_copy_pel,
      clamp, VIPS_RECT_RIGHT, VIPS_RECT_BOTTOM, hx, hy, hin]
    congr 2 <;> omega
  by_cases hinc : vips_rect_includesrect b1.rsub r = true
  · refine ⟨_, gen_passthrough _ r
      ⟨hok.2.2.2.2.2.2.1, hok.2.2.2.2.2.2.2.1, hok.2.2.2.2.2.2.2.2.1, hok.2.2.2.2.2.2.2.2.2⟩
      hinc, rfl, ?_, ?_⟩
    · intro px py hr hs
      simp only [VipsRegion.get, hr, if_true, hx, hy, hin]
    · intro h
      rw [hinc] at h
      exact Bool.noConfusion h
  · replace hinc : vips_rect_includesrect b1.rsub r = false := by simpa using hinc
    obtain ⟨hp, h1, h2, h3, h4⟩ := gen_borders_eq b1 hok r hinc
    have hcopy : ∀ a b, copy_filled (vips_embed_base_build_border b1) r 8 a b ≠
        copy_filled (vips_embed_base_build_border b1) r 0 a b →
        r.includespoint a b = true ∧ b1.rsub.includespoint a b = false := by
      intro a b hne
      simp only [copy_filled, hrs] at hne
      cases hr : r.includespoint a b <;> cases hs : b1.rsub.includespoint a b <;>
        simp [hr, hs] at hne ⊢
    have hsolid : ∀ (ink : VipsPel) a b,
        (if (r.includespoint a b && in_borders (vips_embed_base_build_border b1) 8 a b) = true
          then some ink else copy_filled (vips_embed_base_build_border b1) r 0 a b) ≠
        copy_filled (vips_embed_base_build_border b1) r 0 a b →
        r.includespoint a b = true ∧ b1.rsub.includespoint a b = false := by
      intro ink a b hne
      cases hr : r.includespoint a b
      · simp [hr] at hne
      · cases hs : b1.rsub.includespoint a b
        · exact ⟨rfl, rfl⟩
        · rw [in_borders_not_rsub b1 8 (le_refl 8) a b hs] at hne
          simp at hne
    have hsolid2 : ∀ (ink : VipsPel) px py, r.includespoint px py = true →
        b1.rsub.includespoint px py = true →
        (if (r.includespoint px py && in_borders (vips_embed_base_build_border b1) 8 px py) = true
          then some ink else copy_filled (vips_embed_base_build_border b1) r 0 px py) =
        some (b1.in_.pel (px - b1.x) (py - b1.y)) := by
      intro ink px py hr hs
      rw [in_borders_not_rsub b1 8 (le_refl 8) px py hs, hsrc px py hr hs]
      simp
    have hcopy2 : ∀ px py, r.includespoint px py = true →
        b1.rsub.includespoint px py = true →
        copy_filled (vips_embed_base_build_border b1) r 8 px py =
          some (b1.in_.pel (px - b1.x) (py - b1.y)) := by
      intro px py hr hs
      rw [← hsrc px py hr hs]
      simp only [copy_filled, hr, hrs, hs, Bool.true_or, Bool.and_self, if_true]
    rcases hext with he | he | he | he
    · refine ⟨_, h2 he, rfl, ?_, fun _ => ⟨_, hp, fun a b hne => hsolid _ a b hne⟩⟩
      intro px py hr hs
      simp only [VipsRegion.get]
      rw [if_pos hr]
      exact hsolid2 _ px py hr hs
    · refine ⟨_, h3 he, rfl, ?_, fun _ => ⟨_, hp, fun a b hne => hsolid _ a b hne⟩⟩
      intro px py hr hs
      simp only [VipsRegion.get]
      rw [if_pos hr]
      exact hsolid2 _ px py hr hs
    · refine ⟨_, h4 he, rfl, ?_, fun _ => ⟨_, hp, fun a b hne => hsolid _ a b hne⟩⟩
      intro px py hr hs
      simp only [VipsRegion.get]
      rw [if_pos hr]
      exact hsolid2 _ px py hr hs
    · refine ⟨_, h1 he, rfl, ?_, fun _ => ⟨_, hp, fun a b hne => hcopy a b hne⟩⟩
      intro px py hr hs
      simp only [VipsRegion.get]
      rw [if_pos hr]
      exact hcopy2 px py hr hs

/-- C3, on the 3 by 2 example image placed at (2, 1) in a 7 by 5 output,
with black borders: pel (3, 2) of the whole output is pel (1, 1) of the
image. -/
theorem vips_embed_base_gen_source_witness :
    vips_embed_base_build (example_embed VIPS_EXTEND_BLACK 2 1 7 5) =
      .ok (.generate (vips_embed_base_build_border (vips_embed_base_build_rsub
        (example_embed VIPS_EXTEND_BLACK 2 1 7 5))) 7 5) ∧
    ∃ out, vips_embed_base_gen (vips_embed_base_build_border (vips_embed_base_build_rsub
        (example_embed VIPS_EXTEND_BLACK 2 1 7 5))) ⟨0, 0, 7, 5⟩ = some out ∧
      out.get 3 2 = some [11] := by
  refine ⟨rfl, ?_⟩
  obtain ⟨-, out, h1, -, h2, -⟩ := vips_embed_base_gen_source
    (example_embed VIPS_EXTEND_BLACK 2 1 7 5) _ 7 5 rfl ⟨0, 0, 7, 5⟩
  exact ⟨out, h1, h2 3 2 (by decide) (by decide)⟩

/-- C4. For every input image and every extension policy, repeat and mirror
included, an embed with x = 0, y = 0, width = Xsize, height = Ysize is a plain
copy of the input: the build returns through `vips_image_write` before any
extension or geometry code runs. -/
theorem vips_embed_base_build_noop (base : VipsEmbedBase) :
    vips_embed_base_build
        { base with x := 0, y := 0, width := base.in_.Xsize, height := base.in_.Ysize } =
      .ok (.write base.in_) ∧
    vips_image_write base.in_ = base.in_ := by
  simp [vips_embed_base_build, vips_image_write]


theorem rsub_isempty_iff (base : VipsEmbedBase)
    (hsw : 1 ≤ base.in_.Xsize) (hsh : 1 ≤ base.in_.Ysize)
    (hdw : 1 ≤ base.width) (hdh : 1 ≤ base.height) :
    vips_rect_isempty (vips_embed_base_build_rsub base).rsub = true ↔
      base.x ≥ base.width ∨ base.y ≥ base.height ∨ base.x + base.in_.Xsize ≤ 0 ∨
        base.y + base.in_.Ysize ≤ 0 := by
  rw [isempty_iff]
  simp only [vips_embed_base_build_rsub, vips_rect_intersectrect, VIPS_RECT_RIGHT,
    VIPS_RECT_BOTTOM]
  omega

/-- C5 as stated fails at the no-op placement: the 3 by 2 example image
embedded at (0, 0) in a 3 by 2 output with black borders has a non-empty
`rsub`, and the build does not fail, yet it never reaches
`vips_image_generate`: it returns a plain copy. It fails as well for extend =
background when `vips__vector_to_ink` returns NULL: the build then returns -1
before `rsub` is looked at, so that at (9, 0) in a 7 by 5 output `rsub` is
empty and the error is not "bad dimensions", and at (2, 1) `rsub` is not empty
and `vips_image_generate` is not reached. -/
theorem vips_embed_base_build_no_generate :
    ((example_embed VIPS_EXTEND_BLACK 0 0 3 2).extend = VIPS_EXTEND_BLACK ∧
      vips_rect_isempty
        (vips_embed_base_build_rsub (example_embed VIPS_EXTEND_BLACK 0 0 3 2)).rsub = false ∧
      vips_embed_base_build (example_embed VIPS_EXTEND_BLACK 0 0 3 2) =
        .ok (.write example_image) ∧
      ¬∃ base X Y, vips_embed_base_build (example_embed VIPS_EXTEND_BLACK 0 0 3 2) =
        .ok (.generate base X Y)) ∧
    ((example_embed_null_ink 9 0 7 5).extend = VIPS_EXTEND_BACKGROUND ∧
      vips_rect_isempty
        (vips_embed_base_build_rsub (example_embed_null_ink 9 0 7 5)).rsub = true ∧
      vips_embed_base_build (example_embed_null_ink 9 0 7 5) ≠ .error "bad dimensions" ∧
      vips_rect_isempty
        (vips_embed_base_build_rsub (example_embed_null_ink 2 1 7 5)).rsub = false ∧
      vips_embed_base_build (example_embed_null_ink 2 1 7 5) =
        .error "vips__vector_to_ink") := by
  refine ⟨⟨rfl, by decide, rfl, ?_⟩, rfl, by decide, ?_, by decide, rfl⟩
  · rintro ⟨base, X, Y, h⟩
    have h2 : vips_embed_base_build (example_embed VIPS_EXTEND_BLACK 0 0 3 2) =
        .ok (.write example_image) := rfl
    rw [h2] at h
    simp at h
  · have h2 : vips_embed_base_build (example_embed_null_ink 9 0 7 5) =
        .error "vips__vector_to_ink" := rfl
    rw [h2]
    intro h
    simp only [Except.error.injEq] at h
    exact absurd h (by decide)

/-- C5, amended. For extend in black, white, background and copy and all
sizes sw, sh, dw, dh >= 1: where `vips__vector_to_ink` makes the ink (it is
called for background only), `vips_embed_base_build` fails with "bad
dimensions" if and only if `rsub` is empty, that is exactly when x >= dw or
y >= dh or x + sw <= 0 or y + sh <= 0, and when `rsub` is not empty the build
reaches `vips_image_generate` with output size dw by dh, except at the no-op
placement x = 0, y = 0, dw = sw, dh = sh, where it returns a plain copy of the
input; where the policy is background and `vips__vector_to_ink` returns NULL,
the build outside the no-op placement returns -1 before `rsub` is looked
at. -/
theorem vips_embed_base_build_bad_dimensions (base : VipsEmbedBase)
    (hsw : 1 ≤ base.in_.Xsize) (hsh : 1 ≤ base.in_.Ysize)
    (hdw : 1 ≤ base.width) (hdh : 1 ≤ base.height)
    (hext : (vips_embed_base_build_ink base).extend ≠ VIPS_EXTEND_REPEAT ∧
      (vips_embed_base_build_ink base).extend ≠ VIPS_EXTEND_MIRROR) :
    (vips_embed_base_build_ink_null base = false →
      (vips_embed_base_build base = .error "bad dimensions" ↔
        vips_rect_isempty (vips_embed_base_build_rsub base).rsub = true)) ∧
    (vips_rect_isempty (vips_embed_base_build_rsub base).rsub = true ↔
      base.x ≥ base.width ∨ base.y ≥ base.height ∨ base.x + base.in_.Xsize ≤ 0 ∨
        base.y + base.in_.Ysize ≤ 0) ∧
    (vips_embed_base_build_ink_null base = false →
      vips_rect_isempty (vips_embed_base_build_rsub base).rsub = false →
      ¬(base.x = 0 ∧ base.y = 0 ∧ base.width = base.in_.Xsize ∧
        base.height = base.in_.Ysize) →
      vips_embed_base_build base =
        .ok (.generate
          (vips_embed_base_build_border
            (vips_embed_base_build_rsub (vips_embed_base_build_ink base)))
          base.width base.height)) ∧
    ((base.x = 0 ∧ base.y = 0 ∧ base.width = base.in_.Xsize ∧
        base.height = base.in_.Ysize) →
      vips_embed_base_build base = .ok (.write base.in_)) ∧
    (vips_embed_base_build_ink_null base = true →
      ¬(base.x = 0 ∧ base.y = 0 ∧ base.width = base.in_.Xsize ∧
        base.height = base.in_.Ysize) →
      vips_embed_base_build base = .error "vips__vector_to_ink") ∧
    (vips_embed_base_build_ink_null base = true ↔
      (vips_embed_base_build_ink base).extend = VIPS_EXTEND_BACKGROUND ∧
        base.background_ink = none) ∧
    (vips_embed_base_build base = .error "bad dimensions" ↔
      vips_embed_base_build_ink_null base = false ∧
        vips_rect_isempty (vips_embed_base_build_rsub base).rsub = true) := by
  have hiff := rsub_isempty_iff base hsw hsh hdw hdh
  obtain ⟨f1, f2, f3, f4, f5⟩ := build_ink_fields base
  have hrs : (vips_embed_base_build_rsub (vips_embed_base_build_ink base)).rsub =
      (vips_embed_base_build_rsub base).rsub := by
    simp only [vips_embed_base_build_rsub, f1, f2, f3, f4, f5]
  have hnoop : (base.x = 0 ∧ base.y = 0 ∧ base.width = base.in_.Xsize ∧
      base.height = base.in_.Ysize) → vips_embed_base_build base = .ok (.write base.in_) := by
    intro h
    simp [vips_embed_base_build, h, vips_image_write]
  have hnull : vips_embed_base_build_ink_null base = true →
      ¬(base.x = 0 ∧ base.y = 0 ∧ base.width = base.in_.Xsize ∧
        base.height = base.in_.Ysize) →
      vips_embed_base_build base = .error "vips__vector_to_ink" := by
    intro hn h
    unfold vips_embed_base_build
    rw [if_neg h, if_pos hn]
  have hgen : vips_embed_base_build_ink_null base = false →
      ¬(base.x = 0 ∧ base.y = 0 ∧ base.width = base.in_.Xsize ∧
        base.height = base.in_.Ysize) →
      vips_embed_base_build base =
        if vips_rect_isempty (vips_embed_base_build_rsub base).rsub = true then
          .error "bad dimensions"
        else .ok (.generate
          (vips_embed_base_build_border
            (vips_embed_base_build_rsub (vips_embed_base_build_ink base)))
          base.width base.height) := by
    intro hn h
    unfold vips_embed_base_build
    rw [if_neg h, if_neg (by rw [hn]; exact Bool.false_ne_true)]
    simp only
    rw [← hrs, ← f4, ← f5]
    generalize vips_embed_base_build_ink base = b at hext
    cases hb : b.extend
    · rfl
    · rfl
    · exact absurd hb hext.1
    · exact absurd hb hext.2
    · rfl
    · rfl
  have hbad : vips_embed_base_build_ink_null base = false →
      (vips_embed_base_build base = .error "bad dimensions" ↔
        vips_rect_isempty (vips_embed_base_build_rsub base).rsub = true) := by
    intro hn
    by_cases h : (base.x = 0 ∧ base.y = 0 ∧ base.width = base.in_.Xsize ∧
        base.height = base.in_.Ysize)
    · rw [hnoop h]
      have : ¬(vips_rect_isempty (vips_embed_base_build_rsub base).rsub = true) := by
        rw [hiff]
        omega
      simp [this]
    · rw [hgen hn h]
      split_ifs with he
      · simp [he]
      · simp [he]
  refine ⟨hbad, hiff, ?_, hnoop, hnull, ?_, ?_⟩
  · intro hn hne h
    rw [hgen hn h, hne]
    simp
  · simp [vips_embed_base_build_ink_null]
  · cases hn : vips_embed_base_build_ink_null base
    · rw [hbad hn]
      simp
    · by_cases h : (base.x = 0 ∧ base.y = 0 ∧ base.width = base.in_.Xsize ∧
          base.height = base.in_.Ysize)
      · rw [hnoop h]
        simp
      · rw [hnull hn h]
        simp only [Except.error.injEq, Bool.true_eq_false, false_and, iff_false]
        decide

/-- C5 amended, on the example image at (7, 1) in a 7 by 5 output with extend
copy: `rsub` is empty and the build fails with "bad dimensions". -/
theorem vips_embed_base_build_bad_dimensions_witness :
    (1 : Int) ≤ example_image.Xsize ∧ (1 : Int) ≤ example_image.Ysize ∧
    (1 : Int) ≤ 7 ∧ (1 : Int) ≤ 5 ∧
    (vips_embed_base_build (example_embed VIPS_EXTEND_COPY 7 1 7 5) =
        .error "bad dimensions" ↔
      vips_rect_isempty
        (vips_embed_base_build_rsub (example_embed VIPS_EXTEND_COPY 7 1 7 5)).rsub = true) ∧
    vips_embed_base_build (example_embed VIPS_EXTEND_COPY 7 1 7 5) =
      .error "bad dimensions" := by
  have h := vips_embed_base_build_bad_dimensions (example_embed VIPS_EXTEND_COPY 7 1 7 5)
    (by decide) (by decide) (by decide) (by decide) ⟨by decide, by decide⟩
  exact ⟨by decide, by decide, by decide, by decide, h.1 (by decide),
    (h.1 (by decide)).2 (by decide)⟩

theorem build_n_facts (x P : Int) (hP : 1 ≤ P) :
    0 ≤ vips_embed_base_build_n x P ∧ vips_embed_base_build_n x P ≤ P ∧
    ∃ q, vips_embed_base_build_n x P + x = P * q := by
  unfold vips_embed_base_build_n
  split_ifs with hx
  · rw [Int.tmod_eq_emod (by omega) (by omega)]
    have h1 := Int.emod_nonneg (-x) (show P ≠ 0 by omega)
    have h2 := Int.emod_lt_of_pos (-x) (show 0 < P by omega)
    have h3 := Int.ediv_add_emod (-x) P
    exact ⟨h1, by omega, -((-x) / P), by linarith⟩
  · rw [Int.tmod_eq_emod (by omega) (by omega)]
    have h1 := Int.emod_nonneg x (show P ≠ 0 by omega)
    have h2 := Int.emod_lt_of_pos x (show 0 < P by omega)
    have h3 := Int.ediv_add_emod x P
    exact ⟨by omega, by omega, x / P + 1, by linarith⟩

theorem build_n_emod (x P : Int) (hP : 1 ≤ P) (px : Int) :
    (px + vips_embed_base_build_n x P) % P = (px - x) % P := by
  obtain ⟨-, -, q, hq⟩ := build_n_facts x P hP
  have : px + vips_embed_base_build_n x P = px - x + P * q := by linarith
  rw [this, Int.add_mul_emod_self_left]

theorem build_n_window (x P width : Int) (hP : 1 ≤ P) (hw : 0 ≤ width) :
    vips_embed_base_build_n x P + width ≤ P * (Int.tdiv width P + 2) := by
  obtain ⟨-, h2, -⟩ := build_n_facts x P hP
  rw [Int.tdiv_eq_ediv hw (by omega)]
  have h3 := Int.ediv_add_emod width P
  have h4 := Int.emod_lt_of_pos width (show 0 < P by omega)
  have h5 : P * (width / P + 2) = P * (width / P) + 2 * P := by ring
  omega

theorem tdiv_add_two_pos (w P : Int) (hP : 1 ≤ P) (hw : 0 ≤ w) : ¬(Int.tdiv w P + 2 < 1) := by
  rw [Int.tdiv_eq_ediv hw (by omega)]
  have := Int.ediv_nonneg hw (show 0 ≤ P by omega)
  omega

/-- The repeat pipeline of the build: replicate, then extract at `(nx, ny)`. -/
theorem build_repeat (base : VipsEmbedBase)
    (hsw : 1 ≤ base.in_.Xsize) (hsh : 1 ≤ base.in_.Ysize)
    (hdw : 1 ≤ base.width) (hdh : 1 ≤ base.height)
    (hnoop : ¬(base.x = 0 ∧ base.y = 0 ∧ base.width = base.in_.Xsize ∧
      base.height = base.in_.Ysize))
    (hext : (vips_embed_base_build_ink base).extend = VIPS_EXTEND_REPEAT) :
    ∃ out, vips_embed_base_build base = .ok (.write out) ∧
      out.Xsize = base.width ∧ out.Ysize = base.height ∧
      ∀ px py, out.pel px py =
        base.in_.pel ((px - base.x) % base.in_.Xsize) ((py - base.y) % base.in_.Ysize) := by
  obtain ⟨f1, f2, f3, f4, f5⟩ := build_ink_fields base
  unfold vips_embed_base_build
  rw [if_neg hnoop, if_neg (build_ink_null_of_ne base (by rw [hext]; decide))]
  simp only
  generalize vips_embed_base_build_ink base = b at hext f1 f2 f3 f4 f5 ⊢
  rw [hext, f1, f2, f3, f4, f5]
  simp only [vips_replicate, tdiv_add_two_pos _ _ hsw (show 0 ≤ base.width by omega),
    tdiv_add_two_pos _ _ hsh (show 0 ≤ base.height by omega), or_self, if_false,
    bind, Except.bind, vips_extract_area, vips_image_write]
  have n1 := build_n_facts base.x base.in_.Xsize hsw
  have n2 := build_n_facts base.y base.in_.Ysize hsh
  have w1 := build_n_window base.x base.in_.Xsize base.width hsw (by omega)
  have w2 := build_n_window base.y base.in_.Ysize base.height hsh (by omega)
  rw [if_neg (by omega)]
  refine ⟨_, rfl, rfl, rfl, ?_⟩
  intro px py
  simp only
  rw [build_n_emod _ _ hsw, build_n_emod _ _ hsh]

/-- The mirror pipeline of the build: the 2 by 2 mirror tile is replicated,
the window at `(nx, ny)` is extracted, and the input is laid over its place. -/
theorem build_mirror (base : VipsEmbedBase)
    (hsw : 1 ≤ base.in_.Xsize) (hsh : 1 ≤ base.in_.Ysize)
    (hdw : 1 ≤ base.width) (hdh : 1 ≤ base.height)
    (hnoop : ¬(base.x = 0 ∧ base.y = 0 ∧ base.width = base.in_.Xsize ∧
      base.height = base.in_.Ysize))
    (hext : (vips_embed_base_build_ink base).extend = VIPS_EXTEND_MIRROR) :
    ∃ out, vips_embed_base_build base = .ok (.write out) ∧
      out.Xsize = base.width ∧ out.Ysize = base.height ∧
      ∀ px py, out.pel px py =
        (embed_mirror_tile base.in_).pel ((px - base.x) % (base.in_.Xsize * 2))
          ((py - base.y) % (base.in_.Ysize * 2)) := by
  obtain ⟨f1, f2, f3, f4, f5⟩ := build_ink_fields base
  have hX : (embed_mirror_tile base.in_).Xsize = base.in_.Xsize * 2 := by
    simp only [embed_mirror_tile, vips_join, vips_flip, min_self]
    ring
  have hY : (embed_mirror_tile base.in_).Ysize = base.in_.Ysize * 2 := by
    simp only [embed_mirror_tile, vips_join, vips_flip, min_self]
    ring
  unfold vips_embed_base_build
  rw [if_neg hnoop, if_neg (build_ink_null_of_ne base (by rw [hext]; decide))]
  simp only
  generalize vips_embed_base_build_ink base = b at hext f1 f2 f3 f4 f5 ⊢
  rw [hext, f1, f2, f3, f4, f5]
  change ∃ out, ((vips_replicate (embed_mirror_tile base.in_)
      (Int.tdiv base.width (embed_mirror_tile base.in_).Xsize + 2)
      (Int.tdiv base.height (embed_mirror_tile base.in_).Ysize + 2)).bind fun t4 =>
      (vips_extract_area t4 (vips_embed_base_build_n base.x (base.in_.Xsize * 2))
        (vips_embed_base_build_n base.y (base.in_.Ysize * 2)) base.width base.height).bind
        fun t5 => Except.ok (VipsEmbedOut.write
          (vips_image_write (vips_insert t5 base.in_ base.x base.y)))) = _ ∧ _
  rw [hX, hY]
  have hsw2 : 1 ≤ base.in_.Xsize * 2 := by omega
  have hsh2 : 1 ≤ base.in_.Ysize * 2 := by omega
  simp only [vips_replicate, tdiv_add_two_pos _ _ hsw2 (show 0 ≤ base.width by omega),
    tdiv_add_two_pos _ _ hsh2 (show 0 ≤ base.height by omega), or_self, if_false,
    bind, Except.bind, vips_extract_area, vips_image_write, hX, hY]
  have n1 := build_n_facts base.x (base.in_.Xsize * 2) hsw2
  have n2 := build_n_facts base.y (base.in_.Ysize * 2) hsh2
  have w1 := build_n_window base.x (base.in_.Xsize * 2) base.width hsw2 (by omega)
  have w2 := build_n_window base.y (base.in_.Ysize * 2) base.height hsh2 (by omega)
  rw [if_neg (by omega)]
  refine ⟨_, rfl, rfl, rfl, ?_⟩
  intro px py
  simp only [vips_insert]
  split_ifs with hin
  · rw [includespoint_iff] at hin
    simp only at hin
    rw [Int.emod_eq_of_lt (by omega) (by omega), Int.emod_eq_of_lt (by omega) (by omega)]
    simp only [embed_mirror_tile, vips_join, vips_flip, min_self]
    rw [if_pos (by omega), if_pos (by omega)]
  · rw [build_n_emod _ _ hsw2, build_n_emod _ _ hsh2]

/-- C6. For every placement `x` of any sign and every period `P >= 1`, the
extraction offset `n = (x < 0 ? (-x) % P : P - x % P)` of
`vips_embed_base_build` satisfies `0 <= n <= P`, `P` divides `n + x`, so column
`px + n` of the replicated image is tile column `(px - x) mod P`, and the
window fits: `n + width <= P * (width / P + 2)`. With `P` the source width
(repeat) or twice the source width (mirror), and likewise for `y`, the build
succeeds and output pel `(px, py)` is pel `((px - x) mod P, (py - y) mod Q)` of
the source, respectively of the 2 by 2 mirror tile. -/
theorem vips_embed_base_build_clock (x P width : Int) (hP : 1 ≤ P) (hw : 0 ≤ width) :
    (0 ≤ vips_embed_base_build_n x P ∧ vips_embed_base_build_n x P ≤ P ∧
      P ∣ vips_embed_base_build_n x P + x ∧
      (∀ px : Int, (px + vips_embed_base_build_n x P) % P = (px - x) % P) ∧
      vips_embed_base_build_n x P + width ≤ P * (Int.tdiv width P + 2)) ∧
    (∀ base : VipsEmbedBase, base.x = x → base.in_.Xsize = P → base.width = width →
      1 ≤ base.in_.Ysize → 1 ≤ base.width → 1 ≤ base.height →
      ¬(base.x = 0 ∧ base.y = 0 ∧ base.width = base.in_.Xsize ∧
        base.height = base.in_.Ysize) →
      (vips_embed_base_build_ink base).extend = VIPS_EXTEND_REPEAT →
      ∃ out, vips_embed_base_build base = .ok (.write out) ∧
        out.Xsize = width ∧ out.Ysize = base.height ∧
        ∀ px py, out.pel px py =
          base.in_.pel ((px - x) % P) ((py - base.y) % base.in_.Ysize)) ∧
    (∀ base : VipsEmbedBase, base.x = x → base.in_.Xsize * 2 = P → base.width = width →
      1 ≤ base.in_.Ysize → 1 ≤ base.width → 1 ≤ base.height →
      ¬(base.x = 0 ∧ base.y = 0 ∧ base.width = base.in_.Xsize ∧
        base.height = base.in_.Ysize) →
      (vips_embed_base_build_ink base).extend = VIPS_EXTEND_MIRROR →
      ∃ out, vips_embed_base_build base = .ok (.write out) ∧
        out.Xsize = width ∧ out.Ysize = base.height ∧
        ∀ px py, out.pel px py =
          (embed_mirror_tile base.in_).pel ((px - x) % P)
            ((py - base.y) % (base.in_.Ysize * 2))) := by
  obtain ⟨h1, h2, q, hq⟩ := build_n_facts x P hP
  refine ⟨⟨h1, h2, ⟨q, hq⟩, build_n_emod x P hP, build_n_window x P width hP hw⟩, ?_, ?_⟩
  · intro base hx hX hW hsh hdw hdh hnoop hext
    subst hx hX hW
    exact build_repeat base hP hsh hdw hdh hnoop hext
  · intro base hx hX hW hsh hdw hdh hnoop hext
    subst hx hX hW
    exact build_mirror base (by omega) hsh hdw hdh hnoop hext

/-- C6, at x = -4, P = 3, width = 7 (n = 1), and on the 3 by 2 example image
repeated into a 7 by 5 output from (-4, 1). -/
theorem vips_embed_base_build_clock_witness :
    (1 : Int) ≤ 3 ∧ (0 : Int) ≤ 7 ∧ vips_embed_base_build_n (-4) 3 = 1 ∧
    (3 : Int) ∣ vips_embed_base_build_n (-4) 3 + -4 ∧
    ∃ out, vips_embed_base_build (example_embed VIPS_EXTEND_REPEAT (-4) 1 7 5) =
        .ok (.write out) ∧ out.Xsize = 7 ∧ out.pel 0 0 = example_image.pel 1 1 := by
  have h := vips_embed_base_build_clock (-4) 3 7 (by decide) (by decide)
  obtain ⟨out, h1, h2, -, h4⟩ := h.2.1 (example_embed VIPS_EXTEND_REPEAT (-4) 1 7 5) rfl rfl rfl
    (by decide) (by decide) (by decide) (by decide) rfl
  exact ⟨by decide, by decide, by decide, h.1.2.2.1, out, h1, h2, h4 0 0⟩

/-! ## Lemmas about reduceh.cpp -/

theorem double_to_int_intCast (z : Int) : double_to_int (z : ℚ) = z := by
  unfold double_to_int
  split_ifs <;> simp

theorem double_to_int_nonneg (x : ℚ) (h : 0 ≤ x) : double_to_int x = ⌊x⌋ := by
  simp [double_to_int, h]

theorem rint_near (x : ℚ) : |(rint x : ℚ) - x| ≤ 1 / 2 := by
  have h1 := Int.floor_le x
  have h2 := Int.lt_floor_add_one x
  unfold rint
  rw [abs_le]
  split_ifs with a b c
  · constructor <;> linarith
  · push_cast
    constructor <;> linarith
  · constructor <;> linarith
  · push_cast
    constructor <;> linarith

theorem get_points_eq (kernel : VipsKernel) (shrink : ℚ) :
    vips_reduce_get_points kernel shrink =
      match kernel with
      | VIPS_KERNEL_NEAREST => 1
      | VIPS_KERNEL_LINEAR => 2 * rint shrink + 1
      | VIPS_KERNEL_CUBIC => 2 * rint (2 * shrink) + 1
      | VIPS_KERNEL_MITCHELL => 2 * rint (2 * shrink) + 1
      | VIPS_KERNEL_LANCZOS2 => 2 * rint (2 * shrink) + 1
      | VIPS_KERNEL_LANCZOS3 => 2 * rint (3 * shrink) + 1
      | VIPS_KERNEL_MKS2013 => 2 * rint (3 * shrink) + 1
      | VIPS_KERNEL_MKS2021 => 2 * rint (5 * shrink) + 1 := by
  have key : ∀ k : Int, double_to_int (2 * (k : ℚ) + 1) = 2 * k + 1 := by
    intro k
    have : (2 * (k : ℚ) + 1) = ((2 * k + 1 : Int) : ℚ) := by push_cast; ring
    rw [this, double_to_int_intCast]
  cases kernel <;> simp only [vips_reduce_get_points, key]

theorem round_uint_nonneg (x : ℚ) (h : 0 ≤ x) : VIPS_ROUND_UINT x = ⌊x + 1 / 2⌋ := by
  unfold VIPS_ROUND_UINT double_to_int
  rw [if_pos (by linarith)]

theorem round_uint_intCast (z : Int) (h : 0 ≤ z) : VIPS_ROUND_UINT (z : ℚ) = z := by
  rw [round_uint_nonneg _ (by exact_mod_cast h), Int.floor_int_add]
  norm_num

theorem int_hshrink_identity (W : Int) (gap : ℚ) (hW : 1 ≤ W) (hg : 1 ≤ gap) :
    double_to_int (max 1 (⌊(W : ℚ) / W / gap⌋ : ℚ)) = 1 := by
  have hW' : (W : ℚ) ≠ 0 := by
    have : (1 : ℚ) ≤ W := by exact_mod_cast hW
    linarith
  rw [div_self hW']
  have h4 : (1 : ℚ) / gap < 2 := by
    rw [div_lt_iff₀ (by linarith)]
    linarith
  have h5 : ⌊(1 : ℚ) / gap⌋ ≤ 1 := by
    have h6 : ⌊(1 : ℚ) / gap⌋ < 2 := by
      rw [Int.floor_lt]
      exact_mod_cast h4
    omega
  have h6 : max (1 : ℚ) (⌊(1 : ℚ) / gap⌋ : ℚ) = ((1 : Int) : ℚ) := by
    rw [max_eq_left (by exact_mod_cast h5)]
    simp
  rw [h6, double_to_int_intCast]

/-- The `gap` block when the shrink factor is 1: nothing is shrunk. -/
theorem build_gap_identity (env : ReducehEnv) (r : VipsReduceh) (extra : ℚ)
    (hgap : r.gap = 0 ∨ 1 ≤ r.gap) (hW : 1 ≤ r.in_.Xsize) :
    ∃ ih, (ih = none ∨ ih = some 1) ∧
      vips_reduceh_build_gap env r r.in_ r.in_.Xsize extra =
        .ok ⟨r.in_, r.residual_hshrink, extra, ih, false⟩ := by
  unfold vips_reduceh_build_gap
  by_cases h1 : 0 < r.gap ∧ r.kernel ≠ VIPS_KERNEL_NEAREST
  · have hg : 1 ≤ r.gap := by
      rcases hgap with h | h
      · rw [h] at h1
        exact absurd h1.1 (lt_irrefl 0)
      · exact h
    rw [if_pos h1, if_neg (by linarith)]
    simp only [int_hshrink_identity _ _ hW hg, gt_iff_lt, lt_self_iff_false, if_false]
    exact ⟨some 1, Or.inr rfl, rfl⟩
  · rw [if_neg h1]
    exact ⟨none, Or.inl rfl, rfl⟩

/-- What `vips_embed` with extend = copy returns. -/
theorem embed_copy_result (im : VipsImage) (x y w h : Int) :
    vips_embed im x y w h (some VIPS_EXTEND_COPY) =
      if x = 0 ∧ y = 0 ∧ w = im.Xsize ∧ h = im.Ysize then .ok (.write im)
      else if vips_rect_isempty
          (vips_rect_intersectrect ⟨x, y, im.Xsize, im.Ysize⟩ ⟨0, 0, w, h⟩) = true then
        .error "bad dimensions"
      else .ok (.generate
        (vips_embed_base_build_border (vips_embed_base_build_rsub
          { in_ := im, extend := VIPS_EXTEND_COPY, extend_isset := true,
            background_isset := false, background_ink := some (List.replicate im.Bands 0),
            width := w, height := h, ink := [], rout := ⟨0, 0, 0, 0⟩, rsub := ⟨0, 0, 0, 0⟩,
            border := fun _ => ⟨0, 0, 0, 0⟩, x := x, y := y })) w h) := by
  have hink : vips_embed_base_build_ink
      { in_ := im, extend := VIPS_EXTEND_COPY, extend_isset := true,
        background_isset := false, background_ink := some (List.replicate im.Bands 0),
        width := w, height := h, ink := [], rout := ⟨0, 0, 0, 0⟩, rsub := ⟨0, 0, 0, 0⟩,
        border := fun _ => ⟨0, 0, 0, 0⟩, x := x, y := y } =
      { in_ := im, extend := VIPS_EXTEND_COPY, extend_isset := true,
        background_isset := false, background_ink := some (List.replicate im.Bands 0),
        width := w, height := h, ink := [], rout := ⟨0, 0, 0, 0⟩, rsub := ⟨0, 0, 0, 0⟩,
        border := fun _ => ⟨0, 0, 0, 0⟩, x := x, y := y } := by
    simp [vips_embed_base_build_ink]
  have hnull : vips_embed_base_build_ink_null
      { in_ := im, extend := VIPS_EXTEND_COPY, extend_isset := true,
        background_isset := false, background_ink := some (List.replicate im.Bands 0),
        width := w, height := h, ink := [], rout := ⟨0, 0, 0, 0⟩, rsub := ⟨0, 0, 0, 0⟩,
        border := fun _ => ⟨0, 0, 0, 0⟩, x := x, y := y } = false := by
    simp [vips_embed_base_build_ink_null]
  unfold vips_embed vips_embed_base_build
  simp only [Option.getD_some, Option.isSome_some, hink, hnull]
  rfl

theorem embed_copy_size (im : VipsImage) (x y w h : Int) (t : VipsEmbedOut)
    (ht : vips_embed im x y w h (some VIPS_EXTEND_COPY) = .ok t) :
    t.Xsize = w ∧ t.Ysize = h := by
  rw [embed_copy_result] at ht
  by_cases h1 : x = 0 ∧ y = 0 ∧ w = im.Xsize ∧ h = im.Ysize
  · rw [if_pos h1] at ht
    simp only [Except.ok.injEq] at ht
    subst ht
    exact ⟨h1.2.2.1.symm, h1.2.2.2.symm⟩
  · rw [if_neg h1] at ht
    by_cases h2 : vips_rect_isempty
        (vips_rect_intersectrect ⟨x, y, im.Xsize, im.Ysize⟩ ⟨0, 0, w, h⟩) = true
    · rw [if_pos h2] at ht
      simp at ht
    · rw [if_neg h2] at ht
      simp only [Except.ok.injEq] at ht
      subst ht
      exact ⟨rfl, rfl⟩

theorem embed_copy_error (im : VipsImage) (x y w h : Int) (e : String)
    (ht : vips_embed im x y w h (some VIPS_EXTEND_COPY) = .error e) :
    e = "bad dimensions" := by
  rw [embed_copy_result] at ht
  by_cases h1 : x = 0 ∧ y = 0 ∧ w = im.Xsize ∧ h = im.Ysize
  · rw [if_pos h1] at ht
    simp at ht
  · rw [if_neg h1] at ht
    by_cases h2 : vips_rect_isempty
        (vips_rect_intersectrect ⟨x, y, im.Xsize, im.Ysize⟩ ⟨0, 0, w, h⟩) = true
    · rw [if_pos h2] at ht
      simp only [Except.error.injEq] at ht
      exact ht.symm
    · rw [if_neg h2] at ht
      simp at ht

/-- The `gap` block does nothing when `gap` is 0. -/
theorem build_gap_zero (env : ReducehEnv) (r : VipsReduceh) (im : VipsImage) (width : Int)
    (extra : ℚ) (hgap : r.gap = 0) :
    vips_reduceh_build_gap env r im width extra =
      .ok ⟨im, r.residual_hshrink, extra, none, false⟩ := by
  unfold vips_reduceh_build_gap
  rw [if_neg]
  rw [hgap]
  exact fun h => absurd h.1 (lt_irrefl 0)

/-- The ways out of `vips_reduceh_build` once the `gap` block has succeeded
with a residual shrink other than 1. -/
theorem build_after_gap (env : ReducehEnv) (r : VipsReduceh) (g : ReducehGap)
    (hs : ¬r.hshrink < 1)
    (hg : vips_reduceh_build_gap env { r with residual_hshrink := r.hshrink } r.in_
      (VIPS_ROUND_UINT ((r.in_.Xsize : ℚ) / r.hshrink))
      ((VIPS_ROUND_UINT ((r.in_.Xsize : ℚ) / r.hshrink) : ℚ) * r.hshrink - r.in_.Xsize) =
      .ok g)
    (hres : g.residual_hshrink ≠ 1) :
    (vips_reduce_get_points r.kernel g.residual_hshrink > env.MAX_POINT →
      vips_reduceh_build env r =
        ({ r with residual_hshrink := g.residual_hshrink,
                  n_point := vips_reduce_get_points r.kernel g.residual_hshrink },
          .error "reduce factor too large")) ∧
    (¬vips_reduce_get_points r.kernel g.residual_hshrink > env.MAX_POINT →
      (vips_reduceh_build env r).2 ≠ .error "reduce factor too large" ∧
      ∀ out, (vips_reduceh_build env r).2 = .ok out →
        out.Xsize = VIPS_ROUND_UINT ((r.in_.Xsize : ℚ) / r.hshrink) ∧
        ∃ t1, env.vips_image_decode g.in_ = some t1 ∧ out.Ysize = t1.Ysize) := by
  unfold vips_reduceh_build
  rw [if_neg hs]
  simp only [hg, hres, if_false]
  constructor
  · intro hn
    rw [if_pos hn]
  · intro hn
    rw [if_neg hn]
    cases hd : env.vips_image_decode g.in_ with
    | none => simp
    | some t1 =>
      simp only
      cases he : vips_embed t1
          (double_to_int (⌈(vips_reduce_get_points r.kernel g.residual_hshrink : ℚ) / 2⌉ - 1)) 0
          (t1.Xsize + vips_reduce_get_points r.kernel g.residual_hshrink) t1.Ysize
          (some VIPS_EXTEND_COPY) with
      | error e =>
        have := embed_copy_error _ _ _ _ _ _ he
        subst this
        simp
      | ok t2 =>
        simp only
        have hsz := embed_copy_size _ _ _ _ _ _ he
        split_ifs with hw
        · simp
        · refine ⟨by simp, ?_⟩
          intro out ho
          simp only [Except.ok.injEq] at ho
          subst ho
          exact ⟨rfl, t1, rfl, hsz.2⟩

theorem rint_intCast (z : Int) : rint (z : ℚ) = z := by
  simp [rint]

theorem round_half (W : Int) : ⌊(W : ℚ) / 2 + 1 / 2⌋ = (W + 1) / 2 := by
  have h := Rat.floor_intCast_div_natCast (W + 1) 2
  have : ((W + 1 : Int) : ℚ) / ((2 : Nat) : ℚ) = (W : ℚ) / 2 + 1 / 2 := by
    push_cast
    ring
  rw [this] at h
  exact h

theorem build_generate_eq (env : ReducehEnv) (r : VipsReduceh) (g : ReducehGap)
    (t1 : VipsImage) (t2 : VipsEmbedOut)
    (hs : ¬r.hshrink < 1)
    (hg : vips_reduceh_build_gap env { r with residual_hshrink := r.hshrink } r.in_
      (VIPS_ROUND_UINT ((r.in_.Xsize : ℚ) / r.hshrink))
      ((VIPS_ROUND_UINT ((r.in_.Xsize : ℚ) / r.hshrink) : ℚ) * r.hshrink - r.in_.Xsize) =
      .ok g)
    (hres : g.residual_hshrink ≠ 1)
    (hn : ¬vips_reduce_get_points r.kernel g.residual_hshrink > env.MAX_POINT)
    (hd : env.vips_image_decode g.in_ = some t1)
    (he : vips_embed t1
      (double_to_int (⌈(vips_reduce_get_points r.kernel g.residual_hshrink : ℚ) / 2⌉ - 1)) 0
      (t1.Xsize + vips_reduce_get_points r.kernel g.residual_hshrink) t1.Ysize
      (some VIPS_EXTEND_COPY) = .ok t2)
    (hw : ¬VIPS_ROUND_UINT ((r.in_.Xsize : ℚ) / r.hshrink) ≤ 0) :
    (vips_reduceh_build env r).2 =
      .ok (.generate t2 (VIPS_ROUND_UINT ((r.in_.Xsize : ℚ) / r.hshrink)) t2.Ysize) := by
  unfold vips_reduceh_build
  rw [if_neg hs]
  simp only [hg, hres, if_false, hn, hd, he, hw]

/-! ## Claims about reduceh.cpp -/

/-- C8. For hshrink = 1.0, every kernel and every gap that is 0 or at least 1,
`vips_reduceh_build` writes the input image unchanged to the output: the gap
block shrinks nothing (`int_hshrink`, where it is computed at all, is 1), and
the object is left without coefficient tables, without an output width, and
with no embed or generate call: only `residual_hshrink` has been set. -/
theorem vips_reduceh_build_identity (env : ReducehEnv) (r : VipsReduceh)
    (hs : r.hshrink = 1) (hgap : r.gap = 0 ∨ 1 ≤ r.gap) (hW : 1 ≤ r.in_.Xsize) :
    vips_reduceh_build env r = ({ r with residual_hshrink := 1 }, .ok (.write r.in_)) ∧
    vips_image_write r.in_ = r.in_ ∧
    ∃ ih, (ih = none ∨ ih = some 1) ∧
      vips_reduceh_build_gap env { r with residual_hshrink := r.hshrink } r.in_
        (VIPS_ROUND_UINT ((r.in_.Xsize : ℚ) / r.hshrink))
        ((VIPS_ROUND_UINT ((r.in_.Xsize : ℚ) / r.hshrink) : ℚ) * r.hshrink - r.in_.Xsize) =
        .ok ⟨r.in_, 1, 0, ih, false⟩ := by
  have hw : VIPS_ROUND_UINT ((r.in_.Xsize : ℚ) / r.hshrink) = r.in_.Xsize := by
    rw [hs, div_one, round_uint_intCast _ (by omega)]
  obtain ⟨ih, hih, hg⟩ := build_gap_identity env { r with residual_hshrink := r.hshrink }
    ((r.in_.Xsize : ℚ) * r.hshrink - r.in_.Xsize) hgap hW
  simp only at hg
  refine ⟨?_, rfl, ih, hih, ?_⟩
  · unfold vips_reduceh_build
    rw [if_neg (by rw [hs]; exact lt_irrefl 1)]
    simp only [hw, hg]
    simp [hs, vips_image_write]
  · rw [hw, hg, hs]
    simp

/-- C8, for a 5 by 7 image, gap 3 and lanczos3. -/
theorem vips_reduceh_build_identity_witness :
    (example_reduceh 5 7 1 3 VIPS_KERNEL_LANCZOS3).hshrink = 1 ∧
    ((example_reduceh 5 7 1 3 VIPS_KERNEL_LANCZOS3).gap = 0 ∨
      1 ≤ (example_reduceh 5 7 1 3 VIPS_KERNEL_LANCZOS3).gap) ∧
    1 ≤ (example_reduceh 5 7 1 3 VIPS_KERNEL_LANCZOS3).in_.Xsize ∧
    (vips_reduceh_build example_env (example_reduceh 5 7 1 3 VIPS_KERNEL_LANCZOS3)).2 =
      .ok (.write (example_reduceh 5 7 1 3 VIPS_KERNEL_LANCZOS3).in_) := by
  have hg : (example_reduceh 5 7 1 3 VIPS_KERNEL_LANCZOS3).gap = 0 ∨
      1 ≤ (example_reduceh 5 7 1 3 VIPS_KERNEL_LANCZOS3).gap := by
    right
    simp only [example_reduceh]
    norm_num
  have h := vips_reduceh_build_identity example_env
    (example_reduceh 5 7 1 3 VIPS_KERNEL_LANCZOS3) rfl hg (by decide)
  exact ⟨rfl, hg, by decide, by rw [h.1]⟩

/-- C10 as stated fails for a gap strictly between 0 and 1: reducing a 100
pel wide image by 1000 with lanczos3 and gap 1/2 needs 6001 taps, more than the
cap of 200, and the residual shrink is 1000, yet the build fails with "reduce
gap should be >= 1.0" and not with "reduce factor too large". -/
theorem vips_reduceh_build_gap_fails_first :
    1 ≤ (example_reduceh 100 7 1000 (1 / 2) VIPS_KERNEL_LANCZOS3).hshrink ∧
    (vips_reduceh_build example_env
      (example_reduceh 100 7 1000 (1 / 2) VIPS_KERNEL_LANCZOS3)).1.residual_hshrink = 1000 ∧
    vips_reduce_get_points VIPS_KERNEL_LANCZOS3 1000 = 6001 ∧
    vips_reduce_get_points VIPS_KERNEL_LANCZOS3 1000 > example_env.MAX_POINT ∧
    (vips_reduceh_build example_env
      (example_reduceh 100 7 1000 (1 / 2) VIPS_KERNEL_LANCZOS3)).2 =
      .error "reduce gap should be >= 1.0" ∧
    (vips_reduceh_build example_env
      (example_reduceh 100 7 1000 (1 / 2) VIPS_KERNEL_LANCZOS3)).2 ≠
      .error "reduce factor too large" := by
  have hp : vips_reduce_get_points VIPS_KERNEL_LANCZOS3 1000 = 6001 := by
    rw [get_points_eq]
    have : (3 * 1000 : ℚ) = ((3000 : Int) : ℚ) := by norm_num
    simp only [this, rint_intCast]
    norm_num
  have hb : vips_reduceh_build example_env
      (example_reduceh 100 7 1000 (1 / 2) VIPS_KERNEL_LANCZOS3) =
      ({ example_reduceh 100 7 1000 (1 / 2) VIPS_KERNEL_LANCZOS3 with residual_hshrink := 1000 },
        .error "reduce gap should be >= 1.0") := by
    have h1 : ¬((1000 : ℚ) < 1) := by norm_num
    have h2 : (0 : ℚ) < 1 / 2 ∧ VIPS_KERNEL_LANCZOS3 ≠ VIPS_KERNEL_NEAREST :=
      ⟨by norm_num, by decide⟩
    have h3 : (1 / 2 : ℚ) < 1 := by norm_num
    norm_num [vips_reduceh_build, example_reduceh, vips_reduceh_build_gap, h2.2]
  refine ⟨?_, ?_, hp, ?_, ?_, ?_⟩
  · simp only [example_reduceh]
    norm_num
  · rw [hb]
  · rw [hp]
    decide
  · rw [hb]
  · rw [hb]
    simp

/-- C10, amended. For every input, kernel, hshrink >= 1 and gap for which the
gap block succeeds (gap is 0, or the kernel is nearest, or gap >= 1 and the
pre-shrink, if any, succeeds) and leaves a residual shrink different from 1.0,
`vips_reduceh_build` fails with "reduce factor too large" if and only if
`vips_reduce_get_points(kernel, residual_hshrink)` exceeds `MAX_POINT`, and
when it fails so, the coefficient tables and the output width are as they
were before the build (not built, not set). For a gap strictly between 0 and
1 and a kernel other than nearest the build fails before that with "reduce
gap should be >= 1.0". -/
theorem vips_reduceh_build_too_large (env : ReducehEnv) (r : VipsReduceh)
    (hs : 1 ≤ r.hshrink) :
    (∀ g, vips_reduceh_build_gap env { r with residual_hshrink := r.hshrink } r.in_
        (VIPS_ROUND_UINT ((r.in_.Xsize : ℚ) / r.hshrink))
        ((VIPS_ROUND_UINT ((r.in_.Xsize : ℚ) / r.hshrink) : ℚ) * r.hshrink - r.in_.Xsize) =
        .ok g →
      g.residual_hshrink ≠ 1 →
      ((vips_reduceh_build env r).2 = .error "reduce factor too large" ↔
        vips_reduce_get_points r.kernel g.residual_hshrink > env.MAX_POINT) ∧
      ((vips_reduceh_build env r).2 = .error "reduce factor too large" →
        (vips_reduceh_build env r).1.residual_hshrink = g.residual_hshrink ∧
        (vips_reduceh_build env r).1.matrixf = r.matrixf ∧
        (vips_reduceh_build env r).1.matrixs = r.matrixs ∧
        (vips_reduceh_build env r).1.out_Xsize = r.out_Xsize)) ∧
    ((r.gap = 0 ∨ r.kernel = VIPS_KERNEL_NEAREST) →
      vips_reduceh_build_gap env { r with residual_hshrink := r.hshrink } r.in_
        (VIPS_ROUND_UINT ((r.in_.Xsize : ℚ) / r.hshrink))
        ((VIPS_ROUND_UINT ((r.in_.Xsize : ℚ) / r.hshrink) : ℚ) * r.hshrink - r.in_.Xsize) =
        .ok ⟨r.in_, r.hshrink,
          (VIPS_ROUND_UINT ((r.in_.Xsize : ℚ) / r.hshrink) : ℚ) * r.hshrink - r.in_.Xsize,
          none, false⟩) ∧
    (0 < r.gap → r.gap < 1 → r.kernel ≠ VIPS_KERNEL_NEAREST →
      (vips_reduceh_build env r).2 = .error "reduce gap should be >= 1.0") := by
  refine ⟨?_, ?_, ?_⟩
  · intro g hg hres
    obtain ⟨h1, h2⟩ := build_after_gap env r g (by linarith) hg hres
    by_cases hn : vips_reduce_get_points r.kernel g.residual_hshrink > env.MAX_POINT
    · rw [h1 hn]
      exact ⟨⟨fun _ => hn, fun _ => rfl⟩, fun _ => ⟨rfl, rfl, rfl, rfl⟩⟩
    · have h3 := (h2 hn).1
      exact ⟨⟨fun h => absurd h h3, fun h => absurd h hn⟩, fun h => absurd h h3⟩
  · intro h
    unfold vips_reduceh_build_gap
    rw [if_neg]
    rintro ⟨h1, h2⟩
    rcases h with h | h
    · rw [h] at h1
      exact lt_irrefl 0 h1
    · exact h2 h
  · intro h0 h1 hk
    unfold vips_reduceh_build
    rw [if_neg (by linarith)]
    simp only [vips_reduceh_build_gap, h0, hk, h1, ne_eq, not_false_eq_true, and_self, if_true]

/-- C10 amended, for a 100 pel wide image reduced by 1000 with lanczos3 and
gap 0: the build fails with "reduce factor too large". -/
theorem vips_reduceh_build_too_large_witness :
    1 ≤ (example_reduceh 100 7 1000 0 VIPS_KERNEL_LANCZOS3).hshrink ∧
    (vips_reduceh_build example_env
      (example_reduceh 100 7 1000 0 VIPS_KERNEL_LANCZOS3)).2 =
      .error "reduce factor too large" ∧
    (vips_reduceh_build example_env
      (example_reduceh 100 7 1000 0 VIPS_KERNEL_LANCZOS3)).1.matrixf = none := by
  have hs : 1 ≤ (example_reduceh 100 7 1000 0 VIPS_KERNEL_LANCZOS3).hshrink := by
    simp only [example_reduceh]
    norm_num
  have h := vips_reduceh_build_too_large example_env
    (example_reduceh 100 7 1000 0 VIPS_KERNEL_LANCZOS3) hs
  have hg := h.2.1 (Or.inl rfl)
  have hres : (1000 : ℚ) ≠ 1 := by norm_num
  have hp : vips_reduce_get_points VIPS_KERNEL_LANCZOS3 1000 > example_env.MAX_POINT := by
    rw [get_points_eq]
    have : (3 * 1000 : ℚ) = ((3000 : Int) : ℚ) := by norm_num
    simp only [this, rint_intCast]
    decide
  obtain ⟨h1, h2⟩ := h.1 _ hg hres
  have h3 := h1.2 hp
  exact ⟨hs, h3, (h2 h3).2.1⟩

/-! ## Lemmas about rounding -/

theorem rint_nonneg (x : ℚ) (h : 0 ≤ x) : 0 ≤ rint x := by
  have hf : 0 ≤ ⌊x⌋ := Int.floor_nonneg.2 h
  unfold rint
  split_ifs <;> omega

theorem rint_neg (x : ℚ) : rint (-x) = -rint x := by
  have h1 := Int.floor_le x
  have h2 := Int.lt_floor_add_one x
  by_cases hi : (⌊x⌋ : ℚ) = x
  · have e : -x = ((-⌊x⌋ : Int) : ℚ) := by push_cast; linarith
    have e2 : x = ((⌊x⌋ : Int) : ℚ) := hi.symm
    rw [e, rint_intCast]
    conv_rhs => rw [e2, rint_intCast]
  · have hlt : (⌊x⌋ : ℚ) < x := lt_of_le_of_ne h1 hi
    have hf : ⌊-x⌋ = -⌊x⌋ - 1 := by
      rw [Int.floor_eq_iff]
      push_cast
      constructor <;> linarith
    unfold rint
    rw [hf]
    push_cast
    split_ifs <;> first | omega | (exfalso; linarith)

theorem rint_mono (x y : ℚ) (h : x ≤ y) : rint x ≤ rint y := by
  have h1 := Int.floor_le x
  have h2 := Int.lt_floor_add_one x
  have h3 := Int.floor_le y
  have h4 := Int.lt_floor_add_one y
  rcases (Int.floor_mono h).lt_or_eq with hlt | heq
  · unfold rint
    split_ifs <;> omega
  · unfold rint
    rw [heq] at h1 h2 ⊢
    split_ifs <;> first | omega | (exfalso; linarith)

theorem rint_eq_of_near (x : ℚ) (m : Int) (h : |x - m| < 1 / 2) : rint x = m := by
  rw [abs_lt] at h
  have a := rint_mono (m - 1 / 2 : ℚ) x (by linarith)
  have b := rint_mono x (m + 1 / 2 : ℚ) (by linarith)
  have hn := rint_near x
  rw [abs_le] at hn
  have c1 : ((rint x : Int) : ℚ) < m + 1 := by linarith [hn.1, hn.2, h.1, h.2]
  have c2 : (m : ℚ) - 1 < rint x := by linarith [hn.1, hn.2, h.1, h.2]
  have d1 : rint x < m + 1 := by exact_mod_cast c1
  have d2 : m - 1 < rint x := by exact_mod_cast c2
  omega

theorem log_two_eq (x : ℚ) (e : Int) (h1 : (2 : ℚ) ^ e ≤ |x|) (h2 : |x| < (2 : ℚ) ^ (e + 1)) :
    Int.log 2 |x| = e := by
  have hpos : (0 : ℚ) < |x| := lt_of_lt_of_le (by positivity) h1
  have a : e ≤ Int.log 2 |x| := by
    rw [← Int.zpow_le_iff_le_log (by norm_num) hpos]
    exact_mod_cast h1
  have b : Int.log 2 |x| < e + 1 := by
    rw [← Int.lt_zpow_iff_log_lt (by norm_num) hpos]
    exact_mod_cast h2
  omega

theorem log_two_spec (x : ℚ) (hx : x ≠ 0) :
    (2 : ℚ) ^ Int.log 2 |x| ≤ |x| ∧ |x| < (2 : ℚ) ^ (Int.log 2 |x| + 1) := by
  have hpos : (0 : ℚ) < |x| := abs_pos.2 hx
  have a := Int.zpow_log_le_self (b := 2) (by norm_num) hpos
  have b := Int.lt_zpow_succ_log_self (b := 2) (by norm_num) |x|
  exact ⟨by exact_mod_cast a, by exact_mod_cast b⟩

theorem binary64_of_exp (x : ℚ) (e : Int) (h1 : (2 : ℚ) ^ e ≤ |x|) (h2 : |x| < (2 : ℚ) ^ (e + 1)) :
    binary64 x = (rint (x / 2 ^ max (e - 52) (-1074)) : ℚ) * 2 ^ max (e - 52) (-1074) := by
  unfold binary64 ieee_round
  rw [log_two_eq x e h1 h2]
  norm_num

theorem binary64_zero : binary64 0 = 0 := by
  unfold binary64 ieee_round
  have z : rint (0 : ℚ) = 0 := by exact_mod_cast rint_intCast 0
  simp [z]

theorem binary64_neg (x : ℚ) : binary64 (-x) = -binary64 x := by
  unfold binary64 ieee_round
  rw [abs_neg, neg_div, rint_neg]
  push_cast
  ring

/-- The value of a rounding whose scaled argument is within a half of a whole
number. -/
theorem binary64_eq (x : ℚ) (e m : Int) (he : -1022 ≤ e) (h1 : (2 : ℚ) ^ e ≤ |x|)
    (h2 : |x| < (2 : ℚ) ^ (e + 1)) (hm : rint (x / 2 ^ (e - 52)) = m) :
    binary64 x = (m : ℚ) * 2 ^ (e - 52) := by
  rw [binary64_of_exp x e h1 h2, max_eq_left (by omega), hm]

theorem zpow_two_natCast (n : Int) (hn : 0 ≤ n) : (2 : ℚ) ^ n = (((2 : Int) ^ n.toNat : Int) : ℚ) := by
  have : n = (n.toNat : Int) := (Int.toNat_of_nonneg hn).symm
  conv_lhs => rw [this]
  rw [zpow_natCast]
  push_cast
  rfl

/-- A dyadic rational with a significand below `2 ^ 53` is a binary64 value. -/
theorem binary64_dyadic (m : Int) (j : Int) (hm : |m| < 2 ^ 53) (hj : j ≤ 1022) :
    binary64 ((m : ℚ) / 2 ^ j) = (m : ℚ) / 2 ^ j := by
  by_cases h0 : m = 0
  · subst h0
    simp [binary64_zero]
  have hx : (m : ℚ) / 2 ^ j ≠ 0 := by
    apply div_ne_zero
    · exact_mod_cast h0
    · positivity
  obtain ⟨a0, b0⟩ := log_two_spec _ hx
  have a := a0
  have b := b0
  generalize Int.log 2 |(m : ℚ) / 2 ^ j| = e at a b a0 b0
  have hp : (0 : ℚ) < 2 ^ j := by positivity
  have habs : |(m : ℚ) / 2 ^ j| = (|m| : Int) / 2 ^ j := by
    rw [abs_div, abs_of_pos hp]
    push_cast
    rfl
  rw [habs] at a b
  have hm1 : (1 : ℚ) ≤ ((|m| : Int) : ℚ) := by
    have : 1 ≤ |m| := Int.one_le_abs h0
    exact_mod_cast this
  have hm2 : ((|m| : Int) : ℚ) < 2 ^ (53 : Int) := by
    rw [zpow_two_natCast 53 (by norm_num)]
    exact_mod_cast hm
  have c1 : (2 : ℚ) ^ (e + j) < 2 ^ (53 : Int) := by
    rw [zpow_add₀ (by norm_num)]
    calc (2 : ℚ) ^ e * 2 ^ j ≤ ((|m| : Int) : ℚ) / 2 ^ j * 2 ^ j :=
          mul_le_mul_of_nonneg_right a hp.le
      _ = ((|m| : Int) : ℚ) := by field_simp
      _ < 2 ^ (53 : Int) := hm2
  have c2 : e + j < 53 := (zpow_lt_zpow_iff_right₀ (by norm_num : (1 : ℚ) < 2)).1 c1
  have c3 : (2 : ℚ) ^ (0 : Int) < 2 ^ (e + 1 + j) := by
    rw [zpow_add₀ (by norm_num) (e + 1)]
    calc (2 : ℚ) ^ (0 : Int) = 1 := by norm_num
      _ ≤ ((|m| : Int) : ℚ) := hm1
      _ = ((|m| : Int) : ℚ) / 2 ^ j * 2 ^ j := by field_simp
      _ < 2 ^ (e + 1) * 2 ^ j := mul_lt_mul_of_pos_right b hp
  have c4 : 0 < e + 1 + j := (zpow_lt_zpow_iff_right₀ (by norm_num : (1 : ℚ) < 2)).1 c3
  rw [binary64_of_exp _ e a0 b0, max_eq_left (by omega)]
  have hsc : (m : ℚ) / 2 ^ j / 2 ^ (e - 52) = ((m * 2 ^ (52 - e - j).toNat : Int) : ℚ) := by
    rw [div_div, ← zpow_add₀ (by norm_num), div_eq_mul_inv, ← zpow_neg,
      show -(j + (e - 52)) = 52 - e - j by ring, zpow_two_natCast _ (by omega)]
    push_cast
    rfl
  rw [hsc, rint_intCast]
  push_cast
  rw [← zpow_natCast, Int.toNat_of_nonneg (by omega), mul_assoc, ← zpow_add₀ (by norm_num),
    show 52 - e - j + (e - 52) = -j by ring, zpow_neg, div_eq_mul_inv]

theorem binary64_intCast (n : Int) (hn : |n| < 2 ^ 53) : binary64 (n : ℚ) = n := by
  have := binary64_dyadic n 0 hn (by norm_num)
  simpa using this

theorem binary64_nonneg (x : ℚ) (h : 0 ≤ x) : 0 ≤ binary64 x := by
  unfold binary64 ieee_round
  apply mul_nonneg
  · have : 0 ≤ rint (x / 2 ^ max (Int.log 2 |x| - (((53 : Nat) : Int) - 1)) (-1074)) :=
      rint_nonneg _ (div_nonneg h (by positivity))
    exact_mod_cast this
  · positivity

theorem binary64_mono_pos (x y : ℚ) (hx : 0 < x) (h : x ≤ y) : binary64 x ≤ binary64 y := by
  have hy : 0 < y := lt_of_lt_of_le hx h
  obtain ⟨a1, b1⟩ := log_two_spec x hx.ne'
  obtain ⟨a2, b2⟩ := log_two_spec y hy.ne'
  have hl : Int.log 2 |x| ≤ Int.log 2 |y| := by
    rw [abs_of_pos hx, abs_of_pos hy]
    exact Int.log_mono_right hx h
  rw [binary64_of_exp x _ a1 b1, binary64_of_exp y _ a2 b2]
  generalize Int.log 2 |x| = ex at a1 b1 hl
  generalize Int.log 2 |y| = ey at a2 b2 hl
  rw [abs_of_pos hx] at a1 b1
  rw [abs_of_pos hy] at a2 b2
  rcases (max_le_max (sub_le_sub_right hl 52) (le_refl (-1074 : Int))).lt_or_eq with hq | hq
  · -- the roundings are in different binades
    have hqy : max (ey - 52) (-1074) = ey - 52 := by
      apply max_eq_left
      by_contra hc
      rw [max_eq_right (by omega)] at hq
      have := le_max_right (ex - 52) (-1074 : Int)
      omega
    have hexy : ex < ey := by
      rw [hqy] at hq
      have := le_max_left (ex - 52) (-1074 : Int)
      omega
    generalize max (ex - 52) (-1074) = qx at hq
    rw [hqy] at hq ⊢
    have hpx : (0 : ℚ) < 2 ^ qx := by positivity
    have hpy : (0 : ℚ) < 2 ^ (ey - 52) := by positivity
    -- the smaller one is at most 2 ^ ey
    have s1 : (rint (x / 2 ^ qx) : ℚ) * 2 ^ qx ≤ 2 ^ ey := by
      have hle : x / 2 ^ qx ≤ ((2 ^ (ey - qx).toNat : Int) : ℚ) := by
        rw [← zpow_two_natCast _ (by omega), div_le_iff₀ hpx, ← zpow_add₀ (by norm_num),
          show ey - qx + qx = ey by ring]
        calc x ≤ 2 ^ (ex + 1) := b1.le
          _ ≤ 2 ^ ey := zpow_le_zpow_right₀ (by norm_num) (by omega)
      have := rint_mono _ _ hle
      rw [rint_intCast] at this
      have t : ((rint (x / 2 ^ qx) : Int) : ℚ) ≤ ((2 ^ (ey - qx).toNat : Int) : ℚ) := by
        exact_mod_cast this
      calc (rint (x / 2 ^ qx) : ℚ) * 2 ^ qx ≤ ((2 ^ (ey - qx).toNat : Int) : ℚ) * 2 ^ qx :=
            mul_le_mul_of_nonneg_right t hpx.le
        _ = 2 ^ ey := by
            rw [← zpow_two_natCast _ (by omega), ← zpow_add₀ (by norm_num),
              show ey - qx + qx = ey by ring]
    -- the larger one is at least 2 ^ ey
    have s2 : (2 : ℚ) ^ ey ≤ (rint (y / 2 ^ (ey - 52)) : ℚ) * 2 ^ (ey - 52) := by
      have hle : (((2 : Int) ^ 52 : Int) : ℚ) ≤ y / 2 ^ (ey - 52) := by
        rw [le_div_iff₀ hpy]
        have e52 : (((2 : Int) ^ 52 : Int) : ℚ) = 2 ^ (52 : Int) := by norm_num
        rw [e52, ← zpow_add₀ (by norm_num), show 52 + (ey - 52) = ey by ring]
        exact a2
      have := rint_mono _ _ hle
      rw [rint_intCast] at this
      have t : (((2 : Int) ^ 52 : Int) : ℚ) ≤ ((rint (y / 2 ^ (ey - 52)) : Int) : ℚ) := by
        exact_mod_cast this
      calc (2 : ℚ) ^ ey = (((2 : Int) ^ 52 : Int) : ℚ) * 2 ^ (ey - 52) := by
            have e52 : (((2 : Int) ^ 52 : Int) : ℚ) = 2 ^ (52 : Int) := by norm_num
            rw [e52, ← zpow_add₀ (by norm_num), show 52 + (ey - 52) = ey by ring]
        _ ≤ (rint (y / 2 ^ (ey - 52)) : ℚ) * 2 ^ (ey - 52) :=
            mul_le_mul_of_nonneg_right t hpy.le
    exact le_trans s1 s2
  · rw [hq]
    have hp : (0 : ℚ) < 2 ^ max (ey - 52) (-1074) := by positivity
    apply mul_le_mul_of_nonneg_right _ hp.le
    have := rint_mono (x / 2 ^ max (ey - 52) (-1074)) (y / 2 ^ max (ey - 52) (-1074))
      (div_le_div_of_nonneg_right h hp.le)
    exact_mod_cast this

/-- Rounding to binary64 keeps the order. -/
theorem binary64_mono (x y : ℚ) (h : x ≤ y) : binary64 x ≤ binary64 y := by
  rcases lt_trichotomy 0 x with hx | hx | hx
  · exact binary64_mono_pos x y hx h
  · subst hx
    rw [binary64_zero]
    exact binary64_nonneg y h
  · rcases le_or_lt 0 y with hy | hy
    · have a := binary64_nonneg (-x) (by linarith)
      have b := binary64_nonneg y hy
      rw [binary64_neg] at a
      linarith
    · have := binary64_mono_pos (-y) (-x) (by linarith) (by linarith)
      rw [binary64_neg, binary64_neg] at this
      linarith

/-- The error of a rounding to binary64. -/
theorem binary64_err (x M : ℚ) (hM : |x| ≤ M) (h1 : 1 ≤ M) :
    |binary64 x - x| ≤ M / 2 ^ 53 := by
  by_cases h0 : x = 0
  · subst h0
    rw [binary64_zero]
    simp only [sub_zero, abs_zero]
    positivity
  obtain ⟨a, b⟩ := log_two_spec x h0
  rw [binary64_of_exp x _ a b]
  generalize Int.log 2 |x| = e at a b
  have hp : (0 : ℚ) < 2 ^ max (e - 52) (-1074) := by positivity
  have hn := rint_near (x / 2 ^ max (e - 52) (-1074))
  have key : |(rint (x / 2 ^ max (e - 52) (-1074)) : ℚ) * 2 ^ max (e - 52) (-1074) - x| ≤
      2 ^ max (e - 52) (-1074) / 2 := by
    have e1 : (rint (x / 2 ^ max (e - 52) (-1074)) : ℚ) * 2 ^ max (e - 52) (-1074) - x =
        ((rint (x / 2 ^ max (e - 52) (-1074)) : ℚ) - x / 2 ^ max (e - 52) (-1074)) *
          2 ^ max (e - 52) (-1074) := by
      field_simp
    rw [e1, abs_mul, abs_of_pos hp]
    calc |(rint (x / 2 ^ max (e - 52) (-1074)) : ℚ) - x / 2 ^ max (e - 52) (-1074)| *
          2 ^ max (e - 52) (-1074) ≤ 1 / 2 * 2 ^ max (e - 52) (-1074) :=
            mul_le_mul_of_nonneg_right hn hp.le
      _ = 2 ^ max (e - 52) (-1074) / 2 := by ring
  refine le_trans key ?_
  rcases le_total (e - 52) (-1074) with hc | hc
  · rw [max_eq_right hc]
    have : (2 : ℚ) ^ (-1074 : Int) ≤ 2 ^ (-52 : Int) :=
      zpow_le_zpow_right₀ (by norm_num) (by norm_num)
    have e52 : (2 : ℚ) ^ (-52 : Int) = 1 / 2 ^ 52 := by
      rw [zpow_neg]; norm_num
    rw [e52] at this
    have : (1 : ℚ) / 2 ^ 52 / 2 ≤ M / 2 ^ 53 := by
      rw [div_div, div_le_div_iff₀ (by positivity) (by positivity)]
      nlinarith
    linarith
  · rw [max_eq_left hc]
    have e1 : (2 : ℚ) ^ (e - 52) = 2 ^ e / 2 ^ 52 := by
      rw [zpow_sub₀ (by norm_num)]
      norm_num
    rw [e1]
    have : (2 : ℚ) ^ e ≤ M := le_trans a hM
    rw [div_div, div_le_div_iff₀ (by positivity) (by positivity)]
    nlinarith

/-- A half-integer with a numerator below `2 ^ 53` is a binary64 value. -/
theorem binary64_half (m : Int) (hm : |m| < 2 ^ 53) (x : ℚ) (hx : x = (m : ℚ) / 2) :
    binary64 x = x := by
  have := binary64_dyadic m 1 hm (by norm_num)
  rw [zpow_one] at this
  rw [hx, this]

theorem rint_tie (m : Int) :
    rint ((m : ℚ) + 1 / 2) = if m % 2 = 0 then m else m + 1 := by
  have hf : ⌊(m : ℚ) + 1 / 2⌋ = m := by
    rw [Int.floor_eq_iff]
    constructor <;> linarith
  unfold rint
  rw [hf]
  rw [if_neg (by norm_num), if_neg (by norm_num)]

/-- A whole number below `2 ^ 53` in size passes through the rounding. -/
theorem binary64_of_int (x : ℚ) (n : Int) (hx : x = n) (hn : |n| < 2 ^ 53) : binary64 x = n := by
  rw [hx, binary64_intCast n hn]

/-- The return value `2 * rint (p) + 1` of `vips_reduce_get_points`: for `p`
below `2 ^ 31` in size, neither the doubling nor the sum is rounded. -/
theorem get_points_tail (p : ℚ) (hp : |p| ≤ 2 ^ 31) :
    double_to_int (binary64 (binary64 (2 * (rint p : ℚ)) + 1)) = 2 * rint p + 1 := by
  have hn := rint_near p
  rw [abs_le] at hn hp
  have h1 : ((rint p : Int) : ℚ) ≤ 2 ^ 31 + 1 / 2 := by linarith [hn.1, hn.2, hp.1, hp.2]
  have h2 : -(2 ^ 31 + 1 / 2 : ℚ) ≤ ((rint p : Int) : ℚ) := by linarith [hn.1, hn.2, hp.1, hp.2]
  have h3 : rint p < 2 ^ 31 + 1 := by
    have : ((rint p : Int) : ℚ) < ((2 ^ 31 + 1 : Int) : ℚ) := by push_cast; linarith
    exact_mod_cast this
  have h4 : -(2 ^ 31 + 1) < rint p := by
    have : ((-(2 ^ 31 + 1) : Int) : ℚ) < ((rint p : Int) : ℚ) := by push_cast; linarith
    exact_mod_cast this
  have e1 : binary64 (2 * (rint p : ℚ)) = ((2 * rint p : Int) : ℚ) :=
    binary64_of_int _ _ (by push_cast; ring) (by rw [abs_lt]; constructor <;> omega)
  rw [e1]
  have e2 : binary64 (((2 * rint p : Int) : ℚ) + 1) = ((2 * rint p + 1 : Int) : ℚ) :=
    binary64_of_int _ _ (by push_cast; ring) (by rw [abs_lt]; constructor <;> omega)
  rw [e2, double_to_int_intCast]

/-- The product inside `rint` stays below `2 ^ 31` for a shrink of at most
`2 ^ 27`, and its rounding moves it by at most `2 ^ -23`. -/
theorem get_points_product (k shrink : ℚ) (hk : |k| ≤ 5) (hs : |shrink| ≤ 2 ^ 27) :
    |binary64 (k * shrink)| ≤ 2 ^ 31 ∧ |binary64 (k * shrink) - k * shrink| ≤ 1 / 2 ^ 23 := by
  have hprod : |k * shrink| ≤ 5 * 2 ^ 27 := by
    rw [abs_mul]
    exact mul_le_mul hk hs (abs_nonneg _) (by norm_num)
  have herr := binary64_err (k * shrink) (5 * 2 ^ 27) hprod (by norm_num)
  have h23 : (5 * 2 ^ 27 : ℚ) / 2 ^ 53 ≤ 1 / 2 ^ 23 := by norm_num
  refine ⟨?_, le_trans herr h23⟩
  have := abs_sub_abs_le_abs_sub (binary64 (k * shrink)) (k * shrink)
  have h5 : (5 * 2 ^ 27 : ℚ) / 2 ^ 53 + 5 * 2 ^ 27 ≤ 2 ^ 31 := by norm_num
  linarith

/-- The tap count with the rounding of binary64, for a shrink of at most
`2 ^ 27` in size: only the product inside `rint` is rounded. -/
theorem get_points_binary64_eq (kernel : VipsKernel) (shrink : ℚ) (hs : |shrink| ≤ 2 ^ 27) :
    vips_reduce_get_points_binary64 kernel shrink =
      match kernel with
      | VIPS_KERNEL_NEAREST => 1
      | VIPS_KERNEL_LINEAR => 2 * rint shrink + 1
      | VIPS_KERNEL_CUBIC => 2 * rint (binary64 (2 * shrink)) + 1
      | VIPS_KERNEL_MITCHELL => 2 * rint (binary64 (2 * shrink)) + 1
      | VIPS_KERNEL_LANCZOS2 => 2 * rint (binary64 (2 * shrink)) + 1
      | VIPS_KERNEL_LANCZOS3 => 2 * rint (binary64 (3 * shrink)) + 1
      | VIPS_KERNEL_MKS2013 => 2 * rint (binary64 (3 * shrink)) + 1
      | VIPS_KERNEL_MKS2021 => 2 * rint (binary64 (5 * shrink)) + 1 := by
  have h1 : |shrink| ≤ 2 ^ 31 := le_trans hs (by norm_num)
  have h2 := (get_points_product 2 shrink (by norm_num) hs).1
  have h3 := (get_points_product 3 shrink (by norm_num) hs).1
  have h5 := (get_points_product 5 shrink (by norm_num) hs).1
  cases kernel <;> simp only [vips_reduce_get_points_binary64]
  · exact get_points_tail _ h1
  · exact get_points_tail _ h2
  · exact get_points_tail _ h2
  · exact get_points_tail _ h2
  · exact get_points_tail _ h3
  · exact get_points_tail _ h3
  · exact get_points_tail _ h5

theorem guint8_of_ok (c : ℚ) (h : ¬bad_mask_element c) : ((double_to_guint8 c : Int) : ℚ) = c := by
  have h2 : c = 0 ∨ c = 128 ∨ c = 255 := by
    unfold bad_mask_element at h
    by_contra hc
    push_neg at hc
    exact h hc
  rcases h2 with h2 | h2 | h2 <;> subst h2 <;> norm_num [double_to_guint8, double_to_int]

theorem build_coeff_ok (coeff : Nat → ℚ) (todo : Nat) : ∀ (i : Nat) (out : Nat → Int),
    (∀ j, j < todo → ¬bad_mask_element (coeff (i + j))) →
    vips_morph_build_coeff coeff todo i out =
      (fun k => if i ≤ k ∧ k < i + todo then double_to_guint8 (coeff k) else out k, none) := by
  induction todo with
  | zero =>
    intro i out _
    simp only [vips_morph_build_coeff, Prod.mk.injEq, and_true]
    funext k
    rw [if_neg (by omega)]
  | succ n ih =>
    intro i out h
    have h0 : ¬(coeff i ≠ 0 ∧ coeff i ≠ 128 ∧ coeff i ≠ 255) := by
      have := h 0 (by omega)
      rwa [Nat.add_zero] at this
    unfold vips_morph_build_coeff
    rw [if_neg h0, ih (i + 1) _ (fun j hj => by
      have := h (j + 1) (by omega)
      rwa [show i + (j + 1) = i + 1 + j by omega] at this)]
    simp only [Prod.mk.injEq, and_true]
    funext k
    by_cases hk : k = i
    · subst hk
      rw [if_neg (by omega), if_pos rfl, if_pos (by omega)]
    · by_cases hk2 : i + 1 ≤ k ∧ k < i + 1 + n
      · rw [if_pos hk2, if_pos (by omega)]
      · rw [if_neg hk2, if_neg hk, if_neg (by omega)]

theorem build_coeff_bad (coeff : Nat → ℚ) (todo : Nat) : ∀ (i : Nat) (out : Nat → Int) (j : Nat),
    j < todo → bad_mask_element (coeff (i + j)) →
    (∀ k, k < j → ¬bad_mask_element (coeff (i + k))) →
    (vips_morph_build_coeff coeff todo i out).2 = some (coeff (i + j)) := by
  induction todo with
  | zero => intro i out j hj; omega
  | succ n ih =>
    intro i out j hj hb hfirst
    unfold vips_morph_build_coeff
    cases j with
    | zero =>
      rw [Nat.add_zero] at hb
      have hb2 : coeff i ≠ 0 ∧ coeff i ≠ 128 ∧ coeff i ≠ 255 := hb
      rw [if_pos hb2]
      rfl
    | succ j =>
      have h0 : ¬(coeff i ≠ 0 ∧ coeff i ≠ 128 ∧ coeff i ≠ 255) := by
        have := hfirst 0 (by omega)
        rwa [Nat.add_zero] at this
      rw [if_neg h0, ih (i + 1) _ j (by omega)
        (by rwa [show i + 1 + j = i + (j + 1) by omega])
        (fun k hk => by
          have := hfirst (k + 1) (by omega)
          rwa [show i + (k + 1) = i + 1 + k by omega] at this)]
      rw [show i + 1 + j = i + (j + 1) by omega]

theorem build_coeff_some (coeff : Nat → ℚ) (todo i : Nat) (out : Nat → Int) :
    (∃ v, (vips_morph_build_coeff coeff todo i out).2 = some v) ↔
      ∃ j, j < todo ∧ bad_mask_element (coeff (i + j)) := by
  classical
  constructor
  · rintro ⟨v, hv⟩
    by_contra hno
    push_neg at hno
    rw [build_coeff_ok coeff todo i out hno] at hv
    simp at hv
  · intro hex
    have hlt := (Nat.find_spec hex).1
    have hbad := (Nat.find_spec hex).2
    refine ⟨_, build_coeff_bad coeff todo i out (Nat.find hex) hlt hbad ?_⟩
    intro k hk hb
    exact Nat.find_min hex hk ⟨by omega, hb⟩

/-- The build once the operations before the loop over the coefficients have
succeeded. -/
theorem morph_build_eq (env : MorphEnv) (morph : VipsMorph) (t0 t3 : VipsImage)
    (t1 t4 : VipsMatrix) (t2 : VipsEmbedOut)
    (h0 : env.vips_image_decode morph.in_ = some t0)
    (h1 : env.vips_check_matrix morph.mask = some t1)
    (h2 : vips_embed t0 (Int.tdiv t1.Xsize 2) (Int.tdiv t1.Ysize 2)
      (t0.Xsize + t1.Xsize - 1) (t0.Ysize + t1.Ysize - 1) (some VIPS_EXTEND_COPY) = .ok t2)
    (h3 : env.vips_cast_uchar t2.image = some t3)
    (h4 : env.vips__image_intize t1 = some t4) :
    vips_morph_build env morph =
      match vips_morph_build_coeff t4.coeff (t1.Xsize * t1.Ysize).toNat 0 morph.coeff with
      | (coeff, some v) =>
        ({ morph with M := t1, n_point := t1.Xsize * t1.Ysize, coeff := coeff },
          .error ⟨"bad mask element (%f should be 0, 128 or 255)", some v⟩)
      | (coeff, none) =>
        ({ morph with M := t1, n_point := t1.Xsize * t1.Ysize, coeff := coeff },
          .ok
            { in_ := t3
              generate :=
                if morph.morph = VipsOperationMorphology.VIPS_OPERATION_MORPHOLOGY_DILATE then
                  VipsMorphGenerate.dilate
                else VipsMorphGenerate.erode
              Xsize := t3.Xsize - (t4.Xsize - 1)
              Ysize := t3.Ysize - (t4.Ysize - 1)
              Xoffset := Int.tdiv (-t4.Xsize) 2
              Yoffset := Int.tdiv (-t4.Ysize) 2 }) := by
  unfold vips_morph_build
  simp only [h0, h1, h2, h3, h4]

theorem embed_image_size (t : VipsEmbedOut) :
    t.image.Xsize = t.Xsize ∧ t.image.Ysize = t.Ysize := by
  cases t <;> exact ⟨rfl, rfl⟩

/-- The embed of `vips_morph_build` succeeds, and `rsub` is the whole source
at `(mw / 2, mh / 2)`. -/
theorem morph_embed_ok (im : VipsImage) (mw mh : Int) (hW : 1 ≤ im.Xsize) (hH : 1 ≤ im.Ysize)
    (hmw : 1 ≤ mw) (hmh : 1 ≤ mh) :
    ∃ t2, vips_embed im (Int.tdiv mw 2) (Int.tdiv mh 2) (im.Xsize + mw - 1) (im.Ysize + mh - 1)
        (some VIPS_EXTEND_COPY) = .ok t2 ∧
      t2.Xsize = im.Xsize + mw - 1 ∧ t2.Ysize = im.Ysize + mh - 1 ∧
      ((mw = 1 ∧ mh = 1) → t2 = .write im) ∧
      (∀ base X Y, t2 = .generate base X Y →
        base.rsub = ⟨Int.tdiv mw 2, Int.tdiv mh 2, im.Xsize, im.Ysize⟩ ∧ base.in_ = im ∧
        base.extend = VIPS_EXTEND_COPY) := by
  have e1 : Int.tdiv mw 2 = mw / 2 := Int.tdiv_eq_ediv (by omega) (by omega)
  have e2 : Int.tdiv mh 2 = mh / 2 := Int.tdiv_eq_ediv (by omega) (by omega)
  rw [embed_copy_result, e1, e2]
  by_cases hc : mw / 2 = 0 ∧ mh / 2 = 0 ∧ im.Xsize + mw - 1 = im.Xsize ∧
      im.Ysize + mh - 1 = im.Ysize
  · rw [if_pos hc]
    refine ⟨_, rfl, ?_, ?_, fun _ => rfl, ?_⟩
    · simp only [VipsEmbedOut.Xsize]; omega
    · simp only [VipsEmbedOut.Ysize]; omega
    · intro base X Y h
      simp at h
  · rw [if_neg hc]
    have hne : ¬vips_rect_isempty (vips_rect_intersectrect ⟨mw / 2, mh / 2, im.Xsize, im.Ysize⟩
        ⟨0, 0, im.Xsize + mw - 1, im.Ysize + mh - 1⟩) = true := by
      rw [isempty_iff]
      simp only [vips_rect_intersectrect, VIPS_RECT_RIGHT, VIPS_RECT_BOTTOM]
      omega
    rw [if_neg hne]
    refine ⟨_, rfl, rfl, rfl, fun h => absurd ?_ hc, ?_⟩
    · omega
    · intro base X Y h
      simp only [Except.ok.injEq, VipsEmbedOut.generate.injEq] at h
      obtain ⟨hb, -, -⟩ := h
      subst hb
      refine ⟨?_, rfl, rfl⟩
      simp only [vips_embed_base_build_border, vips_embed_base_build_rsub,
        vips_rect_intersectrect, VIPS_RECT_RIGHT, VIPS_RECT_BOTTOM, VipsRect.mk.injEq]
      omega

/-- The build when nothing fails: the padded image and the header of the
output. -/
theorem morph_build_ok (env : MorphEnv) (morph : VipsMorph) (t0 : VipsImage)
    (t1 t4 : VipsMatrix) (hk : env.keeps_size)
    (h0 : env.vips_image_decode morph.in_ = some t0)
    (h1 : env.vips_check_matrix morph.mask = some t1)
    (h3 : ∀ im, ∃ t3, env.vips_cast_uchar im = some t3)
    (h4 : env.vips__image_intize t1 = some t4)
    (hc : ∀ i, i < (t1.Xsize * t1.Ysize).toNat → ¬bad_mask_element (t4.coeff i))
    (hW : 1 ≤ morph.in_.Xsize) (hH : 1 ≤ morph.in_.Ysize)
    (hmw : 1 ≤ morph.mask.Xsize) (hmh : 1 ≤ morph.mask.Ysize) :
    ∃ t2 out,
      vips_embed t0 (Int.tdiv morph.mask.Xsize 2) (Int.tdiv morph.mask.Ysize 2)
        (morph.in_.Xsize + morph.mask.Xsize - 1) (morph.in_.Ysize + morph.mask.Ysize - 1)
        (some VIPS_EXTEND_COPY) = .ok t2 ∧
      t2.Xsize = morph.in_.Xsize + morph.mask.Xsize - 1 ∧
      t2.Ysize = morph.in_.Ysize + morph.mask.Ysize - 1 ∧
      (∀ base X Y, t2 = .generate base X Y →
        base.rsub = ⟨Int.tdiv morph.mask.Xsize 2, Int.tdiv morph.mask.Ysize 2,
          morph.in_.Xsize, morph.in_.Ysize⟩) ∧
      (vips_morph_build env morph).2 = .ok out ∧
      env.vips_cast_uchar t2.image = some out.in_ ∧
      out.Xsize = t2.Xsize - (morph.mask.Xsize - 1) ∧
      out.Ysize = t2.Ysize - (morph.mask.Ysize - 1) := by
  obtain ⟨k0, k3, k1, k4⟩ := hk
  obtain ⟨a0, b0⟩ := k0 _ _ h0
  obtain ⟨a1, b1⟩ := k1 _ _ h1
  obtain ⟨a4, b4⟩ := k4 _ _ h4
  obtain ⟨t2, e2, sx, sy, -, hr⟩ := morph_embed_ok t0 t1.Xsize t1.Ysize (by omega) (by omega)
    (by omega) (by omega)
  obtain ⟨t3, e3⟩ := h3 t2.image
  obtain ⟨a3, b3⟩ := k3 _ _ e3
  have hb := morph_build_eq env morph t0 t3 t1 t4 t2 h0 h1 e2 e3 h4
  rw [build_coeff_ok t4.coeff _ 0 morph.coeff (fun j hj => by
    rw [Nat.zero_add]
    exact hc j hj)] at hb
  simp only [a0, b0, a1, b1] at e2 sx sy hr
  have hb2 : (vips_morph_build env morph).2 = .ok
      { in_ := t3
        generate :=
          if morph.morph = VipsOperationMorphology.VIPS_OPERATION_MORPHOLOGY_DILATE then
            VipsMorphGenerate.dilate
          else VipsMorphGenerate.erode
        Xsize := t3.Xsize - (t4.Xsize - 1)
        Ysize := t3.Ysize - (t4.Ysize - 1)
        Xoffset := Int.tdiv (-t4.Xsize) 2
        Yoffset := Int.tdiv (-t4.Ysize) 2 } := by
    rw [hb]
  refine ⟨t2, _, e2, sx, sy, fun base X Y h => (hr base X Y h).1, hb2, e3, ?_, ?_⟩
  · show t3.Xsize - (t4.Xsize - 1) = _
    rw [a3, (embed_image_size t2).1, a4, a1]
  · show t3.Ysize - (t4.Ysize - 1) = _
    rw [b3, (embed_image_size t2).2, b4, b1]

theorem example_morph_env_keeps_size : example_morph_env.keeps_size := by
  refine ⟨?_, ?_, ?_, ?_⟩
  · intro im t h
    simp only [example_morph_env, Option.some.injEq] at h
    subst h
    exact ⟨rfl, rfl⟩
  · intro im t h
    simp only [example_morph_env, Option.some.injEq] at h
    subst h
    exact ⟨rfl, rfl⟩
  · intro im t h
    simp only [example_morph_env, Option.some.injEq] at h
    subst h
    exact ⟨rfl, rfl⟩
  · intro im t h
    simp only [example_morph_env, Option.some.injEq] at h
    subst h
    exact ⟨rfl, rfl⟩

/-- The coefficients of the 2 by 2 example mask of 255s pass the test of the
build. -/
theorem example_mask_ok (i : Nat)
    (hi : i < ((example_mask 2 2 [255, 255, 255, 255]).Xsize *
      (example_mask 2 2 [255, 255, 255, 255]).Ysize).toNat) :
    ¬bad_mask_element ((rint ((example_mask 2 2 [255, 255, 255, 255]).coeff i) : Int) : ℚ) := by
  have h255 : rint (255 : ℚ) = 255 := by exact_mod_cast rint_intCast 255
  have hi4 : i < 4 := by simpa [example_mask] using hi
  interval_cases i <;> simp [example_mask, bad_mask_element, h255]

/-! ## Statements about the build of morph.c -/

/-- C11 as stated fails for a mask that is not made of whole numbers, because
the loop reads the int version of the mask and not the mask. With
`vips__image_intize` rounding each coefficient, as in the example environment,
the 2 by 1 mask with the coefficients 255 and 1/4 has a coefficient that is
none of 0, 128 and 255, and the build succeeds. -/
theorem vips_morph_build_fraction_passes :
    bad_mask_element ((example_mask 2 1 [255, 1 / 4]).coeff 1) ∧
    ∃ out, (vips_morph_build example_morph_env
      (example_morph example_image (example_mask 2 1 [255, 1 / 4])
        VipsOperationMorphology.VIPS_OPERATION_MORPHOLOGY_ERODE)).2 = .ok out := by
  have h255 : rint (255 : ℚ) = 255 := by exact_mod_cast rint_intCast 255
  have h14 : rint (4⁻¹ : ℚ) = 0 :=
    rint_eq_of_near _ 0 (by rw [abs_of_pos (by norm_num)]; norm_num)
  constructor
  · simp only [example_mask, bad_mask_element]
    norm_num
  · obtain ⟨t2, out, -, -, -, -, hb, -⟩ := morph_build_ok example_morph_env
      (example_morph example_image (example_mask 2 1 [255, 1 / 4])
        VipsOperationMorphology.VIPS_OPERATION_MORPHOLOGY_ERODE)
      example_image (example_mask 2 1 [255, 1 / 4])
      { example_mask 2 1 [255, 1 / 4] with
        coeff := fun i => (rint ((example_mask 2 1 [255, 1 / 4]).coeff i) : ℚ) }
      example_morph_env_keeps_size rfl rfl (fun im => ⟨im, rfl⟩) rfl
      (by
        intro i hi
        have hi2 : i < 2 := by simpa [example_mask] using hi
        interval_cases i
        · simp [example_mask, bad_mask_element, h255]
        · simp [example_mask, bad_mask_element, h14])
      (by decide) (by decide) (by decide) (by decide)
    exact ⟨out, hb⟩

/-- C11, amended: once the operations that come before it have succeeded,
the loop of `vips_morph_build` over the coefficients fails with "bad mask
element (%f should be 0, 128 or 255)" exactly when one of the `n_point`
coefficients of the int version `t4` that `vips__image_intize` makes of the
mask, which is what the loop reads, is none of 0, 128 and 255; the value
printed is the first such coefficient in row-major order; and when every
coefficient of the int version is 0, 128 or 255 the build succeeds and the
byte array `morph->coeff` holds these coefficients. Where the int version has
the coefficients of the mask (a mask of whole numbers), all of this holds of
the mask as given. -/
theorem vips_morph_build_bad_mask_element (env : MorphEnv) (morph : VipsMorph)
    (t0 t3 : VipsImage) (t1 t4 : VipsMatrix) (t2 : VipsEmbedOut)
    (h0 : env.vips_image_decode morph.in_ = some t0)
    (h1 : env.vips_check_matrix morph.mask = some t1)
    (h2 : vips_embed t0 (Int.tdiv t1.Xsize 2) (Int.tdiv t1.Ysize 2)
      (t0.Xsize + t1.Xsize - 1) (t0.Ysize + t1.Ysize - 1) (some VIPS_EXTEND_COPY) = .ok t2)
    (h3 : env.vips_cast_uchar t2.image = some t3)
    (h4 : env.vips__image_intize t1 = some t4) :
    ((∃ v, (vips_morph_build env morph).2 =
        .error ⟨"bad mask element (%f should be 0, 128 or 255)", some v⟩) ↔
      ∃ i, i < (t1.Xsize * t1.Ysize).toNat ∧ bad_mask_element (t4.coeff i)) ∧
    (∀ i, i < (t1.Xsize * t1.Ysize).toNat → bad_mask_element (t4.coeff i) →
      (∀ j, j < i → ¬bad_mask_element (t4.coeff j)) →
      (vips_morph_build env morph).2 =
        .error ⟨"bad mask element (%f should be 0, 128 or 255)", some (t4.coeff i)⟩) ∧
    ((∀ i, i < (t1.Xsize * t1.Ysize).toNat → ¬bad_mask_element (t4.coeff i)) →
      (∃ out, (vips_morph_build env morph).2 = .ok out) ∧
      ∀ i, i < (t1.Xsize * t1.Ysize).toNat →
        (((vips_morph_build env morph).1.coeff i : Int) : ℚ) = t4.coeff i) ∧
    ((∀ i, i < (t1.Xsize * t1.Ysize).toNat → t4.coeff i = morph.mask.coeff i) →
      ((∃ v, (vips_morph_build env morph).2 =
          .error ⟨"bad mask element (%f should be 0, 128 or 255)", some v⟩) ↔
        ∃ i, i < (t1.Xsize * t1.Ysize).toNat ∧ bad_mask_element (morph.mask.coeff i)) ∧
      ((∀ i, i < (t1.Xsize * t1.Ysize).toNat → ¬bad_mask_element (morph.mask.coeff i)) →
        ∀ i, i < (t1.Xsize * t1.Ysize).toNat →
          (((vips_morph_build env morph).1.coeff i : Int) : ℚ) = morph.mask.coeff i)) := by
  have hb := morph_build_eq env morph t0 t3 t1 t4 t2 h0 h1 h2 h3 h4
  have hfirst : ∀ i, i < (t1.Xsize * t1.Ysize).toNat → bad_mask_element (t4.coeff i) →
      (∀ j, j < i → ¬bad_mask_element (t4.coeff j)) →
      (vips_morph_build env morph).2 =
        .error ⟨"bad mask element (%f should be 0, 128 or 255)", some (t4.coeff i)⟩ := by
    intro i hi hbad hmin
    have := build_coeff_bad t4.coeff _ 0 morph.coeff i hi (by rwa [Nat.zero_add])
      (fun k hk => by rw [Nat.zero_add]; exact hmin k hk)
    rw [Nat.zero_add] at this
    rw [hb]
    generalize vips_morph_build_coeff t4.coeff (t1.Xsize * t1.Ysize).toNat 0 morph.coeff = res
      at this
    obtain ⟨c, o⟩ := res
    simp only at this
    subst this
    rfl
  have hiff : (∃ v, (vips_morph_build env morph).2 =
        .error ⟨"bad mask element (%f should be 0, 128 or 255)", some v⟩) ↔
      ∃ i, i < (t1.Xsize * t1.Ysize).toNat ∧ bad_mask_element (t4.coeff i) := by
    constructor
    · rintro ⟨v, hv⟩
      have := (build_coeff_some t4.coeff (t1.Xsize * t1.Ysize).toNat 0 morph.coeff).1
      simp only [Nat.zero_add] at this
      apply this
      rw [hb] at hv
      generalize vips_morph_build_coeff t4.coeff (t1.Xsize * t1.Ysize).toNat 0 morph.coeff = res
        at hv ⊢
      obtain ⟨c, o⟩ := res
      cases o with
      | none => simp at hv
      | some w => exact ⟨w, rfl⟩
    · intro hex
      classical
      have hlt := (Nat.find_spec hex).1
      have hbad := (Nat.find_spec hex).2
      exact ⟨_, hfirst (Nat.find hex) hlt hbad
        (fun j hj hbj => Nat.find_min hex hj ⟨by omega, hbj⟩)⟩
  have hall : (∀ i, i < (t1.Xsize * t1.Ysize).toNat → ¬bad_mask_element (t4.coeff i)) →
      (∃ out, (vips_morph_build env morph).2 = .ok out) ∧
      ∀ i, i < (t1.Xsize * t1.Ysize).toNat →
        (((vips_morph_build env morph).1.coeff i : Int) : ℚ) = t4.coeff i := by
    intro hall
    rw [hb, build_coeff_ok t4.coeff _ 0 morph.coeff (fun j hj => by
      rw [Nat.zero_add]
      exact hall j hj)]
    refine ⟨⟨_, rfl⟩, ?_⟩
    intro i hi
    simp only
    rw [if_pos ⟨by omega, by omega⟩]
    exact guint8_of_ok _ (hall i hi)
  refine ⟨hiff, hfirst, hall, ?_⟩
  intro hsame
  constructor
  · rw [hiff]
    constructor
    · rintro ⟨i, hi, hbad⟩
      exact ⟨i, hi, by rw [← hsame i hi]; exact hbad⟩
    · rintro ⟨i, hi, hbad⟩
      exact ⟨i, hi, by rw [hsame i hi]; exact hbad⟩
  · intro hok i hi
    rw [← hsame i hi]
    exact (hall (fun j hj => by rw [hsame j hj]; exact hok j hj)).2 i hi

/-- C11 amended, at an example: the 2 by 1 mask with the coefficients 255 and 7 makes
the build fail, and the value printed is 7. -/
theorem vips_morph_build_bad_mask_element_witness :
    (vips_morph_build example_morph_env
      (example_morph example_image (example_mask 2 1 [255, 7])
        VipsOperationMorphology.VIPS_OPERATION_MORPHOLOGY_ERODE)).2 =
      .error ⟨"bad mask element (%f should be 0, 128 or 255)", some 7⟩ := by
  obtain ⟨t2, h2, -⟩ := morph_embed_ok example_image 2 1 (by decide) (by decide) (by decide)
    (by decide)
  have h255 : rint (255 : ℚ) = 255 := by exact_mod_cast rint_intCast 255
  have h7 : rint (7 : ℚ) = 7 := by exact_mod_cast rint_intCast 7
  have key := (vips_morph_build_bad_mask_element example_morph_env
    (example_morph example_image (example_mask 2 1 [255, 7])
      VipsOperationMorphology.VIPS_OPERATION_MORPHOLOGY_ERODE)
    example_image t2.image (example_mask 2 1 [255, 7])
    { example_mask 2 1 [255, 7] with
      coeff := fun i => (rint ((example_mask 2 1 [255, 7]).coeff i) : ℚ) }
    t2 rfl rfl h2 rfl rfl).2.1 1 (by decide)
    (by simp [example_mask, bad_mask_element, h7])
    (by
      intro j hj
      interval_cases j
      simp [example_mask, bad_mask_element, h255])
  simpa [example_mask, h7] using key

/-- C12 as stated fails: with the 3 by 2 example image and a 2 by 2 mask the
output is 3 by 2, not (3 - 1) by (2 - 1). -/
theorem vips_morph_build_size_not_reduced :
    ∃ out, (vips_morph_build example_morph_env
        (example_morph example_image (example_mask 2 2 [255, 255, 255, 255])
          VipsOperationMorphology.VIPS_OPERATION_MORPHOLOGY_ERODE)).2 = .ok out ∧
      out.Xsize = 3 ∧ out.Ysize = 2 ∧
      ¬(out.Xsize = 3 - (2 - 1) ∧ out.Ysize = 2 - (2 - 1)) := by
  obtain ⟨t2, out, -, sx, sy, -, hb, -, ox, oy⟩ := morph_build_ok example_morph_env
    (example_morph example_image (example_mask 2 2 [255, 255, 255, 255])
      VipsOperationMorphology.VIPS_OPERATION_MORPHOLOGY_ERODE)
    example_image (example_mask 2 2 [255, 255, 255, 255])
    { example_mask 2 2 [255, 255, 255, 255] with
      coeff := fun i => (rint ((example_mask 2 2 [255, 255, 255, 255]).coeff i) : ℚ) }
    example_morph_env_keeps_size rfl rfl (fun im => ⟨im, rfl⟩) rfl example_mask_ok
    (by decide) (by decide) (by decide) (by decide)
  rw [sx] at ox
  rw [sy] at oy
  simp only [example_morph, example_image, example_mask] at ox oy
  refine ⟨out, hb, by omega, by omega, by omega⟩

/-- C12, amended: when nothing fails the output of `vips_morph_build` is the
padded image, `(W + mw - 1)` by `(H + mh - 1)`, less `(mw - 1, mh - 1)`, which
is `W` by `H`; it is `(W - (mw - 1))` by `(H - (mh - 1))` only for a 1 by 1
mask. -/
theorem vips_morph_build_size (env : MorphEnv) (morph : VipsMorph) (t0 : VipsImage)
    (t1 t4 : VipsMatrix) (hk : env.keeps_size)
    (h0 : env.vips_image_decode morph.in_ = some t0)
    (h1 : env.vips_check_matrix morph.mask = some t1)
    (h3 : ∀ im, ∃ t3, env.vips_cast_uchar im = some t3)
    (h4 : env.vips__image_intize t1 = some t4)
    (hc : ∀ i, i < (t1.Xsize * t1.Ysize).toNat → ¬bad_mask_element (t4.coeff i))
    (hW : 1 ≤ morph.in_.Xsize) (hH : 1 ≤ morph.in_.Ysize)
    (hmw : 1 ≤ morph.mask.Xsize) (hmh : 1 ≤ morph.mask.Ysize) :
    ∃ out, (vips_morph_build env morph).2 = .ok out ∧
      out.Xsize = (morph.in_.Xsize + morph.mask.Xsize - 1) - (morph.mask.Xsize - 1) ∧
      out.Ysize = (morph.in_.Ysize + morph.mask.Ysize - 1) - (morph.mask.Ysize - 1) ∧
      out.Xsize = morph.in_.Xsize ∧ out.Ysize = morph.in_.Ysize ∧
      ((out.Xsize = morph.in_.Xsize - (morph.mask.Xsize - 1) ∧
        out.Ysize = morph.in_.Ysize - (morph.mask.Ysize - 1)) ↔
        (morph.mask.Xsize = 1 ∧ morph.mask.Ysize = 1)) := by
  obtain ⟨t2, out, -, sx, sy, -, hb, -, ox, oy⟩ :=
    morph_build_ok env morph t0 t1 t4 hk h0 h1 h3 h4 hc hW hH hmw hmh
  rw [sx] at ox
  rw [sy] at oy
  refine ⟨out, hb, ox, oy, by omega, by omega, ?_⟩
  omega

/-- C12, amended, at an example: the 3 by 2 example image and a 2 by 2
mask. -/
theorem vips_morph_build_size_witness :
    ∃ out, (vips_morph_build example_morph_env
        (example_morph example_image (example_mask 2 2 [255, 255, 255, 255])
          VipsOperationMorphology.VIPS_OPERATION_MORPHOLOGY_ERODE)).2 = .ok out ∧
      out.Xsize = example_image.Xsize ∧ out.Ysize = example_image.Ysize := by
  obtain ⟨out, hb, -, -, ox, oy, -⟩ := vips_morph_build_size example_morph_env
    (example_morph example_image (example_mask 2 2 [255, 255, 255, 255])
      VipsOperationMorphology.VIPS_OPERATION_MORPHOLOGY_ERODE)
    example_image (example_mask 2 2 [255, 255, 255, 255])
    { example_mask 2 2 [255, 255, 255, 255] with
      coeff := fun i => (rint ((example_mask 2 2 [255, 255, 255, 255]).coeff i) : ℚ) }
    example_morph_env_keeps_size rfl rfl (fun im => ⟨im, rfl⟩) rfl example_mask_ok
    (by decide) (by decide) (by decide) (by decide)
  exact ⟨out, hb, ox, oy⟩

/-- C13: when nothing fails, `vips_morph_build` embeds the `W` by `H` input in
a `(W + mw - 1)` by `(H + mh - 1)` image with the source at `(mw / 2, mh / 2)`,
`/` being the C division, extended by copying; the output is that image less
`(mw - 1, mh - 1)`, so it is `W` by `H`, the size of the input. -/
theorem vips_morph_build_same_size (env : MorphEnv) (morph : VipsMorph) (t0 : VipsImage)
    (t1 t4 : VipsMatrix) (hk : env.keeps_size)
    (h0 : env.vips_image_decode morph.in_ = some t0)
    (h1 : env.vips_check_matrix morph.mask = some t1)
    (h3 : ∀ im, ∃ t3, env.vips_cast_uchar im = some t3)
    (h4 : env.vips__image_intize t1 = some t4)
    (hc : ∀ i, i < (t1.Xsize * t1.Ysize).toNat → ¬bad_mask_element (t4.coeff i))
    (hW : 1 ≤ morph.in_.Xsize) (hH : 1 ≤ morph.in_.Ysize)
    (hmw : 1 ≤ morph.mask.Xsize) (hmh : 1 ≤ morph.mask.Ysize) :
    ∃ t2 out,
      vips_embed t0 (Int.tdiv morph.mask.Xsize 2) (Int.tdiv morph.mask.Ysize 2)
        (morph.in_.Xsize + morph.mask.Xsize - 1) (morph.in_.Ysize + morph.mask.Ysize - 1)
        (some VIPS_EXTEND_COPY) = .ok t2 ∧
      t2.Xsize = morph.in_.Xsize + morph.mask.Xsize - 1 ∧
      t2.Ysize = morph.in_.Ysize + morph.mask.Ysize - 1 ∧
      (∀ base X Y, t2 = .generate base X Y →
        base.rsub = ⟨Int.tdiv morph.mask.Xsize 2, Int.tdiv morph.mask.Ysize 2,
          morph.in_.Xsize, morph.in_.Ysize⟩) ∧
      (vips_morph_build env morph).2 = .ok out ∧
      env.vips_cast_uchar t2.image = some out.in_ ∧
      out.Xsize = t2.Xsize - (morph.mask.Xsize - 1) ∧
      out.Ysize = t2.Ysize - (morph.mask.Ysize - 1) ∧
      out.Xsize = morph.in_.Xsize ∧ out.Ysize = morph.in_.Ysize := by
  obtain ⟨t2, out, e2, sx, sy, hr, hb, e3, ox, oy⟩ :=
    morph_build_ok env morph t0 t1 t4 hk h0 h1 h3 h4 hc hW hH hmw hmh
  exact ⟨t2, out, e2, sx, sy, hr, hb, e3, ox, oy, by omega, by omega⟩

/-- C13 at an example: the 3 by 2 example image and a 2 by 2 mask give a 4 by
3 padded image and a 3 by 2 output. -/
theorem vips_morph_build_same_size_witness :
    ∃ t2 out,
      vips_embed example_image 1 1 4 3 (some VIPS_EXTEND_COPY) = .ok t2 ∧
      (vips_morph_build example_morph_env
        (example_morph example_image (example_mask 2 2 [255, 255, 255, 255])
          VipsOperationMorphology.VIPS_OPERATION_MORPHOLOGY_ERODE)).2 = .ok out ∧
      out.Xsize = 3 ∧ out.Ysize = 2 := by
  obtain ⟨t2, out, e2, -, -, -, hb, -, -, -, ox, oy⟩ :=
    vips_morph_build_same_size example_morph_env
      (example_morph example_image (example_mask 2 2 [255, 255, 255, 255])
        VipsOperationMorphology.VIPS_OPERATION_MORPHOLOGY_ERODE)
      example_image (example_mask 2 2 [255, 255, 255, 255])
      { example_mask 2 2 [255, 255, 255, 255] with
        coeff := fun i => (rint ((example_mask 2 2 [255, 255, 255, 255]).coeff i) : ℚ) }
      example_morph_env_keeps_size rfl rfl (fun im => ⟨im, rfl⟩) rfl example_mask_ok
      (by decide) (by decide) (by decide) (by decide)
  exact ⟨t2, out, e2, hb, ox, oy⟩

/-! ## Lemmas about the generate functions of morph.c -/

theorem bit_emod (k : Nat) (b : Bool) (m : Int) :
    Int.bit b m % 2 ^ (k + 1) = 2 * (m % 2 ^ k) + cond b 1 0 := by
  have hN : (0 : Int) < 2 ^ k := by positivity
  rw [Int.bit_val, pow_succ]
  generalize (2 : Int) ^ k = N at hN ⊢
  have h1 := Int.emod_add_ediv m N
  have h2 := Int.emod_nonneg m (ne_of_gt hN)
  have h3 := Int.emod_lt_of_pos m hN
  have e : 2 * m + cond b 1 0 = (2 * (m % N) + cond b 1 0) + (N * 2) * (m / N) := by
    have : N * 2 * (m / N) = 2 * (N * (m / N)) := by ring
    rw [this]
    omega
  rw [e, Int.add_mul_emod_self_left]
  apply Int.emod_eq_of_lt
  · cases b <;> simp <;> omega
  · cases b <;> simp <;> omega

theorem lnot_eq (a : Int) : Int.lnot a = -a - 1 := by
  cases a with
  | ofNat m => simp only [Int.lnot, Int.negSucc_eq, Int.ofNat_eq_coe]; omega
  | negSucc m => simp only [Int.lnot, Int.negSucc_eq]; omega

theorem lor_congr (k : Nat) : ∀ a a' b b' : Int, a % 2 ^ k = a' % 2 ^ k → b % 2 ^ k = b' % 2 ^ k →
    Int.lor a b % 2 ^ k = Int.lor a' b' % 2 ^ k := by
  induction k with
  | zero => intro a a' b b' _ _; simp [Int.emod_one]
  | succ k ih =>
    intro a a' b b' ha hb
    rw [← Int.bit_decomp a, ← Int.bit_decomp a', ← Int.bit_decomp b, ← Int.bit_decomp b'] at *
    rw [bit_emod, bit_emod] at ha hb
    rw [Int.lor_bit, Int.lor_bit, bit_emod, bit_emod]
    generalize Int.bodd a = x at *
    generalize Int.bodd a' = x' at *
    generalize Int.bodd b = y at *
    generalize Int.bodd b' = y' at *
    have e1 : x = x' := by cases x <;> cases x' <;> simp at ha ⊢ <;> omega
    have e2 : y = y' := by cases y <;> cases y' <;> simp at hb ⊢ <;> omega
    subst e1 e2
    have := ih (Int.div2 a) (Int.div2 a') (Int.div2 b) (Int.div2 b') (by omega) (by omega)
    rw [this]

theorem land_congr (k : Nat) : ∀ a a' b b' : Int, a % 2 ^ k = a' % 2 ^ k → b % 2 ^ k = b' % 2 ^ k →
    Int.land a b % 2 ^ k = Int.land a' b' % 2 ^ k := by
  induction k with
  | zero => intro a a' b b' _ _; simp [Int.emod_one]
  | succ k ih =>
    intro a a' b b' ha hb
    rw [← Int.bit_decomp a, ← Int.bit_decomp a', ← Int.bit_decomp b, ← Int.bit_decomp b'] at *
    rw [bit_emod, bit_emod] at ha hb
    rw [Int.land_bit, Int.land_bit, bit_emod, bit_emod]
    generalize Int.bodd a = x at *
    generalize Int.bodd a' = x' at *
    generalize Int.bodd b = y at *
    generalize Int.bodd b' = y' at *
    have e1 : x = x' := by cases x <;> cases x' <;> simp at ha ⊢ <;> omega
    have e2 : y = y' := by cases y <;> cases y' <;> simp at hb ⊢ <;> omega
    subst e1 e2
    have := ih (Int.div2 a) (Int.div2 a') (Int.div2 b) (Int.div2 b') (by omega) (by omega)
    rw [this]

/-- De Morgan on the low bits. -/
theorem land_lnot_congr (k : Nat) : ∀ a a' b b' : Int,
    a % 2 ^ k = Int.lnot a' % 2 ^ k → b % 2 ^ k = Int.lnot b' % 2 ^ k →
    Int.land a b % 2 ^ k = Int.lnot (Int.lor a' b') % 2 ^ k := by
  induction k with
  | zero => intro a a' b b' _ _; simp [Int.emod_one]
  | succ k ih =>
    intro a a' b b' ha hb
    rw [← Int.bit_decomp a, ← Int.bit_decomp a', ← Int.bit_decomp b, ← Int.bit_decomp b'] at *
    rw [Int.lnot_bit, bit_emod, bit_emod] at ha hb
    rw [Int.land_bit, Int.lor_bit, Int.lnot_bit, bit_emod, bit_emod]
    generalize Int.bodd a = x at *
    generalize Int.bodd a' = x' at *
    generalize Int.bodd b = y at *
    generalize Int.bodd b' = y' at *
    have e1 : x = !x' := by cases x <;> cases x' <;> simp at ha ⊢ <;> omega
    have e2 : y = !y' := by cases y <;> cases y' <;> simp at hb ⊢ <;> omega
    subst e1 e2
    have := ih (Int.div2 a) (Int.div2 a') (Int.div2 b) (Int.div2 b') (by omega) (by omega)
    rw [this]
    cases x' <;> cases y' <;> rfl

theorem flat_div_mod (b k x : Int) (hx : 0 ≤ x) (hxb : x < b) :
    (k * b + x) / b = k ∧ (k * b + x) % b = x := by
  have hb : 0 < b := by omega
  constructor
  · rw [add_comm, Int.add_mul_ediv_right _ _ (ne_of_gt hb), Int.ediv_eq_zero_of_lt hx hxb,
      zero_add]
  · rw [add_comm, Int.add_mul_emod_self, Int.emod_eq_of_lt hx hxb]

theorem flat_inj (b k k' x x' : Int) (hx : 0 ≤ x) (hxb : x < b) (hx' : 0 ≤ x') (hxb' : x' < b)
    (h : k * b + x = k' * b + x') : k = k' ∧ x = x' := by
  have h1 := flat_div_mod b k x hx hxb
  have h2 := flat_div_mod b k' x' hx' hxb'
  rw [h] at h1
  exact ⟨by rw [← h1.1, h2.1], by rw [← h1.2, h2.2]⟩

theorem holds_flat (reg : VipsByteRegion) (k c : Int) (hk : 0 ≤ k) (hkh : k < reg.valid.height)
    (hc : 0 ≤ c) (hcw : c < reg.valid.width * reg.ps) (hb : reg.valid.width * reg.ps ≤ reg.bpl) :
    reg.holds (k * reg.bpl + c) = true := by
  obtain ⟨h1, h2⟩ := flat_div_mod reg.bpl k c hc (by omega)
  have h0 : 0 ≤ k * reg.bpl + c := by
    have : 0 ≤ k * reg.bpl := mul_nonneg hk (by omega)
    omega
  simp only [VipsByteRegion.holds, h1, h2, Bool.and_eq_true, decide_eq_true_eq]
  exact ⟨⟨h0, hkh⟩, hcw⟩

theorem seq_taps_push (seq : VipsMorphSequence) (o c : Int) (h : 0 ≤ seq.nn128) :
    seq_taps
      { seq with
        off := fun j => if j = seq.nn128.toNat then o else seq.off j
        coeff := fun j => if j = seq.nn128.toNat then c else seq.coeff j
        nn128 := seq.nn128 + 1 } = seq_taps seq ++ [(o, c)] := by
  have e : (seq.nn128 + 1).toNat = seq.nn128.toNat + 1 := by omega
  simp only [seq_taps, e, List.range_succ, List.map_append, List.map_cons, List.map_nil,
    if_true]
  congr 1
  apply List.map_congr_left
  intro i hi
  have : i ≠ seq.nn128.toNat := by
    have := List.mem_range.1 hi
    omega
  simp only [this, if_false]

/-- The taps of one row of the mask, as the scan stores them. -/
theorem scan_row (morph : VipsMorph) (le to_ y : Int) (t0 : Nat) (seq0 : VipsMorphSequence)
    (hn : 0 ≤ seq0.nn128) (k : Nat) :
    ((List.range k).foldl (vips_morph_gen_scan_step morph le to_ y) (t0, seq0)).1 = t0 + k ∧
    ((List.range k).foldl (vips_morph_gen_scan_step morph le to_ y) (t0, seq0)).2.ir = seq0.ir ∧
    ((List.range k).foldl (vips_morph_gen_scan_step morph le to_ y) (t0, seq0)).2.last_bpl =
      seq0.last_bpl ∧
    0 ≤ ((List.range k).foldl (vips_morph_gen_scan_step morph le to_ y) (t0, seq0)).2.nn128 ∧
    seq_taps ((List.range k).foldl (vips_morph_gen_scan_step morph le to_ y) (t0, seq0)).2 =
      seq_taps seq0 ++ (List.range k).filterMap fun x =>
        if morph.coeff (t0 + x) = 128 then none
        else some (VIPS_REGION_ADDR seq0.ir (x + le) (y + to_) - VIPS_REGION_ADDR seq0.ir le to_,
          morph.coeff (t0 + x)) := by
  induction k with
  | zero => simpa using hn
  | succ k ih =>
    rw [List.range_succ, List.foldl_append, List.filterMap_append]
    generalize (List.range k).foldl (vips_morph_gen_scan_step morph le to_ y) (t0, seq0) = st
      at ih ⊢
    obtain ⟨t, seq⟩ := st
    obtain ⟨h1, h2, h3, h4, h5⟩ := ih
    simp only at h1 h2 h3 h4 h5
    subst h1
    simp only [List.foldl_cons, List.foldl_nil, vips_morph_gen_scan_step, List.filterMap_cons,
      List.filterMap_nil]
    by_cases hc : morph.coeff (t0 + k) = 128
    · simp only [hc, if_true, List.append_nil]
      exact ⟨by omega, h2, h3, h4, h5⟩
    · simp only [hc, if_false]
      refine ⟨by omega, h2, h3, by omega, ?_⟩
      rw [seq_taps_push seq _ _ h4, h5, h2, List.append_assoc]

theorem addr_diff (ir : VipsByteRegion) (x y le to_ : Int) :
    VIPS_REGION_ADDR ir (x + le) (y + to_) - VIPS_REGION_ADDR ir le to_ = y * ir.bpl + x * ir.ps := by
  simp only [VIPS_REGION_ADDR]
  ring

/-- The taps of the first `k` rows of the mask, as the scan stores them. -/
theorem scan_rows (morph : VipsMorph) (le to_ : Int) (seq0 : VipsMorphSequence)
    (hn : 0 ≤ seq0.nn128) (k : Nat) :
    ((List.range k).foldl
      (fun st (y : Nat) =>
        (List.range morph.M.Xsize.toNat).foldl (vips_morph_gen_scan_step morph le to_ y) st)
      (0, seq0)).1 = k * morph.M.Xsize.toNat ∧
    ((List.range k).foldl
      (fun st (y : Nat) =>
        (List.range morph.M.Xsize.toNat).foldl (vips_morph_gen_scan_step morph le to_ y) st)
      (0, seq0)).2.ir = seq0.ir ∧
    ((List.range k).foldl
      (fun st (y : Nat) =>
        (List.range morph.M.Xsize.toNat).foldl (vips_morph_gen_scan_step morph le to_ y) st)
      (0, seq0)).2.last_bpl = seq0.last_bpl ∧
    0 ≤ ((List.range k).foldl
      (fun st (y : Nat) =>
        (List.range morph.M.Xsize.toNat).foldl (vips_morph_gen_scan_step morph le to_ y) st)
      (0, seq0)).2.nn128 ∧
    seq_taps ((List.range k).foldl
      (fun st (y : Nat) =>
        (List.range morph.M.Xsize.toNat).foldl (vips_morph_gen_scan_step morph le to_ y) st)
      (0, seq0)).2 =
      seq_taps seq0 ++ ((List.range k).flatMap fun y =>
        (List.range morph.M.Xsize.toNat).filterMap fun x =>
          if morph.coeff (y * morph.M.Xsize.toNat + x) = 128 then none
          else some ((x : Int), (y : Int), morph.coeff (y * morph.M.Xsize.toNat + x))).map
        fun t => (t.2.1 * seq0.ir.bpl + t.1 * seq0.ir.ps, t.2.2) := by
  induction k with
  | zero => simpa using hn
  | succ k ih =>
    rw [List.range_succ, List.foldl_append, List.flatMap_append, List.map_append]
    generalize (List.range k).foldl
      (fun st (y : Nat) =>
        (List.range morph.M.Xsize.toNat).foldl (vips_morph_gen_scan_step morph le to_ y) st)
      (0, seq0) = st at ih ⊢
    obtain ⟨t, seq⟩ := st
    obtain ⟨h1, h2, h3, h4, h5⟩ := ih
    simp only at h1 h2 h3 h4 h5
    subst h1
    obtain ⟨r1, r2, r3, r4, r5⟩ :=
      scan_row morph le to_ k (k * morph.M.Xsize.toNat) seq h4 morph.M.Xsize.toNat
    simp only [List.foldl_cons, List.foldl_nil, List.flatMap_cons, List.flatMap_nil,
      List.append_nil]
    refine ⟨by rw [r1]; ring, by rw [r2, h2], by rw [r3, h3], r4, ?_⟩
    rw [r5, h5, List.append_assoc, h2]
    congr 2
    rw [List.map_filterMap]
    apply List.filterMap_congr
    intro x _
    by_cases hc : morph.coeff (k * morph.M.Xsize.toNat + x) = 128
    · simp only [hc, if_true, Option.map_none']
    · simp only [hc, if_false, Option.map_some', addr_diff]

theorem taps_bounds (morph : VipsMorph) (t : Int × Int × Int) (h : t ∈ morph_taps morph) :
    0 ≤ t.1 ∧ t.1 < morph.M.Xsize ∧ 0 ≤ t.2.1 ∧ t.2.1 < morph.M.Ysize ∧ t.2.2 ≠ 128 := by
  simp only [morph_taps, List.mem_flatMap, List.mem_range, List.mem_filterMap] at h
  obtain ⟨y, hy, x, hx, h⟩ := h
  by_cases hc : morph.coeff (y * morph.M.Xsize.toNat + x) = 128
  · simp [hc] at h
  · simp only [hc, if_false, Option.some.injEq] at h
    subst h
    simp only
    omega

/-- What the scan leaves in the sequence. -/
theorem scan_ok (morph : VipsMorph) (le to_ : Int) (seq : VipsMorphSequence)
    (hok : seq_ok morph seq.ir.ps seq) (hb : 0 ≤ seq.ir.bpl) :
    (vips_morph_gen_scan morph le to_ seq).ir = seq.ir ∧
    (vips_morph_gen_scan morph le to_ seq).last_bpl = seq.ir.bpl ∧
    0 ≤ (vips_morph_gen_scan morph le to_ seq).nn128 ∧
    seq_taps (vips_morph_gen_scan morph le to_ seq) =
      (morph_taps morph).map fun t => (t.2.1 * seq.ir.bpl + t.1 * seq.ir.ps, t.2.2) := by
  unfold vips_morph_gen_scan
  by_cases h : seq.last_bpl ≠ VIPS_REGION_LSKIP seq.ir
  · rw [if_pos h]
    obtain ⟨-, r2, r3, r4, r5⟩ := scan_rows morph le to_
      { seq with last_bpl := VIPS_REGION_LSKIP seq.ir, nn128 := 0 } (le_refl 0)
      morph.M.Ysize.toNat
    refine ⟨r2, r3, r4, ?_⟩
    rw [r5]
    simp [seq_taps, morph_taps]
  · rw [if_neg h]
    have h2 : seq.last_bpl = seq.ir.bpl := by
      simpa [VIPS_REGION_LSKIP] using h
    rcases hok with h3 | ⟨h3, h4⟩
    · omega
    · refine ⟨rfl, h2, h3, ?_⟩
      rw [h4, h2]

theorem forLoop_range_foldl {σ : Type} (f : Nat → σ → Option σ) (n : Nat) (s : σ) :
    forLoop f n s = (List.range n).foldl (fun acc i => acc.bind (f i)) (some s) := by
  induction n with
  | zero => rfl
  | succ n ih =>
    rw [forLoop_succ, ih, List.range_succ, List.foldl_append]
    rfl

/-- The innermost loop as a fold over the entries of the sequence. -/
theorem gen_result_fold (g : VipsMorphGenerate) (seq : VipsMorphSequence) (p : Int) :
    vips_morph_gen_result g seq p =
      (seq_taps seq).foldl
        (fun acc t => acc.bind fun a =>
          (seq.ir.load (p + t.1)).map fun v => g.op a (morph_term t.2 v))
        (some g.seed) := by
  unfold vips_morph_gen_result seq_taps
  rw [forLoop_range_foldl, List.foldl_map]
  rfl

theorem fold_some {α : Type} (op : Int → Int → Int) (load : Int → Option Int) (φ : α → Int)
    (c val : α → Int) (L : List α) :
    ∀ s : Int, (∀ t, t ∈ L → load (φ t) = some (val t)) →
      L.foldl (fun acc t => acc.bind fun a => (load (φ t)).map fun v => op a (morph_term (c t) v))
          (some s) =
        some (L.foldl (fun a t => op a (morph_term (c t) (val t))) s) := by
  induction L with
  | nil => intro s _; rfl
  | cons t L ih =>
    intro s h
    simp only [List.foldl_cons, Option.some_bind, h t (List.mem_cons_self _ _), Option.map_some']
    exact ih _ (fun u hu => h u (List.mem_cons_of_mem _ hu))

/-- A byte read from a region that `vips_region_prepare_bytes` has filled. -/
theorem prepare_load (im : VipsImage) (bpl : Int) (s : VipsRect) (ir : VipsByteRegion)
    (h : vips_region_prepare_bytes im bpl s = some ir) (k c : Int)
    (hk : 0 ≤ k) (hkh : k < s.height) (hc : 0 ≤ c) (hcw : c < s.width * im.Bands) :
    ir.load (k * bpl + c) = some (im.element (s.left * im.Bands + c) (s.top + k)) := by
  unfold vips_region_prepare_bytes at h
  split_ifs at h with h1
  simp only [Option.some.injEq] at h
  subst h
  obtain ⟨d1, d2⟩ := flat_div_mod bpl k c hc (by omega)
  have hh := holds_flat
    { valid := s, ps := im.Bands, bpl := bpl,
      data := fun a => some (im.element (s.left * im.Bands + a % bpl) (s.top + a / bpl)) }
    k c hk hkh hc hcw h1.2
  simp only at hh
  simp only [VipsByteRegion.load, hh, if_true, d1, d2]

theorem store_holds (o : VipsByteRegion) (a v : Int) (h : o.holds a = true) :
    o.store a v = some { o with data := fun b => if b = a then some v else o.data b } := by
  simp [VipsByteRegion.store, h]

/-- One line of the output, given the results of the innermost loop. -/
theorem morph_gen_line_eq (g : VipsMorphGenerate) (seq : VipsMorphSequence) (p q : Int)
    (o : VipsByteRegion) (R : Int → Int) (n : Nat)
    (hres : ∀ x : Nat, x < n → vips_morph_gen_result g seq (p + x) = some (R x))
    (hst : ∀ (o1 : VipsByteRegion) (x : Nat), o1.valid = o.valid → o1.ps = o.ps → o1.bpl = o.bpl →
      x < n → o1.holds (q + x) = true) :
    ∃ o1, forLoop
        (fun x out =>
          (vips_morph_gen_result g seq (p + x)).bind fun result =>
            out.store (q + x) (result % 256)) n o = some o1 ∧
      o1.valid = o.valid ∧ o1.ps = o.ps ∧ o1.bpl = o.bpl ∧
      (∀ x : Nat, x < n → o1.data (q + x) = some (R x % 256)) ∧
      (∀ a : Int, (∀ x : Nat, x < n → a ≠ q + x) → o1.data a = o.data a) := by
  induction n with
  | zero => exact ⟨o, rfl, rfl, rfl, rfl, fun x hx => by omega, fun a _ => rfl⟩
  | succ n ih =>
    obtain ⟨o1, e1, v1, v2, v3, w1, f1⟩ := ih (fun x hx => hres x (by omega))
      (fun o1 x a b c hx => hst o1 x a b c (by omega))
    rw [forLoop_succ, e1]
    simp only [Option.some_bind, hres n (by omega)]
    rw [store_holds _ _ _ (hst o1 n v1 v2 v3 (by omega))]
    refine ⟨_, rfl, v1, v2, v3, ?_, ?_⟩
    · intro x hx
      simp only
      by_cases hxn : x = n
      · subst hxn
        rw [if_pos rfl]
      · rw [if_neg (by omega)]
        exact w1 x (by omega)
    · intro a ha
      simp only
      rw [if_neg (ha n (by omega))]
      exact f1 a (fun x hx => ha x (by omega))

/-- The innermost loop on a prepared region whose sequence holds the taps:
the fold of the terms of the taps. -/
theorem morph_gen_result_eq (g : VipsMorphGenerate) (morph : VipsMorph) (in_ : VipsImage)
    (bpl : Int) (s : VipsRect) (seq : VipsMorphSequence)
    (hir : vips_region_prepare_bytes in_ bpl s = some seq.ir)
    (htaps : seq_taps seq =
      (morph_taps morph).map fun t => (t.2.1 * bpl + t.1 * in_.Bands, t.2.2))
    (j x : Int) (hj : 0 ≤ j) (hjh : j + (morph.M.Ysize - 1) < s.height)
    (hx : 0 ≤ x) (hxw : x + (morph.M.Xsize - 1) * in_.Bands < s.width * in_.Bands) :
    vips_morph_gen_result g seq (j * bpl + x) =
      some ((morph_taps morph).foldl
        (fun acc t => g.op acc (morph_term t.2.2
          (in_.element (s.left * in_.Bands + x + t.1 * in_.Bands) (s.top + j + t.2.1))))
        g.seed) := by
  rw [gen_result_fold, htaps, List.foldl_map]
  have key := fold_some g.op seq.ir.load
    (fun t : Int × Int × Int => j * bpl + x + (t.2.1 * bpl + t.1 * in_.Bands))
    (fun t => t.2.2)
    (fun t => in_.element (s.left * in_.Bands + x + t.1 * in_.Bands) (s.top + j + t.2.1))
    (morph_taps morph) g.seed
    (by
      intro t ht
      obtain ⟨b1, b2, b3, b4, -⟩ := taps_bounds morph t ht
      have e : j * bpl + x + (t.2.1 * bpl + t.1 * in_.Bands) =
          (j + t.2.1) * bpl + (x + t.1 * in_.Bands) := by ring
      have hB : (0 : Int) ≤ in_.Bands := Int.natCast_nonneg _
      have m1 : 0 ≤ t.1 * in_.Bands := mul_nonneg b1 hB
      have m2 : t.1 * in_.Bands ≤ (morph.M.Xsize - 1) * in_.Bands :=
        mul_le_mul_of_nonneg_right (by omega) hB
      simp only
      rw [e, prepare_load in_ bpl s seq.ir hir (j + t.2.1) (x + t.1 * in_.Bands) (by omega)
        (by omega) (by omega) (by omega)]
      congr 2 <;> ring)
  exact key

/-- The generate functions on a tile inside the output image: they return, the
sequence is left in order, and every byte of the tile holds what `morph_byte`
gives. -/
theorem morph_gen_eq (g : VipsMorphGenerate) (morph : VipsMorph) (in_ : VipsImage) (bpl : Int)
    (seq : VipsMorphSequence) (out : VipsByteRegion)
    (hps : out.ps = in_.Bands)
    (hw : 1 ≤ out.valid.width) (hh : 1 ≤ out.valid.height)
    (hob : out.valid.width * out.ps ≤ out.bpl)
    (hmw : 1 ≤ morph.M.Xsize)
    (hl : 0 ≤ out.valid.left) (ht : 0 ≤ out.valid.top)
    (hr : out.valid.left + out.valid.width + (morph.M.Xsize - 1) ≤ in_.Xsize)
    (hbo : out.valid.top + out.valid.height + (morph.M.Ysize - 1) ≤ in_.Ysize)
    (hbpl : (out.valid.width + (morph.M.Xsize - 1)) * in_.Bands ≤ bpl)
    (hseq : seq_ok morph in_.Bands seq) :
    ∃ seq1 out1, vips_morph_gen g morph in_ bpl seq out = some (seq1, out1) ∧
      seq_ok morph in_.Bands seq1 ∧
      out1.valid = out.valid ∧ out1.ps = out.ps ∧ out1.bpl = out.bpl ∧
      ∀ x y : Int, 0 ≤ x → x < out.valid.width * in_.Bands → out.valid.top ≤ y →
        y < out.valid.top + out.valid.height →
        out1.load (VIPS_REGION_ADDR out out.valid.left y + x) =
          some (morph_byte g morph in_ (out.valid.left * in_.Bands + x) y) := by
  have hB : (0 : Int) ≤ in_.Bands := Int.natCast_nonneg _
  have hwB : 0 ≤ (out.valid.width + (morph.M.Xsize - 1)) * (in_.Bands : Int) :=
    mul_nonneg (by omega) hB
  -- the prepare
  have hprep : ∃ ir, vips_region_prepare_bytes in_ bpl
      { out.valid with width := out.valid.width + (morph.M.Xsize - 1),
                       height := out.valid.height + (morph.M.Ysize - 1) } = some ir ∧
      ir.bpl = bpl ∧ ir.ps = in_.Bands := by
    unfold vips_region_prepare_bytes
    rw [if_pos]
    · exact ⟨_, rfl, rfl, rfl⟩
    · refine ⟨?_, hbpl⟩
      simp only [vips_rect_includesrect, VipsImage.rect, VIPS_RECT_RIGHT, VIPS_RECT_BOTTOM,
        Bool.and_eq_true, decide_eq_true_eq]
      omega
  obtain ⟨ir, hir, hirb, hirp⟩ := hprep
  -- the scan
  have hsc := scan_ok morph out.valid.left out.valid.top { seq with ir := ir }
    (by
      show seq_ok morph ir.ps { seq with ir := ir }
      rw [hirp]
      exact hseq)
    (by show 0 ≤ ir.bpl; omega)
  generalize hs1 : vips_morph_gen_scan morph out.valid.left out.valid.top { seq with ir := ir } =
    seq1 at hsc
  obtain ⟨s1, s2, s3, s4⟩ := hsc
  simp only [hirb, hirp] at s2 s4
  have hir1 : vips_region_prepare_bytes in_ bpl
      { out.valid with width := out.valid.width + (morph.M.Xsize - 1),
                       height := out.valid.height + (morph.M.Ysize - 1) } = some seq1.ir := by
    rw [s1]
    exact hir
  -- the loop over the lines
  have hloop := forLoop_inv
    (fun (k : Nat) (o : VipsByteRegion) =>
      vips_morph_gen_line g seq1 (VIPS_REGION_ADDR seq1.ir out.valid.left (out.valid.top + k))
        (VIPS_REGION_ADDR o out.valid.left (out.valid.top + k))
        (VIPS_REGION_N_ELEMENTS out) o)
    (fun (k : Nat) (o : VipsByteRegion) =>
      o.valid = out.valid ∧ o.ps = out.ps ∧ o.bpl = out.bpl ∧
      ∀ j x : Nat, j < k → (x : Int) < out.valid.width * in_.Bands →
        o.data (j * out.bpl + x) =
          some (morph_byte g morph in_ (out.valid.left * in_.Bands + x) (out.valid.top + j)))
    out.valid.height.toNat out ⟨rfl, rfl, rfl, fun j x hj => by omega⟩
    (by
      intro k o hk ⟨v1, v2, v3, w⟩
      have hp : VIPS_REGION_ADDR seq1.ir out.valid.left (out.valid.top + k) = k * bpl := by
        have hv : seq1.ir.valid = { out.valid with
            width := out.valid.width + (morph.M.Xsize - 1),
            height := out.valid.height + (morph.M.Ysize - 1) } := by
          rw [s1]
          unfold vips_region_prepare_bytes at hir
          split_ifs at hir
          simp only [Option.some.injEq] at hir
          rw [← hir]
        have hb1 : seq1.ir.bpl = bpl := by rw [s1]; exact hirb
        simp only [VIPS_REGION_ADDR, hv, hb1]
        ring
      have hq : VIPS_REGION_ADDR o out.valid.left (out.valid.top + k) = k * out.bpl := by
        simp only [VIPS_REGION_ADDR, v1, v3]
        ring
      have hsz : (VIPS_REGION_N_ELEMENTS out).toNat = (out.valid.width * in_.Bands).toNat := by
        simp only [VIPS_REGION_N_ELEMENTS, hps]
      have hszn : 0 ≤ out.valid.width * (in_.Bands : Int) := mul_nonneg (by omega) hB
      obtain ⟨o1, e1, u1, u2, u3, u4, u5⟩ := morph_gen_line_eq g seq1 (k * bpl) (k * out.bpl) o
        (fun x => (morph_taps morph).foldl
          (fun acc t => g.op acc (morph_term t.2.2
            (in_.element (out.valid.left * in_.Bands + x + t.1 * in_.Bands)
              (out.valid.top + k + t.2.1))))
          g.seed)
        (out.valid.width * in_.Bands).toNat
        (by
          intro x hx
          have := morph_gen_result_eq g morph in_ bpl _ seq1 hir1 s4 k x (by omega)
            (by simp only; omega) (by omega)
            (by
              simp only
              have : (out.valid.width + (morph.M.Xsize - 1)) * (in_.Bands : Int) =
                  out.valid.width * in_.Bands + (morph.M.Xsize - 1) * in_.Bands := by ring
              omega)
          exact this)
        (by
          intro o2 x a b c hx
          have a2 : o2.valid = out.valid := a.trans v1
          have b2 : o2.ps = in_.Bands := (b.trans v2).trans hps
          have c2 : o2.bpl = out.bpl := c.trans v3
          have := holds_flat o2 k x (by omega) (by rw [a2]; omega) (by omega)
            (by rw [a2, b2]; omega) (by rw [a2, b2, c2, ← hps]; exact hob)
          rw [c2] at this
          exact this)
      refine ⟨o1, ?_, by rw [u1, v1], by rw [u2, v2], by rw [u3, v3], ?_⟩
      · simp only [vips_morph_gen_line, hp, hq, hsz]
        exact e1
      · intro j x hj hx
        by_cases hjk : j = k
        · subst hjk
          have := u4 x (by omega)
          rw [this]
          rfl
        · rw [u5, w j x (by omega) hx]
          intro x' hx' heq
          have hxb : (x : Int) < out.bpl := by rw [hps] at hob; omega
          have hxb' : (x' : Int) < out.bpl := by rw [hps] at hob; omega
          have := flat_inj out.bpl j k x x' (by omega) hxb (by omega) hxb' heq
          omega)
  obtain ⟨out1, e1, v1, v2, v3, w⟩ := hloop
  refine ⟨seq1, out1, ?_, ?_, v1, v2, v3, ?_⟩
  · simp only [vips_morph_gen, hir, Option.some_bind, hs1]
    have : (VIPS_RECT_BOTTOM out.valid - out.valid.top).toNat = out.valid.height.toNat := by
      simp only [VIPS_RECT_BOTTOM]
      congr 1
      omega
    rw [this, e1]
    rfl
  · right
    rw [s2]
    exact ⟨s3, s4⟩
  · intro x y hx hxw hy hyh
    have hq : VIPS_REGION_ADDR out out.valid.left y = (y - out.valid.top) * out.bpl := by
      simp only [VIPS_REGION_ADDR]
      ring
    have hx2 : x < out1.valid.width * out1.ps := by rw [v1, v2, hps]; exact hxw
    have hh2 := holds_flat out1 (y - out.valid.top) x (by omega) (by rw [v1]; omega) hx hx2
      (by rw [v1, v2, v3]; exact hob)
    rw [v3] at hh2
    have := w (y - out.valid.top).toNat x.toNat (by omega) (by omega)
    rw [show (((y - out.valid.top).toNat : Nat) : Int) = y - out.valid.top by omega,
      show ((x.toNat : Nat) : Int) = x by omega] at this
    simp only [VipsByteRegion.load, hq, hh2, if_true, this]
    congr 2
    omega

theorem taps_coeff (morph : VipsMorph) (hm : mask_ok morph) (t : Int × Int × Int)
    (h : t ∈ morph_taps morph) : t.2.2 = 0 ∨ t.2.2 = 255 := by
  simp only [morph_taps, List.mem_flatMap, List.mem_range, List.mem_filterMap] at h
  obtain ⟨y, hy, x, hx, h⟩ := h
  have := hm x y (by omega) (by omega)
  by_cases hc : morph.coeff (y * morph.M.Xsize.toNat + x) = 128
  · simp [hc] at h
  · simp only [hc, if_false, Option.some.injEq] at h
    subst h
    simp only
    omega

theorem lor_low8 (a b : Int) : Int.lor a b % 256 = Int.lor (a % 256) (b % 256) % 256 := by
  have := lor_congr 8 a (a % 256) b (b % 256) (by norm_num) (by norm_num)
  norm_num at this
  exact this

theorem land_low8 (a b : Int) : Int.land a b % 256 = Int.land (a % 256) (b % 256) % 256 := by
  have := land_congr 8 a (a % 256) b (b % 256) (by norm_num) (by norm_num)
  norm_num at this
  exact this

/-- The low 8 bits of the term of a tap on a byte that is 0 or 255: 255 when
the tap matches, 0 when it does not. -/
theorem term_low8 (c v : Int) (hc : c = 0 ∨ c = 255) (hv : v = 0 ∨ v = 255) :
    (morph_term c v % 256 = 255 ↔ (c = 255 ∧ v = 255) ∨ (c = 0 ∧ v = 0)) ∧
    (morph_term c v % 256 = 0 ∨ morph_term c v % 256 = 255) := by
  unfold morph_term
  rcases hc with hc | hc <;> rcases hv with hv | hv <;> subst hc <;> subst hv <;>
    simp [lnot_eq]

theorem dilate_fold (in_ : VipsImage) (e y : Int) (L : List (Int × Int × Int))
    (hc : ∀ t, t ∈ L → t.2.2 = 0 ∨ t.2.2 = 255)
    (hv : ∀ c y, in_.element c y = 0 ∨ in_.element c y = 255) :
    ∀ acc : Int, (acc % 256 = 0 ∨ acc % 256 = 255) →
      ((L.foldl (fun acc t => Int.lor acc
          (morph_term t.2.2 (in_.element (e + t.1 * in_.Bands) (y + t.2.1)))) acc % 256 = 255 ↔
        acc % 256 = 255 ∨ ∃ t, t ∈ L ∧ tap_matches in_ e y t) ∧
      (L.foldl (fun acc t => Int.lor acc
          (morph_term t.2.2 (in_.element (e + t.1 * in_.Bands) (y + t.2.1)))) acc % 256 = 0 ∨
        L.foldl (fun acc t => Int.lor acc
          (morph_term t.2.2 (in_.element (e + t.1 * in_.Bands) (y + t.2.1)))) acc % 256 = 255)) := by
  induction L with
  | nil =>
    intro acc h
    exact ⟨by simp, h⟩
  | cons t L ih =>
    intro acc h
    obtain ⟨t1, t2⟩ := term_low8 t.2.2 (in_.element (e + t.1 * in_.Bands) (y + t.2.1))
      (hc t (List.mem_cons_self _ _)) (hv _ _)
    have hstep : Int.lor acc (morph_term t.2.2
          (in_.element (e + t.1 * in_.Bands) (y + t.2.1))) % 256 =
        if acc % 256 = 255 ∨ morph_term t.2.2
          (in_.element (e + t.1 * in_.Bands) (y + t.2.1)) % 256 = 255 then 255 else 0 := by
      rw [lor_low8]
      rcases h with h | h <;> rcases t2 with t2 | t2 <;> rw [h, t2] <;> decide
    have ih2 := ih (fun u hu => hc u (List.mem_cons_of_mem _ hu))
      (Int.lor acc (morph_term t.2.2 (in_.element (e + t.1 * in_.Bands) (y + t.2.1))))
      (by rw [hstep]; split_ifs <;> simp)
    simp only [List.foldl_cons, List.mem_cons]
    refine ⟨?_, ih2.2⟩
    rw [ih2.1, hstep]
    constructor
    · rintro (h1 | ⟨u, hu, hm⟩)
      · split_ifs at h1 with h2
        · rcases h2 with h2 | h2
          · exact Or.inl h2
          · exact Or.inr ⟨t, Or.inl rfl, t1.1 h2⟩
        · omega
      · exact Or.inr ⟨u, Or.inr hu, hm⟩
    · rintro (h1 | ⟨u, hu | hu, hm⟩)
      · left
        rw [if_pos (Or.inl h1)]
      · left
        subst hu
        rw [if_pos (Or.inr (t1.2 hm))]
      · exact Or.inr ⟨u, hu, hm⟩

theorem erode_fold (in_ : VipsImage) (e y : Int) (L : List (Int × Int × Int))
    (hc : ∀ t, t ∈ L → t.2.2 = 0 ∨ t.2.2 = 255)
    (hv : ∀ c y, in_.element c y = 0 ∨ in_.element c y = 255) :
    ∀ acc : Int, (acc % 256 = 0 ∨ acc % 256 = 255) →
      ((L.foldl (fun acc t => Int.land acc
          (morph_term t.2.2 (in_.element (e + t.1 * in_.Bands) (y + t.2.1)))) acc % 256 = 255 ↔
        acc % 256 = 255 ∧ ∀ t, t ∈ L → tap_matches in_ e y t) ∧
      (L.foldl (fun acc t => Int.land acc
          (morph_term t.2.2 (in_.element (e + t.1 * in_.Bands) (y + t.2.1)))) acc % 256 = 0 ∨
        L.foldl (fun acc t => Int.land acc
          (morph_term t.2.2 (in_.element (e + t.1 * in_.Bands) (y + t.2.1)))) acc % 256 = 255)) := by
  induction L with
  | nil =>
    intro acc h
    exact ⟨by simp, h⟩
  | cons t L ih =>
    intro acc h
    obtain ⟨t1, t2⟩ := term_low8 t.2.2 (in_.element (e + t.1 * in_.Bands) (y + t.2.1))
      (hc t (List.mem_cons_self _ _)) (hv _ _)
    have hstep : Int.land acc (morph_term t.2.2
          (in_.element (e + t.1 * in_.Bands) (y + t.2.1))) % 256 =
        if acc % 256 = 255 ∧ morph_term t.2.2
          (in_.element (e + t.1 * in_.Bands) (y + t.2.1)) % 256 = 255 then 255 else 0 := by
      rw [land_low8]
      rcases h with h | h <;> rcases t2 with t2 | t2 <;> rw [h, t2] <;> decide
    have ih2 := ih (fun u hu => hc u (List.mem_cons_of_mem _ hu))
      (Int.land acc (morph_term t.2.2 (in_.element (e + t.1 * in_.Bands) (y + t.2.1))))
      (by rw [hstep]; split_ifs <;> simp)
    simp only [List.foldl_cons, List.mem_cons]
    refine ⟨?_, ih2.2⟩
    rw [ih2.1, hstep]
    constructor
    · rintro ⟨h1, h2⟩
      split_ifs at h1 with h3
      · refine ⟨h3.1, ?_⟩
        rintro u (hu | hu)
        · subst hu
          exact t1.1 h3.2
        · exact h2 u hu
      · omega
    · rintro ⟨h1, h2⟩
      refine ⟨?_, fun u hu => h2 u (Or.inr hu)⟩
      rw [if_pos ⟨h1, t1.2 (h2 t (Or.inl rfl))⟩]

theorem dual_fold {α : Type} (te td : α → Int) (L : List α)
    (h : ∀ t, t ∈ L → te t % 256 = Int.lnot (td t) % 256) :
    ∀ e d : Int, e % 256 = Int.lnot d % 256 →
      L.foldl (fun a t => Int.land a (te t)) e % 256 =
        Int.lnot (L.foldl (fun a t => Int.lor a (td t)) d) % 256 := by
  induction L with
  | nil => intro e d hed; exact hed
  | cons t L ih =>
    intro e d hed
    simp only [List.foldl_cons]
    apply ih (fun u hu => h u (List.mem_cons_of_mem _ hu))
    have := land_lnot_congr 8 e d (te t) (td t) (by norm_num; exact hed)
      (by norm_num; exact h t (List.mem_cons_self _ _))
    norm_num at this
    exact this

theorem complement_element (im : VipsImage) (hb : im.has_bands) (hB : 1 ≤ im.Bands) (c y : Int) :
    (complement_image im).element c y = 255 - im.element c y := by
  have h1 : 0 ≤ c % (im.Bands : Int) := Int.emod_nonneg _ (by omega)
  have h2 : c % (im.Bands : Int) < im.Bands := Int.emod_lt_of_pos _ (by omega)
  have hlen : (c % (im.Bands : Int)).toNat < (im.pel (c / im.Bands) y).length := by
    rw [hb]
    omega
  simp only [VipsImage.element, complement_image, List.getD_eq_getElem?_getD,
    List.getElem?_map, List.getElem?_eq_getElem hlen, Option.map_some', Option.getD_some]

/-- Erode is the complement of dilate on the complemented image, with the same
mask, byte by byte. -/
theorem morph_byte_dual_image (morph : VipsMorph) (in_ : VipsImage) (hb : in_.has_bands)
    (hB : 1 ≤ in_.Bands) (e y : Int) :
    morph_byte .erode morph in_ e y =
      255 - morph_byte .dilate morph (complement_image in_) e y := by
  have key := dual_fold
    (fun t : Int × Int × Int =>
      morph_term t.2.2 (in_.element (e + t.1 * in_.Bands) (y + t.2.1)))
    (fun t : Int × Int × Int =>
      morph_term t.2.2 ((complement_image in_).element (e + t.1 * in_.Bands) (y + t.2.1)))
    (morph_taps morph)
    (by
      intro t _
      simp only [complement_element in_ hb hB, morph_term]
      split_ifs <;> simp only [lnot_eq] <;> omega)
    255 0 (by decide)
  simp only [morph_byte, VipsMorphGenerate.op, VipsMorphGenerate.seed]
  have hB2 : (complement_image in_).Bands = in_.Bands := rfl
  beta_reduce at key
  rw [hB2, key]
  generalize List.foldl _ 0 (morph_taps morph) = D
  rw [lnot_eq]
  omega

theorem complement_mask_taps (morph : VipsMorph) :
    morph_taps (complement_mask morph) =
      (morph_taps morph).map fun t =>
        (t.1, t.2.1, if t.2.2 = 0 then 255 else if t.2.2 = 255 then 0 else t.2.2) := by
  simp only [morph_taps, complement_mask, List.map_flatMap, List.map_filterMap]
  congr 1
  funext y
  apply List.filterMap_congr
  intro x _
  by_cases h0 : morph.coeff (y * morph.M.Xsize.toNat + x) = 0
  · simp [h0]
  · by_cases h1 : morph.coeff (y * morph.M.Xsize.toNat + x) = 255
    · simp [h1]
    · by_cases h2 : morph.coeff (y * morph.M.Xsize.toNat + x) = 128
      · simp [h2]
      · simp [h0, h1, h2]

/-- Erode is the complement of dilate with the complemented mask, on the same
image, byte by byte. -/
theorem morph_byte_dual_mask (morph : VipsMorph) (in_ : VipsImage) (hm : mask_ok morph)
    (e y : Int) :
    morph_byte .erode morph in_ e y =
      255 - morph_byte .dilate (complement_mask morph) in_ e y := by
  have key := dual_fold
    (fun t : Int × Int × Int =>
      morph_term t.2.2 (in_.element (e + t.1 * in_.Bands) (y + t.2.1)))
    (fun t : Int × Int × Int =>
      morph_term (if t.2.2 = 0 then 255 else if t.2.2 = 255 then 0 else t.2.2)
        (in_.element (e + t.1 * in_.Bands) (y + t.2.1)))
    (morph_taps morph)
    (by
      intro t ht
      rcases taps_coeff morph hm t ht with h | h <;>
        simp only [h, morph_term, lnot_eq] <;> norm_num)
    255 0 (by decide)
  simp only [morph_byte, VipsMorphGenerate.op, VipsMorphGenerate.seed, complement_mask_taps,
    List.foldl_map]
  beta_reduce at key
  rw [key]
  generalize List.foldl _ 0 (morph_taps morph) = D
  rw [lnot_eq]
  omega

/-- On an image of bytes 0 and 255 and a mask of coefficients 0, 128 and 255:
dilate is 255 when some tap matches and erode when all do, and both are 0
otherwise. -/
theorem morph_byte_binary (morph : VipsMorph) (in_ : VipsImage) (hm : mask_ok morph)
    (hv : ∀ c y, in_.element c y = 0 ∨ in_.element c y = 255) (e y : Int) :
    (morph_byte .dilate morph in_ e y = 255 ↔
      ∃ t, t ∈ morph_taps morph ∧ tap_matches in_ e y t) ∧
    (morph_byte .dilate morph in_ e y = 0 ∨ morph_byte .dilate morph in_ e y = 255) ∧
    (morph_byte .erode morph in_ e y = 255 ↔
      ∀ t, t ∈ morph_taps morph → tap_matches in_ e y t) ∧
    (morph_byte .erode morph in_ e y = 0 ∨ morph_byte .erode morph in_ e y = 255) := by
  obtain ⟨d1, d2⟩ := dilate_fold in_ e y (morph_taps morph) (taps_coeff morph hm) hv 0
    (by decide)
  obtain ⟨e1, e2⟩ := erode_fold in_ e y (morph_taps morph) (taps_coeff morph hm) hv 255
    (by decide)
  simp only [morph_byte, VipsMorphGenerate.op, VipsMorphGenerate.seed]
  refine ⟨?_, d2, ?_, e2⟩
  · rw [d1]
    simp
  · rw [e1]
    simp

theorem morph_byte_range (g : VipsMorphGenerate) (morph : VipsMorph) (in_ : VipsImage)
    (e y : Int) : 0 ≤ morph_byte g morph in_ e y ∧ morph_byte g morph in_ e y ≤ 255 := by
  unfold morph_byte
  omega

theorem example_white_element (c y : Int) : example_white.element c y = 255 := by
  simp [VipsImage.element, example_white]

theorem example_black_element (c y : Int) : (complement_image example_white).element c y = 0 := by
  simp [VipsImage.element, example_white, complement_image]

theorem example_mask_ok_built : mask_ok example_morph_built :=
  fun _ _ _ _ => Or.inr (Or.inr rfl)

theorem example_taps (t : Int × Int × Int) (h : t ∈ morph_taps example_morph_built) :
    t.2.2 = 255 := by
  simp only [morph_taps, List.mem_flatMap, List.mem_filterMap] at h
  obtain ⟨y, -, x, -, h⟩ := h
  simp only [example_morph_built] at h
  norm_num at h
  rw [← h]

theorem example_tap_mem : ((0 : Int), (0 : Int), (255 : Int)) ∈ morph_taps example_morph_built := by
  simp only [morph_taps, List.mem_flatMap, List.mem_filterMap, List.mem_range]
  refine ⟨0, by decide, 0, by decide, ?_⟩
  simp [example_morph_built]

/-- Erode of the all-255 example image under the mask of 255s is 255. -/
theorem example_erode_byte (e y : Int) :
    morph_byte .erode example_morph_built example_white e y = 255 := by
  rw [(morph_byte_binary example_morph_built example_white example_mask_ok_built
    (fun c y => Or.inr (example_white_element c y)) e y).2.2.1]
  intro t ht
  exact Or.inl ⟨example_taps t ht, example_white_element _ _⟩

/-- Dilate of the complemented example image under the complemented mask is
255 as well. -/
theorem example_dilate_complement_byte (e y : Int) :
    morph_byte .dilate (complement_mask example_morph_built) (complement_image example_white)
      e y = 255 := by
  have hm : mask_ok (complement_mask example_morph_built) := by
    intro x y _ _
    left
    simp [complement_mask, example_morph_built]
  rw [(morph_byte_binary _ _ hm (fun c y => Or.inl (example_black_element c y)) e y).1]
  refine ⟨(0, 0, 0), ?_, Or.inr ⟨rfl, example_black_element _ _⟩⟩
  rw [complement_mask_taps, List.mem_map]
  exact ⟨(0, 0, 255), example_tap_mem, by simp⟩


/-! ## Statements about the generate functions of morph.c -/

/-- C14: on a tile inside the output image, with a sequence as
`vips_morph_start` or an earlier call left it, `vips_dilate_gen` and
`vips_erode_gen` return and every byte of the tile holds `morph_byte`: the low
8 bits of the terms of all taps whose coefficient is not 128 (the source byte
at the tap, complemented under a coefficient of 0), combined with `|` from 0
for dilate and with `&` from 255 for erode. On an image of bytes 0 and 255 and
a mask of coefficients 0, 128 and 255, dilate gives 255 when some tap matches
and 0 otherwise, erode gives 255 when all taps match and 0 otherwise; without
taps dilate gives 0 and erode 255. -/
theorem vips_morph_gen_bytes (morph : VipsMorph) (in_ : VipsImage) (bpl : Int)
    (seq : VipsMorphSequence) (out : VipsByteRegion)
    (hps : out.ps = in_.Bands)
    (hw : 1 ≤ out.valid.width) (hh : 1 ≤ out.valid.height)
    (hob : out.valid.width * out.ps ≤ out.bpl)
    (hmw : 1 ≤ morph.M.Xsize)
    (hl : 0 ≤ out.valid.left) (ht : 0 ≤ out.valid.top)
    (hr : out.valid.left + out.valid.width + (morph.M.Xsize - 1) ≤ in_.Xsize)
    (hbo : out.valid.top + out.valid.height + (morph.M.Ysize - 1) ≤ in_.Ysize)
    (hbpl : (out.valid.width + (morph.M.Xsize - 1)) * in_.Bands ≤ bpl)
    (hseq : seq_ok morph in_.Bands seq) (hm : mask_ok morph) :
    (∃ seq1 out1, vips_dilate_gen morph in_ bpl seq out = some (seq1, out1) ∧
      seq_ok morph in_.Bands seq1 ∧
      ∀ x y : Int, 0 ≤ x → x < out.valid.width * in_.Bands → out.valid.top ≤ y →
        y < out.valid.top + out.valid.height →
        out1.load (VIPS_REGION_ADDR out out.valid.left y + x) =
          some (morph_byte .dilate morph in_ (out.valid.left * in_.Bands + x) y)) ∧
    (∃ seq1 out1, vips_erode_gen morph in_ bpl seq out = some (seq1, out1) ∧
      seq_ok morph in_.Bands seq1 ∧
      ∀ x y : Int, 0 ≤ x → x < out.valid.width * in_.Bands → out.valid.top ≤ y →
        y < out.valid.top + out.valid.height →
        out1.load (VIPS_REGION_ADDR out out.valid.left y + x) =
          some (morph_byte .erode morph in_ (out.valid.left * in_.Bands + x) y)) ∧
    ((∀ c y, in_.element c y = 0 ∨ in_.element c y = 255) → ∀ e y,
      (morph_byte .dilate morph in_ e y = 255 ↔
        ∃ t, t ∈ morph_taps morph ∧ tap_matches in_ e y t) ∧
      (morph_byte .dilate morph in_ e y = 0 ∨ morph_byte .dilate morph in_ e y = 255) ∧
      (morph_byte .erode morph in_ e y = 255 ↔
        ∀ t, t ∈ morph_taps morph → tap_matches in_ e y t) ∧
      (morph_byte .erode morph in_ e y = 0 ∨ morph_byte .erode morph in_ e y = 255)) ∧
    (morph_taps morph = [] → ∀ e y,
      morph_byte .dilate morph in_ e y = 0 ∧ morph_byte .erode morph in_ e y = 255) := by
  refine ⟨?_, ?_, fun hv e y => morph_byte_binary morph in_ hm hv e y, ?_⟩
  · obtain ⟨seq1, out1, e1, k1, -, -, -, w⟩ :=
      morph_gen_eq .dilate morph in_ bpl seq out hps hw hh hob hmw hl ht hr hbo hbpl hseq
    exact ⟨seq1, out1, e1, k1, w⟩
  · obtain ⟨seq1, out1, e1, k1, -, -, -, w⟩ :=
      morph_gen_eq .erode morph in_ bpl seq out hps hw hh hob hmw hl ht hr hbo hbpl hseq
    exact ⟨seq1, out1, e1, k1, w⟩
  · intro hnil e y
    simp only [morph_byte, hnil, List.foldl_nil, VipsMorphGenerate.seed]
    decide

/-- C14 at an example: the all-255 image under the 2 by 2 mask of 255s; the
one byte of the tile at the origin is 255 after erode. -/
theorem vips_morph_gen_bytes_witness :
    ∃ seq1 out1, vips_erode_gen example_morph_built example_white 2
        (vips_morph_start example_white (fun _ => 0) (fun _ => 0)) example_tile =
          some (seq1, out1) ∧
      out1.load 0 = some 255 := by
  have key := vips_morph_gen_bytes example_morph_built example_white 2
    (vips_morph_start example_white (fun _ => 0) (fun _ => 0)) example_tile
    rfl (by decide) (by decide) (by decide) (by decide) (by decide) (by decide) (by decide)
    (by decide) (by decide) (Or.inl rfl) example_mask_ok_built
  obtain ⟨-, ⟨seq1, out1, e1, -, w⟩, -, -⟩ := key
  refine ⟨seq1, out1, e1, ?_⟩
  have hw := w 0 0 (by decide) (by decide) (by decide) (by decide)
  rw [example_erode_byte] at hw
  exact hw

/-- C15 as stated fails: on the all-255 example image with the 2 by 2 mask of
255s erode gives 255, and dilate of the complemented image with the
complemented mask gives 255 too, whose complement is 0. -/
theorem vips_erode_gen_not_dual_complement_mask :
    ∃ se oe sd od ve vd,
      vips_erode_gen example_morph_built example_white 2
        (vips_morph_start example_white (fun _ => 0) (fun _ => 0)) example_tile =
          some (se, oe) ∧
      vips_dilate_gen (complement_mask example_morph_built) (complement_image example_white) 2
        (vips_morph_start (complement_image example_white) (fun _ => 0) (fun _ => 0))
        example_tile =
          some (sd, od) ∧
      oe.load 0 = some ve ∧ od.load 0 = some vd ∧ ve = 255 ∧ vd = 255 ∧ ve ≠ 255 - vd := by
  obtain ⟨se, oe, e1, -, -, -, -, w1⟩ := morph_gen_eq .erode example_morph_built example_white 2
    (vips_morph_start example_white (fun _ => 0) (fun _ => 0)) example_tile
    rfl (by decide) (by decide) (by decide) (by decide) (by decide) (by decide) (by decide)
    (by decide) (by decide) (Or.inl rfl)
  obtain ⟨sd, od, e2, -, -, -, -, w2⟩ := morph_gen_eq .dilate
    (complement_mask example_morph_built) (complement_image example_white) 2
    (vips_morph_start (complement_image example_white) (fun _ => 0) (fun _ => 0)) example_tile
    rfl (by decide) (by decide) (by decide) (by decide) (by decide) (by decide) (by decide)
    (by decide) (by decide) (Or.inl rfl)
  have h1 := w1 0 0 (by decide) (by decide) (by decide) (by decide)
  have h2 := w2 0 0 (by decide) (by decide) (by decide) (by decide)
  rw [example_erode_byte] at h1
  rw [example_dilate_complement_byte] at h2
  exact ⟨se, oe, sd, od, 255, 255, e1, e2, h1, h2, rfl, rfl, by decide⟩

/-- C15, amended: with the same mask, every byte that `vips_erode_gen` writes
for a tile is the bitwise complement, `255 - v`, of the byte `v` that
`vips_dilate_gen` writes there for the complemented image. -/
theorem vips_erode_gen_dual (morph : VipsMorph) (in_ : VipsImage) (bpl bpl2 : Int)
    (seq seq2 : VipsMorphSequence) (out : VipsByteRegion)
    (hb : in_.has_bands) (hB : 1 ≤ in_.Bands)
    (hps : out.ps = in_.Bands)
    (hw : 1 ≤ out.valid.width) (hh : 1 ≤ out.valid.height)
    (hob : out.valid.width * out.ps ≤ out.bpl)
    (hmw : 1 ≤ morph.M.Xsize)
    (hl : 0 ≤ out.valid.left) (ht : 0 ≤ out.valid.top)
    (hr : out.valid.left + out.valid.width + (morph.M.Xsize - 1) ≤ in_.Xsize)
    (hbo : out.valid.top + out.valid.height + (morph.M.Ysize - 1) ≤ in_.Ysize)
    (hbpl : (out.valid.width + (morph.M.Xsize - 1)) * in_.Bands ≤ bpl)
    (hbpl2 : (out.valid.width + (morph.M.Xsize - 1)) * in_.Bands ≤ bpl2)
    (hseq : seq_ok morph in_.Bands seq) (hseq2 : seq_ok morph in_.Bands seq2) :
    ∃ se oe sd od,
      vips_erode_gen morph in_ bpl seq out = some (se, oe) ∧
      vips_dilate_gen morph (complement_image in_) bpl2 seq2 out = some (sd, od) ∧
      ∀ x y : Int, 0 ≤ x → x < out.valid.width * in_.Bands → out.valid.top ≤ y →
        y < out.valid.top + out.valid.height →
        ∃ ve vd, oe.load (VIPS_REGION_ADDR out out.valid.left y + x) = some ve ∧
          od.load (VIPS_REGION_ADDR out out.valid.left y + x) = some vd ∧
          0 ≤ vd ∧ vd ≤ 255 ∧ ve = 255 - vd := by
  obtain ⟨se, oe, e1, -, -, -, -, w1⟩ :=
    morph_gen_eq .erode morph in_ bpl seq out hps hw hh hob hmw hl ht hr hbo hbpl hseq
  obtain ⟨sd, od, e2, -, -, -, -, w2⟩ :=
    morph_gen_eq .dilate morph (complement_image in_) bpl2 seq2 out hps hw hh hob hmw hl ht hr
      hbo hbpl2 hseq2
  refine ⟨se, oe, sd, od, e1, e2, ?_⟩
  intro x y hx hxw hy hyh
  have hr2 := morph_byte_range .dilate morph (complement_image in_)
    (out.valid.left * in_.Bands + x) y
  exact ⟨_, _, w1 x y hx hxw hy hyh, w2 x y hx hxw hy hyh, hr2.1, hr2.2,
    morph_byte_dual_image morph in_ hb hB _ _⟩

/-- C15, amended, at an example: the all-255 image under the 2 by 2 mask of
255s. -/
theorem vips_erode_gen_dual_witness :
    ∃ se oe sd od ve vd,
      vips_erode_gen example_morph_built example_white 2
        (vips_morph_start example_white (fun _ => 0) (fun _ => 0)) example_tile =
          some (se, oe) ∧
      vips_dilate_gen example_morph_built (complement_image example_white) 2
        (vips_morph_start (complement_image example_white) (fun _ => 0) (fun _ => 0))
        example_tile =
          some (sd, od) ∧
      oe.load 0 = some ve ∧ od.load 0 = some vd ∧ ve = 255 - vd := by
  obtain ⟨se, oe, sd, od, e1, e2, w⟩ := vips_erode_gen_dual example_morph_built example_white
    2 2 (vips_morph_start example_white (fun _ => 0) (fun _ => 0))
    (vips_morph_start (complement_image example_white) (fun _ => 0) (fun _ => 0)) example_tile
    (fun _ _ => rfl) (by decide) rfl (by decide) (by decide) (by decide) (by decide)
    (by decide) (by decide) (by decide) (by decide) (by decide) (by decide) (Or.inl rfl)
    (Or.inl rfl)
  obtain ⟨ve, vd, h1, h2, -, -, h3⟩ := w 0 0 (by decide) (by decide) (by decide) (by decide)
  exact ⟨se, oe, sd, od, ve, vd, e1, e2, h1, h2, h3⟩

/-! ## Lemmas about type.c -/

theorem run_ops_append (a b : List AreaOp) (s : AreaState) :
    run_ops (a ++ b) s = (run_ops a s).bind (run_ops b) := by
  induction a generalizing s with
  | nil => rfl
  | cons op a ih =>
    simp only [List.cons_append, run_ops]
    cases op.run s with
    | none => rfl
    | some s1 => exact ih s1

theorem area_balance_copy (c : Int) (ops : List AreaOp) :
    area_balance c (AreaOp.copy :: ops) = area_balance (c + 1) ops := by
  simp [area_balance, List.count_cons]
  omega

theorem area_balance_unref (c : Int) (ops : List AreaOp) :
    area_balance c (AreaOp.unref :: ops) = area_balance (c - 1) ops := by
  simp [area_balance, List.count_cons]
  omega

/-- While the count stays positive the calls succeed, the release function is
not called, and only the count changes. -/
theorem run_ops_alive (ops : List AreaOp) : ∀ (area : VipsArea) (released : List (Nat × Nat)),
    (∀ k, k ≤ ops.length → 0 < area_balance area.count (ops.take k)) →
    run_ops ops ⟨some area, released⟩ =
      some ⟨some { area with count := area_balance area.count ops }, released⟩ := by
  induction ops with
  | nil =>
    intro area released _
    simp [run_ops, area_balance]
  | cons op ops ih =>
    intro area released h
    have h0 := h 0 (by simp)
    have h1 := h 1 (by simp)
    simp only [List.take_zero, area_balance, List.count_nil, Nat.cast_zero, add_zero, sub_zero]
      at h0
    cases op with
    | copy =>
      have hrest : ∀ k, k ≤ ops.length → 0 < area_balance (area.count + 1) (ops.take k) := by
        intro k hk
        have := h (k + 1) (by simp; omega)
        rwa [List.take_succ_cons, area_balance_copy] at this
      simp only [run_ops, AreaOp.run, vips_area_copy, gt_iff_lt, h0, if_true, Option.some_bind]
      rw [ih _ _ hrest, area_balance_copy]
    | unref =>
      have hrest : ∀ k, k ≤ ops.length → 0 < area_balance (area.count - 1) (ops.take k) := by
        intro k hk
        have := h (k + 1) (by simp; omega)
        rwa [List.take_succ_cons, area_balance_unref] at this
      rw [List.take_succ_cons, List.take_zero, area_balance_unref] at h1
      simp only [area_balance, List.count_nil, Nat.cast_zero, add_zero, sub_zero] at h1
      have hne : ¬(area.count - 1 = 0) := by omega
      simp only [run_ops, AreaOp.run, vips_area_unref, gt_iff_lt, h0, if_true, hne, if_false,
        Option.some_bind]
      rw [ih _ _ hrest, area_balance_unref]

theorem area_balance_append (c : Int) (a b : List AreaOp) :
    area_balance c (a ++ b) = area_balance (area_balance c a) b := by
  simp only [area_balance, List.count_append, Nat.cast_add]
  omega

theorem area_balance_nil (c : Int) : area_balance c [] = c := by
  simp [area_balance]

/-! ## Statements about type.c -/

/-- C16: take an area made by `vips_area_new` with a release function `f` and
a buffer `d`, and any sequence of `N` calls of `vips_area_copy` and `N + 1`
calls of `vips_area_unref` in which the count stays above 0 before the last
call. Then every call succeeds; before each call the area is alive with a
count of at least 1 and `f` has not been called; the last call is an unref, and
after it `f` has been called exactly once, with `d`, and the area is freed.
`vips_area_copy` on an area with a positive count hands back the same area
with the count one higher and nothing else changed. -/
theorem vips_area_unref_releases_once (N f d : Nat) (n : Int) (ops : List AreaOp)
    (hc : ops.count AreaOp.copy = N) (hu : ops.count AreaOp.unref = N + 1)
    (hpos : ∀ k, k < ops.length → 0 < area_balance 1 (ops.take k)) :
    (∃ final, run_ops ops (vips_area_new (some f) (some d) n) = some final ∧
      final.area = none ∧ final.released = [(f, d)]) ∧
    (∀ k, k < ops.length → ∃ s area,
      run_ops (ops.take k) (vips_area_new (some f) (some d) n) = some s ∧
      s.area = some area ∧ 1 ≤ area.count ∧ s.released = []) ∧
    (∃ init, ops = init ++ [AreaOp.unref]) ∧
    (∀ (s : AreaState) (area : VipsArea), s.area = some area → 0 < area.count →
      vips_area_copy s = some { s with area := some { area with count := area.count + 1 } }) := by
  have hne : ops ≠ [] := by
    intro h
    rw [h] at hu
    simp at hu
  have htot : area_balance 1 ops = 0 := by
    simp only [area_balance, hc, hu]
    push_cast
    omega
  have hprefix : ∀ k, k < ops.length →
      run_ops (ops.take k) (vips_area_new (some f) (some d) n) =
        some ⟨some { (⟨some d, 0, n, 1, some f, 0, 0⟩ : VipsArea) with
          count := area_balance 1 (ops.take k) }, []⟩ := by
    intro k hk
    have := run_ops_alive (ops.take k) ⟨some d, 0, n, 1, some f, 0, 0⟩ []
      (by
        intro j _
        rw [List.take_take]
        exact hpos _ (by omega))
    exact this
  obtain ⟨init, last, hops⟩ : ∃ init last, ops = init ++ [last] :=
    ⟨ops.dropLast, ops.getLast hne, (List.dropLast_append_getLast hne).symm⟩
  have hlen : init.length < ops.length := by
    rw [hops]
    simp
  have htake : ops.take init.length = init := by
    rw [hops]
    simp
  have hinit := hpos init.length hlen
  rw [htake] at hinit
  have hlast : last = AreaOp.unref ∧ area_balance 1 init = 1 := by
    rw [hops, area_balance_append] at htot
    cases last with
    | copy =>
      rw [area_balance_copy, area_balance_nil] at htot
      omega
    | unref =>
      rw [area_balance_unref, area_balance_nil] at htot
      exact ⟨rfl, by omega⟩
  obtain ⟨hl, hb⟩ := hlast
  subst hl
  refine ⟨?_, ?_, ⟨init, hops⟩, ?_⟩
  · have hrun := hprefix init.length hlen
    rw [htake, hb] at hrun
    refine ⟨⟨none, [(f, d)]⟩, ?_, rfl, rfl⟩
    rw [hops, run_ops_append, hrun]
    rfl
  · intro k hk
    exact ⟨_, _, hprefix k hk, rfl, by have := hpos k hk; simp only; omega, rfl⟩
  · intro s area hs hpos2
    simp only [vips_area_copy, hs, gt_iff_lt, hpos2, if_true]

/-- C16 at an example: a copy and two unrefs release the buffer once. -/
theorem vips_area_unref_releases_once_witness :
    ∃ final, run_ops [AreaOp.copy, AreaOp.unref, AreaOp.unref]
        (vips_area_new (some 7) (some 42) 0) = some final ∧
      final.area = none ∧ final.released = [(7, 42)] :=
  (vips_area_unref_releases_once 1 7 42 0 [AreaOp.copy, AreaOp.unref, AreaOp.unref]
    (by decide) (by decide) (by decide)).1

/-! ## Statements about im_avgdxdy.c -/

theorem avg_sums (points : TiePoints) (n : Nat) :
    (List.range n).foldl
      (fun (s : Int × Int) i =>
        (s.1 + (points.x_secondary i - points.x_reference i),
          s.2 + (points.y_secondary i - points.y_reference i)))
      (0, 0) =
      (∑ i in Finset.range n, (points.x_secondary i - points.x_reference i),
        ∑ i in Finset.range n, (points.y_secondary i - points.y_reference i)) := by
  induction n with
  | zero => rfl
  | succ n ih =>
    rw [List.range_succ, List.foldl_append, ih, Finset.sum_range_succ, Finset.sum_range_succ]
    rfl

theorem rint_const (d n : Int) (hn : 0 < n) : rint (((n * d : Int) : ℚ) / (n : ℚ)) = d := by
  have hq : (n : ℚ) ≠ 0 := by exact_mod_cast (ne_of_gt hn)
  have : ((n * d : Int) : ℚ) / (n : ℚ) = (d : ℚ) := by
    push_cast
    field_simp
  rw [this, rint_intCast]

/-- C17: `vips__avgdxdy` returns -1 exactly when `nopoints` is 0, and then
leaves `*dx` and `*dy` as they were. Otherwise it returns 0 with `*dx` the sum
of `x_secondary[i] - x_reference[i]` over the points divided by `nopoints` and
rounded by `rint`, and `*dy` likewise, each within 1/2 of the mean; and points
that all have the displacement `(d, e)` give `*dx = d` and `*dy = e`. -/
theorem vips__avgdxdy_mean (points : TiePoints) (dx dy : Int) :
    ((vips__avgdxdy points dx dy).ret = -1 ↔ points.nopoints = 0) ∧
    (points.nopoints = 0 →
      (vips__avgdxdy points dx dy).dx = dx ∧ (vips__avgdxdy points dx dy).dy = dy) ∧
    (points.nopoints ≠ 0 →
      (vips__avgdxdy points dx dy).ret = 0 ∧
      (vips__avgdxdy points dx dy).dx =
        rint (((∑ i in Finset.range points.nopoints.toNat,
          (points.x_secondary i - points.x_reference i) : Int) : ℚ) / points.nopoints) ∧
      (vips__avgdxdy points dx dy).dy =
        rint (((∑ i in Finset.range points.nopoints.toNat,
          (points.y_secondary i - points.y_reference i) : Int) : ℚ) / points.nopoints) ∧
      |((vips__avgdxdy points dx dy).dx : ℚ) -
        ((∑ i in Finset.range points.nopoints.toNat,
          (points.x_secondary i - points.x_reference i) : Int) : ℚ) / points.nopoints| ≤ 1 / 2 ∧
      |((vips__avgdxdy points dx dy).dy : ℚ) -
        ((∑ i in Finset.range points.nopoints.toNat,
          (points.y_secondary i - points.y_reference i) : Int) : ℚ) / points.nopoints| ≤ 1 / 2) ∧
    (∀ d e : Int, 0 < points.nopoints →
      (∀ i : Nat, (i : Int) < points.nopoints →
        points.x_secondary i - points.x_reference i = d ∧
        points.y_secondary i - points.y_reference i = e) →
      (vips__avgdxdy points dx dy).dx = d ∧ (vips__avgdxdy points dx dy).dy = e) := by
  have hne : points.nopoints ≠ 0 →
      (vips__avgdxdy points dx dy).ret = 0 ∧
      (vips__avgdxdy points dx dy).dx =
        rint (((∑ i in Finset.range points.nopoints.toNat,
          (points.x_secondary i - points.x_reference i) : Int) : ℚ) / points.nopoints) ∧
      (vips__avgdxdy points dx dy).dy =
        rint (((∑ i in Finset.range points.nopoints.toNat,
          (points.y_secondary i - points.y_reference i) : Int) : ℚ) / points.nopoints) := by
    intro h
    simp only [vips__avgdxdy, h, if_false, avg_sums, double_to_int_intCast]
    exact ⟨trivial, trivial, trivial⟩
  refine ⟨?_, ?_, ?_, ?_⟩
  · constructor
    · intro h
      by_contra hn
      rw [(hne hn).1] at h
      omega
    · intro h
      simp [vips__avgdxdy, h]
  · intro h
    simp [vips__avgdxdy, h]
  · intro h
    obtain ⟨h1, h2, h3⟩ := hne h
    refine ⟨h1, h2, h3, ?_, ?_⟩
    · rw [h2]
      exact rint_near _
    · rw [h3]
      exact rint_near _
  · intro d e hpos hall
    obtain ⟨-, h2, h3⟩ := hne (by omega)
    have hx : (∑ i in Finset.range points.nopoints.toNat,
        (points.x_secondary i - points.x_reference i)) = points.nopoints * d := by
      rw [Finset.sum_congr rfl (fun i hi => (hall i (by
        have := Finset.mem_range.1 hi
        omega)).1)]
      simp only [Finset.sum_const, Finset.card_range, nsmul_eq_mul]
      rw [Int.toNat_of_nonneg (by omega)]
    have hy : (∑ i in Finset.range points.nopoints.toNat,
        (points.y_secondary i - points.y_reference i)) = points.nopoints * e := by
      rw [Finset.sum_congr rfl (fun i hi => (hall i (by
        have := Finset.mem_range.1 hi
        omega)).2)]
      simp only [Finset.sum_const, Finset.card_range, nsmul_eq_mul]
      rw [Int.toNat_of_nonneg (by omega)]
    rw [h2, h3, hx, hy]
    exact ⟨rint_const d _ hpos, rint_const e _ hpos⟩

/-- C17 at an example: two points displaced by `(3, -1)`. -/
theorem vips__avgdxdy_mean_witness :
    (vips__avgdxdy example_points 0 0).dx = 3 ∧ (vips__avgdxdy example_points 0 0).dy = -1 :=
  (vips__avgdxdy_mean example_points 0 0).2.2.2 3 (-1) (by decide)
    (fun i _ => ⟨by simp [example_points], by simp [example_points]⟩)

/-! ## Lemmas about the generate function of reduceh.cpp -/

theorem land_mask (m k : Nat) : Int.land (m : Int) ((2 : Int) ^ k - 1) = ((m % 2 ^ k : Nat) : Int) := by
  have h : ((2 : Int) ^ k - 1) = ((2 ^ k - 1 : Nat) : Int) := by
    have : 1 ≤ 2 ^ k := Nat.one_le_two_pow
    push_cast [Nat.cast_sub this]
    rfl
  rw [h]
  show ((m &&& (2 ^ k - 1) : Nat) : Int) = _
  rw [Nat.and_pow_two_sub_one_eq_mod]

/-- The floor of half of a floor plus one. -/
theorem floor_half (t : ℚ) : (⌊t⌋ + 1) / 2 = ⌊(t + 1) / 2⌋ := by
  symm
  rw [Int.floor_eq_iff]
  have h1 := Int.floor_le t
  have h2 := Int.lt_floor_add_one t
  have h3 : (2 : Int) * ((⌊t⌋ + 1) / 2) ≤ ⌊t⌋ + 1 := by omega
  have h4 : ⌊t⌋ + 1 < 2 * ((⌊t⌋ + 1) / 2) + 2 := by omega
  have h3q : (2 : ℚ) * (((⌊t⌋ + 1) / 2 : Int) : ℚ) ≤ (⌊t⌋ : ℚ) + 1 := by exact_mod_cast h3
  have h4q : (⌊t⌋ : ℚ) + 1 < 2 * (((⌊t⌋ + 1) / 2 : Int) : ℚ) + 2 := by exact_mod_cast h4
  constructor
  · linarith
  · have h5 : ⌊t⌋ + 1 ≤ 2 * ((⌊t⌋ + 1) / 2) + 1 := by omega
    have h5q : (⌊t⌋ : ℚ) + 1 ≤ 2 * (((⌊t⌋ + 1) / 2 : Int) : ℚ) + 1 := by exact_mod_cast h5
    linarith

/-- C18: for a position `X` that is not negative and a `VIPS_TRANSFORM_SCALE`
that is a power of two, the index `tx` of `vips_reduceh_gen` is the fraction of
`X` times the scale rounded to the nearest integer, a half going up, and lies
between 0 and the scale, so it names one of the `VIPS_TRANSFORM_SCALE + 1` rows
of the tables. -/
theorem vips_reduceh_gen_tx_round (env : ReducehEnv) (k : Nat) (X : ℚ)
    (hk : env.VIPS_TRANSFORM_SCALE = 2 ^ k) (hX : 0 ≤ X) :
    vips_reduceh_gen_tx env X = ⌊(X - ⌊X⌋) * env.VIPS_TRANSFORM_SCALE + 1 / 2⌋ ∧
    0 ≤ vips_reduceh_gen_tx env X ∧
    vips_reduceh_gen_tx env X ≤ env.VIPS_TRANSFORM_SCALE := by
  have hS : (0 : ℚ) < env.VIPS_TRANSFORM_SCALE := by
    rw [hk]
    positivity
  set S : ℚ := (env.VIPS_TRANSFORM_SCALE : ℚ) with hSdef
  have hsx : double_to_int (X * S * 2) = ⌊X * S * 2⌋ :=
    double_to_int_nonneg _ (by positivity)
  have hfl0 : 0 ≤ ⌊X * S * 2⌋ := Int.floor_nonneg.2 (by positivity)
  have hmask : ((env.VIPS_TRANSFORM_SCALE : Int) * 2 - 1) = (2 : Int) ^ (k + 1) - 1 := by
    rw [hk]
    push_cast
    ring
  -- the fraction
  have hf0 : 0 ≤ X - ⌊X⌋ := by linarith [Int.floor_le X]
  have hf1 : X - ⌊X⌋ < 1 := by linarith [Int.lt_floor_add_one X]
  have hsplit : X * S * 2 = (X - ⌊X⌋) * S * 2 + ((⌊X⌋ * (2 ^ (k + 1) : Int) : Int) : ℚ) := by
    rw [hSdef, hk]
    push_cast
    ring
  have hfloor : ⌊X * S * 2⌋ = ⌊(X - ⌊X⌋) * S * 2⌋ + ⌊X⌋ * (2 ^ (k + 1) : Int) := by
    rw [hsplit, Int.floor_add_int]
  have hr0 : 0 ≤ ⌊(X - ⌊X⌋) * S * 2⌋ := Int.floor_nonneg.2 (by positivity)
  have hr1 : ⌊(X - ⌊X⌋) * S * 2⌋ < (2 ^ (k + 1) : Int) := by
    rw [Int.floor_lt]
    have : (((2 : Int) ^ (k + 1) : Int) : ℚ) = S * 2 := by
      rw [hSdef, hk]
      push_cast
      ring
    rw [this]
    nlinarith
  have hsix : Int.land ⌊X * S * 2⌋ ((env.VIPS_TRANSFORM_SCALE : Int) * 2 - 1) =
      ⌊(X - ⌊X⌋) * S * 2⌋ := by
    rw [hmask]
    obtain ⟨m, hm⟩ := Int.eq_ofNat_of_zero_le hfl0
    rw [hm, land_mask]
    push_cast
    rw [← hm, hfloor, Int.add_mul_emod_self]
    exact Int.emod_eq_of_lt hr0 hr1
  have htx : vips_reduceh_gen_tx env X = (⌊(X - ⌊X⌋) * S * 2⌋ + 1) / 2 := by
    simp only [vips_reduceh_gen_tx]
    rw [hsx, hsix, Int.shiftRight_eq_div_pow]
    norm_num
  have hval : vips_reduceh_gen_tx env X = ⌊(X - ⌊X⌋) * S + 1 / 2⌋ := by
    rw [htx, floor_half]
    congr 1
    ring
  refine ⟨hval, ?_, ?_⟩
  · rw [htx]
    omega
  · rw [htx]
    have : (2 ^ (k + 1) : Int) = 2 * (env.VIPS_TRANSFORM_SCALE : Int) := by
      rw [hk]
      push_cast
      ring
    omega

/-- C18 at an example: with 64 phases, position 2.3 gives row 19. -/
theorem vips_reduceh_gen_tx_round_witness :
    vips_reduceh_gen_tx example_env (23 / 10) = ⌊((23 / 10 : ℚ) - ⌊(23 / 10 : ℚ)⌋) * 64 + 1 / 2⌋ ∧
    0 ≤ vips_reduceh_gen_tx example_env (23 / 10) ∧
    vips_reduceh_gen_tx example_env (23 / 10) ≤ 64 := by
  have := vips_reduceh_gen_tx_round example_env 6 (23 / 10) (by rfl) (by norm_num)
  simpa [example_env] using this

theorem round_uint_binary64_nonneg (x : ℚ) (h : 0 ≤ x) :
    VIPS_ROUND_UINT_binary64 x = ⌊binary64 (x + 1 / 2)⌋ := by
  unfold VIPS_ROUND_UINT_binary64
  rw [double_to_int_nonneg _ (binary64_nonneg _ (by linarith))]

/-- The rounded width of a whole quotient is the quotient. -/
theorem round_uint_binary64_intCast (z : Int) (h0 : 0 ≤ z) (h1 : z < 2 ^ 52) :
    VIPS_ROUND_UINT_binary64 (binary64 (z : ℚ)) = z := by
  rw [binary64_intCast z (by rw [abs_lt]; constructor <;> omega)]
  rw [round_uint_binary64_nonneg _ (by exact_mod_cast h0)]
  rw [binary64_half (2 * z + 1) (by rw [abs_lt]; constructor <;> omega) _
    (by push_cast; ring)]
  rw [Int.floor_eq_iff]
  constructor <;> linarith

/-- The rounded width of a quotient by 2. -/
theorem round_uint_binary64_half (W : Int) (h0 : 0 ≤ W) (h1 : W < 2 ^ 52) :
    VIPS_ROUND_UINT_binary64 (binary64 ((W : ℚ) / 2)) = (W + 1) / 2 := by
  rw [binary64_half W (by rw [abs_lt]; constructor <;> omega) _ rfl]
  rw [round_uint_binary64_nonneg _ (div_nonneg (by exact_mod_cast h0) (by norm_num))]
  rw [binary64_half (W + 1) (by rw [abs_lt]; constructor <;> omega) _
    (by push_cast; ring)]
  exact round_half W

/-- The width the build computes is never below the quotient rounded to
nearest, and above it by no more than the rounding of the quotient and of the
sum can add. -/
theorem round_uint_binary64_bounds (x : ℚ) (h0 : 0 ≤ x) (h1 : x < 2 ^ 50) :
    ⌊x + 1 / 2⌋ ≤ VIPS_ROUND_UINT_binary64 (binary64 x) ∧
    (VIPS_ROUND_UINT_binary64 (binary64 x) : ℚ) ≤ x + 1 / 2 + (x + 1) / 2 ^ 51 := by
  have hb0 : 0 ≤ binary64 x := binary64_nonneg x h0
  rw [round_uint_binary64_nonneg _ hb0]
  constructor
  · -- monotonicity against the half-integer below
    have hk0 : 0 ≤ ⌊x + 1 / 2⌋ := Int.floor_nonneg.2 (by linarith)
    have hkx : ((⌊x + 1 / 2⌋ : Int) : ℚ) ≤ x + 1 / 2 := Int.floor_le _
    have hk50 : ⌊x + 1 / 2⌋ < 2 ^ 50 + 1 := by
      have : ((⌊x + 1 / 2⌋ : Int) : ℚ) < ((2 ^ 50 + 1 : Int) : ℚ) := by
        push_cast
        linarith
      exact_mod_cast this
    have s1 : ((⌊x + 1 / 2⌋ : Int) : ℚ) - 1 / 2 ≤ binary64 x := by
      have := binary64_mono _ _ (show ((⌊x + 1 / 2⌋ : Int) : ℚ) - 1 / 2 ≤ x by linarith)
      rwa [binary64_half (2 * ⌊x + 1 / 2⌋ - 1) (by rw [abs_lt]; constructor <;> omega) _
        (by push_cast; ring)] at this
    have s2 : ((⌊x + 1 / 2⌋ : Int) : ℚ) ≤ binary64 (binary64 x + 1 / 2) := by
      have := binary64_mono _ _ (show ((⌊x + 1 / 2⌋ : Int) : ℚ) ≤ binary64 x + 1 / 2 by linarith)
      rwa [binary64_intCast _ (by rw [abs_lt]; constructor <;> omega)] at this
    exact Int.le_floor.2 s2
  · have e1 := binary64_err x (x + 1) (by rw [abs_of_nonneg h0]; linarith) (by linarith)
    rw [abs_le] at e1
    have hx1 : (x + 1) / 2 ^ 53 ≤ 1 / 2 := by
      rw [div_le_iff₀ (by positivity)]
      have : (2 : ℚ) ^ 50 + 1 ≤ 1 / 2 * 2 ^ 53 := by norm_num
      linarith
    have e2 := binary64_err (binary64 x + 1 / 2) (2 * (x + 1))
      (by rw [abs_of_nonneg (by linarith)]; linarith [e1.2]) (by linarith)
    rw [abs_le] at e2
    have hf := Int.floor_le (binary64 (binary64 x + 1 / 2))
    have e3 : (x + 1) / 2 ^ 53 + 2 * (x + 1) / 2 ^ 53 ≤ (x + 1) / 2 ^ 51 := by
      rw [← add_div, div_le_div_iff₀ (by positivity) (by positivity)]
      have : (0 : ℚ) ≤ x + 1 := by linarith
      nlinarith
    linarith [e1.2, e2.2]

/-- The `gap` block does nothing when `gap` is 0. -/
theorem build_gap_binary64_zero (env : ReducehEnv) (r : VipsReduceh) (im : VipsImage)
    (width : Int) (extra : ℚ) (hgap : r.gap = 0) :
    vips_reduceh_build_gap_binary64 env r im width extra =
      .ok ⟨im, r.residual_hshrink, extra, none, false⟩ := by
  unfold vips_reduceh_build_gap_binary64
  rw [if_neg]
  rw [hgap]
  exact fun h => absurd h.1 (lt_irrefl 0)

/-- The ways out of the build once the `gap` block has succeeded with a
residual shrink other than 1 and a tap count within `MAX_POINT`. -/
theorem build_binary64_after_gap (env : ReducehEnv) (r : VipsReduceh) (g : ReducehGap)
    (hs : ¬r.hshrink < 1)
    (hg : vips_reduceh_build_gap_binary64 env { r with residual_hshrink := r.hshrink } r.in_
      (VIPS_ROUND_UINT_binary64 (binary64 ((r.in_.Xsize : ℚ) / r.hshrink)))
      (binary64 (binary64
        ((VIPS_ROUND_UINT_binary64 (binary64 ((r.in_.Xsize : ℚ) / r.hshrink)) : ℚ) *
          r.hshrink) - r.in_.Xsize)) = .ok g)
    (hres : g.residual_hshrink ≠ 1) :
    ∀ out, (vips_reduceh_build_binary64 env r).2 = .ok out →
      out.Xsize = VIPS_ROUND_UINT_binary64 (binary64 ((r.in_.Xsize : ℚ) / r.hshrink)) ∧
      ∃ t1, env.vips_image_decode g.in_ = some t1 ∧ out.Ysize = t1.Ysize := by
  unfold vips_reduceh_build_binary64
  rw [if_neg hs]
  simp only [hg, hres, if_false]
  by_cases hn : vips_reduce_get_points_binary64 r.kernel g.residual_hshrink > env.MAX_POINT
  · rw [if_pos hn]
    intro out ho
    simp at ho
  · rw [if_neg hn]
    cases hd : env.vips_image_decode g.in_ with
    | none => simp
    | some t1 =>
      simp only
      cases he : vips_embed t1
          (double_to_int (binary64 ((⌈binary64
            ((vips_reduce_get_points_binary64 r.kernel g.residual_hshrink : ℚ) / 2)⌉ : ℚ) - 1)))
          0 (t1.Xsize + vips_reduce_get_points_binary64 r.kernel g.residual_hshrink) t1.Ysize
          (some VIPS_EXTEND_COPY) with
      | error e => simp
      | ok t2 =>
        simp only
        have hsz := embed_copy_size _ _ _ _ _ _ he
        split_ifs with hw
        · simp
        · intro out ho
          simp only [Except.ok.injEq] at ho
          subst ho
          exact ⟨rfl, t1, rfl, hsz.2⟩

/-- The build that goes all the way to `vips_image_generate`. -/
theorem build_binary64_generate_eq (env : ReducehEnv) (r : VipsReduceh) (g : ReducehGap)
    (t1 : VipsImage) (t2 : VipsEmbedOut)
    (hs : ¬r.hshrink < 1)
    (hg : vips_reduceh_build_gap_binary64 env { r with residual_hshrink := r.hshrink } r.in_
      (VIPS_ROUND_UINT_binary64 (binary64 ((r.in_.Xsize : ℚ) / r.hshrink)))
      (binary64 (binary64
        ((VIPS_ROUND_UINT_binary64 (binary64 ((r.in_.Xsize : ℚ) / r.hshrink)) : ℚ) *
          r.hshrink) - r.in_.Xsize)) = .ok g)
    (hres : g.residual_hshrink ≠ 1)
    (hn : ¬vips_reduce_get_points_binary64 r.kernel g.residual_hshrink > env.MAX_POINT)
    (hd : env.vips_image_decode g.in_ = some t1)
    (he : vips_embed t1
      (double_to_int (binary64 ((⌈binary64
        ((vips_reduce_get_points_binary64 r.kernel g.residual_hshrink : ℚ) / 2)⌉ : ℚ) - 1)))
      0 (t1.Xsize + vips_reduce_get_points_binary64 r.kernel g.residual_hshrink) t1.Ysize
      (some VIPS_EXTEND_COPY) = .ok t2)
    (hw : 0 < VIPS_ROUND_UINT_binary64 (binary64 ((r.in_.Xsize : ℚ) / r.hshrink))) :
    (vips_reduceh_build_binary64 env r).2 =
      .ok (.generate t2
        (VIPS_ROUND_UINT_binary64 (binary64 ((r.in_.Xsize : ℚ) / r.hshrink))) t2.Ysize) ∧
    (vips_reduceh_build_binary64 env r).1.residual_hshrink = g.residual_hshrink ∧
    (vips_reduceh_build_binary64 env r).1.n_point =
      vips_reduce_get_points_binary64 r.kernel g.residual_hshrink ∧
    (vips_reduceh_build_binary64 env r).1.hoffset =
      binary64 (binary64 (binary64 (1 + g.extra_pixels) / 2) - 1) := by
  unfold vips_reduceh_build_binary64
  rw [if_neg hs]
  simp only [hg, hres, if_false, if_neg hn, hd, he, if_neg (not_le.2 hw)]
  refine ⟨?_, ?_, ?_, ?_⟩ <;> trivial

/-- The build with shrink factor 1 and gap 0: a plain write. -/
theorem build_binary64_one (env : ReducehEnv) (r : VipsReduceh)
    (hs : r.hshrink = 1) (hgap : r.gap = 0) :
    (vips_reduceh_build_binary64 env r).2 = .ok (.write r.in_) := by
  have hg := build_gap_binary64_zero env { r with residual_hshrink := r.hshrink } r.in_
    (VIPS_ROUND_UINT_binary64 (binary64 ((r.in_.Xsize : ℚ) / r.hshrink)))
    (binary64 (binary64
      ((VIPS_ROUND_UINT_binary64 (binary64 ((r.in_.Xsize : ℚ) / r.hshrink)) : ℚ) *
        r.hshrink) - r.in_.Xsize)) hgap
  simp only at hg
  unfold vips_reduceh_build_binary64
  rw [if_neg (by rw [hs]; exact lt_irrefl 1)]
  simp only [hg]
  simp [hs, vips_image_write]

/-- The offset of the embed for an odd number of taps `2 * k + 1`: `k`. -/
theorem embed_offset_binary64 (k : Int) (h0 : 0 ≤ k) (h1 : k < 2 ^ 50) :
    double_to_int (binary64 ((⌈binary64 (((2 * k + 1 : Int) : ℚ) / 2)⌉ : ℚ) - 1)) = k := by
  rw [binary64_half (2 * k + 1) (by rw [abs_lt]; constructor <;> omega) _ rfl]
  have hc : ⌈((2 * k + 1 : Int) : ℚ) / 2⌉ = k + 1 := by
    rw [Int.ceil_eq_iff]
    push_cast
    constructor <;> linarith
  rw [hc]
  rw [binary64_of_int _ k (by push_cast; ring) (by rw [abs_lt]; constructor <;> omega),
    double_to_int_intCast]

/-- The tap count for a shrink between 0 and `2 ^ 27`: an odd number
`2 * k + 1` with `k` from 0 to `2 ^ 30`. -/
theorem get_points_binary64_odd_form (kernel : VipsKernel) (shrink : ℚ) (h1 : 0 ≤ shrink)
    (h2 : shrink ≤ 2 ^ 27) :
    ∃ k : Int, 0 ≤ k ∧ k ≤ 2 ^ 30 ∧
      vips_reduce_get_points_binary64 kernel shrink = 2 * k + 1 := by
  have hs : |shrink| ≤ 2 ^ 27 := by rw [abs_of_nonneg h1]; exact h2
  rw [get_points_binary64_eq _ _ hs]
  have hr : ∀ p : ℚ, 0 ≤ p → p ≤ 2 ^ 31 → 0 ≤ rint p ∧ rint p ≤ 2 ^ 31 := by
    intro p hp0 hp1
    refine ⟨rint_nonneg p hp0, ?_⟩
    have := rint_mono p (((2 : Int) ^ 31 : Int) : ℚ) (by push_cast; exact hp1)
    rwa [rint_intCast] at this
  have hb : ∀ k : ℚ, 0 ≤ k → k ≤ 5 → 0 ≤ binary64 (k * shrink) ∧
      binary64 (k * shrink) ≤ 5 * 2 ^ 27 + 1 := by
    intro k hk0 hk5
    have hp := get_points_product k shrink (by rw [abs_of_nonneg hk0]; exact hk5) hs
    refine ⟨binary64_nonneg _ (mul_nonneg hk0 (by linarith)), ?_⟩
    have h3 := hp.2
    rw [abs_le] at h3
    have : k * shrink ≤ 5 * 2 ^ 27 := mul_le_mul hk5 h2 (by linarith) (by norm_num)
    have h23 : (1 : ℚ) / 2 ^ 23 ≤ 1 := by norm_num
    linarith [h3.2]
  have hq : ∀ p : ℚ, 0 ≤ p → p ≤ 5 * 2 ^ 27 + 1 → 0 ≤ rint p ∧ rint p ≤ 2 ^ 30 := by
    intro p hp0 hp1
    refine ⟨rint_nonneg p hp0, ?_⟩
    have := rint_mono p (((2 : Int) ^ 30 : Int) : ℚ) (by push_cast; linarith)
    rwa [rint_intCast] at this
  have k1 := hq shrink (by linarith) (by linarith)
  have k2 := hq _ (hb 2 (by norm_num) (by norm_num)).1 (hb 2 (by norm_num) (by norm_num)).2
  have k3 := hq _ (hb 3 (by norm_num) (by norm_num)).1 (hb 3 (by norm_num) (by norm_num)).2
  have k5 := hq _ (hb 5 (by norm_num) (by norm_num)).1 (hb 5 (by norm_num) (by norm_num)).2
  cases kernel <;> simp only
  · exact ⟨0, le_refl 0, by norm_num, rfl⟩
  · exact ⟨_, k1.1, k1.2, rfl⟩
  · exact ⟨_, k2.1, k2.2, rfl⟩
  · exact ⟨_, k2.1, k2.2, rfl⟩
  · exact ⟨_, k2.1, k2.2, rfl⟩
  · exact ⟨_, k3.1, k3.2, rfl⟩
  · exact ⟨_, k3.1, k3.2, rfl⟩
  · exact ⟨_, k5.1, k5.2, rfl⟩

/-- The embed of the build succeeds for an image of positive size and a tap
count of the form `2 * k + 1`. -/
theorem embed_taps_ok (t : VipsImage) (k : Int) (h0 : 0 ≤ k) (h1 : k < 2 ^ 50)
    (hx : 1 ≤ t.Xsize) (hy : 1 ≤ t.Ysize) :
    ∃ t2, vips_embed t
      (double_to_int (binary64 ((⌈binary64 (((2 * k + 1 : Int) : ℚ) / 2)⌉ : ℚ) - 1))) 0
      (t.Xsize + (2 * k + 1)) t.Ysize (some VIPS_EXTEND_COPY) = .ok t2 := by
  rw [embed_offset_binary64 k h0 h1, embed_copy_result, if_neg (by omega), if_neg]
  · exact ⟨_, rfl⟩
  · rw [Bool.not_eq_true, Bool.eq_false_iff, Ne, isempty_iff]
    simp only [vips_rect_intersectrect, VIPS_RECT_RIGHT, VIPS_RECT_BOTTOM]
    omega

/-- With gap 0 and a shrink between 1 and `2 ^ 27` other than 1, the build
goes all the way once the tap count is within `MAX_POINT`, decoding succeeds
keeping the width, and the rounded width is positive. -/
theorem build_binary64_gap0_ok (env : ReducehEnv) (r : VipsReduceh) (t : VipsImage)
    (hs : 1 ≤ r.hshrink) (hs2 : r.hshrink ≤ 2 ^ 27) (h1 : r.hshrink ≠ 1) (hgap : r.gap = 0)
    (hn : vips_reduce_get_points_binary64 r.kernel r.hshrink ≤ env.MAX_POINT)
    (hd : env.vips_image_decode r.in_ = some t) (hx : 1 ≤ t.Xsize) (hy : 1 ≤ t.Ysize)
    (hw : 0 < VIPS_ROUND_UINT_binary64 (binary64 ((r.in_.Xsize : ℚ) / r.hshrink))) :
    ∃ t2, (vips_reduceh_build_binary64 env r).2 =
        .ok (.generate t2
          (VIPS_ROUND_UINT_binary64 (binary64 ((r.in_.Xsize : ℚ) / r.hshrink))) t2.Ysize) ∧
      t2.Xsize = t.Xsize + vips_reduce_get_points_binary64 r.kernel r.hshrink ∧
      t2.Ysize = t.Ysize ∧
      (vips_reduceh_build_binary64 env r).1.residual_hshrink = r.hshrink ∧
      (vips_reduceh_build_binary64 env r).1.n_point =
        vips_reduce_get_points_binary64 r.kernel r.hshrink ∧
      (vips_reduceh_build_binary64 env r).1.hoffset =
        binary64 (binary64 (binary64 (1 + binary64 (binary64
          ((VIPS_ROUND_UINT_binary64 (binary64 ((r.in_.Xsize : ℚ) / r.hshrink)) : ℚ) *
            r.hshrink) - r.in_.Xsize)) / 2) - 1) := by
  have hg := build_gap_binary64_zero env { r with residual_hshrink := r.hshrink } r.in_
    (VIPS_ROUND_UINT_binary64 (binary64 ((r.in_.Xsize : ℚ) / r.hshrink)))
    (binary64 (binary64
      ((VIPS_ROUND_UINT_binary64 (binary64 ((r.in_.Xsize : ℚ) / r.hshrink)) : ℚ) *
        r.hshrink) - r.in_.Xsize)) hgap
  simp only at hg
  obtain ⟨k, k0, k1, hk⟩ := get_points_binary64_odd_form r.kernel r.hshrink (by linarith) hs2
  obtain ⟨t2, he⟩ := embed_taps_ok t k k0 (by omega) hx hy
  rw [← hk] at he
  have hsz := embed_copy_size _ _ _ _ _ _ he
  obtain ⟨a1, a2, a3, a4⟩ := build_binary64_generate_eq env r _ t t2 (not_lt.2 hs) hg h1
    (not_lt.2 hn) hd he hw
  exact ⟨t2, a1, hsz.1, hsz.2, a2, a3, a4⟩

/-- The quotient 3 / 6.000000000000001 rounds to the `double` next below 1/2,
and adding 0.5 to that rounds up to 1: the width of the build is 1. -/
theorem example_round_lifted :
    binary64 (3 / example_double_6_up) = 1 / 2 - 1 / 2 ^ 54 ∧
    binary64 (1 / 2 - 1 / 2 ^ 54 + 1 / 2) = 1 ∧
    VIPS_ROUND_UINT_binary64 (binary64 (3 / example_double_6_up)) = 1 ∧
    ⌊(3 : ℚ) / example_double_6_up + 1 / 2⌋ = 0 := by
  have e54 : (2 : ℚ) ^ ((-2 : Int) - 52) = 1 / 2 ^ 54 := by
    rw [show (-2 : Int) - 52 = -54 by norm_num, zpow_neg]
    norm_num
  have e53 : (2 : ℚ) ^ ((-1 : Int) - 52) = 1 / 2 ^ 53 := by
    rw [show (-1 : Int) - 52 = -53 by norm_num, zpow_neg]
    norm_num
  have h1 : binary64 (3 / example_double_6_up) = 1 / 2 - 1 / 2 ^ 54 := by
    have hr : rint (3 / example_double_6_up / 2 ^ ((-2 : Int) - 52)) = 9007199254740991 :=
      rint_eq_of_near _ _ (by
        rw [e54]
        unfold example_double_6_up
        rw [abs_lt]
        constructor <;> norm_num)
    rw [binary64_eq _ (-2) _ (by norm_num)
      (by unfold example_double_6_up; rw [abs_of_pos (by norm_num)]; norm_num)
      (by unfold example_double_6_up; rw [abs_of_pos (by norm_num)]; norm_num) hr, e54]
    norm_num
  have h2 : binary64 (1 / 2 - 1 / 2 ^ 54 + 1 / 2) = 1 := by
    have hr : rint ((1 / 2 - 1 / 2 ^ 54 + 1 / 2 : ℚ) / 2 ^ ((-1 : Int) - 52)) =
        9007199254740992 := by
      have : (1 / 2 - 1 / 2 ^ 54 + 1 / 2 : ℚ) / 2 ^ ((-1 : Int) - 52) =
          ((9007199254740991 : Int) : ℚ) + 1 / 2 := by
        rw [e53]
        norm_num
      rw [this, rint_tie]
      decide
    rw [binary64_eq _ (-1) _ (by norm_num)
      (by rw [abs_of_pos (by norm_num)]; norm_num)
      (by rw [abs_of_pos (by norm_num)]; norm_num) hr, e53]
    norm_num
  refine ⟨h1, h2, ?_, ?_⟩
  · unfold VIPS_ROUND_UINT_binary64
    rw [h1, h2]
    exact_mod_cast double_to_int_intCast 1
  · rw [Int.floor_eq_iff]
    unfold example_double_6_up
    constructor <;> norm_num

/-- C7 as stated fails where binary64 lifts a quotient that lies just below a
half: a 3 pel wide image reduced by 6.000000000000001 (gap 0, lanczos3) is
built 1 pel wide, while 3 / 6.000000000000001 rounded to the nearest integer
is 0. -/
theorem vips_reduceh_build_binary64_width_lifted :
    (1 : Int) ≤ (example_reduceh 3 7 example_double_6_up 0 VIPS_KERNEL_LANCZOS3).in_.Xsize ∧
    1 ≤ (example_reduceh 3 7 example_double_6_up 0 VIPS_KERNEL_LANCZOS3).hshrink ∧
    (example_reduceh 3 7 example_double_6_up 0 VIPS_KERNEL_LANCZOS3).gap = 0 ∧
    (∃ t2, (vips_reduceh_build_binary64 example_env
        (example_reduceh 3 7 example_double_6_up 0 VIPS_KERNEL_LANCZOS3)).2 =
      .ok (.generate t2 1 7)) ∧
    ⌊(3 : ℚ) / example_double_6_up + 1 / 2⌋ = 0 := by
  obtain ⟨-, -, hw, hfl⟩ := example_round_lifted
  have hs : (1 : ℚ) ≤ example_double_6_up := by
    unfold example_double_6_up
    norm_num
  have hs2 : example_double_6_up ≤ 2 ^ 27 := by
    unfold example_double_6_up
    norm_num
  have h18 : rint (binary64 (3 * example_double_6_up)) = 18 := by
    have a := binary64_mono 18 (3 * example_double_6_up)
      (by unfold example_double_6_up; norm_num)
    have b := binary64_mono (3 * example_double_6_up) (73 / 4)
      (by unfold example_double_6_up; norm_num)
    rw [binary64_of_int 18 18 (by norm_num) (by decide)] at a
    have e : binary64 (73 / 4) = 73 / 4 := by
      have := binary64_dyadic 73 2 (by decide) (by norm_num)
      norm_num at this
      exact this
    rw [e] at b
    push_cast at a
    exact rint_eq_of_near _ 18 (by
      rw [abs_lt]
      push_cast
      constructor <;> linarith)
  have hn : vips_reduce_get_points_binary64 VIPS_KERNEL_LANCZOS3 example_double_6_up = 37 := by
    rw [get_points_binary64_eq _ _ (by rw [abs_of_pos (by linarith)]; exact hs2)]
    simp only [h18]
    decide
  obtain ⟨t2, hb, -, hy, -⟩ := build_binary64_gap0_ok example_env
    (example_reduceh 3 7 example_double_6_up 0 VIPS_KERNEL_LANCZOS3)
    (example_reduceh 3 7 example_double_6_up 0 VIPS_KERNEL_LANCZOS3).in_
    hs hs2 (by unfold example_double_6_up; norm_num [example_reduceh]) rfl
    (by
      have : vips_reduce_get_points_binary64
          (example_reduceh 3 7 example_double_6_up 0 VIPS_KERNEL_LANCZOS3).kernel
          (example_reduceh 3 7 example_double_6_up 0 VIPS_KERNEL_LANCZOS3).hshrink = 37 := hn
      rw [this]
      decide)
    rfl (by decide) (by decide)
    (by
      have : VIPS_ROUND_UINT_binary64 (binary64
          (((example_reduceh 3 7 example_double_6_up 0 VIPS_KERNEL_LANCZOS3).in_.Xsize : ℚ) /
            (example_reduceh 3 7 example_double_6_up 0 VIPS_KERNEL_LANCZOS3).hshrink)) = 1 := by
        simp only [example_reduceh]
        exact_mod_cast hw
      rw [this]
      decide)
  have hw2 : VIPS_ROUND_UINT_binary64 (binary64
      (((example_reduceh 3 7 example_double_6_up 0 VIPS_KERNEL_LANCZOS3).in_.Xsize : ℚ) /
        (example_reduceh 3 7 example_double_6_up 0 VIPS_KERNEL_LANCZOS3).hshrink)) = 1 := by
    simp only [example_reduceh]
    exact_mod_cast hw
  rw [hw2, hy] at hb
  exact ⟨by decide, hs, rfl, ⟨t2, hb⟩, hfl⟩

/-- C7, amended. For every input width W from 1 to below `2 ^ 31` and every
hshrink >= 1 with gap 0, when the build succeeds the output width is
`(int) (W / hshrink + 0.5)` as binary64 computes it, the quotient and the sum
each rounded to the nearest `double`: it is never below W / hshrink rounded to
the nearest integer, halves up (`floor(W / hshrink + 1/2)`), and exceeds
`W / hshrink + 1/2` by no more than the two roundings can add,
`(W / hshrink + 1) / 2 ^ 51`, so that it is that nearest integer unless
W / hshrink lies within this much below a half; the height is that of the
input (image decoding
keeps the height); hshrink = 2 gives width `floor((W + 1) / 2)`, and with
hshrink = 2 the build does succeed for every kernel once `MAX_POINT` is at
least 21 and decoding succeeds keeping the size. -/
theorem vips_reduceh_build_binary64_width (env : ReducehEnv) (r : VipsReduceh)
    (hW : 1 ≤ r.in_.Xsize) (hW2 : r.in_.Xsize < 2 ^ 31) (hs : 1 ≤ r.hshrink) (hgap : r.gap = 0)
    (hdec : ∀ im t, env.vips_image_decode im = some t → t.Ysize = im.Ysize) :
    (∀ out, (vips_reduceh_build_binary64 env r).2 = .ok out →
      out.Xsize = double_to_int (binary64 (binary64 ((r.in_.Xsize : ℚ) / r.hshrink) + 1 / 2)) ∧
      ⌊(r.in_.Xsize : ℚ) / r.hshrink + 1 / 2⌋ ≤ out.Xsize ∧
      (out.Xsize : ℚ) ≤ (r.in_.Xsize : ℚ) / r.hshrink + 1 / 2 +
        ((r.in_.Xsize : ℚ) / r.hshrink + 1) / 2 ^ 51 ∧
      ((r.in_.Xsize : ℚ) / r.hshrink + 1 / 2 + ((r.in_.Xsize : ℚ) / r.hshrink + 1) / 2 ^ 51 <
          ⌊(r.in_.Xsize : ℚ) / r.hshrink + 1 / 2⌋ + 1 →
        out.Xsize = ⌊(r.in_.Xsize : ℚ) / r.hshrink + 1 / 2⌋) ∧
      out.Ysize = r.in_.Ysize ∧
      (r.hshrink = 2 → out.Xsize = (r.in_.Xsize + 1) / 2)) ∧
    (r.hshrink = 2 → 21 ≤ env.MAX_POINT → 1 ≤ r.in_.Ysize →
      (∃ t, env.vips_image_decode r.in_ = some t ∧ t.Xsize = r.in_.Xsize) →
      ∃ out, (vips_reduceh_build_binary64 env r).2 = .ok out) := by
  have hWq : (1 : ℚ) ≤ r.in_.Xsize := by exact_mod_cast hW
  have hW2q : (r.in_.Xsize : ℚ) < 2 ^ 31 := by exact_mod_cast hW2
  have hq : 0 ≤ (r.in_.Xsize : ℚ) / r.hshrink := div_nonneg (by linarith) (by linarith)
  have hq2 : (r.in_.Xsize : ℚ) / r.hshrink < 2 ^ 50 := by
    have : (r.in_.Xsize : ℚ) / r.hshrink ≤ r.in_.Xsize := div_le_self (by linarith) hs
    have : (2 : ℚ) ^ 31 ≤ 2 ^ 50 := by norm_num
    linarith
  obtain ⟨b1, b2⟩ := round_uint_binary64_bounds _ hq hq2
  have hhalf : r.hshrink = 2 →
      VIPS_ROUND_UINT_binary64 (binary64 ((r.in_.Xsize : ℚ) / r.hshrink)) =
        (r.in_.Xsize + 1) / 2 := by
    intro h2
    rw [h2, round_uint_binary64_half _ (by omega) (by omega)]
  have hg := build_gap_binary64_zero env { r with residual_hshrink := r.hshrink } r.in_
    (VIPS_ROUND_UINT_binary64 (binary64 ((r.in_.Xsize : ℚ) / r.hshrink)))
    (binary64 (binary64
      ((VIPS_ROUND_UINT_binary64 (binary64 ((r.in_.Xsize : ℚ) / r.hshrink)) : ℚ) *
        r.hshrink) - r.in_.Xsize)) hgap
  simp only at hg
  constructor
  · intro out hok
    have hx : out.Xsize =
        VIPS_ROUND_UINT_binary64 (binary64 ((r.in_.Xsize : ℚ) / r.hshrink)) ∧
        out.Ysize = r.in_.Ysize := by
      by_cases h1 : r.hshrink = 1
      · rw [build_binary64_one env r h1 hgap] at hok
        simp only [Except.ok.injEq] at hok
        subst hok
        refine ⟨?_, rfl⟩
        simp only [VipsReducehOut.Xsize, h1, div_one]
        rw [round_uint_binary64_intCast _ (by omega) (by omega)]
      · obtain ⟨hx, t1, ht1, hy⟩ := build_binary64_after_gap env r _ (not_lt.2 hs) hg h1 out hok
        exact ⟨hx, by rw [hy]; exact hdec _ _ ht1⟩
    rw [hx.1]
    refine ⟨rfl, b1, b2, ?_, hx.2, hhalf⟩
    intro hlt
    have h1 : ((VIPS_ROUND_UINT_binary64 (binary64 ((r.in_.Xsize : ℚ) / r.hshrink)) : Int) : ℚ) <
        ((⌊(r.in_.Xsize : ℚ) / r.hshrink + 1 / 2⌋ + 1 : Int) : ℚ) := by
      push_cast
      exact lt_of_le_of_lt b2 hlt
    have h2 : VIPS_ROUND_UINT_binary64 (binary64 ((r.in_.Xsize : ℚ) / r.hshrink)) <
        ⌊(r.in_.Xsize : ℚ) / r.hshrink + 1 / 2⌋ + 1 := by exact_mod_cast h1
    omega
  · intro h2 hmax hH ⟨t, ht, htx⟩
    have hty := hdec _ _ ht
    have hp : vips_reduce_get_points_binary64 r.kernel r.hshrink ≤ 21 := by
      rw [h2, get_points_binary64_eq _ _ (by rw [abs_of_pos (by norm_num)]; norm_num)]
      have e4 : rint (binary64 (2 * 2 : ℚ)) = 4 := by
        rw [binary64_of_int _ 4 (by norm_num) (by decide), rint_intCast]
      have e6 : rint (binary64 (3 * 2 : ℚ)) = 6 := by
        rw [binary64_of_int _ 6 (by norm_num) (by decide), rint_intCast]
      have e10 : rint (binary64 (5 * 2 : ℚ)) = 10 := by
        rw [binary64_of_int _ 10 (by norm_num) (by decide), rint_intCast]
      have e2 : rint (2 : ℚ) = 2 := by exact_mod_cast rint_intCast 2
      cases r.kernel <;> simp only [e2, e4, e6, e10] <;> decide
    obtain ⟨t2, hb, -⟩ := build_binary64_gap0_ok env r t hs (by rw [h2]; norm_num)
      (by rw [h2]; norm_num) hgap (by omega) ht (by omega) (by omega)
      (by rw [hhalf h2]; omega)
    exact ⟨_, hb⟩

/-- C7 amended, for a 5 by 7 image, hshrink 2 and lanczos3: the output is 3
by 7. -/
theorem vips_reduceh_build_binary64_width_witness :
    1 ≤ (example_reduceh 5 7 2 0 VIPS_KERNEL_LANCZOS3).in_.Xsize ∧
    (example_reduceh 5 7 2 0 VIPS_KERNEL_LANCZOS3).in_.Xsize < 2 ^ 31 ∧
    1 ≤ (example_reduceh 5 7 2 0 VIPS_KERNEL_LANCZOS3).hshrink ∧
    (example_reduceh 5 7 2 0 VIPS_KERNEL_LANCZOS3).gap = 0 ∧
    (∀ im t, example_env.vips_image_decode im = some t → t.Ysize = im.Ysize) ∧
    ∃ out, (vips_reduceh_build_binary64 example_env
        (example_reduceh 5 7 2 0 VIPS_KERNEL_LANCZOS3)).2 = .ok out ∧
      out.Xsize = 3 ∧ out.Ysize = 7 := by
  have hs : 1 ≤ (example_reduceh 5 7 2 0 VIPS_KERNEL_LANCZOS3).hshrink := by
    simp only [example_reduceh]
    norm_num
  have hdec : ∀ im t, example_env.vips_image_decode im = some t → t.Ysize = im.Ysize := by
    intro im t h
    simp only [example_env, Option.some.injEq] at h
    rw [h]
  have h := vips_reduceh_build_binary64_width example_env
    (example_reduceh 5 7 2 0 VIPS_KERNEL_LANCZOS3) (by decide) (by decide) hs rfl hdec
  obtain ⟨out, ho⟩ := h.2 rfl (by decide) (by decide) ⟨_, rfl, rfl⟩
  obtain ⟨-, -, -, -, h2, h3⟩ := h.1 out ho
  exact ⟨by decide, by decide, hs, rfl, hdec, out, ho, h3 rfl, h2⟩

/-- The edge found for a non-empty part of border `i` lies inside `rsub`. -/
theorem find_edge_in_rsub (b1 : VipsEmbedBase) (hok : rsub_ok b1) (r : VipsRect) (i : Nat)
    (hi : i < 8)
    (htodo : vips_rect_isempty
      (vips_rect_intersectrect r ((vips_embed_base_build_border b1).border i)) = false) :
    vips_rect_includesrect b1.rsub
      (vips_embed_base_find_edge (vips_embed_base_build_border b1)
        (vips_rect_intersectrect r ((vips_embed_base_build_border b1).border i)) i) = true := by
  obtain ⟨e0, e1, e2, e3, e4, e5, e6, e7⟩ := find_edge_eq b1 hok r
  obtain ⟨d0, d1, d2, d3, d4, d5, d6, d7⟩ := border_eq b1
  have ht := intersect_facts _ _ htodo
  unfold rsub_ok at hok
  interval_cases i
  · rw [e0 htodo]
    generalize vips_rect_intersectrect r ((vips_embed_base_build_border b1).border 0) = todo
      at ht ⊢
    rw [d0] at ht
    simp only [vips_rect_includesrect, VIPS_RECT_RIGHT, VIPS_RECT_BOTTOM,
      Bool.and_eq_true, decide_eq_true_eq] at ht ⊢
    omega
  · rw [e1 htodo]
    generalize vips_rect_intersectrect r ((vips_embed_base_build_border b1).border 1) = todo
      at ht ⊢
    rw [d1] at ht
    simp only [vips_rect_includesrect, VIPS_RECT_RIGHT, VIPS_RECT_BOTTOM,
      Bool.and_eq_true, decide_eq_true_eq] at ht ⊢
    omega
  · rw [e2 htodo]
    generalize vips_rect_intersectrect r ((vips_embed_base_build_border b1).border 2) = todo
      at ht ⊢
    rw [d2] at ht
    simp only [vips_rect_includesrect, VIPS_RECT_RIGHT, VIPS_RECT_BOTTOM,
      Bool.and_eq_true, decide_eq_true_eq] at ht ⊢
    omega
  · rw [e3 htodo]
    generalize vips_rect_intersectrect r ((vips_embed_base_build_border b1).border 3) = todo
      at ht ⊢
    rw [d3] at ht
    simp only [vips_rect_includesrect, VIPS_RECT_RIGHT, VIPS_RECT_BOTTOM,
      Bool.and_eq_true, decide_eq_true_eq] at ht ⊢
    omega
  · rw [e4 htodo]
    generalize vips_rect_intersectrect r ((vips_embed_base_build_border b1).border 4) = todo
      at ht ⊢
    rw [d4] at ht
    simp only [vips_rect_includesrect, VIPS_RECT_RIGHT, VIPS_RECT_BOTTOM,
      Bool.and_eq_true, decide_eq_true_eq] at ht ⊢
    omega
  · rw [e5 htodo]
    generalize vips_rect_intersectrect r ((vips_embed_base_build_border b1).border 5) = todo
      at ht ⊢
    rw [d5] at ht
    simp only [vips_rect_includesrect, VIPS_RECT_RIGHT, VIPS_RECT_BOTTOM,
      Bool.and_eq_true, decide_eq_true_eq] at ht ⊢
    omega
  · rw [e6 htodo]
    generalize vips_rect_intersectrect r ((vips_embed_base_build_border b1).border 6) = todo
      at ht ⊢
    rw [d6] at ht
    simp only [vips_rect_includesrect, VIPS_RECT_RIGHT, VIPS_RECT_BOTTOM,
      Bool.and_eq_true, decide_eq_true_eq] at ht ⊢
    omega
  · rw [e7 htodo]
    generalize vips_rect_intersectrect r ((vips_embed_base_build_border b1).border 7) = todo
      at ht ⊢
    rw [d7] at ht
    simp only [vips_rect_includesrect, VIPS_RECT_RIGHT, VIPS_RECT_BOTTOM,
      Bool.and_eq_true, decide_eq_true_eq] at ht ⊢
    omega

/-- C22. After a build that ends in `vips_image_generate` (so `rsub` is not
empty), for every tile `r`, every rectangle `vips_embed_base_gen` asks of the
source lies inside the source image `{0, 0, sw, sh}`: the translated tile
when the tile is inside `rsub`, the translated overlap `r ∩ rsub` when it is
not empty, and for each border whose part of the tile is not empty the
translated edge that extend = copy fetches; so each of these
`vips_region_prepare` calls succeeds. -/
theorem vips_embed_base_gen_requests (base0 base : VipsEmbedBase) (X Y : Int)
    (hb : vips_embed_base_build base0 = .ok (.generate base X Y)) (r : VipsRect) :
    (vips_rect_includesrect base.rsub r = true →
      vips_rect_includesrect ⟨0, 0, base.in_.Xsize, base.in_.Ysize⟩
        { r with left := r.left - base.x, top := r.top - base.y } = true ∧
      (vips_region_prepare base.in_
        { r with left := r.left - base.x, top := r.top - base.y }).isSome = true) ∧
    (vips_rect_isempty (vips_rect_intersectrect r base.rsub) = false →
      vips_rect_includesrect ⟨0, 0, base.in_.Xsize, base.in_.Ysize⟩
        { vips_rect_intersectrect r base.rsub with
          left := (vips_rect_intersectrect r base.rsub).left - base.x
          top := (vips_rect_intersectrect r base.rsub).top - base.y } = true) ∧
    (∀ i, i < 8 → vips_rect_isempty (vips_rect_intersectrect r (base.border i)) = false →
      vips_rect_includesrect ⟨0, 0, base.in_.Xsize, base.in_.Ysize⟩
        { vips_embed_base_find_edge base (vips_rect_intersectrect r (base.border i)) i with
          left := (vips_embed_base_find_edge base
            (vips_rect_intersectrect r (base.border i)) i).left - base.x
          top := (vips_embed_base_find_edge base
            (vips_rect_intersectrect r (base.border i)) i).top - base.y } = true ∧
      (vips_region_prepare base.in_
        { vips_embed_base_find_edge base (vips_rect_intersectrect r (base.border i)) i with
          left := (vips_embed_base_find_edge base
            (vips_rect_intersectrect r (base.border i)) i).left - base.x
          top := (vips_embed_base_find_edge base
            (vips_rect_intersectrect r (base.border i)) i).top - base.y }).isSome = true) := by
  obtain ⟨b1, rfl, hok, -⟩ := build_generate base0 _ X Y hb
  have hok2 := hok
  unfold rsub_ok at hok2
  have hr : (vips_embed_base_build_border b1).rsub = b1.rsub := rfl
  have hx : (vips_embed_base_build_border b1).x = b1.x := rfl
  have hy : (vips_embed_base_build_border b1).y = b1.y := rfl
  have hin : (vips_embed_base_build_border b1).in_ = b1.in_ := rfl
  rw [hr, hx, hy, hin]
  refine ⟨?_, ?_, ?_⟩
  · intro h
    have h1 : vips_rect_includesrect ⟨0, 0, b1.in_.Xsize, b1.in_.Ysize⟩
        { r with left := r.left - b1.x, top := r.top - b1.y } = true := by
      simp only [vips_rect_includesrect, VIPS_RECT_RIGHT, VIPS_RECT_BOTTOM,
        Bool.and_eq_true, decide_eq_true_eq] at h ⊢
      omega
    refine ⟨h1, ?_⟩
    have h2 : vips_rect_includesrect b1.in_.rect
        { r with left := r.left - b1.x, top := r.top - b1.y } = true := h1
    simp only [vips_region_prepare, h2, if_true, Option.isSome_some]
  · intro h
    have ho := intersect_facts _ _ h
    generalize vips_rect_intersectrect r b1.rsub = ovl at ho ⊢
    simp only [vips_rect_includesrect, VIPS_RECT_RIGHT, VIPS_RECT_BOTTOM,
      Bool.and_eq_true, decide_eq_true_eq]
    omega
  · intro i hi h
    have he := find_edge_in_rsub b1 hok r i hi h
    generalize vips_embed_base_find_edge (vips_embed_base_build_border b1)
      (vips_rect_intersectrect r ((vips_embed_base_build_border b1).border i)) i = edge at he ⊢
    have h1 : vips_rect_includesrect ⟨0, 0, b1.in_.Xsize, b1.in_.Ysize⟩
        { edge with left := edge.left - b1.x, top := edge.top - b1.y } = true := by
      simp only [vips_rect_includesrect, VIPS_RECT_RIGHT, VIPS_RECT_BOTTOM,
        Bool.and_eq_true, decide_eq_true_eq] at he ⊢
      omega
    refine ⟨h1, ?_⟩
    have h2 : vips_rect_includesrect b1.in_.rect
        { edge with left := edge.left - b1.x, top := edge.top - b1.y } = true := h1
    simp only [vips_region_prepare, h2, if_true, Option.isSome_some]

/-- C22 on the 3 by 2 example image placed at (2, 1) in a 7 by 5 output, for
the tile `{0, 0, 2, 5}` left of the source: the edge fetched for border 3 is
column 0 of the source, inside the image. -/
theorem vips_embed_base_gen_requests_witness :
    vips_embed_base_build (example_embed VIPS_EXTEND_COPY 2 1 7 5) =
      .ok (.generate (vips_embed_base_build_border (vips_embed_base_build_rsub
        (example_embed VIPS_EXTEND_COPY 2 1 7 5))) 7 5) ∧
    vips_rect_includesrect ⟨0, 0, 3, 2⟩ ⟨0, 0, 1, 2⟩ = true ∧
    (vips_region_prepare example_image ⟨0, 0, 1, 2⟩).isSome = true :=
  ⟨rfl, ((vips_embed_base_gen_requests (example_embed VIPS_EXTEND_COPY 2 1 7 5) _ 7 5 rfl
    ⟨0, 0, 2, 5⟩).2.2 3 (by decide) (by decide)).1,
   ((vips_embed_base_gen_requests (example_embed VIPS_EXTEND_COPY 2 1 7 5) _ 7 5 rfl
    ⟨0, 0, 2, 5⟩).2.2 3 (by decide) (by decide)).2⟩

/-! ## Claims about the edge `vips_embed_base_find_edge` returns -/

/-- The edge for border `i` of a tile that also meets the source: it is not
empty, one pel thick, and inside the part of the tile painted from the
source. -/
theorem find_edge_in_ovl (b1 : VipsEmbedBase) (hok : rsub_ok b1) (r : VipsRect) (i : Nat)
    (hi : i < 8)
    (htodo : vips_rect_isempty
      (vips_rect_intersectrect r ((vips_embed_base_build_border b1).border i)) = false)
    (hovl : vips_rect_isempty (vips_rect_intersectrect r b1.rsub) = false) :
    vips_rect_isempty (vips_embed_base_find_edge (vips_embed_base_build_border b1)
      (vips_rect_intersectrect r ((vips_embed_base_build_border b1).border i)) i) = false ∧
    ((i = 0 ∨ i = 2) → (vips_embed_base_find_edge (vips_embed_base_build_border b1)
      (vips_rect_intersectrect r ((vips_embed_base_build_border b1).border i)) i).height = 1) ∧
    ((i = 1 ∨ i = 3) → (vips_embed_base_find_edge (vips_embed_base_build_border b1)
      (vips_rect_intersectrect r ((vips_embed_base_build_border b1).border i)) i).width = 1) ∧
    (4 ≤ i → (vips_embed_base_find_edge (vips_embed_base_build_border b1)
        (vips_rect_intersectrect r ((vips_embed_base_build_border b1).border i)) i).width = 1 ∧
      (vips_embed_base_find_edge (vips_embed_base_build_border b1)
        (vips_rect_intersectrect r ((vips_embed_base_build_border b1).border i)) i).height = 1) ∧
    vips_rect_includesrect (vips_rect_intersectrect r b1.rsub)
      (vips_embed_base_find_edge (vips_embed_base_build_border b1)
        (vips_rect_intersectrect r ((vips_embed_base_build_border b1).border i)) i) = true ∧
    vips_rect_includesrect r
      (vips_embed_base_find_edge (vips_embed_base_build_border b1)
        (vips_rect_intersectrect r ((vips_embed_base_build_border b1).border i)) i) = true := by
  obtain ⟨e0, e1, e2, e3, e4, e5, e6, e7⟩ := find_edge_eq b1 hok r
  obtain ⟨d0, d1, d2, d3, d4, d5, d6, d7⟩ := border_eq b1
  have ho := intersect_facts _ _ hovl
  have ht := intersect_facts _ _ htodo
  unfold rsub_ok at hok
  interval_cases i
  · rw [e0 htodo]
    generalize vips_rect_intersectrect r ((vips_embed_base_build_border b1).border 0) = todo
      at ht ⊢
    rw [d0] at ht
    generalize vips_rect_intersectrect r b1.rsub = ovl at ho ⊢
    simp only [vips_rect_includesrect, vips_rect_isempty, VIPS_RECT_RIGHT, VIPS_RECT_BOTTOM,
      Bool.and_eq_true, Bool.or_eq_false_iff, decide_eq_true_eq, decide_eq_false_iff_not] at ht ho ⊢
    refine ⟨?_, ?_, ?_, ?_, ?_, ?_⟩ <;> first | omega | (intro _; omega) | (intro _; trivial)
  · rw [e1 htodo]
    generalize vips_rect_intersectrect r ((vips_embed_base_build_border b1).border 1) = todo
      at ht ⊢
    rw [d1] at ht
    generalize vips_rect_intersectrect r b1.rsub = ovl at ho ⊢
    simp only [vips_rect_includesrect, vips_rect_isempty, VIPS_RECT_RIGHT, VIPS_RECT_BOTTOM,
      Bool.and_eq_true, Bool.or_eq_false_iff, decide_eq_true_eq, decide_eq_false_iff_not] at ht ho ⊢
    refine ⟨?_, ?_, ?_, ?_, ?_, ?_⟩ <;> first | omega | (intro _; omega) | (intro _; trivial)
  · rw [e2 htodo]
    generalize vips_rect_intersectrect r ((vips_embed_base_build_border b1).border 2) = todo
      at ht ⊢
    rw [d2] at ht
    generalize vips_rect_intersectrect r b1.rsub = ovl at ho ⊢
    simp only [vips_rect_includesrect, vips_rect_isempty, VIPS_RECT_RIGHT, VIPS_RECT_BOTTOM,
      Bool.and_eq_true, Bool.or_eq_false_iff, decide_eq_true_eq, decide_eq_false_iff_not] at ht ho ⊢
    refine ⟨?_, ?_, ?_, ?_, ?_, ?_⟩ <;> first | omega | (intro _; omega) | (intro _; trivial)
  · rw [e3 htodo]
    generalize vips_rect_intersectrect r ((vips_embed_base_build_border b1).border 3) = todo
      at ht ⊢
    rw [d3] at ht
    generalize vips_rect_intersectrect r b1.rsub = ovl at ho ⊢
    simp only [vips_rect_includesrect, vips_rect_isempty, VIPS_RECT_RIGHT, VIPS_RECT_BOTTOM,
      Bool.and_eq_true, Bool.or_eq_false_iff, decide_eq_true_eq, decide_eq_false_iff_not] at ht ho ⊢
    refine ⟨?_, ?_, ?_, ?_, ?_, ?_⟩ <;> first | omega | (intro _; omega) | (intro _; trivial)
  · rw [e4 htodo]
    generalize vips_rect_intersectrect r ((vips_embed_base_build_border b1).border 4) = todo
      at ht ⊢
    rw [d4] at ht
    generalize vips_rect_intersectrect r b1.rsub = ovl at ho ⊢
    simp only [vips_rect_includesrect, vips_rect_isempty, VIPS_RECT_RIGHT, VIPS_RECT_BOTTOM,
      Bool.and_eq_true, Bool.or_eq_false_iff, decide_eq_true_eq, decide_eq_false_iff_not] at ht ho ⊢
    refine ⟨?_, ?_, ?_, ?_, ?_, ?_⟩ <;> first | omega | (intro _; omega) | (intro _; trivial)
  · rw [e5 htodo]
    generalize vips_rect_intersectrect r ((vips_embed_base_build_border b1).border 5) = todo
      at ht ⊢
    rw [d5] at ht
    generalize vips_rect_intersectrect r b1.rsub = ovl at ho ⊢
    simp only [vips_rect_includesrect, vips_rect_isempty, VIPS_RECT_RIGHT, VIPS_RECT_BOTTOM,
      Bool.and_eq_true, Bool.or_eq_false_iff, decide_eq_true_eq, decide_eq_false_iff_not] at ht ho ⊢
    refine ⟨?_, ?_, ?_, ?_, ?_, ?_⟩ <;> first | omega | (intro _; omega) | (intro _; trivial)
  · rw [e6 htodo]
    generalize vips_rect_intersectrect r ((vips_embed_base_build_border b1).border 6) = todo
      at ht ⊢
    rw [d6] at ht
    generalize vips_rect_intersectrect r b1.rsub = ovl at ho ⊢
    simp only [vips_rect_includesrect, vips_rect_isempty, VIPS_RECT_RIGHT, VIPS_RECT_BOTTOM,
      Bool.and_eq_true, Bool.or_eq_false_iff, decide_eq_true_eq, decide_eq_false_iff_not] at ht ho ⊢
    refine ⟨?_, ?_, ?_, ?_, ?_, ?_⟩ <;> first | omega | (intro _; omega) | (intro _; trivial)
  · rw [e7 htodo]
    generalize vips_rect_intersectrect r ((vips_embed_base_build_border b1).border 7) = todo
      at ht ⊢
    rw [d7] at ht
    generalize vips_rect_intersectrect r b1.rsub = ovl at ho ⊢
    simp only [vips_rect_includesrect, vips_rect_isempty, VIPS_RECT_RIGHT, VIPS_RECT_BOTTOM,
      Bool.and_eq_true, Bool.or_eq_false_iff, decide_eq_true_eq, decide_eq_false_iff_not] at ht ho ⊢
    refine ⟨?_, ?_, ?_, ?_, ?_, ?_⟩ <;> first | omega | (intro _; omega) | (intro _; trivial)

/-- A pel of `r ∩ rsub` is in the tile after the paste step, with the pel of
the source. -/
theorem paste_filled (b1 : VipsEmbedBase) (hok : rsub_ok b1) (r : VipsRect) (a b : Int)
    (h : (vips_rect_intersectrect r b1.rsub).includespoint a b = true) :
    vips_embed_base_gen_paste (vips_embed_base_build_border b1) r (VipsRegion.fresh r) =
      some ⟨r, copy_filled (vips_embed_base_build_border b1) r 0⟩ ∧
    (⟨r, copy_filled (vips_embed_base_build_border b1) r 0⟩ : VipsRegion).get a b =
      some (b1.in_.pel (a - b1.x) (b - b1.y)) := by
  unfold rsub_ok at hok
  refine ⟨gen_paste_eq _ r ⟨hok.2.2.2.2.2.2.1, hok.2.2.2.2.2.2.2.1, hok.2.2.2.2.2.2.2.2.1,
    hok.2.2.2.2.2.2.2.2.2⟩, ?_⟩
  rw [includespoint_intersect, Bool.and_eq_true] at h
  obtain ⟨h1, h2⟩ := h
  have h3 : (vips_embed_base_build_border b1).rsub.includespoint a b = true := h2
  simp only [VipsRegion.get, copy_filled, h1, h3, Bool.true_or, Bool.and_self, if_true,
    embed_copy_pel]
  rw [includespoint_iff] at h2
  have c1 : clamp a (vips_embed_base_build_border b1).rsub.left
      (VIPS_RECT_RIGHT (vips_embed_base_build_border b1).rsub - 1) = a := by
    show max b1.rsub.left (min a (b1.rsub.left + b1.rsub.width - 1)) = a
    omega
  have c2 : clamp b (vips_embed_base_build_border b1).rsub.top
      (VIPS_RECT_BOTTOM (vips_embed_base_build_border b1).rsub - 1) = b := by
    show max b1.rsub.top (min b (b1.rsub.top + b1.rsub.height - 1)) = b
    omega
  rw [c1, c2]
  rfl

/-- C23. For extend = copy (the only case that calls
`vips_embed_base_find_edge`), an embed whose `rsub` is as the build leaves it,
every tile `r` and every border `i` of the eight such that `r ∩ border[i]` and
`ovl = r ∩ rsub` are both non-empty: the edge found for `todo = r ∩ border[i]`
is non-empty, has height 1 for borders 0 and 2, width 1 for borders 1 and 3,
and is 1 x 1 for the corners 4..7; it lies inside `ovl` and so inside the
tile, and after the paste step every pel of the edge is in the output region,
holding the pel of the source. -/
theorem vips_embed_base_find_edge_in_ovl (b1 : VipsEmbedBase) (hok : rsub_ok b1) (r : VipsRect)
    (i : Nat) (hi : i < 8)
    (htodo : vips_rect_isempty
      (vips_rect_intersectrect r ((vips_embed_base_build_border b1).border i)) = false)
    (hovl : vips_rect_isempty (vips_rect_intersectrect r b1.rsub) = false) :
    vips_rect_isempty (vips_embed_base_find_edge (vips_embed_base_build_border b1)
      (vips_rect_intersectrect r ((vips_embed_base_build_border b1).border i)) i) = false ∧
    ((i = 0 ∨ i = 2) → (vips_embed_base_find_edge (vips_embed_base_build_border b1)
      (vips_rect_intersectrect r ((vips_embed_base_build_border b1).border i)) i).height = 1) ∧
    ((i = 1 ∨ i = 3) → (vips_embed_base_find_edge (vips_embed_base_build_border b1)
      (vips_rect_intersectrect r ((vips_embed_base_build_border b1).border i)) i).width = 1) ∧
    (4 ≤ i → (vips_embed_base_find_edge (vips_embed_base_build_border b1)
        (vips_rect_intersectrect r ((vips_embed_base_build_border b1).border i)) i).width = 1 ∧
      (vips_embed_base_find_edge (vips_embed_base_build_border b1)
        (vips_rect_intersectrect r ((vips_embed_base_build_border b1).border i)) i).height = 1) ∧
    vips_rect_includesrect (vips_rect_intersectrect r b1.rsub)
      (vips_embed_base_find_edge (vips_embed_base_build_border b1)
        (vips_rect_intersectrect r ((vips_embed_base_build_border b1).border i)) i) = true ∧
    vips_rect_includesrect r
      (vips_embed_base_find_edge (vips_embed_base_build_border b1)
        (vips_rect_intersectrect r ((vips_embed_base_build_border b1).border i)) i) = true ∧
    vips_embed_base_gen_paste (vips_embed_base_build_border b1) r (VipsRegion.fresh r) =
      some ⟨r, copy_filled (vips_embed_base_build_border b1) r 0⟩ ∧
    ∀ a b, (vips_embed_base_find_edge (vips_embed_base_build_border b1)
        (vips_rect_intersectrect r ((vips_embed_base_build_border b1).border i)) i).includespoint
          a b = true →
      (⟨r, copy_filled (vips_embed_base_build_border b1) r 0⟩ : VipsRegion).get a b =
        some (b1.in_.pel (a - b1.x) (b - b1.y)) := by
  obtain ⟨h1, h2, h3, h4, h5, h6⟩ := find_edge_in_ovl b1 hok r i hi htodo hovl
  refine ⟨h1, h2, h3, h4, h5, h6, ?_, ?_⟩
  · unfold rsub_ok at hok
    exact gen_paste_eq _ r ⟨hok.2.2.2.2.2.2.1, hok.2.2.2.2.2.2.2.1, hok.2.2.2.2.2.2.2.2.1,
      hok.2.2.2.2.2.2.2.2.2⟩
  · intro a b hab
    exact (paste_filled b1 hok r a b (includespoint_of_includesrect _ _ h5 a b hab)).2

/-- C23 on the 3 by 2 example image placed at (2, 1) in a 7 by 5 output, for
the tile that is the whole output and the top-left corner (border 4): the edge
is the pel (2, 1), inside the pasted part, and holds pel (0, 0) of the
image. -/
theorem vips_embed_base_find_edge_in_ovl_witness :
    rsub_ok (vips_embed_base_build_rsub (example_embed VIPS_EXTEND_COPY 2 1 7 5)) ∧
    vips_rect_includesrect
      (vips_rect_intersectrect ⟨0, 0, 7, 5⟩
        (vips_embed_base_build_rsub (example_embed VIPS_EXTEND_COPY 2 1 7 5)).rsub)
      (vips_embed_base_find_edge
        (vips_embed_base_build_border
          (vips_embed_base_build_rsub (example_embed VIPS_EXTEND_COPY 2 1 7 5)))
        (vips_rect_intersectrect ⟨0, 0, 7, 5⟩
          ((vips_embed_base_build_border
            (vips_embed_base_build_rsub (example_embed VIPS_EXTEND_COPY 2 1 7 5))).border 4))
        4) = true ∧
    (⟨⟨0, 0, 7, 5⟩, copy_filled
        (vips_embed_base_build_border
          (vips_embed_base_build_rsub (example_embed VIPS_EXTEND_COPY 2 1 7 5)))
        ⟨0, 0, 7, 5⟩ 0⟩ : VipsRegion).get 2 1 = some [0] := by
  have hok : rsub_ok (vips_embed_base_build_rsub (example_embed VIPS_EXTEND_COPY 2 1 7 5)) := by
    unfold rsub_ok
    decide
  have key := vips_embed_base_find_edge_in_ovl
    (vips_embed_base_build_rsub (example_embed VIPS_EXTEND_COPY 2 1 7 5)) hok ⟨0, 0, 7, 5⟩ 4
    (by decide) (by decide) (by decide)
  exact ⟨hok, key.2.2.2.2.1, key.2.2.2.2.2.2.2 2 1 (by decide)⟩

open VipsCompassDirection

/-! ## Claims about `vips_gravity_build` -/

/-- C division by 2: the quotient lies between 0 and half the dividend. -/
theorem tdiv_two (n : Int) :
    (0 ≤ n → 0 ≤ Int.tdiv n 2 ∧ 2 * Int.tdiv n 2 ≤ n) ∧
    (n ≤ 0 → Int.tdiv n 2 ≤ 0 ∧ n ≤ 2 * Int.tdiv n 2) := by
  constructor
  · intro h
    rw [Int.tdiv_eq_ediv h (by omega)]
    omega
  · intro h
    have e : n = -(-n) := by omega
    rw [e, Int.neg_tdiv, Int.tdiv_eq_ediv (by omega) (by omega)]
    omega

/-- The fields `vips_gravity_build_xy` leaves alone, and the range of the
placement it computes. -/
theorem gravity_xy_facts (d : VipsCompassDirection) (base : VipsEmbedBase) :
    (vips_gravity_build_xy d base).in_ = base.in_ ∧
    (vips_gravity_build_xy d base).width = base.width ∧
    (vips_gravity_build_xy d base).height = base.height ∧
    (vips_gravity_build_xy d base).extend = base.extend ∧
    (base.in_.Xsize ≤ base.width →
      0 ≤ (vips_gravity_build_xy d base).x ∧
      (vips_gravity_build_xy d base).x + base.in_.Xsize ≤ base.width) ∧
    (base.width ≤ base.in_.Xsize →
      (vips_gravity_build_xy d base).x ≤ 0 ∧
      base.width ≤ (vips_gravity_build_xy d base).x + base.in_.Xsize) ∧
    (base.in_.Ysize ≤ base.height →
      0 ≤ (vips_gravity_build_xy d base).y ∧
      (vips_gravity_build_xy d base).y + base.in_.Ysize ≤ base.height) ∧
    (base.height ≤ base.in_.Ysize →
      (vips_gravity_build_xy d base).y ≤ 0 ∧
      base.height ≤ (vips_gravity_build_xy d base).y + base.in_.Ysize) := by
  have hx := tdiv_two (base.width - base.in_.Xsize)
  have hy := tdiv_two (base.height - base.in_.Ysize)
  cases d <;> refine ⟨rfl, rfl, rfl, rfl, ?_, ?_, ?_, ?_⟩ <;> intro h <;>
    simp only [vips_gravity_build_xy] <;> omega

/-- A chain of two fallible steps does not end in an error that neither step
gives. -/
theorem bind_ne_error {α β : Type} (e : Except String α) (f : α → Except String β) (s : String)
    (h1 : e ≠ .error s) (h2 : ∀ a, f a ≠ .error s) : e.bind f ≠ .error s := by
  cases e with
  | error m =>
    intro h
    have hm : m = s := by
      simp only [Except.bind, Except.error.injEq] at h
      exact h
    exact h1 (by rw [hm])
  | ok a => exact h2 a

theorem replicate_ne_bad_dimensions (im : VipsImage) (a d : Int) :
    vips_replicate im a d ≠ .error "bad dimensions" := by
  unfold vips_replicate
  split_ifs
  · intro h
    simp only [Except.error.injEq] at h
    exact absurd h (by decide)
  · intro h
    exact Except.noConfusion h

theorem extract_area_ne_bad_dimensions (im : VipsImage) (l t w h : Int) :
    vips_extract_area im l t w h ≠ .error "bad dimensions" := by
  unfold vips_extract_area
  split_ifs
  · intro h
    simp only [Except.error.injEq] at h
    exact absurd h (by decide)
  · intro h
    exact Except.noConfusion h

/-- The build does not fail with "bad dimensions" when `rsub` is not empty. -/
theorem build_ne_bad_dimensions (base : VipsEmbedBase)
    (hne : vips_rect_isempty (vips_embed_base_build_rsub base).rsub = false) :
    vips_embed_base_build base ≠ .error "bad dimensions" := by
  obtain ⟨f1, f2, f3, f4, f5⟩ := build_ink_fields base
  have hrs : (vips_embed_base_build_rsub (vips_embed_base_build_ink base)).rsub =
      (vips_embed_base_build_rsub base).rsub := by
    simp only [vips_embed_base_build_rsub, f1, f2, f3, f4, f5]
  rw [← hrs] at hne
  unfold vips_embed_base_build
  by_cases h : base.x = 0 ∧ base.y = 0 ∧ base.width = base.in_.Xsize ∧
      base.height = base.in_.Ysize
  · rw [if_pos h]
    intro h2
    exact Except.noConfusion h2
  · rw [if_neg h]
    by_cases hnull : vips_embed_base_build_ink_null base = true
    · rw [if_pos hnull]
      intro h2
      simp only [Except.error.injEq] at h2
      exact absurd h2 (by decide)
    rw [if_neg hnull]
    simp only
    generalize vips_embed_base_build_ink base = b at hne
    have hok : ∀ o : VipsEmbedOut, (Except.ok o : Except String VipsEmbedOut) ≠
        .error "bad dimensions" := fun o h2 => Except.noConfusion h2
    have hrep : ∀ (im : VipsImage) (a d l t w h : Int) (f : VipsImage → VipsEmbedOut),
        ((vips_replicate im a d).bind fun t0 =>
          (vips_extract_area t0 l t w h).bind fun t1 => .ok (f t1)) ≠
          (.error "bad dimensions" : Except String VipsEmbedOut) := fun im a d l t w h f =>
      bind_ne_error _ _ _ (replicate_ne_bad_dimensions _ _ _) fun t0 =>
        bind_ne_error _ _ _ (extract_area_ne_bad_dimensions _ _ _ _ _) fun t1 => hok _
    cases hb : b.extend <;> simp only [hne]
    · exact hok _
    · exact hok _
    · exact hrep _ _ _ _ _ _ _ _
    · exact hrep _ _ _ _ _ _ _ _
    · exact hok _
    · exact hok _

/-- C26. For every compass direction and all sizes sw, sh, width, height >= 1,
the placement `(x, y)` that `vips_gravity_build` computes (C truncating
division) makes `rsub = intersect({x, y, sw, sh}, {0, 0, width, height})`,
the rectangle the parent build computes, non-empty, so `vips_gravity_build`
does not fail with "bad dimensions"; and when width >= sw and height >= sh
the whole source rectangle lies inside the destination. -/
theorem vips_gravity_build_placement (d : VipsCompassDirection) (base : VipsEmbedBase)
    (hsw : 1 ≤ base.in_.Xsize) (hsh : 1 ≤ base.in_.Ysize)
    (hw : 1 ≤ base.width) (hh : 1 ≤ base.height) :
    vips_rect_isempty
      (vips_rect_intersectrect
        ⟨(vips_gravity_build_xy d base).x, (vips_gravity_build_xy d base).y,
          base.in_.Xsize, base.in_.Ysize⟩
        ⟨0, 0, base.width, base.height⟩) = false ∧
    (vips_embed_base_build_rsub (vips_gravity_build_xy d base)).rsub =
      vips_rect_intersectrect
        ⟨(vips_gravity_build_xy d base).x, (vips_gravity_build_xy d base).y,
          base.in_.Xsize, base.in_.Ysize⟩
        ⟨0, 0, base.width, base.height⟩ ∧
    vips_gravity_build true d base ≠ .error "bad dimensions" ∧
    (base.in_.Xsize ≤ base.width → base.in_.Ysize ≤ base.height →
      vips_rect_includesrect ⟨0, 0, base.width, base.height⟩
        ⟨(vips_gravity_build_xy d base).x, (vips_gravity_build_xy d base).y,
          base.in_.Xsize, base.in_.Ysize⟩ = true) := by
  obtain ⟨g1, g2, g3, -, gx1, gx2, gy1, gy2⟩ := gravity_xy_facts d base
  have hrs : (vips_embed_base_build_rsub (vips_gravity_build_xy d base)).rsub =
      vips_rect_intersectrect
        ⟨(vips_gravity_build_xy d base).x, (vips_gravity_build_xy d base).y,
          base.in_.Xsize, base.in_.Ysize⟩
        ⟨0, 0, base.width, base.height⟩ := by
    simp only [vips_embed_base_build_rsub, g1, g2, g3]
  have hne : vips_rect_isempty
      (vips_rect_intersectrect
        ⟨(vips_gravity_build_xy d base).x, (vips_gravity_build_xy d base).y,
          base.in_.Xsize, base.in_.Ysize⟩
        ⟨0, 0, base.width, base.height⟩) = false := by
    rw [Bool.eq_false_iff, Ne, isempty_iff]
    simp only [vips_rect_intersectrect, VIPS_RECT_RIGHT, VIPS_RECT_BOTTOM]
    rcases le_total base.in_.Xsize base.width with hx | hx <;>
      rcases le_total base.in_.Ysize base.height with hy | hy
    · have := gx1 hx
      have := gy1 hy
      omega
    · have := gx1 hx
      have := gy2 hy
      omega
    · have := gx2 hx
      have := gy1 hy
      omega
    · have := gx2 hx
      have := gy2 hy
      omega
  refine ⟨hne, hrs, ?_, ?_⟩
  · unfold vips_gravity_build
    rw [if_pos rfl]
    exact build_ne_bad_dimensions _ (by rw [hrs]; exact hne)
  · intro hx hy
    have := gx1 hx
    have := gy1 hy
    simp only [vips_rect_includesrect, VIPS_RECT_RIGHT, VIPS_RECT_BOTTOM, Bool.and_eq_true,
      decide_eq_true_eq]
    omega

/-- C26 on the 3 by 2 example image placed at the centre of a 2 by 1
destination, smaller than the source: the build does not fail with "bad
dimensions". -/
theorem vips_gravity_build_placement_witness :
    vips_gravity_build true VIPS_COMPASS_DIRECTION_CENTRE
      (example_embed VIPS_EXTEND_BLACK 0 0 2 1) ≠ .error "bad dimensions" :=
  (vips_gravity_build_placement VIPS_COMPASS_DIRECTION_CENTRE
    (example_embed VIPS_EXTEND_BLACK 0 0 2 1) (by decide) (by decide) (by decide)
    (by decide)).2.2.1

/-! ## Claims about the output width of `vips_reduceh_build` with a gap -/

theorem example_round_9_4 : VIPS_ROUND_UINT (((9 : Int) : ℚ) / 4) = 2 := by
  rw [round_uint_nonneg _ (by norm_num)]
  norm_num [Int.floor_eq_iff]

theorem example_int_hshrink_9 :
    double_to_int (max 1 (⌊((9 : Int) : ℚ) / ((2 : Int) : ℚ) / 1⌋ : ℚ)) = 4 := by
  have h : ⌊((9 : Int) : ℚ) / ((2 : Int) : ℚ) / 1⌋ = 4 := by
    norm_num [Int.floor_eq_iff]
  rw [h]
  have h2 : max (1 : ℚ) ((4 : Int) : ℚ) = ((4 : Int) : ℚ) := by norm_num
  rw [h2, double_to_int_intCast]

/-- The build when the `gap` block leaves a residual shrink of exactly 1: the
image the block made is written out. -/
theorem build_write_of_gap (env : ReducehEnv) (r : VipsReduceh) (g : ReducehGap)
    (hs : ¬r.hshrink < 1)
    (hg : vips_reduceh_build_gap env { r with residual_hshrink := r.hshrink } r.in_
      (VIPS_ROUND_UINT ((r.in_.Xsize : ℚ) / r.hshrink))
      ((VIPS_ROUND_UINT ((r.in_.Xsize : ℚ) / r.hshrink) : ℚ) * r.hshrink - r.in_.Xsize) =
      .ok g)
    (hres : g.residual_hshrink = 1) :
    (vips_reduceh_build env r).2 = .ok (.write (vips_image_write g.in_)) := by
  unfold vips_reduceh_build
  rw [if_neg hs]
  simp only [hg, hres, if_true]

/-- The example reduction of a 9 pel wide image by 4 with gap 1: the whole
shrink is done by `vips_shrinkh`, and its image, 3 pels wide, is the
output. -/
theorem example_reduceh_gap_write :
    (vips_reduceh_build example_env (example_reduceh 9 7 4 1 VIPS_KERNEL_LANCZOS3)).2 =
      .ok (.write (vips_image_write
        { (example_reduceh 9 7 4 1 VIPS_KERNEL_LANCZOS3).in_ with Xsize := 3 })) := by
  have hw : VIPS_ROUND_UINT
      (((example_reduceh 9 7 4 1 VIPS_KERNEL_LANCZOS3).in_.Xsize : ℚ) /
        (example_reduceh 9 7 4 1 VIPS_KERNEL_LANCZOS3).hshrink) = 2 := example_round_9_4
  have hg : vips_reduceh_build_gap example_env
      { example_reduceh 9 7 4 1 VIPS_KERNEL_LANCZOS3 with
        residual_hshrink := (example_reduceh 9 7 4 1 VIPS_KERNEL_LANCZOS3).hshrink }
      (example_reduceh 9 7 4 1 VIPS_KERNEL_LANCZOS3).in_
      (VIPS_ROUND_UINT (((example_reduceh 9 7 4 1 VIPS_KERNEL_LANCZOS3).in_.Xsize : ℚ) /
        (example_reduceh 9 7 4 1 VIPS_KERNEL_LANCZOS3).hshrink))
      ((VIPS_ROUND_UINT (((example_reduceh 9 7 4 1 VIPS_KERNEL_LANCZOS3).in_.Xsize : ℚ) /
        (example_reduceh 9 7 4 1 VIPS_KERNEL_LANCZOS3).hshrink) : ℚ) *
        (example_reduceh 9 7 4 1 VIPS_KERNEL_LANCZOS3).hshrink -
        (example_reduceh 9 7 4 1 VIPS_KERNEL_LANCZOS3).in_.Xsize) =
      .ok ⟨{ (example_reduceh 9 7 4 1 VIPS_KERNEL_LANCZOS3).in_ with Xsize := 3 },
        4 / ((4 : Int) : ℚ), (((2 : Int) : ℚ) * 4 - ((9 : Int) : ℚ)) / ((4 : Int) : ℚ),
        some 4, true⟩ := by
    rw [hw]
    unfold vips_reduceh_build_gap
    rw [if_pos (by simp only [example_reduceh]; exact ⟨by norm_num, by decide⟩),
      if_neg (by simp only [example_reduceh]; norm_num)]
    have e : double_to_int (max 1
        (⌊((example_reduceh 9 7 4 1 VIPS_KERNEL_LANCZOS3).in_.Xsize : ℚ) / ((2 : Int) : ℚ) /
          ({ example_reduceh 9 7 4 1 VIPS_KERNEL_LANCZOS3 with
            residual_hshrink := (example_reduceh 9 7 4 1 VIPS_KERNEL_LANCZOS3).hshrink } :
              VipsReduceh).gap⌋ : ℚ)) = 4 := example_int_hshrink_9
    simp only [e]
    rfl
  exact build_write_of_gap example_env _ _ (by simp only [example_reduceh]; norm_num) hg
    (by norm_num)

theorem example_points_25 : vips_reduce_get_points VIPS_KERNEL_LANCZOS3 4 = 25 := by
  rw [get_points_eq]
  have h : (3 * 4 : ℚ) = ((12 : Int) : ℚ) := by norm_num
  simp only [h, rint_intCast]
  decide

/-- The example reduction of a 9 pel wide image by 4 with gap 0: the output
is generated 2 pels wide. -/
theorem example_reduceh_gap0_generate :
    ∃ t2, (vips_reduceh_build example_env (example_reduceh 9 7 4 0 VIPS_KERNEL_LANCZOS3)).2 =
      .ok (.generate t2 2 7) := by
  have hw : VIPS_ROUND_UINT
      (((example_reduceh 9 7 4 0 VIPS_KERNEL_LANCZOS3).in_.Xsize : ℚ) /
        (example_reduceh 9 7 4 0 VIPS_KERNEL_LANCZOS3).hshrink) = 2 := example_round_9_4
  have hg := build_gap_zero example_env
    { example_reduceh 9 7 4 0 VIPS_KERNEL_LANCZOS3 with
      residual_hshrink := (example_reduceh 9 7 4 0 VIPS_KERNEL_LANCZOS3).hshrink }
    (example_reduceh 9 7 4 0 VIPS_KERNEL_LANCZOS3).in_
    (VIPS_ROUND_UINT (((example_reduceh 9 7 4 0 VIPS_KERNEL_LANCZOS3).in_.Xsize : ℚ) /
      (example_reduceh 9 7 4 0 VIPS_KERNEL_LANCZOS3).hshrink))
    ((VIPS_ROUND_UINT (((example_reduceh 9 7 4 0 VIPS_KERNEL_LANCZOS3).in_.Xsize : ℚ) /
      (example_reduceh 9 7 4 0 VIPS_KERNEL_LANCZOS3).hshrink) : ℚ) *
      (example_reduceh 9 7 4 0 VIPS_KERNEL_LANCZOS3).hshrink -
      (example_reduceh 9 7 4 0 VIPS_KERNEL_LANCZOS3).in_.Xsize) rfl
  have hn : vips_reduce_get_points (example_reduceh 9 7 4 0 VIPS_KERNEL_LANCZOS3).kernel
      (example_reduceh 9 7 4 0 VIPS_KERNEL_LANCZOS3).hshrink = 25 := example_points_25
  have hx : double_to_int (⌈((25 : Int) : ℚ) / 2⌉ - 1) = 12 := by
    have h1 : ⌈((25 : Int) : ℚ) / 2⌉ = 13 := by
      norm_num [Int.ceil_eq_iff]
    rw [h1]
    have h2 : (((13 : Int) : ℚ) - 1) = ((12 : Int) : ℚ) := by norm_num
    rw [h2, double_to_int_intCast]
  have he : vips_embed (example_reduceh 9 7 4 0 VIPS_KERNEL_LANCZOS3).in_
      (double_to_int (⌈(vips_reduce_get_points
        (example_reduceh 9 7 4 0 VIPS_KERNEL_LANCZOS3).kernel
        (example_reduceh 9 7 4 0 VIPS_KERNEL_LANCZOS3).hshrink : ℚ) / 2⌉ - 1)) 0
      ((example_reduceh 9 7 4 0 VIPS_KERNEL_LANCZOS3).in_.Xsize +
        vips_reduce_get_points (example_reduceh 9 7 4 0 VIPS_KERNEL_LANCZOS3).kernel
          (example_reduceh 9 7 4 0 VIPS_KERNEL_LANCZOS3).hshrink)
      (example_reduceh 9 7 4 0 VIPS_KERNEL_LANCZOS3).in_.Ysize (some VIPS_EXTEND_COPY) =
      .ok (.generate
        (vips_embed_base_build_border (vips_embed_base_build_rsub
          { in_ := (example_reduceh 9 7 4 0 VIPS_KERNEL_LANCZOS3).in_,
            extend := VIPS_EXTEND_COPY, extend_isset := true,
            background_isset := false,
            background_ink :=
              some (List.replicate (example_reduceh 9 7 4 0 VIPS_KERNEL_LANCZOS3).in_.Bands 0),
            width := 9 + 25, height := 7, ink := [], rout := ⟨0, 0, 0, 0⟩,
            rsub := ⟨0, 0, 0, 0⟩, border := fun _ => ⟨0, 0, 0, 0⟩, x := 12, y := 0 }))
        (9 + 25) 7) := by
    rw [hn, hx, embed_copy_result, if_neg (by decide), if_neg (by decide)]
    rfl
  have key := build_generate_eq example_env (example_reduceh 9 7 4 0 VIPS_KERNEL_LANCZOS3) _
    (example_reduceh 9 7 4 0 VIPS_KERNEL_LANCZOS3).in_ _
    (by simp only [example_reduceh]; norm_num) hg
    (by simp only [example_reduceh]; norm_num)
    (by
      intro h
      have h2 : vips_reduce_get_points (example_reduceh 9 7 4 0 VIPS_KERNEL_LANCZOS3).kernel
          (example_reduceh 9 7 4 0 VIPS_KERNEL_LANCZOS3).hshrink > example_env.MAX_POINT := h
      rw [hn] at h2
      exact absurd h2 (by decide))
    rfl he (by rw [hw]; decide)
  rw [hw] at key
  exact ⟨_, key⟩

/-- C25 at the input where it fails: a 9 pel wide image reduced by 4 with the
lanczos3 kernel. With gap 0 the output is generated `round(9 / 4) = 2` pels
wide; with gap 1 the integer pre-shrink is 4, the residual shrink is exactly
1, and the build hands on the image of `vips_shrinkh`, `ceil(9 / 4) = 3` pels
wide. -/
theorem vips_reduceh_build_gap_width_differs :
    VIPS_ROUND_UINT (((9 : Int) : ℚ) / 4) = 2 ∧
    (∃ out, (vips_reduceh_build example_env
        (example_reduceh 9 7 4 0 VIPS_KERNEL_LANCZOS3)).2 = .ok out ∧ out.Xsize = 2) ∧
    (∃ out, (vips_reduceh_build example_env
        (example_reduceh 9 7 4 1 VIPS_KERNEL_LANCZOS3)).2 = .ok out ∧ out.Xsize = 3) := by
  obtain ⟨t2, h0⟩ := example_reduceh_gap0_generate
  exact ⟨example_round_9_4, ⟨_, h0, rfl⟩, ⟨_, example_reduceh_gap_write, rfl⟩⟩

/-! ## Claims about the duality of the two scalar generators -/

/-- C27. For every byte image whose pels hold `Bands` values, every mask with
coefficients in {0, 128, 255} and every tile that the generators can compute,
every byte that `vips_erode_gen` writes is the bitwise complement, `255 - v`,
of the byte `vips_dilate_gen` writes there for the complemented image and the
same mask, and equally of the byte `vips_dilate_gen` writes there for the same
image and the mask with 0 and 255 swapped. -/
theorem vips_morph_gen_duality (morph : VipsMorph) (in_ : VipsImage) (bpl bpl2 bpl3 : Int)
    (seq seq2 seq3 : VipsMorphSequence) (out : VipsByteRegion)
    (hm : mask_ok morph)
    (hb : in_.has_bands) (hB : 1 ≤ in_.Bands)
    (hps : out.ps = in_.Bands)
    (hw : 1 ≤ out.valid.width) (hh : 1 ≤ out.valid.height)
    (hob : out.valid.width * out.ps ≤ out.bpl)
    (hmw : 1 ≤ morph.M.Xsize)
    (hl : 0 ≤ out.valid.left) (ht : 0 ≤ out.valid.top)
    (hr : out.valid.left + out.valid.width + (morph.M.Xsize - 1) ≤ in_.Xsize)
    (hbo : out.valid.top + out.valid.height + (morph.M.Ysize - 1) ≤ in_.Ysize)
    (hbpl : (out.valid.width + (morph.M.Xsize - 1)) * in_.Bands ≤ bpl)
    (hbpl2 : (out.valid.width + (morph.M.Xsize - 1)) * in_.Bands ≤ bpl2)
    (hbpl3 : (out.valid.width + (morph.M.Xsize - 1)) * in_.Bands ≤ bpl3)
    (hseq : seq_ok morph in_.Bands seq) (hseq2 : seq_ok morph in_.Bands seq2)
    (hseq3 : seq_ok (complement_mask morph) in_.Bands seq3) :
    ∃ se oe sd od sm om,
      vips_erode_gen morph in_ bpl seq out = some (se, oe) ∧
      vips_dilate_gen morph (complement_image in_) bpl2 seq2 out = some (sd, od) ∧
      vips_dilate_gen (complement_mask morph) in_ bpl3 seq3 out = some (sm, om) ∧
      ∀ x y : Int, 0 ≤ x → x < out.valid.width * in_.Bands → out.valid.top ≤ y →
        y < out.valid.top + out.valid.height →
        ∃ ve vd vm, oe.load (VIPS_REGION_ADDR out out.valid.left y + x) = some ve ∧
          od.load (VIPS_REGION_ADDR out out.valid.left y + x) = some vd ∧
          om.load (VIPS_REGION_ADDR out out.valid.left y + x) = some vm ∧
          0 ≤ vd ∧ vd ≤ 255 ∧ 0 ≤ vm ∧ vm ≤ 255 ∧ ve = 255 - vd ∧ ve = 255 - vm := by
  obtain ⟨se, oe, e1, -, -, -, -, w1⟩ :=
    morph_gen_eq .erode morph in_ bpl seq out hps hw hh hob hmw hl ht hr hbo hbpl hseq
  obtain ⟨sd, od, e2, -, -, -, -, w2⟩ :=
    morph_gen_eq .dilate morph (complement_image in_) bpl2 seq2 out hps hw hh hob hmw hl ht hr
      hbo hbpl2 hseq2
  obtain ⟨sm, om, e3, -, -, -, -, w3⟩ :=
    morph_gen_eq .dilate (complement_mask morph) in_ bpl3 seq3 out hps hw hh hob hmw hl ht hr
      hbo hbpl3 hseq3
  refine ⟨se, oe, sd, od, sm, om, e1, e2, e3, ?_⟩
  intro x y hx hxw hy hyh
  have hr2 := morph_byte_range .dilate morph (complement_image in_)
    (out.valid.left * in_.Bands + x) y
  have hr3 := morph_byte_range .dilate (complement_mask morph) in_
    (out.valid.left * in_.Bands + x) y
  exact ⟨_, _, _, w1 x y hx hxw hy hyh, w2 x y hx hxw hy hyh, w3 x y hx hxw hy hyh,
    hr2.1, hr2.2, hr3.1, hr3.2, morph_byte_dual_image morph in_ hb hB _ _,
    morph_byte_dual_mask morph in_ hm _ _⟩

/-- C27 at an example: the all-255 image under the 2 by 2 mask of 255s. -/
theorem vips_morph_gen_duality_witness :
    ∃ se oe sd od sm om ve vd vm,
      vips_erode_gen example_morph_built example_white 2
        (vips_morph_start example_white (fun _ => 0) (fun _ => 0)) example_tile =
          some (se, oe) ∧
      vips_dilate_gen example_morph_built (complement_image example_white) 2
        (vips_morph_start (complement_image example_white) (fun _ => 0) (fun _ => 0))
        example_tile =
          some (sd, od) ∧
      vips_dilate_gen (complement_mask example_morph_built) example_white 2
        (vips_morph_start example_white (fun _ => 0) (fun _ => 0)) example_tile =
          some (sm, om) ∧
      oe.load 0 = some ve ∧ od.load 0 = some vd ∧ om.load 0 = some vm ∧
      ve = 255 - vd ∧ ve = 255 - vm := by
  obtain ⟨se, oe, sd, od, sm, om, e1, e2, e3, w⟩ := vips_morph_gen_duality example_morph_built
    example_white 2 2 2 (vips_morph_start example_white (fun _ => 0) (fun _ => 0))
    (vips_morph_start (complement_image example_white) (fun _ => 0) (fun _ => 0))
    (vips_morph_start example_white (fun _ => 0) (fun _ => 0)) example_tile
    example_mask_ok_built
    (fun _ _ => rfl) (by decide) rfl (by decide) (by decide) (by decide) (by decide)
    (by decide) (by decide) (by decide) (by decide) (by decide) (by decide) (by decide)
    (Or.inl rfl) (Or.inl rfl) (Or.inl rfl)
  obtain ⟨ve, vd, vm, h1, h2, h3, -, -, -, -, h4, h5⟩ :=
    w 0 0 (by decide) (by decide) (by decide) (by decide)
  exact ⟨se, oe, sd, od, sm, om, ve, vd, vm, e1, e2, e3, h1, h2, h3, h4, h5⟩

open VipsBandFormatInt

/-! ## Claims about the fixed-point bilinear interpolator -/

theorem example_bilinear :
    BILINEAR_INT 12 (5 / 4) (1 / 2) = ⟨1024, 2048, 2048, 1536, 512, 1536, 512⟩ := by
  simp only [BILINEAR_INT, VIPS_INTERPOLATE_SCALE, double_to_int]
  norm_num [Int.floor_eq_iff, Int.shiftRight_eq_div_pow]

/-- The part of a position that `(int)` drops is below 1. -/
theorem frac_lt_one (x : ℚ) : x - double_to_int x < 1 := by
  unfold double_to_int
  split_ifs with h
  · have := Int.lt_floor_add_one x
    linarith
  · have := Int.le_ceil x
    linarith

/-- A fraction in `[0, 1)` scaled by `S` and cut to an `int` lies in
`[0, S - 1]`. -/
theorem scaled_frac (f : ℚ) (S : Int) (h0 : 0 ≤ f) (h1 : f < 1) (hS : 0 < S) :
    0 ≤ double_to_int (f * S) ∧ double_to_int (f * S) < S := by
  have hSq : (0 : ℚ) < (S : ℚ) := by exact_mod_cast hS
  have hp : (0 : ℚ) ≤ f * S := mul_nonneg h0 (le_of_lt hSq)
  rw [double_to_int_nonneg _ hp]
  refine ⟨Int.floor_nonneg.2 hp, ?_⟩
  rw [Int.floor_lt]
  nlinarith

/-- The quotient `a * b / S` is between 0 and `a` when `0 <= a` and
`0 <= b <= S`. -/
theorem mul_div_le (a b S : Int) (ha : 0 ≤ a) (hb : 0 ≤ b) (hbS : b ≤ S) (hS : 0 < S) :
    0 ≤ a * b / S ∧ a * b / S ≤ a := by
  constructor
  · exact Int.ediv_nonneg (mul_nonneg ha hb) (le_of_lt hS)
  · have h1 : a * b ≤ a * S := mul_le_mul_of_nonneg_left hbS ha
    have h2 : a * b / S ≤ a * S / S := Int.ediv_le_ediv hS h1
    rwa [Int.mul_ediv_cancel _ (ne_of_gt hS)] at h2

theorem scale_pos (s : Nat) : 0 < VIPS_INTERPOLATE_SCALE s := by
  unfold VIPS_INTERPOLATE_SCALE
  positivity

/-- The weights of `BILINEAR_INT`: none is negative and they sum to the
scale. -/
theorem bilinear_weights (s : Nat) (x y : ℚ)
    (hx : 0 ≤ x - double_to_int x) (hy : 0 ≤ y - double_to_int y) :
    0 ≤ (BILINEAR_INT s x y).X ∧ (BILINEAR_INT s x y).X < VIPS_INTERPOLATE_SCALE s ∧
    0 ≤ (BILINEAR_INT s x y).Y ∧ (BILINEAR_INT s x y).Y < VIPS_INTERPOLATE_SCALE s ∧
    0 < (BILINEAR_INT s x y).Yd ∧ (BILINEAR_INT s x y).Yd ≤ VIPS_INTERPOLATE_SCALE s ∧
    0 ≤ (BILINEAR_INT s x y).c1 ∧ 0 ≤ (BILINEAR_INT s x y).c2 ∧
    0 ≤ (BILINEAR_INT s x y).c3 ∧ 0 ≤ (BILINEAR_INT s x y).c4 ∧
    (BILINEAR_INT s x y).c1 + (BILINEAR_INT s x y).c2 + (BILINEAR_INT s x y).c3 +
      (BILINEAR_INT s x y).c4 = VIPS_INTERPOLATE_SCALE s := by
  have hS := scale_pos s
  obtain ⟨x0, x1⟩ := scaled_frac _ _ hx (frac_lt_one x) hS
  obtain ⟨y0, y1⟩ := scaled_frac _ _ hy (frac_lt_one y) hS
  simp only [BILINEAR_INT, Int.shiftRight_eq_div_pow]
  have hpow : (((2 : Nat) ^ s : Nat) : Int) = VIPS_INTERPOLATE_SCALE s := by
    unfold VIPS_INTERPOLATE_SCALE
    push_cast
    rfl
  rw [hpow]
  generalize double_to_int ((x - ↑(double_to_int x)) * ↑(VIPS_INTERPOLATE_SCALE s)) = X at x0 x1 ⊢
  generalize double_to_int ((y - ↑(double_to_int y)) * ↑(VIPS_INTERPOLATE_SCALE s)) = Y at y0 y1 ⊢
  generalize VIPS_INTERPOLATE_SCALE s = S at hS x1 y1 ⊢
  obtain ⟨a0, a1⟩ := mul_div_le Y X S y0 x0 (le_of_lt x1) hS
  obtain ⟨b0, b1⟩ := mul_div_le (S - Y) X S (by omega) x0 (le_of_lt x1) hS
  refine ⟨x0, x1, y0, y1, by omega, by omega, by omega, b0, by omega, a0, by omega⟩

/-- A value inside the range of a format is stored unchanged. -/
theorem store_of_range (fmt : VipsBandFormatInt) (v : Int) (h0 : fmt.min_value ≤ v)
    (h1 : v ≤ fmt.max_value) : fmt.store v = v := by
  unfold VipsBandFormatInt.store
  rw [Int.emod_eq_of_lt (by omega) (by omega)]
  omega

/-- A weighted sum with weights that are not negative and sum to `S` lies
between `lo * S` and `hi * S` when the four values lie between `lo` and
`hi`. -/
theorem weighted_sum_bounds (c1 c2 c3 c4 p1 p2 p3 p4 lo hi S : Int)
    (h1 : 0 ≤ c1) (h2 : 0 ≤ c2) (h3 : 0 ≤ c3) (h4 : 0 ≤ c4) (hs : c1 + c2 + c3 + c4 = S)
    (l1 : lo ≤ p1) (l2 : lo ≤ p2) (l3 : lo ≤ p3) (l4 : lo ≤ p4)
    (u1 : p1 ≤ hi) (u2 : p2 ≤ hi) (u3 : p3 ≤ hi) (u4 : p4 ≤ hi) :
    lo * S ≤ c1 * p1 + c2 * p2 + c3 * p3 + c4 * p4 ∧
    c1 * p1 + c2 * p2 + c3 * p3 + c4 * p4 ≤ hi * S := by
  have a1 := mul_nonneg h1 (sub_nonneg.2 l1)
  have a2 := mul_nonneg h2 (sub_nonneg.2 l2)
  have a3 := mul_nonneg h3 (sub_nonneg.2 l3)
  have a4 := mul_nonneg h4 (sub_nonneg.2 l4)
  have b1 := mul_nonneg h1 (sub_nonneg.2 u1)
  have b2 := mul_nonneg h2 (sub_nonneg.2 u2)
  have b3 := mul_nonneg h3 (sub_nonneg.2 u3)
  have b4 := mul_nonneg h4 (sub_nonneg.2 u4)
  subst hs
  constructor <;> nlinarith

/-- Half the scale, by C division: not negative and below the scale. -/
theorem half_scale (s : Nat) :
    0 ≤ Int.tdiv (VIPS_INTERPOLATE_SCALE s) 2 ∧
    Int.tdiv (VIPS_INTERPOLATE_SCALE s) 2 < VIPS_INTERPOLATE_SCALE s := by
  have hS := scale_pos s
  rw [Int.tdiv_eq_ediv (le_of_lt hS) (by omega)]
  omega

/-- The value `BILINEAR_INT_INNER` stores lies between any two bounds of the
four neighbours that the format can hold. -/
theorem inner_bounds (s : Nat) (fmt : VipsBandFormatInt) (w : BilinearInt)
    (p1 p2 p3 p4 lo hi : Int)
    (h1 : 0 ≤ w.c1) (h2 : 0 ≤ w.c2) (h3 : 0 ≤ w.c3) (h4 : 0 ≤ w.c4)
    (hs : w.c1 + w.c2 + w.c3 + w.c4 = VIPS_INTERPOLATE_SCALE s)
    (hlo : fmt.min_value ≤ lo) (hhi : hi ≤ fmt.max_value)
    (l1 : lo ≤ p1) (l2 : lo ≤ p2) (l3 : lo ≤ p3) (l4 : lo ≤ p4)
    (u1 : p1 ≤ hi) (u2 : p2 ≤ hi) (u3 : p3 ≤ hi) (u4 : p4 ≤ hi) :
    BILINEAR_INT_INNER s fmt w p1 p2 p3 p4 =
      BILINEAR_INT_INNER_sum s w p1 p2 p3 p4 / VIPS_INTERPOLATE_SCALE s ∧
    lo ≤ BILINEAR_INT_INNER s fmt w p1 p2 p3 p4 ∧
    BILINEAR_INT_INNER s fmt w p1 p2 p3 p4 ≤ hi := by
  have hS := scale_pos s
  obtain ⟨g0, g1⟩ := half_scale s
  obtain ⟨b0, b1⟩ := weighted_sum_bounds _ _ _ _ p1 p2 p3 p4 lo hi _ h1 h2 h3 h4 hs
    l1 l2 l3 l4 u1 u2 u3 u4
  have hpow : (((2 : Nat) ^ s : Nat) : Int) = VIPS_INTERPOLATE_SCALE s := by
    unfold VIPS_INTERPOLATE_SCALE
    push_cast
    rfl
  have q0 : lo ≤ BILINEAR_INT_INNER_sum s w p1 p2 p3 p4 / VIPS_INTERPOLATE_SCALE s := by
    rw [Int.le_ediv_iff_mul_le hS]
    unfold BILINEAR_INT_INNER_sum
    omega
  have q1 : BILINEAR_INT_INNER_sum s w p1 p2 p3 p4 / VIPS_INTERPOLATE_SCALE s < hi + 1 := by
    rw [Int.ediv_lt_iff_lt_mul hS]
    unfold BILINEAR_INT_INNER_sum
    have : (hi + 1) * VIPS_INTERPOLATE_SCALE s = hi * VIPS_INTERPOLATE_SCALE s +
        VIPS_INTERPOLATE_SCALE s := by ring
    omega
  have e : BILINEAR_INT_INNER s fmt w p1 p2 p3 p4 =
      BILINEAR_INT_INNER_sum s w p1 p2 p3 p4 / VIPS_INTERPOLATE_SCALE s := by
    unfold BILINEAR_INT_INNER
    rw [Int.shiftRight_eq_div_pow, hpow]
    exact store_of_range _ _ (by omega) (by omega)
  rw [e]
  exact ⟨rfl, q0, by omega⟩

/-- With a shift of at most 12 no product and no partial sum of
`BILINEAR_INT_INNER` leaves the range of a 32-bit `int`, for values that an
8- or 16-bit format holds. -/
theorem inner_fits (s : Nat) (hs12 : s ≤ 12) (w : BilinearInt) (p1 p2 p3 p4 : Int)
    (h1 : 0 ≤ w.c1) (h2 : 0 ≤ w.c2) (h3 : 0 ≤ w.c3) (h4 : 0 ≤ w.c4)
    (hs : w.c1 + w.c2 + w.c3 + w.c4 = VIPS_INTERPOLATE_SCALE s)
    (l1 : -32768 ≤ p1) (l2 : -32768 ≤ p2) (l3 : -32768 ≤ p3) (l4 : -32768 ≤ p4)
    (u1 : p1 ≤ 65535) (u2 : p2 ≤ 65535) (u3 : p3 ≤ 65535) (u4 : p4 ≤ 65535) :
    fits_int (w.c1 * p1) ∧ fits_int (w.c2 * p2) ∧ fits_int (w.c3 * p3) ∧
    fits_int (w.c4 * p4) ∧ fits_int (w.c1 * p1 + w.c2 * p2) ∧
    fits_int (w.c1 * p1 + w.c2 * p2 + w.c3 * p3) ∧
    fits_int (w.c1 * p1 + w.c2 * p2 + w.c3 * p3 + w.c4 * p4) ∧
    fits_int (BILINEAR_INT_INNER_sum s w p1 p2 p3 p4) := by
  have hS : VIPS_INTERPOLATE_SCALE s ≤ 4096 := by
    unfold VIPS_INTERPOLATE_SCALE
    calc (2 : Int) ^ s ≤ 2 ^ 12 := pow_le_pow_right₀ (by norm_num) hs12
      _ = 4096 := by norm_num
  obtain ⟨g0, g1⟩ := half_scale s
  have a1 := mul_nonneg h1 (by omega : 0 ≤ p1 + 32768)
  have a2 := mul_nonneg h2 (by omega : 0 ≤ p2 + 32768)
  have a3 := mul_nonneg h3 (by omega : 0 ≤ p3 + 32768)
  have a4 := mul_nonneg h4 (by omega : 0 ≤ p4 + 32768)
  have b1 := mul_nonneg h1 (by omega : 0 ≤ 65535 - p1)
  have b2 := mul_nonneg h2 (by omega : 0 ≤ 65535 - p2)
  have b3 := mul_nonneg h3 (by omega : 0 ≤ 65535 - p3)
  have b4 := mul_nonneg h4 (by omega : 0 ≤ 65535 - p4)
  unfold fits_int BILINEAR_INT_INNER_sum
  refine ⟨⟨?_, ?_⟩, ⟨?_, ?_⟩, ⟨?_, ?_⟩, ⟨?_, ?_⟩, ⟨?_, ?_⟩, ⟨?_, ?_⟩, ⟨?_, ?_⟩, ⟨?_, ?_⟩⟩ <;>
    linarith

/-- The products `Y * X` and `Yd * X` of `BILINEAR_INT` stay inside a 32-bit
`int` for a shift of at most 12. -/
theorem weights_fit (s : Nat) (hs12 : s ≤ 12) (x y : ℚ)
    (hx : 0 ≤ x - double_to_int x) (hy : 0 ≤ y - double_to_int y) :
    fits_int ((BILINEAR_INT s x y).Y * (BILINEAR_INT s x y).X) ∧
    fits_int ((BILINEAR_INT s x y).Yd * (BILINEAR_INT s x y).X) := by
  have hS : VIPS_INTERPOLATE_SCALE s ≤ 4096 := by
    unfold VIPS_INTERPOLATE_SCALE
    calc (2 : Int) ^ s ≤ 2 ^ 12 := pow_le_pow_right₀ (by norm_num) hs12
      _ = 4096 := by norm_num
  obtain ⟨x0, x1, y0, y1, d0, d1, -⟩ := bilinear_weights s x y hx hy
  have m1 := mul_nonneg y0 x0
  have m2 := mul_nonneg (le_of_lt d0) x0
  have n1 : (BILINEAR_INT s x y).Y * (BILINEAR_INT s x y).X ≤ 4096 * 4096 :=
    mul_le_mul (by omega) (by omega) x0 (by norm_num)
  have n2 : (BILINEAR_INT s x y).Yd * (BILINEAR_INT s x y).X ≤ 4096 * 4096 :=
    mul_le_mul (by omega) (by omega) x0 (by norm_num)
  unfold fits_int
  omega

theorem format_range (fmt : VipsBandFormatInt) :
    -32768 ≤ fmt.min_value ∧ fmt.max_value ≤ 65535 := by
  cases fmt <;> simp [VipsBandFormatInt.min_value, VipsBandFormatInt.max_value]

/-- The pel `vips_interpolate_bilinear_interpolate` writes when the four
neighbours are in the region. -/
theorem bilinear_interpolate_eq (s : Nat) (fmt : VipsBandFormatInt) (b : Nat)
    (in_ : VipsRegion) (x y : ℚ) (p1 p2 p3 p4 : VipsPel)
    (g1 : in_.get (double_to_int x) (double_to_int y) = some p1)
    (g2 : in_.get (double_to_int x + 1) (double_to_int y) = some p2)
    (g3 : in_.get (double_to_int x) (double_to_int y + 1) = some p3)
    (g4 : in_.get (double_to_int x + 1) (double_to_int y + 1) = some p4) :
    ∃ out, vips_interpolate_bilinear_interpolate s fmt b in_ x y = some out ∧
      out.length = b ∧
      ∀ z, z < b → out.getD z 0 =
        BILINEAR_INT_INNER s fmt (BILINEAR_INT s x y)
          (p1.getD z 0) (p2.getD z 0) (p3.getD z 0) (p4.getD z 0) := by
  have e : vips_interpolate_bilinear_interpolate s fmt b in_ x y =
      some ((List.range b).map fun z =>
        BILINEAR_INT_INNER s fmt (BILINEAR_INT s x y)
          (p1.getD z 0) (p2.getD z 0) (p3.getD z 0) (p4.getD z 0)) := by
    unfold vips_interpolate_bilinear_interpolate
    simp only [g1, g2, g3, g4, Option.bind_some, Option.map_some']
    rfl
  refine ⟨_, e, by simp, ?_⟩
  intro z hz
  rw [List.getD_eq_getElem _ _ (by simpa using hz)]
  simp

/-- C28. For every position `(x, y)` whose fractional parts `x - (int) x` and
`y - (int) y` are not negative, the four weights of `BILINEAR_INT` are not
negative and sum to `VIPS_INTERPOLATE_SCALE`; so, the four neighbours being in
the region and holding values of the 8- or 16-bit format, each band of the pel
that `vips_interpolate_bilinear_interpolate` writes lies between the least and
the greatest of the four neighbouring values of that band, four equal values
are reproduced exactly, and for a shift of at most 12 (the scale at most 4096)
every product and partial sum stays inside a 32-bit `int`. -/
theorem vips_interpolate_bilinear_interpolate_bounds (s : Nat) (fmt : VipsBandFormatInt)
    (b : Nat) (in_ : VipsRegion) (x y : ℚ) (p1 p2 p3 p4 : VipsPel)
    (hx : 0 ≤ x - double_to_int x) (hy : 0 ≤ y - double_to_int y)
    (g1 : in_.get (double_to_int x) (double_to_int y) = some p1)
    (g2 : in_.get (double_to_int x + 1) (double_to_int y) = some p2)
    (g3 : in_.get (double_to_int x) (double_to_int y + 1) = some p3)
    (g4 : in_.get (double_to_int x + 1) (double_to_int y + 1) = some p4)
    (r1 : ∀ z, z < b → fmt.min_value ≤ p1.getD z 0 ∧ p1.getD z 0 ≤ fmt.max_value)
    (r2 : ∀ z, z < b → fmt.min_value ≤ p2.getD z 0 ∧ p2.getD z 0 ≤ fmt.max_value)
    (r3 : ∀ z, z < b → fmt.min_value ≤ p3.getD z 0 ∧ p3.getD z 0 ≤ fmt.max_value)
    (r4 : ∀ z, z < b → fmt.min_value ≤ p4.getD z 0 ∧ p4.getD z 0 ≤ fmt.max_value) :
    0 ≤ (BILINEAR_INT s x y).c1 ∧ 0 ≤ (BILINEAR_INT s x y).c2 ∧
    0 ≤ (BILINEAR_INT s x y).c3 ∧ 0 ≤ (BILINEAR_INT s x y).c4 ∧
    (BILINEAR_INT s x y).c1 + (BILINEAR_INT s x y).c2 + (BILINEAR_INT s x y).c3 +
      (BILINEAR_INT s x y).c4 = VIPS_INTERPOLATE_SCALE s ∧
    ∃ out, vips_interpolate_bilinear_interpolate s fmt b in_ x y = some out ∧
      out.length = b ∧
      ∀ z, z < b →
        min (min (p1.getD z 0) (p2.getD z 0)) (min (p3.getD z 0) (p4.getD z 0)) ≤
          out.getD z 0 ∧
        out.getD z 0 ≤
          max (max (p1.getD z 0) (p2.getD z 0)) (max (p3.getD z 0) (p4.getD z 0)) ∧
        (p2.getD z 0 = p1.getD z 0 → p3.getD z 0 = p1.getD z 0 →
          p4.getD z 0 = p1.getD z 0 → out.getD z 0 = p1.getD z 0) ∧
        (s ≤ 12 →
          fits_int ((BILINEAR_INT s x y).Y * (BILINEAR_INT s x y).X) ∧
          fits_int ((BILINEAR_INT s x y).Yd * (BILINEAR_INT s x y).X) ∧
          fits_int ((BILINEAR_INT s x y).c1 * p1.getD z 0) ∧
          fits_int ((BILINEAR_INT s x y).c2 * p2.getD z 0) ∧
          fits_int ((BILINEAR_INT s x y).c3 * p3.getD z 0) ∧
          fits_int ((BILINEAR_INT s x y).c4 * p4.getD z 0) ∧
          fits_int ((BILINEAR_INT s x y).c1 * p1.getD z 0 +
            (BILINEAR_INT s x y).c2 * p2.getD z 0) ∧
          fits_int ((BILINEAR_INT s x y).c1 * p1.getD z 0 +
            (BILINEAR_INT s x y).c2 * p2.getD z 0 + (BILINEAR_INT s x y).c3 * p3.getD z 0) ∧
          fits_int ((BILINEAR_INT s x y).c1 * p1.getD z 0 +
            (BILINEAR_INT s x y).c2 * p2.getD z 0 + (BILINEAR_INT s x y).c3 * p3.getD z 0 +
            (BILINEAR_INT s x y).c4 * p4.getD z 0) ∧
          fits_int (BILINEAR_INT_INNER_sum s (BILINEAR_INT s x y) (p1.getD z 0) (p2.getD z 0)
            (p3.getD z 0) (p4.getD z 0))) := by
  obtain ⟨-, -, -, -, -, -, c1, c2, c3, c4, hsum⟩ := bilinear_weights s x y hx hy
  obtain ⟨out, ho, hlen, hz⟩ := bilinear_interpolate_eq s fmt b in_ x y p1 p2 p3 p4 g1 g2 g3 g4
  obtain ⟨f0, f1⟩ := format_range fmt
  refine ⟨c1, c2, c3, c4, hsum, out, ho, hlen, ?_⟩
  intro z hzb
  obtain ⟨a1, b1⟩ := r1 z hzb
  obtain ⟨a2, b2⟩ := r2 z hzb
  obtain ⟨a3, b3⟩ := r3 z hzb
  obtain ⟨a4, b4⟩ := r4 z hzb
  rw [hz z hzb]
  have key := inner_bounds s fmt (BILINEAR_INT s x y) (p1.getD z 0) (p2.getD z 0)
    (p3.getD z 0) (p4.getD z 0)
    (min (min (p1.getD z 0) (p2.getD z 0)) (min (p3.getD z 0) (p4.getD z 0)))
    (max (max (p1.getD z 0) (p2.getD z 0)) (max (p3.getD z 0) (p4.getD z 0)))
    c1 c2 c3 c4 hsum (by omega) (by omega) (by omega) (by omega) (by omega) (by omega)
    (by omega) (by omega) (by omega) (by omega)
  refine ⟨key.2.1, key.2.2, ?_, ?_⟩
  · intro e2 e3 e4
    have k1 := key.2.1
    have k2 := key.2.2
    rw [e2, e3, e4] at k1 k2
    simp only [min_self, max_self] at k1 k2
    rw [e2, e3, e4]
    omega
  · intro hs12
    obtain ⟨w1, w2⟩ := weights_fit s hs12 x y hx hy
    exact ⟨w1, w2, inner_fits s hs12 _ _ _ _ _ c1 c2 c3 c4 hsum (by omega) (by omega)
      (by omega) (by omega) (by omega) (by omega) (by omega) (by omega)⟩

/-- C28 at an example: the position (1/4, 1/2) between the pels 10, 20 (line
0) and 30, 40 (line 1) of a `uchar` region, with a shift of 12: the value
written lies between 10 and 40. -/
theorem vips_interpolate_bilinear_interpolate_bounds_witness :
    ∃ out, vips_interpolate_bilinear_interpolate 12 VIPS_FORMAT_UCHAR 1 example_region
        (1 / 4) (1 / 2) = some out ∧
      10 ≤ out.getD 0 0 ∧ out.getD 0 0 ≤ 40 := by
  have hx0 : double_to_int (1 / 4 : ℚ) = 0 := by
    rw [double_to_int_nonneg _ (by norm_num)]
    norm_num [Int.floor_eq_iff]
  have hy0 : double_to_int (1 / 2 : ℚ) = 0 := by
    rw [double_to_int_nonneg _ (by norm_num)]
    norm_num [Int.floor_eq_iff]
  obtain ⟨-, -, -, -, -, out, ho, -, hz⟩ := vips_interpolate_bilinear_interpolate_bounds 12
    VIPS_FORMAT_UCHAR 1 example_region (1 / 4) (1 / 2) [10] [20] [30] [40]
    (by rw [hx0]; norm_num) (by rw [hy0]; norm_num)
    (by rw [hx0, hy0]; rfl) (by rw [hx0, hy0]; rfl) (by rw [hx0, hy0]; rfl)
    (by rw [hx0, hy0]; rfl)
    (by intro z hz; interval_cases z; decide)
    (by intro z hz; interval_cases z; decide)
    (by intro z hz; interval_cases z; decide)
    (by intro z hz; interval_cases z; decide)
  obtain ⟨h1, h2, -⟩ := hz 0 (by decide)
  exact ⟨out, ho, h1, h2⟩

/-! ## Claims about the string to array functions of type.c -/

/-- The string "1 2 3" gives the three numbers, in both functions. -/
theorem example_string_array_spaces :
    transform_g_string_array_int example_token_env ['1', ' ', '2', ' ', '3'] =
      some [some 1, some 2, some 3] ∧
    transform_g_string_array_double example_token_env ['1', ' ', '2', ' ', '3'] =
      some [some 1, some 2, some 3] := by
  constructor
  · decide
  · rfl

/-- C29 at the input where it fails, the string "1,2,3": the first scan,
which breaks at commas, counts 3 tokens and the array is made 3 long; the
second scan, which does not break at commas, sees the one token "1,2,3" and
assigns element 0 only, so elements 1 and 2 are left as `g_malloc` returned
them. The same holds for `transform_g_string_array_double`. -/
theorem transform_g_string_array_comma :
    transform_count example_token_env 6 ['1', ',', '2', ',', '3'] 0 = some 3 ∧
    example_token_env.vips_break_token ['1', ',', '2', ',', '3'] parse_brk =
      some (['1', ',', '2', ',', '3'], []) ∧
    transform_g_string_array_int example_token_env ['1', ',', '2', ',', '3'] =
      some [some 1, none, none] ∧
    transform_g_string_array_double example_token_env ['1', ',', '2', ',', '3'] =
      some [some 1, none, none] := by
  refine ⟨by decide, by decide, by decide, ?_⟩
  rfl

/-! ## The passes `vips_morph_compile` makes -/

/-- One tap of a section: the counters grow by at most one and the other
fields of the pass stay. -/
theorem section_tap_facts (morph : VipsMorph) (i : Int) (st : Pass × OrcProgram) :
    (vips_morph_compile_section_tap morph i st).1.first = st.1.first ∧
    (vips_morph_compile_section_tap morph i st).1.last = st.1.last ∧
    (vips_morph_compile_section_tap morph i st).1.r = st.1.r ∧
    (vips_morph_compile_section_tap morph i st).1.d1 = st.1.d1 ∧
    st.1.n_const ≤ (vips_morph_compile_section_tap morph i st).1.n_const ∧
    (vips_morph_compile_section_tap morph i st).1.n_const ≤ st.1.n_const + 1 ∧
    st.1.n_scanline ≤ (vips_morph_compile_section_tap morph i st).1.n_scanline ∧
    (vips_morph_compile_section_tap morph i st).1.n_scanline ≤ st.1.n_scanline + 1 := by
  unfold vips_morph_compile_section_tap
  simp only
  split_ifs <;> simp only [true_and] <;> omega

/-- The loop of a section: it leaves the fields of the pass other than the
counters alone, ends at an index between where it starts and `todo` further
on, and leaves at most 7 constants and 6 scanlines when it starts with at most
6 and 5. -/
theorem section_loop_facts (morph : VipsMorph) (todo : Nat) :
    ∀ (i : Int) (st : Pass × OrcProgram),
      (vips_morph_compile_section_loop morph todo i st).1.1.first = st.1.first ∧
      (vips_morph_compile_section_loop morph todo i st).1.1.last = st.1.last ∧
      (vips_morph_compile_section_loop morph todo i st).1.1.r = st.1.r ∧
      (vips_morph_compile_section_loop morph todo i st).1.1.d1 = st.1.d1 ∧
      i ≤ (vips_morph_compile_section_loop morph todo i st).2 ∧
      (vips_morph_compile_section_loop morph todo i st).2 ≤ i + todo ∧
      st.1.n_const ≤ (vips_morph_compile_section_loop morph todo i st).1.1.n_const ∧
      st.1.n_scanline ≤ (vips_morph_compile_section_loop morph todo i st).1.1.n_scanline ∧
      (st.1.n_const ≤ 6 → st.1.n_scanline ≤ 5 →
        (vips_morph_compile_section_loop morph todo i st).1.1.n_const ≤ 7 ∧
        (vips_morph_compile_section_loop morph todo i st).1.1.n_scanline ≤ 6) := by
  induction todo with
  | zero =>
    intro i st
    simp only [vips_morph_compile_section_loop, Nat.cast_zero, add_zero, le_refl, true_and]
    intro h1 h2
    omega
  | succ n ih =>
    intro i st
    unfold vips_morph_compile_section_loop
    by_cases h128 : morph.coeff i.toNat = 128
    · rw [if_pos h128]
      obtain ⟨a1, a2, a3, a4, a5, a6, a7, a8, a9⟩ := ih (i + 1) st
      refine ⟨a1, a2, a3, a4, by omega, by push_cast; omega, a7, a8, a9⟩
    · rw [if_neg h128]
      obtain ⟨t1, t2, t3, t4, t5, t6, t7, t8⟩ := section_tap_facts morph i st
      simp only
      by_cases hc : (vips_morph_compile_section_tap morph i st).1.n_const ≥ 7
      · rw [if_pos hc]
        refine ⟨t1, t2, t3, t4, le_refl _, by push_cast; omega, t5, t7, ?_⟩
        intro h1 h2
        simp only
        omega
      · rw [if_neg hc]
        by_cases hs : (vips_morph_compile_section_tap morph i st).1.n_scanline + 1 ≥ 7
        · rw [if_pos hs]
          refine ⟨t1, t2, t3, t4, le_refl _, by push_cast; omega, t5, t7, ?_⟩
          intro h1 h2
          simp only
          omega
        · rw [if_neg hs]
          obtain ⟨a1, a2, a3, a4, a5, a6, a7, a8, a9⟩ :=
            ih (i + 1) (vips_morph_compile_section_tap morph i st)
          refine ⟨by rw [a1, t1], by rw [a2, t2], by rw [a3, t3], by rw [a4, t4], by omega,
            by push_cast; omega, by omega, by omega, ?_⟩
          intro h1 h2
          exact a9 (by omega) (by omega)

/-- What `vips_morph_compile_section` does to a pass whose counters are 0. -/
theorem section_facts (orc : OrcEnv) (morph : VipsMorph) (pass : Pass) (fp : Bool)
    (hc : pass.n_const = 0) (hs : pass.n_scanline = 0) :
    ((vips_morph_compile_section orc morph pass fp).2 = 0 ∨
      (vips_morph_compile_section orc morph pass fp).2 = -1) ∧
    (vips_morph_compile_section orc morph pass fp).1.first = pass.first ∧
    ((vips_morph_compile_section orc morph pass fp).2 = 0 →
      pass.first ≤ (vips_morph_compile_section orc morph pass fp).1.last ∧
      (vips_morph_compile_section orc morph pass fp).1.last ≤
        pass.first + (morph.n_point - pass.first).toNat ∧
      2 ≤ (vips_morph_compile_section orc morph pass fp).1.n_const ∧
      (vips_morph_compile_section orc morph pass fp).1.n_const ≤ 7 ∧
      0 ≤ (vips_morph_compile_section orc morph pass fp).1.n_scanline ∧
      (vips_morph_compile_section orc morph pass fp).1.n_scanline ≤ 6 ∧
      (vips_morph_compile_section orc morph pass fp).1.r ≠ 0 ∧
      ∃ p, (vips_morph_compile_section orc morph pass fp).1.program = some p ∧
        orc.orc_program_compile p = true) ∧
    ((vips_morph_compile_section orc morph pass fp).2 ≠ 0 →
      (vips_morph_compile_section orc morph pass fp).1.r = 0 ∨
      ∃ p, (vips_morph_compile_section orc morph pass fp).1.program = some p ∧
        orc.orc_program_compile p = false) := by
  unfold vips_morph_compile_section
  simp only
  by_cases hr : orc.orc_program_add_source (orc_program_new.add_var OrcVar.d1) OrcVar.r = 0
  · rw [if_pos hr]
    simp only
    refine ⟨Or.inr trivial, trivial, fun h => absurd h (by decide), fun _ => Or.inl hr⟩
  · rw [if_neg hr]
    generalize hp : (if fp = true then
        if morph.morph = VIPS_OPERATION_MORPHOLOGY_DILATE then
          (((((orc_program_new.add_var OrcVar.d1).add_var OrcVar.r).add_var
            OrcVar.value).add_var OrcVar.sum).CONST OrcVar.zero 0).CONST OrcVar.one 255 |>.ASM
              "copyb" [OrcVar.sum, OrcVar.zero]
        else
          (((((orc_program_new.add_var OrcVar.d1).add_var OrcVar.r).add_var
            OrcVar.value).add_var OrcVar.sum).CONST OrcVar.zero 0).CONST OrcVar.one 255 |>.ASM
              "copyb" [OrcVar.sum, OrcVar.one]
      else
        (((((orc_program_new.add_var OrcVar.d1).add_var OrcVar.r).add_var
          OrcVar.value).add_var OrcVar.sum).CONST OrcVar.zero 0).CONST OrcVar.one 255 |>.ASM
            "loadb" [OrcVar.sum, OrcVar.r]) = p0
    obtain ⟨a1, a2, a3, a4, a5, a6, a7, a8, a9⟩ := section_loop_facts morph
      (morph.n_point - pass.first).toNat pass.first
      ({ pass with
          program := some orc_program_new
          d1 := orc.orc_program_add_destination orc_program_new OrcVar.d1
          r := orc.orc_program_add_source (orc_program_new.add_var OrcVar.d1) OrcVar.r
          n_const := pass.n_const + 2 }, p0)
    simp only at a1 a2 a3 a4 a5 a6 a7 a8 a9
    have b := a9 (by omega) (by omega)
    by_cases hcomp : orc.orc_program_compile
        ((vips_morph_compile_section_loop morph (morph.n_point - pass.first).toNat pass.first
          ({ pass with
              program := some orc_program_new
              d1 := orc.orc_program_add_destination orc_program_new OrcVar.d1
              r := orc.orc_program_add_source (orc_program_new.add_var OrcVar.d1) OrcVar.r
              n_const := pass.n_const + 2 }, p0)).1.2.ASM "copyb" [OrcVar.d1, OrcVar.sum]) = true
    · simp only [hcomp, Bool.not_true, Bool.false_eq_true, if_false]
      refine ⟨Or.inl trivial, a1, fun _ => ⟨a5, a6, by omega, b.1, by omega, b.2, ?_, _, rfl, hcomp⟩,
        fun h => absurd rfl h⟩
      rw [a3]
      exact hr
    · rw [Bool.not_eq_true] at hcomp
      simp only [hcomp, Bool.not_false, if_true]
      exact ⟨Or.inr trivial, a1, fun h => absurd h (by decide), fun _ => Or.inr ⟨_, rfl, hcomp⟩⟩

/-- The loop that skips taps of 128: it stops at most `todo` further on, at a
tap that is not 128 unless it went all the way, having passed only taps that
are 128. -/
theorem compile_skip_facts (morph : VipsMorph) (todo : Nat) :
    ∀ i : Int, 0 ≤ i →
      i ≤ vips_morph_compile_skip morph todo i ∧
      vips_morph_compile_skip morph todo i ≤ i + todo ∧
      (∀ j : Int, i ≤ j → j < vips_morph_compile_skip morph todo i →
        morph.coeff j.toNat = 128) ∧
      (vips_morph_compile_skip morph todo i < i + todo →
        morph.coeff (vips_morph_compile_skip morph todo i).toNat ≠ 128) := by
  induction todo with
  | zero =>
    intro i hi
    simp only [vips_morph_compile_skip, le_refl, Nat.cast_zero, add_zero, lt_self_iff_false,
      false_implies, and_true, true_and]
    intro j h1 h2
    omega
  | succ n ih =>
    intro i hi
    unfold vips_morph_compile_skip
    by_cases h : morph.coeff i.toNat = 128
    · rw [if_pos h]
      obtain ⟨a1, a2, a3, a4⟩ := ih (i + 1) (by omega)
      refine ⟨by omega, by push_cast; omega, ?_, ?_⟩
      · intro j h1 h2
        by_cases hj : j = i
        · rw [hj]
          exact h
        · exact a3 j (by omega) h2
      · intro h2
        exact a4 (by push_cast at h2; omega)
    · rw [if_neg h]
      refine ⟨le_refl _, by push_cast; omega, ?_, fun _ => h⟩
      intro j h1 h2
      omega

/-- The passes made stay in order when the index moves on over taps that are
128. -/
theorem passes_ok_mono (orc : OrcEnv) (morph : VipsMorph) (ps : VipsMorphPasses) (i i2 : Int)
    (h : passes_ok orc morph ps i) (hi : i ≤ i2)
    (h128 : ∀ j : Int, i ≤ j → j < i2 → j < morph.n_point → morph.coeff j.toNat = 128) :
    passes_ok orc morph ps i2 := by
  obtain ⟨h1, h2, h3, h4, h5⟩ := h
  refine ⟨h1, h2, ?_, h4, ?_⟩
  · intro k hk
    obtain ⟨b1, b2, b3, b4, b5, b6⟩ := h3 k hk
    exact ⟨b1, b2, b3, by omega, b5, b6⟩
  · intro j hj0 hj hjn hc
    by_cases hji : j < i
    · exact h5 j hj0 hji hjn hc
    · exact absurd (h128 j (by omega) hj hjn) hc

/-- A new pass that starts at `i1`, after all the passes made, keeps the
passes in order. -/
theorem passes_ok_push (orc : OrcEnv) (morph : VipsMorph) (ps : VipsMorphPasses) (i1 : Int)
    (pass : Pass) (h : passes_ok orc morph ps i1) (hlt : ps.n_pass < MAX_PASS)
    (hi1 : 0 ≤ i1) (hi1n : i1 < morph.n_point) (hc : morph.coeff i1.toNat ≠ 128)
    (hf : pass.first = i1) (hl : i1 ≤ pass.last)
    (hk : 2 ≤ pass.n_const ∧ pass.n_const ≤ 7 ∧ 0 ≤ pass.n_scanline ∧ pass.n_scanline ≤ 6 ∧
      pass.r ≠ 0 ∧ ∃ p, pass.program = some p ∧ orc.orc_program_compile p = true) :
    passes_ok orc morph
      { n_pass := ps.n_pass + 1
        pass := fun j => if j = ps.n_pass.toNat then pass else ps.pass j }
      (pass.last + 1) := by
  obtain ⟨h1, h2, h3, h4, h5⟩ := h
  obtain ⟨k1, k2, k3, k4, k5, k6⟩ := hk
  unfold MAX_PASS at hlt h2
  refine ⟨by simp only; omega, by simp only [MAX_PASS]; omega, ?_, ?_, ?_⟩
  · intro k hkn
    simp only at hkn ⊢
    by_cases hkk : k = ps.n_pass.toNat
    · rw [if_pos hkk, hf]
      exact ⟨hi1, hl, hi1n, by omega, hc, k1, k2, k3, k4, k5, k6⟩
    · rw [if_neg hkk]
      obtain ⟨b1, b2, b3, b4, b5, b6⟩ := h3 k (by omega)
      exact ⟨b1, b2, b3, by omega, b5, b6⟩
  · intro k k2 hkk hk2
    simp only at hk2 ⊢
    have hkne : k ≠ ps.n_pass.toNat := by omega
    rw [if_neg hkne]
    by_cases hk2e : k2 = ps.n_pass.toNat
    · rw [if_pos hk2e, hf]
      exact (h3 k (by omega)).2.2.2.1
    · rw [if_neg hk2e]
      exact h4 k k2 hkk (by omega)
  · intro j hj0 hj hjn hcj
    simp only
    by_cases hji : j < i1
    · obtain ⟨k, c1, c2, c3⟩ := h5 j hj0 hji hjn hcj
      refine ⟨k, by omega, ?_⟩
      rw [if_neg (by omega)]
      exact ⟨c2, c3⟩
    · refine ⟨ps.n_pass.toNat, by omega, ?_⟩
      rw [if_pos rfl, hf]
      omega

/-- The outer loop of `vips_morph_compile` ends, with at most `MAX_PASS`
passes and none written past `pass[9]`; when it returns 0 the passes are in
order up to the end of the mask, and when it returns -1 it has run out of
passes or the last section has failed. -/
theorem compile_loop_facts (orc : OrcEnv) (morph : VipsMorph) (ps0 : VipsMorphPasses)
    (fuel : Nat) :
    ∀ (i : Int) (ps : VipsMorphPasses), 0 ≤ i → i ≤ morph.n_point →
      passes_ok orc morph ps i → (morph.n_point - i).toNat < fuel →
      (∀ j : Nat, 10 ≤ j → ps.pass j = ps0.pass j) →
      ∃ ps2 ret, vips_morph_compile_loop orc morph fuel i ps = some (ps2, ret) ∧
        (ret = 0 ∨ ret = -1) ∧ 0 ≤ ps2.n_pass ∧ ps2.n_pass ≤ MAX_PASS ∧
        (∀ j : Nat, 10 ≤ j → ps2.pass j = ps0.pass j) ∧
        (ret = 0 → ∃ i2, morph.n_point ≤ i2 ∧ passes_ok orc morph ps2 i2) ∧
        (ret = -1 → compile_failed orc morph ps2) := by
  induction fuel with
  | zero =>
    intro i ps _ _ _ hf
    omega
  | succ n ih =>
    intro i ps hi hin hok hfuel hframe
    have hn0 : 0 ≤ ps.n_pass := hok.1
    obtain ⟨s1, s2, s3, s4⟩ := compile_skip_facts morph (morph.n_point - i).toNat i hi
    have htn : ((morph.n_point - i).toNat : Int) = morph.n_point - i :=
      Int.toNat_of_nonneg (by omega)
    rw [htn] at s2 s4
    unfold vips_morph_compile_loop
    simp only
    generalize vips_morph_compile_skip morph (morph.n_point - i).toNat i = i1 at s1 s2 s3 s4 ⊢
    have hok1 : passes_ok orc morph ps i1 :=
      passes_ok_mono orc morph ps i i1 hok s1 fun j h1 h2 _ => s3 j h1 h2
    by_cases e1 : i1 = morph.n_point
    · rw [if_pos e1]
      exact ⟨ps, 0, rfl, Or.inl rfl, hok.1, hok.2.1, hframe,
        fun _ => ⟨i1, by omega, hok1⟩, fun h => absurd h (by decide)⟩
    · rw [if_neg e1]
      have hc1 : morph.coeff i1.toNat ≠ 128 := s4 (by omega)
      by_cases e2 : ps.n_pass = MAX_PASS
      · rw [if_pos e2]
        refine ⟨ps, -1, rfl, Or.inr rfl, hok.1, hok.2.1, hframe,
          fun h => absurd h (by decide), fun _ => Or.inl ⟨e2, i1, by omega, by omega, hc1, ?_⟩⟩
        intro k hk
        exact (hok1.2.2.1 k hk).2.2.2.1
      · rw [if_neg e2]
        have hlt : ps.n_pass < MAX_PASS := lt_of_le_of_ne hok.2.1 e2
        have hlt10 : ps.n_pass < 10 := hlt
        obtain ⟨f1, f2, f3, f4⟩ := section_facts orc morph
          { ps.pass ps.n_pass.toNat with
            first := i1, last := i1, r := -1, n_const := 0, n_scanline := 0 }
          (decide (ps.n_pass + 1 = (1 : Int))) rfl rfl
        generalize vips_morph_compile_section orc morph
          { ps.pass ps.n_pass.toNat with
            first := i1, last := i1, r := -1, n_const := 0, n_scanline := 0 }
          (decide (ps.n_pass + 1 = (1 : Int))) = res at f1 f2 f3 f4 ⊢
        simp only at f2 f3
        have hfr : ∀ j : Nat, 10 ≤ j →
            (if j = ps.n_pass.toNat then res.1 else ps.pass j) = ps0.pass j := by
          intro j hj
          rw [if_neg (by omega)]
          exact hframe j hj
        by_cases e3 : res.2 ≠ 0
        · rw [if_pos e3]
          refine ⟨_, -1, rfl, Or.inr rfl, by simp only; omega,
            by simp only [MAX_PASS]; omega, hfr, fun h => absurd h (by decide),
            fun _ => Or.inr ⟨ps.n_pass.toNat, by simp only; omega, ?_⟩⟩
          simp only [if_true]
          exact f4 e3
        · rw [if_neg e3]
          rw [not_not] at e3
          obtain ⟨g1, g2, g3⟩ := f3 e3
          have hpush := passes_ok_push orc morph ps i1 res.1 hok1 hlt (by omega) (by omega) hc1
            f2 g1 g3
          by_cases e4 : res.1.last + 1 ≥ morph.n_point
          · rw [if_pos e4]
            exact ⟨_, 0, rfl, Or.inl rfl, by simp only; omega,
              by simp only [MAX_PASS]; omega, hfr, fun _ => ⟨_, e4, hpush⟩,
              fun h => absurd h (by decide)⟩
          · rw [if_neg e4]
            exact ih (res.1.last + 1) _ (by omega) (by omega) hpush (by omega) hfr

/-- The function `vips_morph_compile` on an object that has no pass yet: it
returns, and what `compile_loop_facts` says holds of the result. -/
theorem compile_facts (orc : OrcEnv) (morph : VipsMorph) (ps0 : VipsMorphPasses)
    (hn : 0 ≤ morph.n_point) (h0 : ps0.n_pass = 0) :
    ∃ ps ret, vips_morph_compile orc morph ps0 = some (ps, ret) ∧
      (ret = 0 ∨ ret = -1) ∧ 0 ≤ ps.n_pass ∧ ps.n_pass ≤ MAX_PASS ∧
      (∀ j : Nat, 10 ≤ j → ps.pass j = ps0.pass j) ∧
      (ret = 0 → ∃ i2, morph.n_point ≤ i2 ∧ passes_ok orc morph ps i2) ∧
      (ret = -1 → compile_failed orc morph ps) := by
  unfold vips_morph_compile
  refine compile_loop_facts orc morph ps0 _ 0 ps0 (le_refl 0) hn ?_ (by omega) fun _ _ => rfl
  refine ⟨by omega, by rw [h0]; decide, ?_, ?_, ?_⟩
  · intro k hk
    omega
  · intro k k2 _ hk
    omega
  · intro j h1 h2
    omega

/-- The build with `HAVE_ORC` defined, once the steps shared with the C path
have succeeded: the choice of the generate function decides the rest. -/
theorem build_orc_eq (env : MorphEnv) (orc : OrcEnv) (enabled : Bool) (morph m : VipsMorph)
    (out : VipsMorphOut) (ps0 : VipsMorphPasses)
    (hb : vips_morph_build env morph = (m, .ok out)) :
    vips_morph_build_orc env orc enabled morph ps0 =
      (vips_morph_build_generate orc enabled m ps0).map fun res =>
        ((m, res.1),
          .ok { in_ := out.in_
                generate := res.2
                Xsize := out.Xsize
                Ysize := out.Ysize
                Xoffset := out.Xoffset
                Yoffset := out.Yoffset }) := by
  unfold vips_morph_build_orc
  rw [hb]

/-- With every program compiling, the 2 by 2 mask of 255s takes one pass;
with a compiler that fails, `vips_morph_compile` returns -1 after the first
section; and the mask of 60 taps in a line runs out of passes: 10 passes are
made and -1 is returned. -/
theorem example_compile :
    (vips_morph_compile example_orc example_morph_built example_passes).map
      (fun res => (res.1.n_pass, res.2)) = some (1, 0) ∧
    (vips_morph_compile example_orc_fails example_morph_built example_passes).map
      (fun res => (res.1.n_pass, res.2)) = some (1, -1) ∧
    (vips_morph_compile example_orc example_morph_wide example_passes).map
      (fun res => (res.1.n_pass, res.2, (res.1.pass 9).first, (res.1.pass 9).last)) =
        some (10, -1, 46, 50) := by
  refine ⟨by decide, by decide, by decide⟩


/-- C24. For every mask (of `n_point >= 0` taps, on an object that has no pass
yet) `vips_morph_compile` returns 0 or -1 having made at most `MAX_PASS` (10)
passes and written no `pass[j]` with `j >= 10`. When it returns 0 every tap
that is not 128 lies in a pass and the program of every pass compiled, so when
the taps cannot be covered in 10 passes or a section does not compile it
returns -1: then `MAX_PASS` passes are made and a tap that is not 128 lies
after them all, or the section of the last pass failed. And whenever the steps
of `vips_morph_build` before the choice of the generate function succeed, the
build with `HAVE_ORC` succeeds too: after a -1 from `vips_morph_compile`, or
with the vector path disabled, with `vips_dilate_gen` or `vips_erode_gen`. -/
theorem vips_morph_compile_max_pass (orc : OrcEnv) (m : VipsMorph) (ps0 : VipsMorphPasses)
    (hn : 0 ≤ m.n_point) (h0 : ps0.n_pass = 0) :
    ∃ ps ret, vips_morph_compile orc m ps0 = some (ps, ret) ∧
      (ret = 0 ∨ ret = -1) ∧ 0 ≤ ps.n_pass ∧ ps.n_pass ≤ MAX_PASS ∧
      (∀ j : Nat, 10 ≤ j → ps.pass j = ps0.pass j) ∧
      (ret = 0 →
        (∀ j : Int, 0 ≤ j → j < m.n_point → m.coeff j.toNat ≠ 128 →
          ∃ k : Nat, (k : Int) < ps.n_pass ∧ (ps.pass k).first ≤ j ∧ j ≤ (ps.pass k).last) ∧
        (∀ k : Nat, (k : Int) < ps.n_pass →
          (ps.pass k).r ≠ 0 ∧
          ∃ p, (ps.pass k).program = some p ∧ orc.orc_program_compile p = true)) ∧
      (ret = -1 → compile_failed orc m ps) ∧
      (∀ (env : MorphEnv) (morph : VipsMorph) (out : VipsMorphOut) (enabled : Bool),
        vips_morph_build env morph = (m, .ok out) →
        (ret = -1 →
          vips_morph_build_orc env orc true morph ps0 =
            some ((m, ps),
              .ok { in_ := out.in_
                    generate :=
                      if m.morph = VIPS_OPERATION_MORPHOLOGY_DILATE then
                        VipsMorphGenerateOrc.vips_dilate_gen
                      else VipsMorphGenerateOrc.vips_erode_gen
                    Xsize := out.Xsize
                    Ysize := out.Ysize
                    Xoffset := out.Xoffset
                    Yoffset := out.Yoffset })) ∧
        vips_morph_build_orc env orc false morph ps0 =
          some ((m, ps0),
            .ok { in_ := out.in_
                  generate :=
                    if m.morph = VIPS_OPERATION_MORPHOLOGY_DILATE then
                      VipsMorphGenerateOrc.vips_dilate_gen
                    else VipsMorphGenerateOrc.vips_erode_gen
                  Xsize := out.Xsize
                  Ysize := out.Ysize
                  Xoffset := out.Xoffset
                  Yoffset := out.Yoffset }) ∧
        ∃ res out2, vips_morph_build_orc env orc enabled morph ps0 = some (res, .ok out2)) := by
  obtain ⟨ps, ret, h, hret, hp0, hp1, hfr, hok, hfail⟩ := compile_facts orc m ps0 hn h0
  refine ⟨ps, ret, h, hret, hp0, hp1, hfr, ?_, hfail, ?_⟩
  · intro hr
    obtain ⟨i2, hi2, hp⟩ := hok hr
    refine ⟨fun j hj0 hjn hc => hp.2.2.2.2 j hj0 (by omega) hjn hc, ?_⟩
    intro k hk
    obtain ⟨-, -, -, -, -, -, -, -, -, b10, b11⟩ := hp.2.2.1 k hk
    exact ⟨b10, b11⟩
  · intro env morph out enabled hb
    have e1 : ret = -1 → vips_morph_build_generate orc true m ps0 =
        some (ps, if m.morph = VIPS_OPERATION_MORPHOLOGY_DILATE then
          VipsMorphGenerateOrc.vips_dilate_gen else VipsMorphGenerateOrc.vips_erode_gen) := by
      intro hr
      subst hr
      simp only [vips_morph_build_generate, h, if_true, Option.map_some']
      rfl
    have e2 : vips_morph_build_generate orc false m ps0 =
        some (ps0, if m.morph = VIPS_OPERATION_MORPHOLOGY_DILATE then
          VipsMorphGenerateOrc.vips_dilate_gen else VipsMorphGenerateOrc.vips_erode_gen) := by
      simp only [vips_morph_build_generate, Bool.false_eq_true, if_false]
    refine ⟨fun hr => ?_, ?_, ?_⟩
    · rw [build_orc_eq env orc true morph m out ps0 hb, e1 hr]
      rfl
    · rw [build_orc_eq env orc false morph m out ps0 hb, e2]
      rfl
    · rw [build_orc_eq env orc enabled morph m out ps0 hb]
      cases enabled
      · rw [e2]
        exact ⟨_, _, rfl⟩
      · simp only [vips_morph_build_generate, h, if_true, Option.map_some']
        exact ⟨_, _, rfl⟩

/-- C24 at an example: the mask of 60 taps in a line, every program
compiling. -/
theorem vips_morph_compile_max_pass_witness :
    ∃ ps ret, vips_morph_compile example_orc example_morph_wide example_passes =
        some (ps, ret) ∧
      (ret = 0 ∨ ret = -1) ∧ ps.n_pass ≤ MAX_PASS ∧
      (ret = -1 → compile_failed example_orc example_morph_wide ps) := by
  obtain ⟨ps, ret, h, hret, -, hp1, -, -, hfail, -⟩ := vips_morph_compile_max_pass example_orc
    example_morph_wide example_passes (by decide) rfl
  exact ⟨ps, ret, h, hret, hp1, hfail⟩

/-! ## Claims about `vips_morph_compile` -/

end Vips
